import Mathlib

/-!
# REST task queue of ot-br-posix (src/rest/extensions)

A shallow embedding of the task queue engine (`rest_task_queue.cpp`,
`rest_task_handler.cpp`, `rest_task_uuid.cpp`), of the validation and snapshot
of add-thread-device tasks (`rest_task_add_thread_device.cpp`,
`rest_server_common.cpp`) and of the commissioner allow list
(`commissioner_allow_list.cpp`), and theorems about them.

Conventions of the embedding:

* the doubly linked list `task_queue` is a `List task_node_t` in queue order
  (`prev`/`next` are the list neighbours), a node pointer is a position in it,
  and `NULL` is `none`;
* every `time(NULL)` reading is an explicit argument of the function that makes
  it, already converted to `int` where the source converts it;
* `int` arithmetic that can leave the 32-bit range goes through `int_wrap`,
  `uint8_t` arithmetic is taken modulo 256;
* `rand()` after `srand(seed)` is the argument `rand seed i` (the i-th value
  returned after seeding), since the C library generator is a function of its
  seed;
* the handler operations of a task type are arguments of the driver loop: they
  read the task node they are given, act on a world `W` (allow list,
  commissioner) and return a `rest_actions_task_result_t`; the driver records
  every handler call it makes in a trace;
* a `char *` is the `String` of the bytes of the C string, and the allow list
  `AllowListEntryList` is a `List AllowListEntry` in list order, passed to and
  returned by the functions that use it; an entry pointer is a position in it;
* the mutex calls and log calls have no effect on the values modelled here;
  the two functions that acquire a lock are embedded as the call they make on
  the mutex, with the deadline they compute for a timed call;
* the stores to `prev` and `next` are embedded over addresses
  (`linked_task_queue`); `engine_link_events` gives the stores that a run of
  the engine makes, and the queue as a list is what is read from `task_queue`
  along `next`;
* `snprintf` and `sscanf` are embedded for the conversions that `uuid_unparse`
  and `uuid_parse` use (`%0<width>x`, `%<width>x` and ordinary characters).
-/

namespace OtbrRest

/-! ## Machine integers -/

/-- The value of a 32-bit two's-complement `int` holding the mathematical
integer `x` (identity on the `int` range). -/
def int_wrap (x : Int) : Int := (x + 2147483648) % 4294967296 - 2147483648

/-- Smallest value of `int`. -/
def INT_MIN : Int := -2147483648

/-- Largest value of `int`. -/
def INT_MAX : Int := 2147483647

/-- The value of a `uint8_t` holding the natural number `n`. -/
def uint8_wrap (n : Nat) : Nat := n % 256

/-! ## rest_task_uuid -/

def UUID_LEN : Nat := 16

def UUID_STR_LEN : Nat := 37

/-- The struct view of `union uuid` (16 bytes, no padding). -/
structure uuid_t where
  time_low : Nat
  time_mid : Nat
  time_hi_and_version : Nat
  clock_seq_hi_and_reserved : Nat
  clock_seq_low : Nat
  node : List Nat
deriving DecidableEq, Repr

/-- The random bytes written by the loop of `uuid_generate_random`:
byte `i` is `rand() % 256` for the i-th call after `srand(seed)`. -/
def uuid_random_bytes (rand : Nat → Nat → Nat) (seed : Nat) : List Nat :=
  (List.range UUID_LEN).map (fun i => rand seed i % 256)

/-- The struct fields read from the 16 bytes of the union's buffer
(little-endian layout of the multi-byte fields). -/
def uuid_of_bytes (b : List Nat) : uuid_t :=
  { time_low := b.getD 0 0 + 256 * b.getD 1 0 + 65536 * b.getD 2 0 + 16777216 * b.getD 3 0
    time_mid := b.getD 4 0 + 256 * b.getD 5 0
    time_hi_and_version := b.getD 6 0 + 256 * b.getD 7 0
    clock_seq_hi_and_reserved := b.getD 8 0
    clock_seq_low := b.getD 9 0
    node := [b.getD 10 0, b.getD 11 0, b.getD 12 0, b.getD 13 0, b.getD 14 0, b.getD 15 0] }

/-- Embeds `uuid_generate_random`: `now` is the value of `time(NULL)`, the seed
is `(unsigned)time(NULL)`. -/
def uuid_generate_random (rand : Nat → Nat → Nat) (now : Int) : uuid_t :=
  let seed := (now % 4294967296).toNat
  let buf := uuid_of_bytes (uuid_random_bytes rand seed)
  { buf with
    clock_seq_hi_and_reserved := (buf.clock_seq_hi_and_reserved &&& 0x3F) ||| 0x80
    time_hi_and_version := (buf.time_hi_and_version &&& 0x0FFF) ||| 0x4000 }

/-- The characters printed by the conversion `%0<width>x`: lower-case
hexadecimal, padded with zeros on the left to at least `width` digits. -/
def printf_hex (width n : Nat) : List Char :=
  let ds := Nat.toDigits 16 n
  List.replicate (width - ds.length) '0' ++ ds

/-- Embeds `uuid_unparse`: the string left in `out` by `snprintf` with size
`UUID_STR_LEN` (at most `UUID_STR_LEN - 1` characters are kept). -/
def uuid_unparse (uuid : uuid_t) : String :=
  String.mk
    ((printf_hex 8 uuid.time_low ++ ['-'] ++ printf_hex 4 uuid.time_mid ++ ['-'] ++
      printf_hex 4 uuid.time_hi_and_version ++ ['-'] ++
      printf_hex 2 uuid.clock_seq_hi_and_reserved ++ printf_hex 2 uuid.clock_seq_low ++ ['-'] ++
      printf_hex 2 (uuid.node.getD 0 0) ++ printf_hex 2 (uuid.node.getD 1 0) ++
      printf_hex 2 (uuid.node.getD 2 0) ++ printf_hex 2 (uuid.node.getD 3 0) ++
      printf_hex 2 (uuid.node.getD 4 0) ++ printf_hex 2 (uuid.node.getD 5 0)).take
      (UUID_STR_LEN - 1))

/-- Embeds `uuid_equals`. -/
def uuid_equals (uuid1 uuid2 : uuid_t) : Bool :=
  uuid1.time_low == uuid2.time_low && uuid1.time_mid == uuid2.time_mid &&
  uuid1.time_hi_and_version == uuid2.time_hi_and_version &&
  uuid1.clock_seq_hi_and_reserved == uuid2.clock_seq_hi_and_reserved &&
  uuid1.clock_seq_low == uuid2.clock_seq_low && uuid1.node.getD 0 0 == uuid2.node.getD 0 0 &&
  uuid1.node.getD 1 0 == uuid2.node.getD 1 0 && uuid1.node.getD 2 0 == uuid2.node.getD 2 0 &&
  uuid1.node.getD 3 0 == uuid2.node.getD 3 0 && uuid1.node.getD 4 0 == uuid2.node.getD 4 0 &&
  uuid1.node.getD 5 0 == uuid2.node.getD 5 0

/-! ## cJSON values (the part of the library the task queue uses) -/

/-- A parsed JSON item. A number carries `valueint`, the only numeric member
the task queue reads. A `cJSON *` is an `Option cJSON`, `NULL` being `none`. -/
inductive cJSON where
  | cJSON_NULL : cJSON
  | cJSON_False : cJSON
  | cJSON_True : cJSON
  | cJSON_Number (valueint : Int) : cJSON
  | cJSON_String (valuestring : String) : cJSON
  | cJSON_Array (items : List cJSON) : cJSON
  | cJSON_Object (members : List (String × cJSON)) : cJSON

/-- First member of a member list whose key is `name` (case sensitive). -/
def cJSON_members_find (name : String) : List (String × cJSON) → Option cJSON
  | [] => none
  | (k, v) :: rest => if k = name then some v else cJSON_members_find name rest

/-- Embeds `cJSON_GetObjectItemCaseSensitive`: `NULL` for a `NULL` object, for
an item without named children and for a missing key. -/
def cJSON_GetObjectItemCaseSensitive (object : Option cJSON) (name : String) : Option cJSON :=
  match object with
  | some (cJSON.cJSON_Object members) => cJSON_members_find name members
  | _ => none

/-- Embeds `cJSON_IsNumber`. -/
def cJSON_IsNumber (item : Option cJSON) : Bool :=
  match item with
  | some (cJSON.cJSON_Number _) => true
  | _ => false

/-- The member `valueint` of an item (0 for an item that is not a number). -/
def cJSON_valueint : cJSON → Int
  | cJSON.cJSON_Number v => v
  | _ => 0

/-- The member `valuestring` of an item (`NULL` for an item that is not a string). -/
def cJSON_valuestring : cJSON → Option String
  | cJSON.cJSON_String s => some s
  | _ => none

/-- Embeds `cJSON_AddItemToObject` on an object: the item is appended to the
members under the given key. An item of another kind, which a validated task
does not hand to it, is left as it is. -/
def cJSON_AddItemToObject (object : cJSON) (name : String) (item : cJSON) : cJSON :=
  match object with
  | cJSON.cJSON_Object members => cJSON.cJSON_Object (members ++ [(name, item)])
  | other => other

/-- Applies `f` to the first member named `name`: the effect, seen from the
enclosing object, of changing that member through the pointer returned by
`cJSON_GetObjectItemCaseSensitive`. -/
def cJSON_members_modify (name : String) (f : cJSON → cJSON) :
    List (String × cJSON) → List (String × cJSON)
  | [] => []
  | (k, v) :: rest =>
    if k = name then (k, f v) :: rest else (k, v) :: cJSON_members_modify name f rest

/-- Changes, inside `object`, the member found by
`cJSON_GetObjectItemCaseSensitive object name`. -/
def cJSON_modify_member (object : cJSON) (name : String) (f : cJSON → cJSON) : cJSON :=
  match object with
  | cJSON.cJSON_Object members => cJSON.cJSON_Object (cJSON_members_modify name f members)
  | other => other

/-! ## rest_task_handler -/

/-- The task types; `ACTIONS_TASKS_SIZE` is the counter that closes the enum. -/
inductive rest_actions_task_t where
  | ADD_THREAD_DEVICE_TASK
  | ACTIONS_TASKS_SIZE
deriving DecidableEq, Repr

/-- The integer value of a task type. -/
def rest_actions_task_t.toNat : rest_actions_task_t → Nat
  | .ADD_THREAD_DEVICE_TASK => 0
  | .ACTIONS_TASKS_SIZE => 1

inductive rest_actions_task_status_t where
  | ACTIONS_TASK_STATUS_PENDING
  | ACTIONS_TASK_STATUS_ACTIVE
  | ACTIONS_TASK_STATUS_COMPLETED
  | ACTIONS_TASK_STATUS_STOPPED
  | ACTIONS_TASK_STATUS_FAILED
  | ACTIONS_TASK_STATUS_UNIMPLEMENTED
deriving DecidableEq, Repr

open rest_actions_task_status_t

/-- The table `rest_actions_task_status_s`. -/
def rest_actions_task_status_s : rest_actions_task_status_t → String
  | ACTIONS_TASK_STATUS_PENDING => "pending"
  | ACTIONS_TASK_STATUS_ACTIVE => "active"
  | ACTIONS_TASK_STATUS_COMPLETED => "completed"
  | ACTIONS_TASK_STATUS_STOPPED => "stopped"
  | ACTIONS_TASK_STATUS_FAILED => "failed"
  | ACTIONS_TASK_STATUS_UNIMPLEMENTED => "unimplemented"

inductive rest_actions_task_result_t where
  | ACTIONS_RESULT_SUCCESS
  | ACTIONS_RESULT_PENDING
  | ACTIONS_RESULT_RETRY
  | ACTIONS_RESULT_FAILURE
  | ACTIONS_RESULT_NO_CHANGE_REQUIRED
deriving DecidableEq, Repr

open rest_actions_task_result_t

def ACTIONS_TASK_NO_TIMEOUT : Int := -1

/-- The struct `task_node_t` without its links: `prev` and `next` are the
neighbours of the node in the queue list. -/
structure task_node_t where
  task : Option cJSON
  id : uuid_t
  id_str : String
  type : rest_actions_task_t
  status : rest_actions_task_status_t
  created : Int
  timeout : Int
  last_evaluated : Int
  deleteTask : Bool

/-- Embeds `task_update_status` (the lock it takes guards the one store). -/
def task_update_status (aTaskNode : task_node_t) (status : rest_actions_task_status_t) :
    task_node_t :=
  { aTaskNode with status := status }

/-- Embeds `can_remove_task`. -/
def can_remove_task (aTaskNode : task_node_t) : Bool :=
  aTaskNode.status == ACTIONS_TASK_STATUS_COMPLETED ||
  aTaskNode.status == ACTIONS_TASK_STATUS_STOPPED ||
  aTaskNode.status == ACTIONS_TASK_STATUS_FAILED

def taskNameAddThreadDevice : String := "addThreadDeviceTask"

/-- The `type_id` and `type_name` columns of the table `handlers[]`. -/
def handlers_type_names : List (rest_actions_task_t × String) :=
  [(rest_actions_task_t.ADD_THREAD_DEVICE_TASK, taskNameAddThreadDevice)]

/-- The loop of `task_type_id_from_name` over the rows of the table:
`strncmp(task_name, name, strlen(name)) == 0` holds when `name` starts
`task_name`. -/
def task_type_id_scan (task_name : String) :
    List (rest_actions_task_t × String) → Option rest_actions_task_t
  | [] => none
  | (type_id, name) :: rest =>
    if name.data.isPrefixOf task_name.data then some type_id
    else task_type_id_scan task_name rest

/-- Embeds `task_type_id_from_name`: `some id` when it returns true and writes
`id`, `none` when it returns false (for a `NULL` name too). -/
def task_type_id_from_name (task_name : Option String) : Option rest_actions_task_t :=
  match task_name with
  | none => none
  | some n => task_type_id_scan n handlers_type_names

/-- Embeds `task_node_new`. `seed_time` is the clock reading of
`uuid_generate_random`, `timestamp` is `(int)time(NULL)` of the creation time.
The result is `none` when the task has no member `type`: the source then reads
`valuestring` through a `NULL` pointer. -/
def task_node_new (rand : Nat → Nat → Nat) (seed_time timestamp : Int) (task : Option cJSON) :
    Option task_node_t :=
  -- calloc, cJSON_Duplicate and the known defaults
  let id := uuid_generate_random rand seed_time
  let id_str := uuid_unparse id
  let task1 := task.map (fun t => cJSON_AddItemToObject t "id" (cJSON.cJSON_String id_str))
  match cJSON_GetObjectItemCaseSensitive task1 "type" with
  | none => none
  | some task_type =>
    let type :=
      match task_type_id_from_name (cJSON_valuestring task_type) with
      | some type_id => type_id
      | none => rest_actions_task_t.ADD_THREAD_DEVICE_TASK
    let attributes := cJSON_GetObjectItemCaseSensitive task1 "attributes"
    let timeout := cJSON_GetObjectItemCaseSensitive attributes "timeout"
    let timeout_value :=
      match timeout with
      | some (cJSON.cJSON_Number valueint) => int_wrap (timestamp + valueint)
      | _ => ACTIONS_TASK_NO_TIMEOUT
    let task2 :=
      match attributes with
      | none => task1
      | some _ =>
        task1.map (fun t =>
          cJSON_modify_member t "attributes" (fun a =>
            cJSON_AddItemToObject a "status"
              (cJSON.cJSON_String (rest_actions_task_status_s ACTIONS_TASK_STATUS_PENDING))))
    some
      (task_update_status
        { task := task2
          id := id
          id_str := id_str
          type := type
          status := ACTIONS_TASK_STATUS_PENDING
          created := timestamp
          timeout := timeout_value
          last_evaluated := 0
          deleteTask := false }
        ACTIONS_TASK_STATUS_PENDING)

/-- The timeout `task_node_new` stores for a task description. -/
def requested_timeout (timestamp : Int) (task : Option cJSON) : Int :=
  match cJSON_GetObjectItemCaseSensitive (cJSON_GetObjectItemCaseSensitive task "attributes")
      "timeout" with
  | some (cJSON.cJSON_Number valueint) => int_wrap (timestamp + valueint)
  | _ => ACTIONS_TASK_NO_TIMEOUT

/-! ## rest_task_queue: the queue and `queue_task` -/

def TASK_QUEUE_MAX : Nat := 10

/-- The globals `task_queue` (as the list of its nodes, head first) and
`task_queue_len` (a `uint8_t`). -/
structure task_queue_globals where
  task_queue : List task_node_t
  task_queue_len : Nat

/-- The scan loop of `remove_oldest_non_running_task`: `timestamp` and
`task_node_delete` (a position, counted from `idx`) are the loop variables. -/
def remove_oldest_scan :
    List task_node_t → Int → Nat → Option Nat → Option Nat
  | [], _, _, task_node_delete => task_node_delete
  | head :: rest, timestamp, idx, task_node_delete =>
    if timestamp > head.created ∧ can_remove_task head = true then
      remove_oldest_scan rest head.created (idx + 1) (some idx)
    else
      remove_oldest_scan rest timestamp (idx + 1) task_node_delete

/-- The two stores `remove_oldest_non_running_task` makes through
`task_node_delete`: the status becomes stopped and `deleteTask` true. -/
def mark_for_deletion (n : task_node_t) : task_node_t :=
  { n with status := ACTIONS_TASK_STATUS_STOPPED, deleteTask := true }

/-- Embeds `remove_oldest_non_running_task`: the return value and the queue
after it; `now` is `(int)time(NULL)`. -/
def remove_oldest_non_running_task (now : Int) (task_queue : List task_node_t) :
    Bool × List task_node_t :=
  match remove_oldest_scan task_queue now 0 none with
  | some i => (true, task_queue.modify mark_for_deletion i)
  | none => (false, task_queue)

/-- What a call of `queue_task` leaves: its return value, the identifier copied
to `*task_id` (`none` when nothing is written) and the globals. -/
structure queue_task_result where
  ret : Bool
  task_id : Option uuid_t
  globals : task_queue_globals

/-- The second half of `queue_task`: create the node, copy its id out and link
it at the tail. -/
def queue_task_append (rand : Nat → Nat → Nat) (seed_time timestamp : Int) (task : Option cJSON)
    (g : task_queue_globals) : Option queue_task_result :=
  match task_node_new rand seed_time timestamp task with
  | none => none
  | some task_node =>
    match g.task_queue with
    | [] =>
      some { ret := true, task_id := some task_node.id,
             globals := { task_queue := [task_node], task_queue_len := 1 } }
    | head :: rest =>
      some { ret := true, task_id := some task_node.id,
             globals := { task_queue := (head :: rest) ++ [task_node],
                          task_queue_len := uint8_wrap (g.task_queue_len + 1) } }

/-- Embeds `queue_task`. `scan_time` is the clock reading of
`remove_oldest_non_running_task`, `seed_time` and `timestamp` those of
`task_node_new`. The result is `none` when `task_node_new` has none. -/
def queue_task (rand : Nat → Nat → Nat) (scan_time seed_time timestamp : Int)
    (task : Option cJSON) (g : task_queue_globals) : Option queue_task_result :=
  if TASK_QUEUE_MAX ≤ g.task_queue_len then
    match remove_oldest_non_running_task scan_time g.task_queue with
    | (false, _) => some { ret := false, task_id := none, globals := g }
    | (true, q) => queue_task_append rand seed_time timestamp task { g with task_queue := q }
  else
    queue_task_append rand seed_time timestamp task g

/-! ## rest_task_queue: the handler table and the driver loop -/

/-- The function pointers of one row of `handlers[]` that the driver loop
calls (`NULL` is `none`). A handler reads the node it is given and acts on the
world `W`. -/
structure task_handlers_t (W : Type) where
  process : Option (task_node_t → W → rest_actions_task_result_t × W)
  evaluate : Option (task_node_t → W → rest_actions_task_result_t × W)
  clean : Option (task_node_t → W → rest_actions_task_result_t × W)

/-- Embeds `task_handler_by_task_type_id` over the table `handlers`. -/
def task_handler_by_task_type_id {W : Type} (handlers : List (task_handlers_t W))
    (type_id : rest_actions_task_t) : Option (task_handlers_t W) :=
  if type_id.toNat < rest_actions_task_t.ACTIONS_TASKS_SIZE.toNat then
    handlers[type_id.toNat]?
  else
    none

/-- A call of a handler operation made by the driver loop, with the node as
it was when the call was made. -/
inductive handler_call where
  | process (task_node : task_node_t)
  | evaluate (task_node : task_node_t)
  | clean (task_node : task_node_t)

/-- What the driver does to the node it visits: the node, the world and the
handler calls made, in order. -/
structure visit_result (W : Type) where
  task_node : task_node_t
  world : W
  calls : List handler_call

/-- Embeds `process_task` for a node pointer that is not `NULL`. -/
def process_task {W : Type} (handlers : List (task_handlers_t W)) (task_node : task_node_t)
    (w : W) : visit_result W :=
  if task_node.status ≠ ACTIONS_TASK_STATUS_PENDING then
    { task_node := task_node, world := w, calls := [] }
  else
    let n1 := task_update_status task_node ACTIONS_TASK_STATUS_ACTIVE
    match task_handler_by_task_type_id handlers n1.type with
    | none => { task_node := n1, world := w, calls := [] }
    | some h =>
      match h.process with
      | none => { task_node := n1, world := w, calls := [] }
      | some f =>
        let processed := f n1 w
        let n2 :=
          if processed.1 = ACTIONS_RESULT_FAILURE then
            task_update_status n1 ACTIONS_TASK_STATUS_FAILED
          else if processed.1 = ACTIONS_RESULT_RETRY then
            task_update_status n1 ACTIONS_TASK_STATUS_PENDING
          else n1
        { task_node := n2, world := processed.2, calls := [handler_call.process n1] }

/-- Embeds `evaluate_task` for a node pointer that is not `NULL`; `eval_time`
is the reading `(int)time(NULL)` stored in `last_evaluated`. -/
def evaluate_task {W : Type} (handlers : List (task_handlers_t W)) (eval_time : Int)
    (task_node : task_node_t) (w : W) : visit_result W :=
  if task_node.status ≠ ACTIONS_TASK_STATUS_ACTIVE then
    { task_node := task_node, world := w, calls := [] }
  else
    match task_handler_by_task_type_id handlers task_node.type with
    | none => { task_node := task_node, world := w, calls := [] }
    | some h =>
      match h.evaluate with
      | none => { task_node := task_node, world := w, calls := [] }
      | some f =>
        let result := f task_node w
        let n1 :=
          if result.1 = ACTIONS_RESULT_SUCCESS then
            task_update_status task_node ACTIONS_TASK_STATUS_COMPLETED
          else if result.1 = ACTIONS_RESULT_FAILURE then
            task_update_status task_node ACTIONS_TASK_STATUS_FAILED
          else task_node
        { task_node := { n1 with last_evaluated := eval_time }, world := result.2,
          calls := [handler_call.evaluate task_node] }

/-- The call of the clean handler made by the driver loop, when the type has
one ("assuming no clean needed" otherwise). -/
def call_clean {W : Type} (handlers : List (task_handlers_t W)) (task_node : task_node_t)
    (w : W) : W × List handler_call :=
  match task_handler_by_task_type_id handlers task_node.type with
  | none => (w, [])
  | some h =>
    match h.clean with
    | none => (w, [])
    | some f => ((f task_node w).2, [handler_call.clean task_node])

/-- The state the thread `rest_task_queue_task` works on: the globals, its
cursor `head` (a position in the queue, `none` for `NULL`), the world of the
handlers and the handler calls made so far. -/
structure driver_state (W : Type) where
  globals : task_queue_globals
  head : Option Nat
  world : W
  calls : List handler_call

/-- The pointer `task_queue` as a cursor: the first node, `NULL` when the queue
is empty. -/
def queue_head_pointer (task_queue : List task_node_t) : Option Nat :=
  match task_queue with
  | [] => none
  | _ :: _ => some 0

/-- The pointer `head->next` of the node at position `i` of a queue. -/
def next_pointer (task_queue : List task_node_t) (i : Nat) : Option Nat :=
  if i + 1 < task_queue.length then some (i + 1) else none

/-- The branch of the loop body for a node marked for deletion: the status is
forced to stopped, the clean handler is called, the node is unlinked and freed,
`task_queue_len` is decremented when positive and `head` moves to the next
node (which takes position `i`). -/
def visit_delete {W : Type} (handlers : List (task_handlers_t W)) (s : driver_state W) (i : Nat)
    (node : task_node_t) : driver_state W :=
  let node1 :=
    if node.status ≠ ACTIONS_TASK_STATUS_STOPPED then
      { node with status := ACTIONS_TASK_STATUS_STOPPED }
    else node
  let cleaned := call_clean handlers node1 s.world
  { globals :=
      { task_queue := s.globals.task_queue.eraseIdx i
        task_queue_len :=
          if s.globals.task_queue_len > 0 then s.globals.task_queue_len - 1
          else s.globals.task_queue_len }
    head := if i + 1 < s.globals.task_queue.length then some i else none
    world := cleaned.1
    calls := s.calls ++ cleaned.2 }

/-- The branch of the loop body for a node that is not marked for deletion;
`current_time` is the reading made for the timeout check. -/
def visit_live {W : Type} (handlers : List (task_handlers_t W)) (current_time eval_time : Int)
    (node : task_node_t) (w : W) : visit_result W :=
  if node.status = ACTIONS_TASK_STATUS_PENDING ∨ node.status = ACTIONS_TASK_STATUS_ACTIVE then
    if node.timeout ≥ 0 ∧ node.timeout < current_time then
      let cleaned := call_clean handlers node w
      { task_node := task_update_status node ACTIONS_TASK_STATUS_STOPPED, world := cleaned.1,
        calls := cleaned.2 }
    else if node.status = ACTIONS_TASK_STATUS_PENDING then
      process_task handlers node w
    else if node.status = ACTIONS_TASK_STATUS_ACTIVE then
      evaluate_task handlers eval_time node w
    else
      { task_node := node, world := w, calls := [] }
  else
    { task_node := node, world := w, calls := [] }

/-- One pass through the body of the `while (1)` loop of
`rest_task_queue_task`. With `head` at `NULL` the cursor wraps to the start of
the queue; otherwise the node under `head` is visited. A cursor that points
past the queue does not occur (`head` is `NULL` or a linked node) and is
treated as `NULL`. -/
def rest_task_queue_task_step {W : Type} (handlers : List (task_handlers_t W))
    (current_time eval_time : Int) (s : driver_state W) : driver_state W :=
  match s.head with
  | none => { s with head := queue_head_pointer s.globals.task_queue }
  | some i =>
    match s.globals.task_queue[i]? with
    | none => { s with head := queue_head_pointer s.globals.task_queue }
    | some node =>
      if node.deleteTask = true then
        visit_delete handlers s i node
      else
        let r := visit_live handlers current_time eval_time node s.world
        { globals := { s.globals with task_queue := s.globals.task_queue.set i r.task_node }
          head := next_pointer s.globals.task_queue i
          world := r.world
          calls := s.calls ++ r.calls }

/-- The thread start: `head = task_queue` with the queue as it is then. -/
def driver_init {W : Type} (g : task_queue_globals) (w : W) : driver_state W :=
  { globals := g, head := queue_head_pointer g.task_queue, world := w, calls := [] }

/-- The initial values of the globals: `task_queue = NULL`, `task_queue_len = 0`. -/
def task_queue_globals_init : task_queue_globals :=
  { task_queue := [], task_queue_len := 0 }

/-! ## rest_task_queue: lookup by identifier -/

/-- The loop of `task_node_find_by_id`: the position of the first node, counted
from `idx`, that `uuid_equals` accepts. -/
def task_node_find_scan (uuid : uuid_t) : List task_node_t → Nat → Option Nat
  | [], _ => none
  | head :: rest, idx =>
    if uuid_equals uuid head.id = true then some idx
    else task_node_find_scan uuid rest (idx + 1)

/-- Embeds `task_node_find_by_id`: the node pointer returned, as a position in
the queue, `none` for `NULL`. The function stores nothing. -/
def task_node_find_by_id (uuid : uuid_t) (task_queue : List task_node_t) : Option Nat :=
  task_node_find_scan uuid task_queue 0

/-- Two identifiers have the same 16 bytes: the five scalar members and the six
bytes of `node` are equal. -/
def uuid_same_bytes (u v : uuid_t) : Prop :=
  u.time_low = v.time_low ∧ u.time_mid = v.time_mid ∧
  u.time_hi_and_version = v.time_hi_and_version ∧
  u.clock_seq_hi_and_reserved = v.clock_seq_hi_and_reserved ∧
  u.clock_seq_low = v.clock_seq_low ∧ ∀ i, i < 6 → u.node.getD i 0 = v.node.getD i 0

/-! ## C strings and rest_server_common

A `char *` is the `String` whose characters are the bytes of the C string, in
order and without the terminating zero; the character classes of `<ctype.h>`
are those of the C locale, which has no member above 127. -/

/-- The function `strlen`. -/
def strlen (s : String) : Nat := s.data.length

/-- The byte `str[i]` of a C string: the terminating zero at `i = strlen str`
(and for the positions after it, which the source does not read on the inputs
considered). -/
def str_at (str : String) (i : Nat) : Char := str.data.getD i (Char.ofNat 0)

/-- The function `isalnum` of `<ctype.h>`. -/
def isalnum (c : Char) : Bool :=
  (48 ≤ c.toNat && c.toNat ≤ 57) || (65 ≤ c.toNat && c.toNat ≤ 90) ||
  (97 ≤ c.toNat && c.toNat ≤ 122)

/-- The function `islower` of `<ctype.h>`. -/
def islower (c : Char) : Bool := 97 ≤ c.toNat && c.toNat ≤ 122

/-- The function `isxdigit` of `<ctype.h>`. -/
def isxdigit (c : Char) : Bool :=
  (48 ≤ c.toNat && c.toNat ≤ 57) || (65 ≤ c.toNat && c.toNat ≤ 70) ||
  (97 ≤ c.toNat && c.toNat ≤ 102)

/-- The function `tolower` of `<ctype.h>`. -/
def tolower (c : Char) : Char :=
  if 65 ≤ c.toNat ∧ c.toNat ≤ 90 then Char.ofNat (c.toNat + 32) else c

def WPANSTATUS_OK : Nat := 0

def OT_PSKD_LENGTH_MIN : Nat := 6

def OT_PSKD_LENGTH_MAX : Nat := 32

def OT_JOINFAILED_LENGTH : Nat := 16

def OT_JOINFAILED_PSKD_FORMAT : Nat := 17

/-- The values of `otError` (openthread/error.h) that the extension uses. -/
inductive otError where
  | OT_ERROR_NONE
  | OT_ERROR_FAILED
  | OT_ERROR_NO_BUFS
  | OT_ERROR_INVALID_ARGS
  | OT_ERROR_INVALID_STATE
  | OT_ERROR_NOT_FOUND
  | OT_ERROR_ALREADY
  | OT_ERROR_PENDING
deriving DecidableEq, Repr

open otError

/-- Embeds `hex_char_to_int`: `'A'` is 65, `'a'` is 97, `'0'` is 48. -/
def hex_char_to_int (c : Char) : Int :=
  if 65 ≤ c.toNat ∧ c.toNat ≤ 70 then (c.toNat : Int) - 65 + 10
  else if 97 ≤ c.toNat ∧ c.toNat ≤ 102 then (c.toNat : Int) - 97 + 10
  else if 48 ≤ c.toNat ∧ c.toNat ≤ 57 then (c.toNat : Int) - 48
  else -1

/-- The character loop of `joiner_verify_pskd`, over the characters not yet
checked. -/
def joiner_verify_pskd_loop : List Char → Nat
  | [] => WPANSTATUS_OK
  | c :: rest =>
    if isalnum c = false then OT_JOINFAILED_PSKD_FORMAT
    else if islower c = true then OT_JOINFAILED_PSKD_FORMAT
    else if c = 'I' ∨ c = 'O' ∨ c = 'Q' ∨ c = 'Z' then OT_JOINFAILED_PSKD_FORMAT
    else joiner_verify_pskd_loop rest

/-- Embeds `joiner_verify_pskd`. -/
def joiner_verify_pskd (pskd : String) : Nat :=
  if OT_PSKD_LENGTH_MIN > strlen pskd then OT_JOINFAILED_LENGTH
  else if OT_PSKD_LENGTH_MAX < strlen pskd then OT_JOINFAILED_LENGTH
  else joiner_verify_pskd_loop pskd.data

/-- The loop of `str_to_m8` from index `i`, with `n` iterations left: the
error returned and the array `m8` as the loop leaves it. -/
def str_to_m8_loop (str : String) : Nat → Nat → List Nat → otError × List Nat
  | 0, _, m8 => (OT_ERROR_NONE, m8)
  | n + 1, i, m8 =>
    let hex_int_1 := hex_char_to_int (str_at str (i * 2))
    let hex_int_2 := hex_char_to_int (str_at str (i * 2 + 1))
    if hex_int_1 = -1 ∨ hex_int_2 = -1 then (OT_ERROR_FAILED, m8)
    else str_to_m8_loop str n (i + 1) (m8.set i ((hex_int_1 * 16 + hex_int_2).toNat % 256))

/-- Embeds `str_to_m8`: the error returned and the array `m8` afterwards. -/
def str_to_m8 (m8 : List Nat) (str : String) (size : Nat) : otError × List Nat :=
  if size * 2 > strlen str then (OT_ERROR_FAILED, m8)
  else str_to_m8_loop str size 0 m8

/-- Embeds `is_hex_string`. -/
def is_hex_string (str : String) : Bool :=
  if str_at str 1 = 'x' then
    if str_at str 0 ≠ '0' then false
    else (str.data.drop 2).all isxdigit
  else str.data.all isxdigit

/-! ## cJSON: the further functions used by the add-thread-device handlers -/

/-- Embeds `cJSON_IsString`. -/
def cJSON_IsString (item : Option cJSON) : Bool :=
  match item with
  | some (cJSON.cJSON_String _) => true
  | _ => false

/-- Embeds `cJSON_IsObject`. -/
def cJSON_IsObject (item : Option cJSON) : Bool :=
  match item with
  | some (cJSON.cJSON_Object _) => true
  | _ => false

/-- The comparison cJSON makes when it looks a key up without regard to case:
both strings are compared character by character after `tolower`. -/
def case_insensitive_equal (a b : String) : Bool :=
  a.data.map tolower == b.data.map tolower

/-- First member of a member list whose key equals `name` without regard to
case. -/
def cJSON_members_find_nocase (name : String) : List (String × cJSON) → Option cJSON
  | [] => none
  | (k, v) :: rest =>
    if case_insensitive_equal name k = true then some v
    else cJSON_members_find_nocase name rest

/-- Embeds `cJSON_GetObjectItem`, the lookup without regard to case. -/
def cJSON_GetObjectItem (object : Option cJSON) (name : String) : Option cJSON :=
  match object with
  | some (cJSON.cJSON_Object members) => cJSON_members_find_nocase name members
  | _ => none

/-- Embeds `cJSON_HasObjectItem`, which is `cJSON_GetObjectItem` compared with
`NULL`. -/
def cJSON_HasObjectItem (object : Option cJSON) (name : String) : Bool :=
  (cJSON_GetObjectItem object name).isSome

/-- The member list without its first member whose key equals `name` without
regard to case. -/
def cJSON_members_delete_nocase (name : String) :
    List (String × cJSON) → List (String × cJSON)
  | [] => []
  | (k, v) :: rest =>
    if case_insensitive_equal name k = true then rest
    else (k, v) :: cJSON_members_delete_nocase name rest

/-- Embeds `cJSON_DeleteItemFromObject`: the item that `cJSON_GetObjectItem`
finds, the first whose key equals `name` without regard to case, is detached
and deleted. -/
def cJSON_DeleteItemFromObject (object : cJSON) (name : String) : cJSON :=
  match object with
  | cJSON.cJSON_Object members => cJSON.cJSON_Object (cJSON_members_delete_nocase name members)
  | other => other

/-- The member list with the value of its first member named `name` (case
sensitive) replaced. -/
def cJSON_members_replace (name : String) (newitem : cJSON) :
    List (String × cJSON) → List (String × cJSON)
  | [] => []
  | (k, v) :: rest =>
    if k = name then (name, newitem) :: rest
    else (k, v) :: cJSON_members_replace name newitem rest

/-- Embeds `cJSON_ReplaceItemInObjectCaseSensitive` on an object; without a
member of that name nothing is replaced. -/
def cJSON_ReplaceItemInObjectCaseSensitive (object : cJSON) (name : String) (newitem : cJSON) :
    cJSON :=
  match object with
  | cJSON.cJSON_Object members => cJSON.cJSON_Object (cJSON_members_replace name newitem members)
  | other => other

/-- Embeds the static `cJSON_AddOrReplaceItemInObjectCaseSensitive` of
rest_task_handler.cpp. -/
def cJSON_AddOrReplaceItemInObjectCaseSensitive (object : cJSON) (name : String)
    (newitem : cJSON) : cJSON :=
  if cJSON_HasObjectItem (some object) name = true then
    cJSON_ReplaceItemInObjectCaseSensitive object name newitem
  else
    cJSON_AddItemToObject object name newitem

/-! ## rest_task_add_thread_device: validate and jsonify -/

/-- The macro `ACTIONS_TASK_VALID`, `1 << 0`. -/
def ACTIONS_TASK_VALID : Nat := 1

/-- The macro `ACTIONS_TASK_INVALID`, `1 << 1`. -/
def ACTIONS_TASK_INVALID : Nat := 2

/-- The macro `ACTIONS_TASK_NOT_IMPLEMENTED`, `1 << 2`. -/
def ACTIONS_TASK_NOT_IMPLEMENTED : Nat := 4

def ATTRIBUTE_PSKD : String := "joinCred"

/-- Embeds `validate_add_thread_device_task`; `task` is the `attributes` object
that `validate_task` hands over. -/
def validate_add_thread_device_task (task : Option cJSON) : Nat :=
  let timeout := cJSON_GetObjectItemCaseSensitive task "timeout"
  if timeout.isNone = true ∨ cJSON_IsNumber timeout = false then ACTIONS_TASK_INVALID
  else
    let activation_key := cJSON_GetObjectItemCaseSensitive task "hasActivationKey"
    if activation_key.isNone = true ∨ cJSON_IsObject activation_key = false then
      ACTIONS_TASK_INVALID
    else
      let eui_ok :=
        match cJSON_GetObjectItemCaseSensitive activation_key "eui" with
        | some (cJSON.cJSON_String valuestring) =>
          decide (strlen valuestring = 16) && is_hex_string valuestring
        | _ => false
      if eui_ok = false then ACTIONS_TASK_INVALID
      else
        let pskd_ok :=
          match cJSON_GetObjectItemCaseSensitive activation_key ATTRIBUTE_PSKD with
          | some (cJSON.cJSON_String valuestring) =>
            decide (joiner_verify_pskd valuestring = WPANSTATUS_OK)
          | _ => false
        if pskd_ok = false then ACTIONS_TASK_INVALID
        else ACTIONS_TASK_VALID

/-- Embeds `task_node_to_json` for a node pointer that is not `NULL`: a copy of
the payload whose `attributes.status` names the current status. -/
def task_node_to_json (task_node : task_node_t) : Option cJSON :=
  task_node.task.map (fun task_json =>
    match cJSON_GetObjectItemCaseSensitive (some task_json) "attributes" with
    | none => task_json
    | some _ =>
      cJSON_modify_member task_json "attributes" (fun task_attrs =>
        cJSON_AddOrReplaceItemInObjectCaseSensitive task_attrs "status"
          (cJSON.cJSON_String (rest_actions_task_status_s task_node.status))))

/-- Embeds `jsonify_add_thread_device_task`: the snapshot returned. The node
and its payload are read only. -/
def jsonify_add_thread_device_task (task_node : task_node_t) : Option cJSON :=
  (task_node_to_json task_node).map (fun task_json =>
    cJSON_modify_member task_json "attributes" (fun attributes =>
      cJSON_modify_member attributes "hasActivationKey" (fun hasActivationKey =>
        cJSON_DeleteItemFromObject hasActivationKey ATTRIBUTE_PSKD)))

/-- The credential member of a snapshot: `attributes.hasActivationKey.joinCred`. -/
def snapshot_credential (snapshot : Option cJSON) : Option cJSON :=
  cJSON_GetObjectItemCaseSensitive
    (cJSON_GetObjectItemCaseSensitive
      (cJSON_GetObjectItemCaseSensitive snapshot "attributes") "hasActivationKey")
    ATTRIBUTE_PSKD

/-! ## commissioner_allow_list -/

def OT_EXT_ADDRESS_SIZE : Nat := 8

/-- The struct `otExtAddress`: the array `m8` of `OT_EXT_ADDRESS_SIZE` bytes. -/
structure otExtAddress where
  m8 : List Nat
deriving DecidableEq, Repr

/-- Embeds `otExtAddressMatch`: no index below `OT_EXT_ADDRESS_SIZE` has
different bytes. -/
def otExtAddressMatch (aAddress1 aAddress2 : otExtAddress) : Bool :=
  (List.range OT_EXT_ADDRESS_SIZE).all (fun i => aAddress1.m8.getD i 0 == aAddress2.m8.getD i 0)

/-- Embeds `eui64IsNull`: no index below `OT_EXT_ADDRESS_SIZE` has a byte other
than zero. -/
def eui64IsNull (aEui64 : otExtAddress) : Bool :=
  (List.range OT_EXT_ADDRESS_SIZE).all (fun i => aEui64.m8.getD i 0 == 0)

/-- The enum `AllowListEntry::AllowListEntryState`. -/
inductive AllowListEntryState where
  | kAllowListEntryNew
  | kAllowListEntryActiveJoiner
  | kAllowListEntryJoined
  | kAllowListEntryJoinFailed
deriving DecidableEq, Repr

open AllowListEntryState

/-- The members of the class `AllowListEntry` other than the link `mNext`;
`mPSKd` is the string the pointer refers to. -/
structure AllowListEntry where
  meui64 : otExtAddress
  muuid : uuid_t
  mTimeout : Nat
  mPSKd : String
  mstate : AllowListEntryState
deriving DecidableEq, Repr

/-- The first constructor of `AllowListEntry`: the state is
`kAllowListEntryNew`. -/
def AllowListEntry.new (aEui64 : otExtAddress) (uuid : uuid_t) (aTimeout : Nat) (aPskd : String) :
    AllowListEntry :=
  { meui64 := aEui64, muuid := uuid, mTimeout := aTimeout, mPSKd := aPskd,
    mstate := kAllowListEntryNew }

/-- Embeds `AllowListEntry::update_state`. -/
def AllowListEntry.update_state (e : AllowListEntry) (new_state : AllowListEntryState) :
    AllowListEntry :=
  { e with mstate := new_state }

/-- Embeds `AllowListEntry::is_joined`. -/
def AllowListEntry.is_joined (e : AllowListEntry) : Bool :=
  e.mstate == kAllowListEntryJoined

/-- Embeds `AllowListEntry::is_failed`. -/
def AllowListEntry.is_failed (e : AllowListEntry) : Bool :=
  e.mstate == kAllowListEntryJoinFailed

/-- Modelled from the spec: `allow_list::LinkedList::Add` of linked_list.hpp,
which is not among the sources. The spec has a new entry appended to the
ordered collection of entries. -/
def LinkedList_Add (aEntry : AllowListEntry) (list : List AllowListEntry) :
    List AllowListEntry :=
  list ++ [aEntry]

/-- Modelled from the spec: `allow_list::LinkedList::Remove` of linked_list.hpp,
which is not among the sources, for the entry at position `i`. The spec has
the single entry removed and the removal reported as found; an entry that is
not in the list is reported as not found. -/
def LinkedList_Remove (i : Nat) (list : List AllowListEntry) :
    otError × List AllowListEntry :=
  if i < list.length then (OT_ERROR_NONE, list.eraseIdx i) else (OT_ERROR_NOT_FOUND, list)

/-- Modelled from the spec: `allow_list::LinkedList::Clear` of linked_list.hpp,
which is not among the sources: all entries are released. -/
def LinkedList_Clear (_list : List AllowListEntry) : List AllowListEntry := []

/-- The loop of `entryEui64Find` and of `allowListEntryErase`: the position,
counted from `idx`, of the first entry whose `meui64` matches. -/
def entry_find_scan (aEui64 : otExtAddress) : List AllowListEntry → Nat → Option Nat
  | [], _ => none
  | entry :: rest, idx =>
    if otExtAddressMatch entry.meui64 aEui64 = true then some idx
    else entry_find_scan aEui64 rest (idx + 1)

/-- Embeds `entryEui64Find`: the entry pointer returned, as a position in the
list; the argument is `none` for a null pointer. -/
def entryEui64Find (aEui64 : Option otExtAddress) (list : List AllowListEntry) : Option Nat :=
  match aEui64 with
  | none => none
  | some eui => entry_find_scan eui list 0

/-- Embeds `allowListAddDevice`: the list afterwards. `rand` and `now` are the
generator and the clock reading of `uuid_generate_random`; `aPskd` is not a
null pointer, and `pskd_new` is its copy. -/
def allowListAddDevice (rand : Nat → Nat → Nat) (now : Int) (aEui64 : otExtAddress)
    (aTimeout : Nat) (aPskd : String) (list : List AllowListEntry) : List AllowListEntry :=
  let pskd_new := aPskd
  match entryEui64Find (some aEui64) list with
  | some i => list.modify (fun pEntry => { pEntry with mPSKd := pskd_new }) i
  | none =>
    let new_uuid := uuid_generate_random rand now
    LinkedList_Add (AllowListEntry.new aEui64 new_uuid aTimeout pskd_new) list

/-- Embeds `allowListEntryErase`: the error returned and the list afterwards. -/
def allowListEntryErase (aEui64 : otExtAddress) (list : List AllowListEntry) :
    otError × List AllowListEntry :=
  match entry_find_scan aEui64 list 0 with
  | some i => LinkedList_Remove i list
  | none => (OT_ERROR_FAILED, list)

/-- Embeds `allowListEraseAll`. -/
def allowListEraseAll (list : List AllowListEntry) : List AllowListEntry :=
  if list.isEmpty = false then LinkedList_Clear list else list

/-- What a call of `allowListCommissionerJoinerAdd` leaves: the error returned,
the calls of `otCommissionerAddJoiner` made (address pointer, PSKd, timeout)
and the allow list. -/
structure joiner_add_result where
  error : otError
  add_joiner_calls : List (Option otExtAddress × String × Nat)
  allow_list : List AllowListEntry

/-- Embeds `allowListCommissionerJoinerAdd`. `allow_any_joiner` says whether
the macro `OPENTHREAD_COMMISSIONER_ALLOW_ANY_JOINER` is defined in the build;
`otCommissionerAddJoiner` gives the error the commissioner returns for a
call. -/
def allowListCommissionerJoinerAdd (allow_any_joiner : Bool) (rand : Nat → Nat → Nat)
    (now : Int) (otCommissionerAddJoiner : Option otExtAddress → String → Nat → otError)
    (aEui64 : otExtAddress) (aTimeout : Nat) (aPskd : String) (list : List AllowListEntry) :
    joiner_add_result :=
  if eui64IsNull aEui64 = true ∧ allow_any_joiner = true then
    { error := OT_ERROR_INVALID_ARGS, add_joiner_calls := [], allow_list := list }
  else
    let addrPtr := if eui64IsNull aEui64 = true then none else some aEui64
    let list1 := allowListAddDevice rand now aEui64 aTimeout aPskd list
    let entry := entryEui64Find addrPtr list1
    let error := otCommissionerAddJoiner addrPtr aPskd aTimeout
    let list2 :=
      match entry with
      | some i =>
        if error = OT_ERROR_NONE then
          list1.modify (fun e => e.update_state kAllowListEntryActiveJoiner) i
        else list1
      | none => list1
    { error := error, add_joiner_calls := [(addrPtr, aPskd, aTimeout)], allow_list := list2 }

/-- The enum `otCommissionerJoinerEvent` (openthread/commissioner.h). -/
inductive otCommissionerJoinerEvent where
  | OT_COMMISSIONER_JOINER_START
  | OT_COMMISSIONER_JOINER_CONNECTED
  | OT_COMMISSIONER_JOINER_FINALIZE
  | OT_COMMISSIONER_JOINER_END
  | OT_COMMISSIONER_JOINER_REMOVED
deriving DecidableEq, Repr

open otCommissionerJoinerEvent

/-- Embeds `HandleJoinerEvent`: the allow list afterwards; `aJoinerEui64` is
`aJoinerInfo->mSharedId.mEui64`. The call of `allowListCommissionerStopPost`,
which only returns `OT_ERROR_NONE`, leaves no trace. -/
def HandleJoinerEvent (aEvent : otCommissionerJoinerEvent) (aJoinerEui64 : otExtAddress)
    (list : List AllowListEntry) : List AllowListEntry :=
  let entry := entryEui64Find (some aJoinerEui64) list
  if entry.isNone = true ∧ eui64IsNull aJoinerEui64 = true then list
  else
    match aEvent with
    | OT_COMMISSIONER_JOINER_FINALIZE =>
      match entry with
      | some i => list.modify (fun e => e.update_state kAllowListEntryJoined) i
      | none => list
    | OT_COMMISSIONER_JOINER_REMOVED =>
      match entry with
      | some i =>
        list.modify
          (fun e =>
            if e.mstate ≠ kAllowListEntryJoined then e.update_state kAllowListEntryJoinFailed
            else e) i
      | none => list
    | _ => list

/-- An operation on the allow list: one of the calls that change it, with its
arguments. -/
inductive allow_list_op where
  | add_device (rand : Nat → Nat → Nat) (now : Int) (aEui64 : otExtAddress) (aTimeout : Nat)
      (aPskd : String)
  | joiner_add (rand : Nat → Nat → Nat) (now : Int)
      (otCommissionerAddJoiner : Option otExtAddress → String → Nat → otError)
      (aEui64 : otExtAddress) (aTimeout : Nat) (aPskd : String)
  | entry_erase (aEui64 : otExtAddress)
  | erase_all
  | joiner_event (aEvent : otCommissionerJoinerEvent) (aJoinerEui64 : otExtAddress)

/-- The allow list after one operation. -/
def allow_list_apply (allow_any_joiner : Bool) (list : List AllowListEntry) :
    allow_list_op → List AllowListEntry
  | allow_list_op.add_device rand now aEui64 aTimeout aPskd =>
    allowListAddDevice rand now aEui64 aTimeout aPskd list
  | allow_list_op.joiner_add rand now otCommissionerAddJoiner aEui64 aTimeout aPskd =>
    (allowListCommissionerJoinerAdd allow_any_joiner rand now otCommissionerAddJoiner aEui64
      aTimeout aPskd list).allow_list
  | allow_list_op.entry_erase aEui64 => (allowListEntryErase aEui64 list).2
  | allow_list_op.erase_all => allowListEraseAll list
  | allow_list_op.joiner_event aEvent aJoinerEui64 => HandleJoinerEvent aEvent aJoinerEui64 list

/-- The allow list after a finite sequence of operations. -/
def allow_list_run (allow_any_joiner : Bool) (list : List AllowListEntry)
    (ops : List allow_list_op) : List AllowListEntry :=
  ops.foldl (allow_list_apply allow_any_joiner) list

/-- Two identities have the same 8 bytes. -/
def same_eui64 (a b : otExtAddress) : Prop :=
  ∀ i, i < OT_EXT_ADDRESS_SIZE → a.m8.getD i 0 = b.m8.getD i 0

/-- No two entries of the list have the same 8-byte identity. -/
def identities_unique (list : List AllowListEntry) : Prop :=
  list.Pairwise (fun a b => ¬ same_eui64 a.meui64 b.meui64)

/-- A character the PSKd format allows: a digit `0`-`9` or an upper-case letter
`A`-`Z` other than `I`, `O`, `Q` and `Z`. -/
def pskd_char_allowed (c : Char) : Prop :=
  (('0'.toNat ≤ c.toNat ∧ c.toNat ≤ '9'.toNat) ∨ ('A'.toNat ≤ c.toNat ∧ c.toNat ≤ 'Z'.toNat)) ∧
    c ≠ 'I' ∧ c ≠ 'O' ∧ c ≠ 'Q' ∧ c ≠ 'Z'

/-! ## commissioner_allow_list: join status, count of joiners, removal -/

/-- Embeds `allowListEntryJoinStatusGet`; the argument is `none` for a null
pointer. The pointer `entryEui64Find` returns is a position of the list, so the
entry it points to is read there (a position past the list does not occur). -/
def allowListEntryJoinStatusGet (eui64 : Option otExtAddress) (list : List AllowListEntry) :
    otError :=
  match entryEui64Find eui64 list with
  | none => OT_ERROR_FAILED
  | some i =>
    match list[i]? with
    | none => OT_ERROR_FAILED
    | some entry =>
      if entry.is_failed = true then OT_ERROR_FAILED
      else if entry.is_joined = true then OT_ERROR_NONE
      else OT_ERROR_PENDING

/-- The loop of `allowListActiveJoinersCountGet`: `activeJoinersCount` is a
`uint8_t`, incremented for every entry whose state is not
`kAllowListEntryJoined`. -/
def active_joiners_count_loop : List AllowListEntry → Nat → Nat
  | [], activeJoinersCount => activeJoinersCount
  | entry :: rest, activeJoinersCount =>
    if kAllowListEntryJoined ≠ entry.mstate then
      active_joiners_count_loop rest (uint8_wrap (activeJoinersCount + 1))
    else
      active_joiners_count_loop rest activeJoinersCount

/-- Embeds `allowListActiveJoinersCountGet`. -/
def allowListActiveJoinersCountGet (list : List AllowListEntry) : Nat :=
  active_joiners_count_loop list 0

/-- The enum `otCommissionerState` (openthread/commissioner.h). -/
inductive otCommissionerState where
  | OT_COMMISSIONER_STATE_DISABLED
  | OT_COMMISSIONER_STATE_PETITION
  | OT_COMMISSIONER_STATE_ACTIVE
deriving DecidableEq, Repr

open otCommissionerState

/-- What the OpenThread instance answers to the calls made on it during one
call of a function of this module: the error of `otCommissionerStart`, the
state `otCommissionerGetState` reports, and the errors of
`otCommissionerAddJoiner` and `otCommissionerRemoveJoiner` for their
arguments. -/
structure otInstance where
  otCommissionerStart : otError
  otCommissionerGetState : otCommissionerState
  otCommissionerAddJoiner : Option otExtAddress → String → Nat → otError
  otCommissionerRemoveJoiner : Option otExtAddress → otError

/-- A request made to the commissioner: `otCommissionerStart`,
`otCommissionerAddJoiner` or `otCommissionerRemoveJoiner` with the address
pointer (`none` for `nullptr`) and the further arguments. The reads of its
state are not recorded. -/
inductive commissioner_call where
  | start
  | add_joiner (aEui64 : Option otExtAddress) (aPskd : String) (aTimeout : Nat)
  | remove_joiner (aEui64 : Option otExtAddress)
deriving DecidableEq, Repr

/-- What a call of `allowListCommissionerJoinerRemove` leaves: the error
returned and the requests made to the commissioner. -/
structure joiner_remove_result where
  error : otError
  calls : List commissioner_call

/-- Embeds `allowListCommissionerJoinerRemove`. -/
def allowListCommissionerJoinerRemove (aEui64 : otExtAddress) (aInstance : otInstance) :
    joiner_remove_result :=
  let addrPtr := if eui64IsNull aEui64 = true then none else some aEui64
  let state := aInstance.otCommissionerGetState
  if OT_COMMISSIONER_STATE_DISABLED = state then
    { error := OT_ERROR_NONE, calls := [] }
  else
    let error := aInstance.otCommissionerRemoveJoiner addrPtr
    { error := error, calls := [commissioner_call.remove_joiner addrPtr] }

/-- Embeds `allowListCommissionerStart`: the error of `otCommissionerStart`. -/
def allowListCommissionerStart (aInstance : otInstance) : otError :=
  aInstance.otCommissionerStart

/-- The changes of promotion state that the state machine of the spec has:
`New → ActiveJoiner`, `ActiveJoiner → Joined`, `New → JoinFailed` and
`ActiveJoiner → JoinFailed`; the second definition next to the code, following
the words of the spec. -/
def spec_promotion_change : AllowListEntryState → AllowListEntryState → Bool
  | kAllowListEntryNew, kAllowListEntryActiveJoiner => true
  | kAllowListEntryActiveJoiner, kAllowListEntryJoined => true
  | kAllowListEntryNew, kAllowListEntryJoinFailed => true
  | kAllowListEntryActiveJoiner, kAllowListEntryJoinFailed => true
  | _, _ => false

/-! ## rest_task_add_thread_device: process, the wait helper, evaluate and clean

The handlers work on the static variables of the file (`sJoinerAddOngoing`,
`sPendingJoiner`), on the allow list and on the commissioner; these make up the
world of the handlers. A handler call that reads through a null pointer has no
result (`none`). -/

/-- The value of `(uint32_t)x` for an `int` `x`. -/
def uint32_of_int (x : Int) : Nat := (x % 4294967296).toNat

/-- The struct `pending_joiner_t`. `mPskd` is `none` for a null pointer;
`mTaskNode` holds the node the pointer referred to, as it was when the pointer
was stored. -/
structure pending_joiner_t where
  mEui64 : otExtAddress
  mPskd : Option String
  mTimeout : Nat
  mTaskNode : task_node_t

/-- The world of the add-thread-device handlers: the flag `sJoinerAddOngoing`,
the variable `sPendingJoiner` (`none` until it is first stored), the allow list
`AllowListEntryList`, the requests made to the commissioner so far and the
number of threads `restTaskJoinerAddConditionalTask` created so far. -/
structure add_thread_device_world where
  sJoinerAddOngoing : Bool
  sPendingJoiner : Option pending_joiner_t
  allow_list : List AllowListEntry
  commissioner_calls : List commissioner_call
  wait_tasks_created : Nat

/-- The requests `allowListCommissionerJoinerAdd` made, as
`commissioner_call`s. -/
def joiner_add_calls (added : joiner_add_result) : List commissioner_call :=
  added.add_joiner_calls.map (fun c => commissioner_call.add_joiner c.1 c.2.1 c.2.2)

/-- The function `allowListCommissionerJoinerAdd` called with a credential
pointer that may be null: `allowListAddDevice` asserts that the pointer is not
null, so a call that reaches it with a null pointer has no result. -/
def allowListCommissionerJoinerAdd_pskd (allow_any_joiner : Bool) (rand : Nat → Nat → Nat)
    (now : Int) (otCommissionerAddJoiner : Option otExtAddress → String → Nat → otError)
    (aEui64 : otExtAddress) (aTimeout : Nat) (aPskd : Option String)
    (list : List AllowListEntry) : Option joiner_add_result :=
  match aPskd with
  | some pskd =>
    some (allowListCommissionerJoinerAdd allow_any_joiner rand now otCommissionerAddJoiner aEui64
      aTimeout pskd list)
  | none =>
    if eui64IsNull aEui64 = true ∧ allow_any_joiner = true then
      some { error := OT_ERROR_INVALID_ARGS, add_joiner_calls := [], allow_list := list }
    else none

/-- Embeds `process_add_thread_device_task` for a node pointer that is not
null. `rand` and `now` are the generator and clock reading of the identifier
generated for a new allow-list entry, `pthread_create` is the value the call of
`pthread_create` returns. The result is `none` when the task has no string
member `eui` or no member `joinCred` where the source reads `valuestring`
through the item pointer. -/
def process_add_thread_device_task (allow_any_joiner : Bool) (rand : Nat → Nat → Nat) (now : Int)
    (pthread_create : Int) (aInstance : otInstance) (task_node : task_node_t)
    (w : add_thread_device_world) :
    Option (rest_actions_task_result_t × add_thread_device_world) :=
  if task_node.task.isNone = true then some (ACTIONS_RESULT_FAILURE, w)
  else if w.sJoinerAddOngoing = true then
    -- "ot-joiner add already ongoing, retry": the return of ACTIONS_RESULT_RETRY is commented out
    some (ACTIONS_RESULT_FAILURE, w)
  else
    let w1 := { w with sJoinerAddOngoing := true }
    let task := task_node.task
    let task_attributes := cJSON_GetObjectItemCaseSensitive task "attributes"
    let activation_key := cJSON_GetObjectItemCaseSensitive task_attributes "hasActivationKey"
    let eui := cJSON_GetObjectItemCaseSensitive activation_key "eui"
    let pskd := cJSON_GetObjectItemCaseSensitive activation_key ATTRIBUTE_PSKD
    let timeout := cJSON_GetObjectItemCaseSensitive task_attributes "timeout"
    match eui.bind cJSON_valuestring with
    | none => none
    | some eui_valuestring =>
      let converted :=
        str_to_m8 (List.replicate OT_EXT_ADDRESS_SIZE 0) eui_valuestring OT_EXT_ADDRESS_SIZE
      if OT_ERROR_NONE ≠ converted.1 then
        some (ACTIONS_RESULT_FAILURE, { w1 with sJoinerAddOngoing := false })
      else
        let eui64 : otExtAddress := { m8 := converted.2 }
        match timeout with
        | some (cJSON.cJSON_Number valueint) =>
          let error := allowListCommissionerStart aInstance
          let w2 :=
            { w1 with commissioner_calls := w1.commissioner_calls ++ [commissioner_call.start] }
          if OT_ERROR_INVALID_STATE = error then
            some (ACTIONS_RESULT_FAILURE, { w2 with sJoinerAddOngoing := false })
          else
            let otCommissionerState := aInstance.otCommissionerGetState
            match pskd with
            | none => none
            | some pskd_item =>
              if OT_COMMISSIONER_STATE_ACTIVE = otCommissionerState then
                match allowListCommissionerJoinerAdd_pskd allow_any_joiner rand now
                    aInstance.otCommissionerAddJoiner eui64 (uint32_of_int valueint)
                    (cJSON_valuestring pskd_item) w2.allow_list with
                | none => none
                | some added =>
                  let w3 :=
                    { w2 with
                      allow_list := added.allow_list
                      commissioner_calls := w2.commissioner_calls ++ joiner_add_calls added }
                  if OT_ERROR_NONE ≠ added.error then
                    some (ACTIONS_RESULT_FAILURE, { w3 with sJoinerAddOngoing := false })
                  else
                    some (ACTIONS_RESULT_SUCCESS, { w3 with sJoinerAddOngoing := false })
              else
                let w3 :=
                  { w2 with
                    sPendingJoiner :=
                      some
                        { mEui64 := eui64
                          mPskd := cJSON_valuestring pskd_item
                          mTimeout := uint32_of_int valueint
                          mTaskNode := task_node } }
                if pthread_create ≠ 0 then
                  some (ACTIONS_RESULT_FAILURE, { w3 with sJoinerAddOngoing := false })
                else
                  some (ACTIONS_RESULT_SUCCESS,
                    { w3 with wait_tasks_created := w3.wait_tasks_created + 1 })
        | _ => some (ACTIONS_RESULT_FAILURE, { w1 with sJoinerAddOngoing := false })

/-- The struct `timespec`. -/
structure timespec where
  tv_sec : Int
  tv_nsec : Int
deriving DecidableEq, Repr

/-- The test of the deadline in `restTaskJoinerAddConditionalTask`: `now` is
later than `end_time`. -/
def deadline_passed (now end_time : timespec) : Bool :=
  decide (now.tv_sec > end_time.tv_sec ∨
    (now.tv_sec = end_time.tv_sec ∧ now.tv_nsec > end_time.tv_nsec))

/-- The `while (1)` loop of `restTaskJoinerAddConditionalTask`. Each pass
sleeps, reads the commissioner state and, when that is not active, reads the
clock: `observations` lists, pass by pass, the state and the clock reading the
pass gets (the clock reading of a pass that sees the active state is not
made). The value is the last `commissionerResult` when the loop is left, and
`none` when the passes listed do not leave it. -/
def commissioner_wait_loop (end_time : timespec) :
    List (otCommissionerState × timespec) → Option otCommissionerState
  | [] => none
  | (commissionerResult, now) :: rest =>
    if commissionerResult = OT_COMMISSIONER_STATE_ACTIVE then some commissionerResult
    else if deadline_passed now end_time = true then some commissionerResult
    else commissioner_wait_loop end_time rest

/-- The start of `restTaskJoinerAddConditionalTask`, before the loop: an active
task is made pending. -/
def restTaskJoinerAddConditionalTask_enter (task_node : task_node_t) : task_node_t :=
  if task_node.status = ACTIONS_TASK_STATUS_ACTIVE then
    task_update_status task_node ACTIONS_TASK_STATUS_PENDING
  else task_node

/-- The end of `restTaskJoinerAddConditionalTask`, after the loop was left with
`commissionerResult`; `task_node` is the node `sPendingJoiner.mTaskNode` points
to, as it is then. -/
def restTaskJoinerAddConditionalTask_leave (allow_any_joiner : Bool) (rand : Nat → Nat → Nat)
    (now : Int) (aInstance : otInstance) (commissionerResult : otCommissionerState)
    (pending : pending_joiner_t) (task_node : task_node_t) (w : add_thread_device_world) :
    Option (task_node_t × add_thread_device_world) :=
  if OT_COMMISSIONER_STATE_DISABLED = commissionerResult then
    some (task_update_status task_node ACTIONS_TASK_STATUS_FAILED,
      { w with sJoinerAddOngoing := false })
  else
    -- "Getting here means the commissioner is active, we can add this joiner"
    let n1 := task_update_status task_node ACTIONS_TASK_STATUS_ACTIVE
    match allowListCommissionerJoinerAdd_pskd allow_any_joiner rand now
        aInstance.otCommissionerAddJoiner pending.mEui64 pending.mTimeout pending.mPskd
        w.allow_list with
    | none => none
    | some added =>
      some (n1,
        { w with
          allow_list := added.allow_list
          commissioner_calls := w.commissioner_calls ++ joiner_add_calls added
          sJoinerAddOngoing := false })

/-- Embeds `restTaskJoinerAddConditionalTask`, run while nothing else changes
the node `sPendingJoiner.mTaskNode` points to, which is `task_node`:
`start_time` is the clock reading made before the loop and `observations` are
the passes of the loop. The result is the node and the world afterwards;
`none` when `sPendingJoiner` was never stored or the passes listed do not leave
the loop. -/
def restTaskJoinerAddConditionalTask (allow_any_joiner : Bool) (rand : Nat → Nat → Nat)
    (now : Int) (aInstance : otInstance) (start_time : timespec)
    (observations : List (otCommissionerState × timespec)) (task_node : task_node_t)
    (w : add_thread_device_world) : Option (task_node_t × add_thread_device_world) :=
  match w.sPendingJoiner with
  | none => none
  | some pending =>
    let n1 := restTaskJoinerAddConditionalTask_enter task_node
    let end_time : timespec := { start_time with tv_sec := start_time.tv_sec + 10 }
    match commissioner_wait_loop end_time observations with
    | none => none
    | some commissionerResult =>
      restTaskJoinerAddConditionalTask_leave allow_any_joiner rand now aInstance
        commissionerResult pending n1 w

/-- Embeds `evaluate_add_thread_device_task`: the function returns at its first
statement. -/
def evaluate_add_thread_device_task (_task_node : task_node_t) (w : add_thread_device_world) :
    rest_actions_task_result_t × add_thread_device_world :=
  (ACTIONS_RESULT_SUCCESS, w)

/-- The identity `str_to_m8` writes into the zeroed `eui64` of a handler for
the string `eui`. -/
def task_eui64 (eui : String) : otExtAddress :=
  { m8 := (str_to_m8 (List.replicate OT_EXT_ADDRESS_SIZE 0) eui OT_EXT_ADDRESS_SIZE).2 }

/-- The address pointer the allow-list functions pass to the commissioner for
an identity: `nullptr` for the all-zero identity. -/
def commissioner_address (aEui64 : otExtAddress) : Option otExtAddress :=
  if eui64IsNull aEui64 = true then none else some aEui64

/-- Embeds `clean_add_thread_device_task`. The result is `none` when the task
has no string member `eui`. -/
def clean_add_thread_device_task (aInstance : otInstance) (task_node : task_node_t)
    (w : add_thread_device_world) :
    Option (rest_actions_task_result_t × add_thread_device_world) :=
  let task := task_node.task
  let task_attributes := cJSON_GetObjectItemCaseSensitive task "attributes"
  let activation_key := cJSON_GetObjectItemCaseSensitive task_attributes "hasActivationKey"
  let eui := cJSON_GetObjectItemCaseSensitive activation_key "eui"
  match eui.bind cJSON_valuestring with
  | none => none
  | some eui_valuestring =>
    let converted :=
      str_to_m8 (List.replicate OT_EXT_ADDRESS_SIZE 0) eui_valuestring OT_EXT_ADDRESS_SIZE
    if OT_ERROR_NONE ≠ converted.1 then some (ACTIONS_RESULT_FAILURE, w)
    else
      let eui64 : otExtAddress := { m8 := converted.2 }
      let removed := allowListCommissionerJoinerRemove eui64 aInstance
      let erased := allowListEntryErase eui64 w.allow_list
      let w1 :=
        { w with
          allow_list := erased.2
          commissioner_calls := w.commissioner_calls ++ removed.calls }
      if OT_ERROR_NONE = removed.error then some (ACTIONS_RESULT_SUCCESS, w1)
      else some (ACTIONS_RESULT_FAILURE, w1)

/-- The row of `handlers[]` for `ADD_THREAD_DEVICE_TASK` with the three
operations the driver loop calls, for the answers the instance gives during the
pass. The driver is defined for handlers that return; a call without result is
entered as a failure that leaves the world as it is. -/
def add_thread_device_handlers (allow_any_joiner : Bool) (rand : Nat → Nat → Nat) (now : Int)
    (pthread_create : Int) (aInstance : otInstance) :
    List (task_handlers_t add_thread_device_world) :=
  [{ process := some (fun task_node w =>
       (process_add_thread_device_task allow_any_joiner rand now pthread_create aInstance
         task_node w).getD (ACTIONS_RESULT_FAILURE, w))
     evaluate := some evaluate_add_thread_device_task
     clean := some (fun task_node w =>
       (clean_add_thread_device_task aInstance task_node w).getD (ACTIONS_RESULT_FAILURE, w)) }]

/-! ## Values of hexadecimal digits -/

/-- The value of a hexadecimal digit, as the words "value of the digit" are
used for `str_to_m8`: `0`-`9` are 0-9, `a`-`f` and `A`-`F` are 10-15 (0 for a
character that is no hexadecimal digit). -/
def hex_digit_value (c : Char) : Nat :=
  if 48 ≤ c.toNat ∧ c.toNat ≤ 57 then c.toNat - 48
  else if 97 ≤ c.toNat ∧ c.toNat ≤ 102 then c.toNat - 97 + 10
  else if 65 ≤ c.toNat ∧ c.toNat ≤ 70 then c.toNat - 65 + 10
  else 0

/-! ## Timed acquisition of the locks (rest_task_queue, pthread_lock) -/

/-- The enum `LockType` (rest_server_common.hpp). -/
inductive LockType where
  | LOCK_TYPE_BLOCKING
  | LOCK_TYPE_NONBLOCKING
  | LOCK_TYPE_TIMED
deriving DecidableEq, Repr

open LockType

/-- The value of a 64-bit two's-complement `long` holding the mathematical
integer `x` (identity on the `long` range). -/
def long_wrap (x : Int) : Int :=
  (x + 9223372036854775808) % 18446744073709551616 - 9223372036854775808

/-- The call on the mutex that a lock function makes: `pthread_mutex_lock`,
`pthread_mutex_trylock` or `pthread_mutex_timedlock` with its absolute
deadline. -/
inductive pthread_mutex_call where
  | lock
  | trylock
  | timedlock (abstime : timespec)
deriving DecidableEq, Repr

/-- The deadline that `taskNodeLockAcquire` and `openthread_lock_acquire`
compute in the case `LOCK_TYPE_TIMED`, in the same statements: `now` is the
reading of `clock_gettime(CLOCK_REALTIME, &timeout)`. Inside the branch
`tv_nsec` is positive, where `/` and `%` of C and of `Int` agree. -/
def timed_lock_deadline (now : timespec) (timeout_ms : Int) : timespec :=
  let timeout : timespec :=
    { now with tv_nsec := long_wrap (now.tv_nsec + long_wrap (timeout_ms * 1000)) }
  if timeout.tv_nsec ≥ 1000000000 then
    { tv_sec := long_wrap (timeout.tv_sec + timeout.tv_nsec / 1000000000)
      tv_nsec := timeout.tv_nsec % 1000000000 }
  else timeout

/-- Embeds `taskNodeLockAcquire`: the call made on `sTaskNodeLock`, whose
result the function returns. -/
def taskNodeLockAcquire (lock_type : LockType) (timeout_ms : Int) (now : timespec) :
    pthread_mutex_call :=
  match lock_type with
  | LOCK_TYPE_BLOCKING => pthread_mutex_call.lock
  | LOCK_TYPE_NONBLOCKING => pthread_mutex_call.trylock
  | LOCK_TYPE_TIMED => pthread_mutex_call.timedlock (timed_lock_deadline now timeout_ms)

/-- Embeds `openthread_lock_acquire`: the call made on `otLock`, whose result
the function returns. -/
def openthread_lock_acquire (lock_type : LockType) (timeout_ms : Int) (now : timespec) :
    pthread_mutex_call :=
  match lock_type with
  | LOCK_TYPE_BLOCKING => pthread_mutex_call.lock
  | LOCK_TYPE_NONBLOCKING => pthread_mutex_call.trylock
  | LOCK_TYPE_TIMED => pthread_mutex_call.timedlock (timed_lock_deadline now timeout_ms)

/-- The time of a `timespec` in nanoseconds. -/
def timespec_nanoseconds (t : timespec) : Int := t.tv_sec * 1000000000 + t.tv_nsec

/-! ## Reading an identifier back (uuid_parse) -/

/-- The function `isspace` of `<ctype.h>`: space, tab, line feed, vertical tab,
form feed and carriage return. -/
def isspace (c : Char) : Bool := c.toNat = 32 || (9 ≤ c.toNat && c.toNat ≤ 13)

/-- The run of hexadecimal digits at the front of the input that a conversion
of field width `width` reads, and the input after it. -/
def scan_hex_digits : Nat → List Char → List Char × List Char
  | 0, input => ([], input)
  | _ + 1, [] => ([], [])
  | width + 1, c :: rest =>
    if isxdigit c = true then
      (c :: (scan_hex_digits width rest).1, (scan_hex_digits width rest).2)
    else ([], c :: rest)

/-- The number that a sequence of hexadecimal digits denotes, most significant
digit first. -/
def hex_digits_value (digits : List Char) : Nat :=
  digits.foldl (fun acc c => 16 * acc + hex_digit_value c) 0

/-- The conversion `%<width>x` of `sscanf`: white space is skipped; then at
most `width` characters are read that form an optional sign, an optional `0x`
or `0X` and hexadecimal digits, as `strtoul` with base 16 expects them; the
number is stored as an `unsigned int`. The value is the number stored and the
input that is left, and `none` when no digit could be read. -/
def sscanf_hex (width : Nat) (input : List Char) : Option (Nat × List Char) :=
  let s := input.dropWhile isspace
  let has_sign : Bool := decide (1 ≤ width) && (s.head? == some '-' || s.head? == some '+')
  let negative : Bool := has_sign && s.head? == some '-'
  let s1 := if has_sign = true then s.drop 1 else s
  let w1 := if has_sign = true then width - 1 else width
  let has_0x : Bool :=
    decide (2 ≤ w1) && s1.head? == some '0' &&
      ((s1.drop 1).head? == some 'x' || (s1.drop 1).head? == some 'X')
  let s2 := if has_0x = true then s1.drop 2 else s1
  let w2 := if has_0x = true then w1 - 2 else w1
  let scanned := scan_hex_digits w2 s2
  if scanned.1 = [] then none
  else
    let value := hex_digits_value scanned.1 % 4294967296
    some (if negative = true then (4294967296 - value) % 4294967296 else value, scanned.2)

/-- A directive of a `sscanf` format: a conversion `%<width>x` or an ordinary
character. -/
inductive scan_directive where
  | hex (width : Nat)
  | literal (c : Char)
deriving DecidableEq, Repr

/-- The function `sscanf` for a format of such directives: the directives are
carried out in order until one fails; the value lists the numbers assigned, so
its length is the number of conversions made. -/
def sscanf : List scan_directive → List Char → List Nat
  | [], _ => []
  | scan_directive.hex width :: format, input =>
    match sscanf_hex width input with
    | none => []
    | some (value, rest) => value :: sscanf format rest
  | scan_directive.literal c :: format, input =>
    match input with
    | [] => []
    | d :: rest => if d = c then sscanf format rest else []

/-- The format `"%8x-%4x-%4x-%2x%2x-%2x%2x%2x%2x%2x%2x"` of `uuid_parse`. -/
def uuid_parse_format : List scan_directive :=
  [scan_directive.hex 8, scan_directive.literal '-', scan_directive.hex 4,
   scan_directive.literal '-', scan_directive.hex 4, scan_directive.literal '-',
   scan_directive.hex 2, scan_directive.hex 2, scan_directive.literal '-',
   scan_directive.hex 2, scan_directive.hex 2, scan_directive.hex 2, scan_directive.hex 2,
   scan_directive.hex 2, scan_directive.hex 2]

/-- Embeds `uuid_parse`: the value returned and the contents of `*uuid`
afterwards, `uuid` being its contents before. The eleven numbers are stored in
`int temp[11]` and assigned to the fields, which keep them modulo the size of
the field type. -/
def uuid_parse (in_str : String) (uuid : uuid_t) : Int × uuid_t :=
  if UUID_STR_LEN - 1 ≠ strlen in_str then (-1, uuid)
  else
    let zeroed : uuid_t :=
      { time_low := 0, time_mid := 0, time_hi_and_version := 0,
        clock_seq_hi_and_reserved := 0, clock_seq_low := 0, node := List.replicate 6 0 }
    let temp := sscanf uuid_parse_format in_str.data
    if 11 ≠ temp.length then (-1, zeroed)
    else
      (0,
        { time_low := temp.getD 0 0 % 4294967296
          time_mid := temp.getD 1 0 % 65536
          time_hi_and_version := temp.getD 2 0 % 65536
          clock_seq_hi_and_reserved := temp.getD 3 0 % 256
          clock_seq_low := temp.getD 4 0 % 256
          node := (List.range 6).map (fun i => temp.getD (5 + i) 0 % 256) })

/-- The fields of a `uuid_t` hold values of their types: `uint32_t`,
`uint16_t`, `uint8_t`, and six `uint8_t` in `node`. -/
def uuid_fields_in_range (u : uuid_t) : Prop :=
  u.time_low < 4294967296 ∧ u.time_mid < 65536 ∧ u.time_hi_and_version < 65536 ∧
  u.clock_seq_hi_and_reserved < 256 ∧ u.clock_seq_low < 256 ∧
  ∀ i, i < 6 → u.node.getD i 0 < 256

/-! ## Runs of the engine -/

/-- What happens to the engine between two observations: a call of
`queue_task` (with the generator, clock readings and task it gets) or one pass
of the driver loop body (with its clock readings). -/
inductive engine_event where
  | queue (rand : Nat → Nat → Nat) (scan_time seed_time timestamp : Int) (task : Option cJSON)
  | driver (current_time eval_time : Int)

/-- The state after one event; `none` when `queue_task` has no result. -/
def engine_apply {W : Type} (handlers : List (task_handlers_t W)) (s : driver_state W) :
    engine_event → Option (driver_state W)
  | engine_event.queue rand scan_time seed_time timestamp task =>
    match queue_task rand scan_time seed_time timestamp task s.globals with
    | none => none
    | some r => some { s with globals := r.globals }
  | engine_event.driver current_time eval_time =>
    some (rest_task_queue_task_step handlers current_time eval_time s)

/-- The state after a finite sequence of events. -/
def engine_run {W : Type} (handlers : List (task_handlers_t W)) :
    driver_state W → List engine_event → Option (driver_state W)
  | s, [] => some s
  | s, e :: rest =>
    match engine_apply handlers s e with
    | none => none
    | some s1 => engine_run handlers s1 rest

/-- No task of the queue is marked for deletion. -/
def no_task_marked (g : task_queue_globals) : Bool :=
  g.task_queue.all (fun t => !t.deleteTask)

/-- Every `queue_task` call of the run is made when no task is marked for
deletion: the driver loop has unlinked the task evicted by the previous call. -/
def evictions_carried_out {W : Type} (handlers : List (task_handlers_t W)) :
    driver_state W → List engine_event → Bool
  | _, [] => true
  | s, e :: rest =>
    (match e with
      | engine_event.queue _ _ _ _ _ => no_task_marked s.globals
      | engine_event.driver _ _ => true) &&
    match engine_apply handlers s e with
    | none => true
    | some s1 => evictions_carried_out handlers s1 rest

/-- The queue invariant of runs in which evictions are carried out:
`task_queue_len` counts the nodes, there are at most `TASK_QUEUE_MAX + 1` of
them, and `TASK_QUEUE_MAX + 1` only with a node marked for deletion. -/
def queue_invariant (g : task_queue_globals) : Prop :=
  g.task_queue_len = g.task_queue.length ∧ g.task_queue.length ≤ TASK_QUEUE_MAX + 1 ∧
    (g.task_queue.length = TASK_QUEUE_MAX + 1 → ∃ t ∈ g.task_queue, t.deleteTask = true)

/-- Every task in the queue has the one registered task type, and a task
marked for deletion is stopped. -/
def nodes_well_formed (g : task_queue_globals) : Prop :=
  ∀ t ∈ g.task_queue, t.type = rest_actions_task_t.ADD_THREAD_DEVICE_TASK ∧
    (t.deleteTask = true → t.status = ACTIONS_TASK_STATUS_STOPPED)

/-! ## The links of the queue (rest_task_queue)

The members `prev` and `next` of the nodes, with the stores `queue_task` and
the driver loop make to them. A node pointer is the address of the node and
`NULL` is `none`. -/

/-- The members `prev` and `next` of a `task_node_t`. -/
structure task_node_links where
  prev : Option Nat
  next : Option Nat
deriving DecidableEq, Repr

/-- The globals `task_queue` (the pointer to the first node) and
`task_queue_len`, and the links of the nodes that are allocated, by address. -/
structure linked_task_queue where
  task_queue : Option Nat
  task_queue_len : Nat
  nodes : Nat → Option task_node_links

/-- The initial values: `task_queue = NULL`, `task_queue_len = 0`, no node
allocated. -/
def linked_task_queue_init : linked_task_queue :=
  { task_queue := none, task_queue_len := 0, nodes := fun _ => none }

/-- The node at `task_node` is allocated with the given links. -/
def store_links (nodes : Nat → Option task_node_links) (task_node : Nat)
    (links : task_node_links) : Nat → Option task_node_links :=
  fun a => if a = task_node then some links else nodes a

/-- The store `task_node->next = value`. -/
def set_next (nodes : Nat → Option task_node_links) (task_node : Nat) (value : Option Nat) :
    Nat → Option task_node_links :=
  fun a => if a = task_node then (nodes a).map (fun l => { l with next := value }) else nodes a

/-- The store `task_node->prev = value`. -/
def set_prev (nodes : Nat → Option task_node_links) (task_node : Nat) (value : Option Nat) :
    Nat → Option task_node_links :=
  fun a => if a = task_node then (nodes a).map (fun l => { l with prev := value }) else nodes a

/-- The call `free(task_node)`. -/
def free_node (nodes : Nat → Option task_node_links) (task_node : Nat) :
    Nat → Option task_node_links :=
  fun a => if a = task_node then none else nodes a

/-- The loop `while (NULL != head->next) head = head->next;` of `queue_task`,
started at `head`: the node it stops at. `fuel` bounds the number of nodes
visited; `none` when it is used up or a pointer leads to no node. -/
def queue_tail (nodes : Nat → Option task_node_links) : Nat → Nat → Option Nat
  | 0, _ => none
  | fuel + 1, head =>
    match nodes head with
    | none => none
    | some links =>
      match links.next with
      | none => some head
      | some next => queue_tail nodes fuel next

/-- The part of `queue_task` after the capacity check, for the node that
`task_node_new` returns at address `task_node` with `prev` and `next` at
`NULL`: the node is linked behind the last node and counted. -/
def queue_task_link (fuel : Nat) (task_node : Nat) (q : linked_task_queue) :
    Option linked_task_queue :=
  let nodes := store_links q.nodes task_node { prev := none, next := none }
  match q.task_queue with
  | none => some { task_queue := some task_node, task_queue_len := 1, nodes := nodes }
  | some first =>
    match queue_tail nodes fuel first with
    | none => none
    | some head =>
      some
        { task_queue := q.task_queue
          task_queue_len := uint8_wrap (q.task_queue_len + 1)
          nodes := set_prev (set_next nodes head (some task_node)) task_node (some head) }

/-- The branch of the driver loop for a node `head` marked for deletion, as
far as the links go: the node is unlinked and freed and `task_queue_len` is
decremented when it is positive. `none` when `head` is no allocated node. -/
def rest_task_queue_task_unlink (head : Nat) (q : linked_task_queue) :
    Option linked_task_queue :=
  match q.nodes head with
  | none => none
  | some links =>
    let next := links.next
    let unlinked : Option Nat × (Nat → Option task_node_links) :=
      match links.prev with
      | none =>
        (next,
          match next with
          | some n => set_prev q.nodes n none
          | none => q.nodes)
      | some p =>
        (q.task_queue,
          match next with
          | some n => set_prev (set_next q.nodes p next) n (some p)
          | none => set_next q.nodes p next)
    some
      { task_queue := unlinked.1
        task_queue_len :=
          if q.task_queue_len > 0 then q.task_queue_len - 1 else q.task_queue_len
        nodes := free_node unlinked.2 head }

/-- The nodes met from `head` along `next`, in that order; `none` when more
than `fuel` nodes are met or a pointer leads to no node. -/
def read_forward (nodes : Nat → Option task_node_links) : Nat → Option Nat → Option (List Nat)
  | _, none => some []
  | 0, some _ => none
  | fuel + 1, some head =>
    match nodes head with
    | none => none
    | some links => (read_forward nodes fuel links.next).map (fun l => head :: l)

/-- The nodes met from `tail` along `prev`, in that order. -/
def read_backward (nodes : Nat → Option task_node_links) : Nat → Option Nat → Option (List Nat)
  | _, none => some []
  | 0, some _ => none
  | fuel + 1, some tail =>
    match nodes tail with
    | none => none
    | some links => (read_backward nodes fuel links.prev).map (fun l => tail :: l)

/-- What a call of `queue_task` or a pass of the driver loop does to the
links: `queue none` is a call that returns false, which creates no node;
`queue (some task_node)` a call that creates the node at `task_node`;
`driver (some head) deleteTask` the visit of the node `head` whose flag is
`deleteTask`, which writes no link when the flag is not set; `driver none` a
pass with `head` at `NULL`. -/
inductive link_event where
  | queue (task_node : Option Nat)
  | driver (head : Option Nat) (deleteTask : Bool)
deriving DecidableEq, Repr

/-- The links after one event. -/
def link_apply (fuel : Nat) (q : linked_task_queue) : link_event → Option linked_task_queue
  | link_event.queue none => some q
  | link_event.queue (some task_node) => queue_task_link fuel task_node q
  | link_event.driver (some head) true => rest_task_queue_task_unlink head q
  | link_event.driver _ _ => some q

/-- The links after a finite sequence of events. -/
def link_run (fuel : Nat) : linked_task_queue → List link_event → Option linked_task_queue
  | q, [] => some q
  | q, e :: rest =>
    match link_apply fuel q e with
    | none => none
    | some q1 => link_run fuel q1 rest

/-- The addresses of the nodes in the queue after one event, in queue order,
given those before it. -/
def linked_addresses_apply (addresses : List Nat) : link_event → List Nat
  | link_event.queue none => addresses
  | link_event.queue (some task_node) => addresses ++ [task_node]
  | link_event.driver (some head) true => addresses.erase head
  | link_event.driver _ _ => addresses

/-- The addresses of the nodes in the queue after a sequence of events. -/
def linked_addresses_run : List Nat → List link_event → List Nat
  | addresses, [] => addresses
  | addresses, e :: rest => linked_addresses_run (linked_addresses_apply addresses e) rest

/-- The events are such as the program makes: a node that is created gets an
address at which no node of the queue is, and the driver visits a node of the
queue. -/
def link_events_valid : List Nat → List link_event → Bool
  | _, [] => true
  | addresses, e :: rest =>
    (match e with
      | link_event.queue none => true
      | link_event.queue (some task_node) => decide (task_node ∉ addresses)
      | link_event.driver (some head) _ => decide (head ∈ addresses)
      | link_event.driver none _ => true) &&
    link_events_valid (linked_addresses_apply addresses e) rest

/-- The queue holds at most `bound` nodes after each of the events. -/
def linked_addresses_bounded (bound : Nat) : List Nat → List link_event → Bool
  | _, [] => true
  | addresses, e :: rest =>
    decide ((linked_addresses_apply addresses e).length ≤ bound) &&
    linked_addresses_bounded bound (linked_addresses_apply addresses e) rest

/-- The first address of a list of addresses, `default` for the empty list. -/
def head_or : List Nat → Option Nat → Option Nat
  | [], default => default
  | a :: _, _ => some a

/-- The last address of a list of addresses, `default` for the empty list. -/
def last_or : List Nat → Option Nat → Option Nat
  | [], default => default
  | a :: rest, _ => last_or rest (some a)

/-- The nodes at `addresses` are linked in this order: the first has `prev`
as its `prev`, the last has `next` as its `next`, and neighbours point to each
other. -/
def links_segment (nodes : Nat → Option task_node_links) :
    Option Nat → List Nat → Option Nat → Prop
  | _, [], _ => True
  | prev, a :: rest, next =>
    nodes a = some { prev := prev, next := head_or rest next } ∧
    links_segment nodes (some a) rest next

/-- The links represent the queue `addresses`: `task_queue` points to its
first node, its nodes are distinct and linked in this order from `NULL` to
`NULL`, and no other node is allocated. -/
def links_represent (q : linked_task_queue) (addresses : List Nat) : Prop :=
  addresses.Nodup ∧ q.task_queue = head_or addresses none ∧
  links_segment q.nodes none addresses none ∧ ∀ a, a ∉ addresses → q.nodes a = none

/-- The event on the links that an event of the engine is, in the state `s`
with the nodes of the queue at `addresses`; `task_node` is the address that
`task_node_new` gets for the node when the call creates one. -/
def engine_link_event {W : Type} (s : driver_state W) (addresses : List Nat) (task_node : Nat) :
    engine_event → link_event
  | engine_event.queue rand scan_time seed_time timestamp task =>
    match queue_task rand scan_time seed_time timestamp task s.globals with
    | some r => if r.ret = true then link_event.queue (some task_node) else link_event.queue none
    | none => link_event.queue none
  | engine_event.driver _ _ =>
    match s.head with
    | none => link_event.driver none false
    | some i =>
      match s.globals.task_queue[i]? with
      | none => link_event.driver none false
      | some node => link_event.driver addresses[i]? node.deleteTask

/-- The events on the links that a run of the engine is, each event of the
engine being given with the address for the node it may create. -/
def engine_link_events {W : Type} (handlers : List (task_handlers_t W)) :
    driver_state W → List Nat → List (engine_event × Nat) → List link_event
  | _, _, [] => []
  | s, addresses, (e, task_node) :: rest =>
    match engine_apply handlers s e with
    | none => []
    | some s1 =>
      engine_link_event s addresses task_node e ::
        engine_link_events handlers s1
          (linked_addresses_apply addresses (engine_link_event s addresses task_node e)) rest

/-- Every state of the run holds at most `bound` nodes. -/
def queue_length_bounded {W : Type} (handlers : List (task_handlers_t W)) (bound : Nat) :
    driver_state W → List engine_event → Bool
  | _, [] => true
  | s, e :: rest =>
    match engine_apply handlers s e with
    | none => true
    | some s1 =>
      decide (s1.globals.task_queue.length ≤ bound) && queue_length_bounded handlers bound s1 rest

/-! ## Inputs used to evaluate the engine -/

/-- A task description as the REST layer hands it over: the registered type
name and an `attributes` object with the requested timeout in seconds. -/
def example_task (seconds : Int) : Option cJSON :=
  some (cJSON.cJSON_Object
    [("type", cJSON.cJSON_String "addThreadDeviceTask"),
     ("attributes", cJSON.cJSON_Object [("timeout", cJSON.cJSON_Number seconds)])])

/-- A generator whose every value is zero. -/
def zero_rand : Nat → Nat → Nat := fun _ _ => 0

/-- A queued node with the given status, creation time and deletion flag. -/
def example_node (status : rest_actions_task_status_t) (created : Int) (deleteTask : Bool) :
    task_node_t :=
  { task := example_task 60
    id := uuid_generate_random zero_rand created
    id_str := uuid_unparse (uuid_generate_random zero_rand created)
    type := rest_actions_task_t.ADD_THREAD_DEVICE_TASK
    status := status
    created := created
    timeout := created + 60
    last_evaluated := 0
    deleteTask := deleteTask }

/-- A clean handler that counts its calls in the world. -/
def example_clean : task_node_t → Nat → rest_actions_task_result_t × Nat :=
  fun _ w => (ACTIONS_RESULT_SUCCESS, w + 1)

/-- A process handler that counts its calls and reports the given result. -/
def example_process (processed : rest_actions_task_result_t) :
    task_node_t → Nat → rest_actions_task_result_t × Nat :=
  fun _ w => (processed, w + 1)

/-- An evaluate handler that counts its calls and reports the given result. -/
def example_evaluate (evaluated : rest_actions_task_result_t) :
    task_node_t → Nat → rest_actions_task_result_t × Nat :=
  fun _ w => (evaluated, w + 1)

/-- A table row with the three example operations. -/
def example_row (processed evaluated : rest_actions_task_result_t) : task_handlers_t Nat :=
  { process := some (example_process processed)
    evaluate := some (example_evaluate evaluated)
    clean := some example_clean }

/-- A handler table with one row, as in the source. -/
def example_handlers (processed evaluated : rest_actions_task_result_t) :
    List (task_handlers_t Nat) :=
  [example_row processed evaluated]

/-- The driver with its cursor on position `i` of the queue `q`, no handler
called so far. -/
def example_driver_state (q : List task_node_t) (i : Nat) : driver_state Nat :=
  { globals := { task_queue := q, task_queue_len := q.length }, head := some i, world := 0,
    calls := [] }

/-- Ten pending tasks created at times 100 .. 109. -/
def example_queue_pending : List task_node_t :=
  (List.range 10).map (fun i => example_node ACTIONS_TASK_STATUS_PENDING (100 + i) false)

/-- A run from the initial state: a task is queued at time 100, the driver
starts it and sees it complete, nine more tasks are queued at time 101 and an
eleventh at time 102. -/
def example_run : List engine_event :=
  [engine_event.queue zero_rand 100 100 100 (example_task 60),
   engine_event.driver 100 100, engine_event.driver 100 100,
   engine_event.driver 100 100, engine_event.driver 100 100] ++
  List.replicate 9 (engine_event.queue zero_rand 101 101 101 (example_task 60)) ++
  [engine_event.queue zero_rand 102 102 102 (example_task 60)]

/-- A full queue: a pending task, a completed task created at the given time
and eight active tasks. -/
def example_queue_one_completed (created : Int) : List task_node_t :=
  example_node ACTIONS_TASK_STATUS_PENDING 100 false ::
  example_node ACTIONS_TASK_STATUS_COMPLETED created false ::
  (List.range 8).map (fun i => example_node ACTIONS_TASK_STATUS_ACTIVE (102 + i) false)

/-- A payload for `validate_add_thread_device_task`: a timeout and an
activation key with the given eui and credential. -/
def example_attributes (timeout : cJSON) (eui pskd : String) : Option cJSON :=
  some (cJSON.cJSON_Object
    [("timeout", timeout),
     ("hasActivationKey", cJSON.cJSON_Object
       [("eui", cJSON.cJSON_String eui), ("joinCred", cJSON.cJSON_String pskd)])])

/-- A task whose activation key has a member `JOINCRED` before its member
`joinCred`. -/
def example_task_two_credentials : Option cJSON :=
  some (cJSON.cJSON_Object
    [("type", cJSON.cJSON_String "addThreadDeviceTask"),
     ("attributes", cJSON.cJSON_Object
       [("timeout", cJSON.cJSON_Number 60),
        ("hasActivationKey", cJSON.cJSON_Object
          [("JOINCRED", cJSON.cJSON_String "NONE00"),
           ("eui", cJSON.cJSON_String "0011223344556677"),
           ("joinCred", cJSON.cJSON_String "ABCDEF1234567890ABCDEF1234567890")])])])

/-- An identity whose last byte is `b`. -/
def example_eui64 (b : Nat) : otExtAddress := { m8 := [0, 17, 34, 51, 68, 85, 102, b] }

/-- An allow list with two entries, for the identities ending in 1 and 2. -/
def example_allow_list : List AllowListEntry :=
  [AllowListEntry.new (example_eui64 1) (uuid_generate_random zero_rand 100) 60 "ABCDEF",
   { AllowListEntry.new (example_eui64 2) (uuid_generate_random zero_rand 101) 90 "123456" with
     mstate := kAllowListEntryActiveJoiner }]

/-- An allow list with three entries, for the identities ending in 1, 2 and 4,
in the states New, Joined and JoinFailed. -/
def example_allow_list_failed : List AllowListEntry :=
  [AllowListEntry.new (example_eui64 1) (uuid_generate_random zero_rand 100) 60 "ABCDEF",
   { AllowListEntry.new (example_eui64 2) (uuid_generate_random zero_rand 101) 90 "123456" with
     mstate := kAllowListEntryJoined },
   { AllowListEntry.new (example_eui64 4) (uuid_generate_random zero_rand 102) 90 "123456" with
     mstate := kAllowListEntryJoinFailed }]

/-- The all-zero identity. -/
def example_null_eui64 : otExtAddress := { m8 := List.replicate 8 0 }

/-- A queued add-thread-device task with the given status, identity and
credential. -/
def example_device_node (status : rest_actions_task_status_t) (eui pskd : String) : task_node_t :=
  { task := some (cJSON.cJSON_Object
      [("type", cJSON.cJSON_String "addThreadDeviceTask"),
       ("attributes", cJSON.cJSON_Object
         [("timeout", cJSON.cJSON_Number 60),
          ("hasActivationKey", cJSON.cJSON_Object
            [("eui", cJSON.cJSON_String eui), ("joinCred", cJSON.cJSON_String pskd)])])])
    id := uuid_generate_random zero_rand 100
    id_str := uuid_unparse (uuid_generate_random zero_rand 100)
    type := rest_actions_task_t.ADD_THREAD_DEVICE_TASK
    status := status
    created := 100
    timeout := 160
    last_evaluated := 0
    deleteTask := false }

/-- An instance whose commissioner is in the given state and answers every
request with the given error. -/
def example_instance (state : otCommissionerState) (error : otError) : otInstance :=
  { otCommissionerStart := error
    otCommissionerGetState := state
    otCommissionerAddJoiner := fun _ _ _ => error
    otCommissionerRemoveJoiner := fun _ => error }

/-- A world with the given flag and allow list, in which no wait helper was
launched. -/
def example_world (ongoing : Bool) (list : List AllowListEntry) : add_thread_device_world :=
  { sJoinerAddOngoing := ongoing
    sPendingJoiner := none
    allow_list := list
    commissioner_calls := []
    wait_tasks_created := 0 }

/-- A world in which the wait helper was launched for the identity ending in
3: the flag is held and the pending joiner is stored. -/
def example_waiting_world (list : List AllowListEntry) : add_thread_device_world :=
  { sJoinerAddOngoing := true
    sPendingJoiner :=
      some
        { mEui64 := example_eui64 3
          mPskd := some "ABCDEF"
          mTimeout := 60
          mTaskNode := example_device_node ACTIONS_TASK_STATUS_ACTIVE "0011223344556603" "ABCDEF" }
    allow_list := list
    commissioner_calls := [commissioner_call.start]
    wait_tasks_created := 1 }

/-- Passes of the wait loop one second apart, from second 1001 on, each of
which sees the given state. -/
def example_observations (state : otCommissionerState) (passes : Nat) :
    List (otCommissionerState × timespec) :=
  (List.range passes).map (fun i => (state, { tv_sec := 1001 + i, tv_nsec := 500 }))

/-- The driver with its cursor on position `i` of the queue `q` of
add-thread-device tasks, in the world `w`, no handler called so far. -/
def example_device_driver_state (q : List task_node_t) (i : Nat) (w : add_thread_device_world) :
    driver_state add_thread_device_world :=
  { globals := { task_queue := q, task_queue_len := q.length }, head := some i, world := w,
    calls := [] }

/-- The run `example_run`, the node of its i-th event getting the address
`1000 + i`. -/
def example_run_addresses : List (engine_event × Nat) :=
  example_run.zip ((List.range 15).map (fun i => 1000 + i))

/-- The clock seconds read by 245 calls made 10 ms apart from second 102 on:
the i-th of them, counted from 0, is made `(i + 1) * 10` ms after the start of
second 102. -/
def example_reselection_times : List Int :=
  (List.range 245).map (fun (i : Nat) => (102 : Int) + (Int.ofNat i + 1) / 100)

/-- The run `example_run` followed, without a pass of the driver loop in
between, by 245 calls of `queue_task` made 10 ms apart. -/
def example_run_reselecting : List engine_event :=
  example_run ++
    example_reselection_times.map
      (fun now => engine_event.queue zero_rand now now now (example_task 60))

/-! ## Helper lemmas -/

theorem int_wrap_of_range (x : Int) (hlo : INT_MIN ≤ x) (hhi : x ≤ INT_MAX) :
    int_wrap x = x := by
  unfold int_wrap
  unfold INT_MIN at hlo
  unfold INT_MAX at hhi
  omega

theorem cJSON_members_find_append (name key : String) (item : cJSON) (hne : key ≠ name)
    (members : List (String × cJSON)) :
    cJSON_members_find name (members ++ [(key, item)]) = cJSON_members_find name members := by
  induction members with
  | nil => simp [cJSON_members_find, hne]
  | cons m rest ih =>
    obtain ⟨k, v⟩ := m
    by_cases hk : k = name
    · simp [cJSON_members_find, hk]
    · simp [cJSON_members_find, hk, ih]

theorem get_item_after_add (task : Option cJSON) (name key : String) (item : cJSON)
    (hne : key ≠ name) :
    cJSON_GetObjectItemCaseSensitive (task.map (fun t => cJSON_AddItemToObject t key item)) name =
      cJSON_GetObjectItemCaseSensitive task name := by
  cases task with
  | none => rfl
  | some t =>
    cases t <;> simp [cJSON_GetObjectItemCaseSensitive, cJSON_AddItemToObject]
    exact cJSON_members_find_append name key item hne _

theorem task_node_new_spec (rand : Nat → Nat → Nat) (seed_time timestamp : Int)
    (task : Option cJSON) (htype : cJSON_GetObjectItemCaseSensitive task "type" ≠ none) :
    ∃ node, task_node_new rand seed_time timestamp task = some node ∧
      node.id = uuid_generate_random rand seed_time ∧
      node.status = ACTIONS_TASK_STATUS_PENDING ∧ node.deleteTask = false ∧
      node.created = timestamp ∧ node.timeout = requested_timeout timestamp task := by
  cases h : cJSON_GetObjectItemCaseSensitive task "type" with
  | none => exact absurd h htype
  | some ty =>
    have h1 := get_item_after_add task "type" "id"
      (cJSON.cJSON_String (uuid_unparse (uuid_generate_random rand seed_time))) (by decide)
    have h2 := get_item_after_add task "attributes" "id"
      (cJSON.cJSON_String (uuid_unparse (uuid_generate_random rand seed_time))) (by decide)
    simp only [task_node_new, h1, h2, h]
    exact ⟨_, rfl, rfl, rfl, rfl, rfl, rfl⟩

theorem has_type_example_task (seconds : Int) :
    cJSON_GetObjectItemCaseSensitive (example_task seconds) "type" ≠ none := by
  simp [example_task, cJSON_GetObjectItemCaseSensitive, cJSON_members_find]

theorem queue_task_append_spec (rand : Nat → Nat → Nat) (seed_time timestamp : Int)
    (task : Option cJSON) (g : task_queue_globals)
    (htype : cJSON_GetObjectItemCaseSensitive task "type" ≠ none) :
    ∃ node r, task_node_new rand seed_time timestamp task = some node ∧
      queue_task_append rand seed_time timestamp task g = some r ∧
      r.ret = true ∧ r.task_id = some node.id ∧
      r.globals.task_queue = g.task_queue ++ [node] ∧
      (g.task_queue = [] → r.globals.task_queue_len = 1) ∧
      (g.task_queue ≠ [] → r.globals.task_queue_len = uint8_wrap (g.task_queue_len + 1)) := by
  obtain ⟨node, hnode, -⟩ := task_node_new_spec rand seed_time timestamp task htype
  refine ⟨node, ?_⟩
  unfold queue_task_append
  rw [hnode]
  cases hq : g.task_queue with
  | nil => exact ⟨_, rfl, rfl, rfl, rfl, rfl, fun _ => rfl, fun h => absurd rfl h⟩
  | cons head rest =>
    exact ⟨_, rfl, rfl, rfl, rfl, rfl, fun h => by simp at h, fun _ => rfl⟩

theorem remove_oldest_scan_none (q : List task_node_t) (timestamp : Int)
    (hrecent : ∀ t ∈ q, can_remove_task t = true → timestamp ≤ t.created) (idx : Nat)
    (task_node_delete : Option Nat) :
    remove_oldest_scan q timestamp idx task_node_delete = task_node_delete := by
  induction q generalizing idx with
  | nil => rfl
  | cons head rest ih =>
    have hhead : ¬ (timestamp > head.created ∧ can_remove_task head = true) := by
      intro h
      have := hrecent head (List.mem_cons_self _ _) h.2
      omega
    simp only [remove_oldest_scan, hhead, if_false]
    exact ih (fun t ht => hrecent t (List.mem_cons_of_mem _ ht)) (idx + 1)

theorem queue_task_refused (rand : Nat → Nat → Nat) (scan_time seed_time timestamp : Int)
    (task : Option cJSON) (g : task_queue_globals) (hfull : TASK_QUEUE_MAX ≤ g.task_queue_len)
    (hrecent : ∀ t ∈ g.task_queue, can_remove_task t = true → scan_time ≤ t.created) :
    queue_task rand scan_time seed_time timestamp task g =
      some { ret := false, task_id := none, globals := g } := by
  unfold queue_task remove_oldest_non_running_task
  rw [if_pos hfull, remove_oldest_scan_none _ _ hrecent]

theorem remove_oldest_scan_some (q : List task_node_t) (timestamp : Int) (idx : Nat)
    (task_node_delete : Option Nat) (k : Nat)
    (h : remove_oldest_scan q timestamp idx task_node_delete = some k) :
    task_node_delete = some k ∨
      (idx ≤ k ∧ ∃ t, q[k - idx]? = some t ∧ can_remove_task t = true) := by
  induction q generalizing timestamp idx task_node_delete with
  | nil => exact Or.inl h
  | cons head rest ih =>
    unfold remove_oldest_scan at h
    split at h
    · rename_i hc
      rcases ih _ _ _ h with hk | ⟨hle, t, ht, hterm⟩
      · have hk' : idx = k := Option.some.inj hk
        subst hk'
        exact Or.inr ⟨le_refl _, head, by simp, hc.2⟩
      · refine Or.inr ⟨by omega, t, ?_, hterm⟩
        have : k - idx = (k - (idx + 1)) + 1 := by omega
        rw [this]
        simpa using ht
    · rcases ih _ _ _ h with hk | ⟨hle, t, ht, hterm⟩
      · exact Or.inl hk
      · refine Or.inr ⟨by omega, t, ?_, hterm⟩
        have : k - idx = (k - (idx + 1)) + 1 := by omega
        rw [this]
        simpa using ht

theorem remove_oldest_cases (now : Int) (q : List task_node_t) :
    remove_oldest_non_running_task now q = (false, q) ∨
      ∃ i t, q[i]? = some t ∧ can_remove_task t = true ∧
        remove_oldest_non_running_task now q = (true, q.modify mark_for_deletion i) := by
  unfold remove_oldest_non_running_task
  cases h : remove_oldest_scan q now 0 none with
  | none => exact Or.inl rfl
  | some i =>
    rcases remove_oldest_scan_some q now 0 none i h with hk | ⟨-, t, ht, hterm⟩
    · exact absurd hk (by simp)
    · exact Or.inr ⟨i, t, by simpa using ht, hterm, rfl⟩

theorem queue_task_append_cases (rand : Nat → Nat → Nat) (seed_time timestamp : Int)
    (task : Option cJSON) (g : task_queue_globals) (r : queue_task_result)
    (h : queue_task_append rand seed_time timestamp task g = some r) :
    ∃ node, node.deleteTask = false ∧ r.globals.task_queue = g.task_queue ++ [node] ∧
      (g.task_queue = [] → r.globals.task_queue_len = 1) ∧
      (g.task_queue ≠ [] → r.globals.task_queue_len = uint8_wrap (g.task_queue_len + 1)) := by
  unfold queue_task_append at h
  cases hn : task_node_new rand seed_time timestamp task with
  | none => rw [hn] at h; exact absurd h (by simp)
  | some node =>
    have hflag : node.deleteTask = false := by
      simp only [task_node_new] at hn
      split at hn
      · exact absurd hn (by simp)
      · have := Option.some.inj hn
        rw [← this]
        rfl
    rw [hn] at h
    cases hq : g.task_queue with
    | nil =>
      rw [hq] at h
      have := Option.some.inj h
      rw [← this]
      exact ⟨node, hflag, rfl, fun _ => rfl, fun hne => absurd rfl hne⟩
    | cons head rest =>
      rw [hq] at h
      have := Option.some.inj h
      rw [← this]
      exact ⟨node, hflag, rfl, fun hnil => by simp at hnil, fun _ => rfl⟩

/-- The three outcomes of `queue_task`: refused at capacity, appended below
capacity, or appended at capacity after one terminal task was marked. -/
theorem queue_task_cases (rand : Nat → Nat → Nat) (scan_time seed_time timestamp : Int)
    (task : Option cJSON) (g : task_queue_globals) (r : queue_task_result)
    (h : queue_task rand scan_time seed_time timestamp task g = some r) :
    (TASK_QUEUE_MAX ≤ g.task_queue_len ∧ r.globals = g) ∨
    (g.task_queue_len < TASK_QUEUE_MAX ∧ ∃ node, node.deleteTask = false ∧
      r.globals.task_queue = g.task_queue ++ [node] ∧
      (g.task_queue = [] → r.globals.task_queue_len = 1) ∧
      (g.task_queue ≠ [] → r.globals.task_queue_len = uint8_wrap (g.task_queue_len + 1))) ∨
    (TASK_QUEUE_MAX ≤ g.task_queue_len ∧ ∃ i t node, g.task_queue[i]? = some t ∧
      can_remove_task t = true ∧ node.deleteTask = false ∧
      r.globals.task_queue = g.task_queue.modify mark_for_deletion i ++ [node] ∧
      r.globals.task_queue_len = uint8_wrap (g.task_queue_len + 1)) := by
  unfold queue_task at h
  split at h
  · rename_i hfull
    rcases remove_oldest_cases scan_time g.task_queue with hno | ⟨i, t, ht, hterm, hyes⟩
    · rw [hno] at h
      have := Option.some.inj h
      rw [← this]
      exact Or.inl ⟨hfull, rfl⟩
    · rw [hyes] at h
      obtain ⟨node, hflag, hq, -, hlen⟩ := queue_task_append_cases _ _ _ _ _ _ h
      refine Or.inr (Or.inr ⟨hfull, i, t, node, ht, hterm, hflag, hq, ?_⟩)
      apply hlen
      intro hnil
      have hlen0 : (g.task_queue.modify mark_for_deletion i).length = 0 := by
        have hnil' : g.task_queue.modify mark_for_deletion i = [] := hnil
        rw [hnil']
        rfl
      have hi : i < g.task_queue.length := by
        by_contra hge
        rw [List.getElem?_eq_none (by omega)] at ht
        exact absurd ht (by simp)
      rw [List.length_modify] at hlen0
      omega
  · rename_i hbelow
    exact Or.inr (Or.inl ⟨by omega, queue_task_append_cases _ _ _ _ _ _ h⟩)

theorem getElem?_lt_length {α : Type} (l : List α) (i : Nat) (a : α) (h : l[i]? = some a) :
    i < l.length := by
  by_contra hge
  rw [List.getElem?_eq_none (by omega)] at h
  exact absurd h (by simp)

theorem call_clean_registered {W : Type} (handlers : List (task_handlers_t W))
    (node : task_node_t) (w : W) (h : task_handlers_t W)
    (clean : task_node_t → W → rest_actions_task_result_t × W)
    (hh : task_handler_by_task_type_id handlers node.type = some h) (hc : h.clean = some clean) :
    call_clean handlers node w = ((clean node w).2, [handler_call.clean node]) := by
  simp [call_clean, hh, hc]

theorem step_at_live_node {W : Type} (handlers : List (task_handlers_t W))
    (current_time eval_time : Int) (s : driver_state W) (i : Nat) (node : task_node_t)
    (hhead : s.head = some i) (hnode : s.globals.task_queue[i]? = some node)
    (hflag : node.deleteTask = false) :
    rest_task_queue_task_step handlers current_time eval_time s =
      { globals :=
          { s.globals with
            task_queue := s.globals.task_queue.set i
              (visit_live handlers current_time eval_time node s.world).task_node }
        head := next_pointer s.globals.task_queue i
        world := (visit_live handlers current_time eval_time node s.world).world
        calls := s.calls ++ (visit_live handlers current_time eval_time node s.world).calls } := by
  simp [rest_task_queue_task_step, hhead, hnode, hflag]

theorem visit_live_terminal {W : Type} (handlers : List (task_handlers_t W))
    (current_time eval_time : Int) (node : task_node_t) (w : W)
    (hterm : can_remove_task node = true) :
    (visit_live handlers current_time eval_time node w).task_node = node := by
  have hnot : ¬ (node.status = ACTIONS_TASK_STATUS_PENDING ∨
      node.status = ACTIONS_TASK_STATUS_ACTIVE) := by
    unfold can_remove_task at hterm
    rintro (hs | hs) <;> rw [hs] at hterm <;> exact absurd hterm (by decide)
  unfold visit_live
  rw [if_neg hnot]

theorem visit_live_deleteTask {W : Type} (handlers : List (task_handlers_t W))
    (current_time eval_time : Int) (node : task_node_t) (w : W) :
    (visit_live handlers current_time eval_time node w).task_node.deleteTask =
      node.deleteTask := by
  unfold visit_live process_task evaluate_task task_update_status
  dsimp only
  repeat' split
  all_goals rfl

theorem queue_invariant_init : queue_invariant task_queue_globals_init :=
  ⟨rfl, by simp [task_queue_globals_init],
    fun h => by simp [task_queue_globals_init, TASK_QUEUE_MAX] at h⟩

theorem queue_invariant_driver {W : Type} (handlers : List (task_handlers_t W))
    (current_time eval_time : Int) (s : driver_state W) (hinv : queue_invariant s.globals) :
    queue_invariant (rest_task_queue_task_step handlers current_time eval_time s).globals := by
  obtain ⟨hlen, hle, hmark⟩ := hinv
  unfold rest_task_queue_task_step
  cases hh : s.head with
  | none => exact ⟨hlen, hle, hmark⟩
  | some i =>
    simp only
    cases hn : s.globals.task_queue[i]? with
    | none => exact ⟨hlen, hle, hmark⟩
    | some node =>
      simp only
      have hi := getElem?_lt_length _ _ _ hn
      by_cases hflag : node.deleteTask = true
      · rw [if_pos hflag]
        have hlen' : (s.globals.task_queue.eraseIdx i).length = s.globals.task_queue.length - 1 :=
          List.length_eraseIdx_of_lt hi
        have hpos : s.globals.task_queue_len > 0 := by omega
        refine ⟨?_, ?_, ?_⟩
        · show (if s.globals.task_queue_len > 0 then s.globals.task_queue_len - 1
            else s.globals.task_queue_len) = (s.globals.task_queue.eraseIdx i).length
          rw [if_pos hpos, hlen', hlen]
        · show (s.globals.task_queue.eraseIdx i).length ≤ TASK_QUEUE_MAX + 1
          omega
        · show (s.globals.task_queue.eraseIdx i).length = TASK_QUEUE_MAX + 1 → _
          intro h
          omega
      · rw [if_neg hflag]
        refine ⟨?_, ?_, ?_⟩
        · show s.globals.task_queue_len = (s.globals.task_queue.set i _).length
          rw [List.length_set, hlen]
        · show (s.globals.task_queue.set i _).length ≤ TASK_QUEUE_MAX + 1
          rw [List.length_set]
          exact hle
        · show (s.globals.task_queue.set i _).length = TASK_QUEUE_MAX + 1 →
            ∃ t ∈ s.globals.task_queue.set i _, t.deleteTask = true
          rw [List.length_set]
          intro h
          obtain ⟨t, ht, htflag⟩ := hmark h
          obtain ⟨k, hk⟩ := List.mem_iff_getElem?.mp ht
          have hki : i ≠ k := by
            intro heq
            subst heq
            rw [hn] at hk
            have := Option.some.inj hk
            rw [this] at hflag
            exact hflag htflag
          exact ⟨t, List.mem_iff_getElem?.mpr ⟨k, by rw [List.getElem?_set_ne hki, hk]⟩,
            htflag⟩

theorem queue_invariant_queue_task (rand : Nat → Nat → Nat)
    (scan_time seed_time timestamp : Int) (task : Option cJSON) (g : task_queue_globals)
    (r : queue_task_result) (hinv : queue_invariant g) (hnone : no_task_marked g = true)
    (h : queue_task rand scan_time seed_time timestamp task g = some r) :
    queue_invariant r.globals := by
  obtain ⟨hlen, hle, hmark⟩ := hinv
  have hle10 : g.task_queue.length ≤ TASK_QUEUE_MAX := by
    by_contra hgt
    obtain ⟨t, ht, htflag⟩ := hmark (by omega)
    have hall := List.all_eq_true.mp hnone t ht
    rw [htflag] at hall
    exact absurd hall (by decide)
  rcases queue_task_cases _ _ _ _ _ _ _ h with
    ⟨-, hg⟩ | ⟨hbelow, node, -, hr, hnil, hcons⟩ |
    ⟨hfull, i, t0, node, ht0, -, -, hr, hrlen⟩
  · rw [hg]
    exact ⟨hlen, hle, hmark⟩
  · have hrl : r.globals.task_queue.length = g.task_queue.length + 1 := by
      rw [hr]; simp
    refine ⟨?_, by omega, fun h11 => by omega⟩
    rw [hrl]
    by_cases hq : g.task_queue = []
    · rw [hnil hq, hq]; rfl
    · rw [hcons hq, hlen]
      unfold uint8_wrap
      unfold TASK_QUEUE_MAX at hle10
      omega
  · have hrl : r.globals.task_queue.length = g.task_queue.length + 1 := by
      rw [hr]; simp
    have hi := getElem?_lt_length _ _ _ ht0
    refine ⟨?_, by omega, fun _ => ?_⟩
    · rw [hrl, hrlen, hlen]
      unfold uint8_wrap
      unfold TASK_QUEUE_MAX at hle10
      omega
    · refine ⟨mark_for_deletion t0, ?_, rfl⟩
      rw [hr]
      apply List.mem_append_left
      apply List.mem_iff_getElem?.mpr
      exact ⟨i, by rw [List.getElem?_modify_eq, ht0]; rfl⟩

theorem unmarked_le_of_invariant (g : task_queue_globals) (hinv : queue_invariant g) :
    (g.task_queue.filter (fun t => !t.deleteTask)).length ≤ TASK_QUEUE_MAX := by
  obtain ⟨-, hle, hmark⟩ := hinv
  by_cases h11 : g.task_queue.length = TASK_QUEUE_MAX + 1
  · obtain ⟨t, ht, htflag⟩ := hmark h11
    have hlt : (g.task_queue.filter (fun t => !t.deleteTask)).length < g.task_queue.length := by
      apply List.length_filter_lt_length_iff_exists.mpr
      exact ⟨t, ht, by simp [htflag]⟩
    omega
  · have := List.length_filter_le (fun t : task_node_t => !t.deleteTask) g.task_queue
    omega

theorem queue_invariant_run {W : Type} (handlers : List (task_handlers_t W))
    (events : List engine_event) (s0 s : driver_state W) (hinv : queue_invariant s0.globals)
    (hrun : engine_run handlers s0 events = some s)
    (hpaced : evictions_carried_out handlers s0 events = true) :
    queue_invariant s.globals := by
  induction events generalizing s0 with
  | nil =>
    simp only [engine_run] at hrun
    rw [← Option.some.inj hrun]
    exact hinv
  | cons e rest ih =>
    simp only [engine_run] at hrun
    simp only [evictions_carried_out, Bool.and_eq_true] at hpaced
    cases hap : engine_apply handlers s0 e with
    | none => rw [hap] at hrun; exact absurd hrun (by simp)
    | some s1 =>
      rw [hap] at hrun
      rw [hap] at hpaced
      refine ih s1 ?_ hrun hpaced.2
      cases e with
      | queue rand scan_time seed_time timestamp task =>
        simp only [engine_apply] at hap
        cases hq : queue_task rand scan_time seed_time timestamp task s0.globals with
        | none => rw [hq] at hap; exact absurd hap (by simp)
        | some r =>
          rw [hq] at hap
          rw [← Option.some.inj hap]
          exact queue_invariant_queue_task _ _ _ _ _ _ _ hinv hpaced.1 hq
      | driver current_time eval_time =>
        simp only [engine_apply] at hap
        rw [← Option.some.inj hap]
        exact queue_invariant_driver handlers current_time eval_time s0 hinv

/-! ### Invariants of runs: registered types, marked tasks are stopped -/

theorem task_type_id_from_name_eq (task_name : Option String) (type_id : rest_actions_task_t)
    (h : task_type_id_from_name task_name = some type_id) :
    type_id = rest_actions_task_t.ADD_THREAD_DEVICE_TASK := by
  cases task_name with
  | none => simp [task_type_id_from_name] at h
  | some n =>
    simp only [task_type_id_from_name, handlers_type_names, task_type_id_scan] at h
    split at h
    · exact (Option.some.inj h).symm
    · exact absurd h (by simp)

theorem task_node_new_type (rand : Nat → Nat → Nat) (seed_time timestamp : Int)
    (task : Option cJSON) (node : task_node_t)
    (h : task_node_new rand seed_time timestamp task = some node) :
    node.type = rest_actions_task_t.ADD_THREAD_DEVICE_TASK ∧ node.deleteTask = false := by
  simp only [task_node_new] at h
  split at h
  · exact absurd h (by simp)
  · rename_i task_type _
    rw [← Option.some.inj h]
    refine ⟨?_, rfl⟩
    show (match task_type_id_from_name (cJSON_valuestring task_type) with
      | some type_id => type_id
      | none => rest_actions_task_t.ADD_THREAD_DEVICE_TASK) = _
    cases hid : task_type_id_from_name (cJSON_valuestring task_type) with
    | none => rfl
    | some type_id => exact task_type_id_from_name_eq _ _ hid

theorem visit_live_type {W : Type} (handlers : List (task_handlers_t W))
    (current_time eval_time : Int) (node : task_node_t) (w : W) :
    (visit_live handlers current_time eval_time node w).task_node.type = node.type := by
  unfold visit_live process_task evaluate_task task_update_status
  dsimp only
  repeat' split
  all_goals rfl


theorem mem_modify_cases {α : Type} (f : α → α) (i : Nat) (l : List α) (a : α)
    (h : a ∈ l.modify f i) : a ∈ l ∨ ∃ b ∈ l, a = f b := by
  obtain ⟨k, hk⟩ := List.mem_iff_getElem?.mp h
  rw [List.getElem?_modify] at hk
  cases hl : l[k]? with
  | none => rw [hl] at hk; exact absurd hk (by simp)
  | some b =>
    rw [hl] at hk
    have hb : b ∈ l := List.mem_iff_getElem?.mpr ⟨k, hl⟩
    simp only [Option.map_eq_map, Option.map_some', Option.some.injEq] at hk
    by_cases hik : i = k
    · rw [if_pos hik] at hk
      exact Or.inr ⟨b, hb, hk.symm⟩
    · rw [if_neg hik] at hk
      rw [← hk]
      exact Or.inl hb

theorem queue_task_append_node (rand : Nat → Nat → Nat) (seed_time timestamp : Int)
    (task : Option cJSON) (g : task_queue_globals) (r : queue_task_result)
    (h : queue_task_append rand seed_time timestamp task g = some r) :
    ∃ node, task_node_new rand seed_time timestamp task = some node ∧
      r.globals.task_queue = g.task_queue ++ [node] := by
  unfold queue_task_append at h
  cases hn : task_node_new rand seed_time timestamp task with
  | none => rw [hn] at h; exact absurd h (by simp)
  | some node =>
    rw [hn] at h
    refine ⟨node, rfl, ?_⟩
    cases hq : g.task_queue with
    | nil =>
      rw [hq] at h
      rw [← Option.some.inj h]
      rfl
    | cons head rest =>
      rw [hq] at h
      rw [← Option.some.inj h]

theorem nodes_well_formed_queue_task (rand : Nat → Nat → Nat)
    (scan_time seed_time timestamp : Int) (task : Option cJSON) (g : task_queue_globals)
    (r : queue_task_result) (hwf : nodes_well_formed g)
    (h : queue_task rand scan_time seed_time timestamp task g = some r) :
    nodes_well_formed r.globals := by
  have happend : ∀ q : List task_node_t,
      (∀ t ∈ q, t.type = rest_actions_task_t.ADD_THREAD_DEVICE_TASK ∧
        (t.deleteTask = true → t.status = ACTIONS_TASK_STATUS_STOPPED)) →
      queue_task_append rand seed_time timestamp task { g with task_queue := q } = some r →
      nodes_well_formed r.globals := by
    intro q hq hr
    obtain ⟨node, hnode, hrq⟩ := queue_task_append_node _ _ _ _ _ _ hr
    obtain ⟨htype, hflag⟩ := task_node_new_type _ _ _ _ _ hnode
    intro t ht
    rw [hrq] at ht
    rcases List.mem_append.mp ht with hmem | hmem
    · exact hq t hmem
    · rw [List.mem_singleton.mp hmem]
      exact ⟨htype, fun hf => by rw [hflag] at hf; exact absurd hf (by decide)⟩
  unfold queue_task at h
  split at h
  · rcases remove_oldest_cases scan_time g.task_queue with hno | ⟨i, t0, -, -, hyes⟩
    · rw [hno] at h
      rw [← Option.some.inj h]
      exact hwf
    · rw [hyes] at h
      refine happend _ ?_ h
      intro t ht
      rcases mem_modify_cases _ _ _ _ ht with hmem | ⟨b, hb, hbt⟩
      · exact hwf t hmem
      · rw [hbt]
        exact ⟨(hwf b hb).1, fun _ => rfl⟩
  · exact happend g.task_queue hwf h

theorem nodes_well_formed_driver {W : Type} (handlers : List (task_handlers_t W))
    (current_time eval_time : Int) (s : driver_state W) (hwf : nodes_well_formed s.globals) :
    nodes_well_formed (rest_task_queue_task_step handlers current_time eval_time s).globals := by
  unfold rest_task_queue_task_step
  cases hh : s.head with
  | none => exact hwf
  | some i =>
    simp only
    cases hn : s.globals.task_queue[i]? with
    | none => exact hwf
    | some node =>
      simp only
      by_cases hflag : node.deleteTask = true
      · rw [if_pos hflag]
        intro t ht
        exact hwf t (List.mem_of_mem_eraseIdx ht)
      · rw [if_neg hflag]
        intro t ht
        rcases List.mem_or_eq_of_mem_set ht with hmem | heq
        · exact hwf t hmem
        · have hnode : node ∈ s.globals.task_queue := List.mem_iff_getElem?.mpr ⟨i, hn⟩
          rw [heq]
          refine ⟨by rw [visit_live_type]; exact (hwf node hnode).1, fun hf => ?_⟩
          rw [visit_live_deleteTask] at hf
          exact absurd hf hflag

/-- In every state of a run from the empty queue, every task has the registered
task type and every task marked for deletion is stopped: a pending or active
task is never marked. -/
theorem nodes_well_formed_run {W : Type} (handlers : List (task_handlers_t W))
    (events : List engine_event) (s0 s : driver_state W) (hwf : nodes_well_formed s0.globals)
    (hrun : engine_run handlers s0 events = some s) :
    nodes_well_formed s.globals := by
  induction events generalizing s0 with
  | nil =>
    simp only [engine_run] at hrun
    rw [← Option.some.inj hrun]
    exact hwf
  | cons e rest ih =>
    simp only [engine_run] at hrun
    cases hap : engine_apply handlers s0 e with
    | none => rw [hap] at hrun; exact absurd hrun (by simp)
    | some s1 =>
      rw [hap] at hrun
      refine ih s1 ?_ hrun
      cases e with
      | queue rand scan_time seed_time timestamp task =>
        simp only [engine_apply] at hap
        cases hq : queue_task rand scan_time seed_time timestamp task s0.globals with
        | none => rw [hq] at hap; exact absurd hap (by simp)
        | some r =>
          rw [hq] at hap
          rw [← Option.some.inj hap]
          exact nodes_well_formed_queue_task _ _ _ _ _ _ _ hwf hq
      | driver current_time eval_time =>
        simp only [engine_apply] at hap
        rw [← Option.some.inj hap]
        exact nodes_well_formed_driver handlers current_time eval_time s0 hwf

/-- With a table of one row, as in the source, every task of a run from the
empty queue has that row as its handlers. -/
theorem handlers_registered_in_run {W : Type} (row : task_handlers_t W) (w0 : W)
    (events : List engine_event) (s : driver_state W)
    (hrun : engine_run [row] (driver_init task_queue_globals_init w0) events = some s) :
    ∀ t ∈ s.globals.task_queue, task_handler_by_task_type_id [row] t.type = some row := by
  intro t ht
  have hwf := nodes_well_formed_run [row] events _ s
    (fun t ht => absurd ht (by simp [driver_init, task_queue_globals_init])) hrun
  rw [(hwf t ht).1]
  rfl


/-! ## Claim C1: fresh identifiers -/

/-- Claim C1 (broken by the code). `uuid_generate_random` seeds the generator
with the clock second on every call, so the identifier it makes is a function of
that second alone. For every generator and every clock second `now`, two
`queue_task` calls made from the empty queue while the clock reads `now` both
succeed and both return the identifier `uuid_generate_random rand now`; the
queue then holds two tasks with that same identifier. -/
theorem queue_task_same_second_same_id (rand : Nat → Nat → Nat) (now : Int)
    (scan1 timestamp1 scan2 timestamp2 seconds1 seconds2 : Int) :
    ∃ r1 r2,
      queue_task rand scan1 now timestamp1 (example_task seconds1) task_queue_globals_init =
        some r1 ∧
      queue_task rand scan2 now timestamp2 (example_task seconds2) r1.globals = some r2 ∧
      r1.ret = true ∧ r2.ret = true ∧
      r1.task_id = some (uuid_generate_random rand now) ∧ r2.task_id = r1.task_id ∧
      r2.globals.task_queue.map (fun n => n.id) =
        [uuid_generate_random rand now, uuid_generate_random rand now] := by
  obtain ⟨n1, hn1, hid1, -⟩ :=
    task_node_new_spec rand now timestamp1 (example_task seconds1)
      (has_type_example_task seconds1)
  obtain ⟨n2, hn2, hid2, -⟩ :=
    task_node_new_spec rand now timestamp2 (example_task seconds2)
      (has_type_example_task seconds2)
  refine ⟨{ ret := true, task_id := some n1.id,
            globals := { task_queue := [n1], task_queue_len := 1 } },
          { ret := true, task_id := some n2.id,
            globals := { task_queue := [n1, n2], task_queue_len := 2 } },
          ?_, ?_, rfl, rfl, ?_, ?_, ?_⟩
  · simp [queue_task, queue_task_append, task_queue_globals_init, TASK_QUEUE_MAX, hn1]
  · simp [queue_task, queue_task_append, TASK_QUEUE_MAX, hn2, uint8_wrap]
  · simp [hid1]
  · simp [hid1, hid2]
  · simp [hid1, hid2]

/-! ## Claim C2: a full queue without terminal task -/

/-- Claim C2. For every queue holding `TASK_QUEUE_MAX` tasks, counted by
`task_queue_len`, none of which is completed, failed or stopped, `queue_task`
returns false, writes no identifier and leaves the globals as they were: the
same nodes in the same order, with their statuses and deletion flags, and the
same `task_queue_len`. -/
theorem queue_task_full_without_terminal (rand : Nat → Nat → Nat)
    (scan_time seed_time timestamp : Int) (task : Option cJSON) (g : task_queue_globals)
    (hfull : g.task_queue.length = TASK_QUEUE_MAX)
    (hlen : g.task_queue_len = g.task_queue.length)
    (hnone : ∀ t ∈ g.task_queue, can_remove_task t = false) :
    queue_task rand scan_time seed_time timestamp task g =
      some { ret := false, task_id := none, globals := g } :=
  queue_task_refused rand scan_time seed_time timestamp task g (by omega)
    (fun t ht h => by rw [hnone t ht] at h; exact absurd h (by decide))

/-- Claim C2 at a queue of ten pending tasks. -/
theorem queue_task_full_without_terminal_witness :
    example_queue_pending.length = TASK_QUEUE_MAX ∧
    (∀ t ∈ example_queue_pending, can_remove_task t = false) ∧
    queue_task zero_rand 200 200 200 (example_task 60)
        { task_queue := example_queue_pending, task_queue_len := 10 } =
      some { ret := false, task_id := none,
             globals := { task_queue := example_queue_pending, task_queue_len := 10 } } :=
  ⟨by decide, by decide,
    queue_task_full_without_terminal zero_rand 200 200 200 (example_task 60)
      { task_queue := example_queue_pending, task_queue_len := 10 } (by decide) (by decide)
      (by decide)⟩

/-! ## Claim C3: eviction of the oldest terminal task -/

/-- Claim C3 (broken by the code). The scan of
`remove_oldest_non_running_task` starts from `timestamp = now` and takes a task
only when `timestamp > created`. So for every queue at capacity whose terminal
tasks were all created in the clock second of the call (or later), nothing is
selected: `queue_task` returns false and leaves the queue unchanged, whether or
not a terminal task is present. -/
theorem queue_task_refuses_terminal_of_current_second (rand : Nat → Nat → Nat)
    (scan_time seed_time timestamp : Int) (task : Option cJSON) (g : task_queue_globals)
    (hfull : TASK_QUEUE_MAX ≤ g.task_queue_len)
    (hrecent : ∀ t ∈ g.task_queue, can_remove_task t = true → scan_time ≤ t.created) :
    queue_task rand scan_time seed_time timestamp task g =
      some { ret := false, task_id := none, globals := g } :=
  queue_task_refused rand scan_time seed_time timestamp task g hfull hrecent

/-- Claim C3 at a full queue whose one completed task was created in the clock
second of the call: a terminal task is present, and `queue_task` refuses. -/
theorem queue_task_refuses_terminal_of_current_second_witness :
    (example_queue_one_completed 200).length = TASK_QUEUE_MAX ∧
    (∃ t ∈ example_queue_one_completed 200, can_remove_task t = true) ∧
    queue_task zero_rand 200 200 200 (example_task 60)
        { task_queue := example_queue_one_completed 200, task_queue_len := 10 } =
      some { ret := false, task_id := none,
             globals := { task_queue := example_queue_one_completed 200, task_queue_len := 10 } } :=
  ⟨by decide, by decide,
    queue_task_refuses_terminal_of_current_second zero_rand 200 200 200 (example_task 60)
      { task_queue := example_queue_one_completed 200, task_queue_len := 10 } (by decide)
      (by decide)⟩

/-! ### What the eviction does otherwise -/

/-- The scan of `remove_oldest_non_running_task` over a list that has a terminal
task created before `timestamp`: it selects the first of the terminal tasks
with the smallest creation time. -/
theorem remove_oldest_scan_oldest (l : List task_node_t) (timestamp : Int) (idx : Nat)
    (task_node_delete : Option Nat)
    (hex : ∃ t ∈ l, can_remove_task t = true ∧ t.created < timestamp) :
    ∃ k t0, remove_oldest_scan l timestamp idx task_node_delete = some (idx + k) ∧
      l[k]? = some t0 ∧ can_remove_task t0 = true ∧ t0.created < timestamp ∧
      (∀ t ∈ l, can_remove_task t = true → t0.created ≤ t.created) ∧
      (∀ j t, j < k → l[j]? = some t → can_remove_task t = true →
        t0.created < t.created) := by
  induction l generalizing timestamp idx task_node_delete with
  | nil =>
    obtain ⟨t, ht, -⟩ := hex
    exact absurd ht (by simp)
  | cons head rest ih =>
    unfold remove_oldest_scan
    by_cases hc : timestamp > head.created ∧ can_remove_task head = true
    · rw [if_pos hc]
      by_cases hrest : ∃ t ∈ rest, can_remove_task t = true ∧ t.created < head.created
      · obtain ⟨k, t0, hscan, hk, hterm, hlt, hmin, hfirst⟩ :=
          ih head.created (idx + 1) (some idx) hrest
        refine ⟨k + 1, t0, ?_, by simpa using hk, hterm, by omega, ?_, ?_⟩
        · rw [hscan]
          congr 1
          omega
        · intro t ht hterm'
          rcases List.mem_cons.mp ht with heq | hmem
          · rw [heq]; omega
          · exact hmin t hmem hterm'
        · intro j t hj hjt hterm'
          cases j with
          | zero =>
            simp at hjt
            rw [← hjt]
            exact hlt
          | succ j' =>
            exact hfirst j' t (by omega) (by simpa using hjt) hterm'
      · have hnone : ∀ t ∈ rest, can_remove_task t = true → head.created ≤ t.created := by
          intro t ht hterm'
          by_contra hlt
          exact hrest ⟨t, ht, hterm', by omega⟩
        refine ⟨0, head, ?_, by simp, hc.2, hc.1, ?_, ?_⟩
        · rw [remove_oldest_scan_none rest head.created hnone]
          rfl
        · intro t ht hterm'
          rcases List.mem_cons.mp ht with heq | hmem
          · rw [heq]
          · exact hnone t hmem hterm'
        · intro j t hj
          exact absurd hj (by omega)
    · rw [if_neg hc]
      have hrest : ∃ t ∈ rest, can_remove_task t = true ∧ t.created < timestamp := by
        obtain ⟨t, ht, hterm', hlt⟩ := hex
        rcases List.mem_cons.mp ht with heq | hmem
        · rw [heq] at hterm' hlt
          exact absurd ⟨hlt, hterm'⟩ hc
        · exact ⟨t, hmem, hterm', hlt⟩
      obtain ⟨k, t0, hscan, hk, hterm, hlt, hmin, hfirst⟩ :=
        ih timestamp (idx + 1) task_node_delete hrest
      have hhead : can_remove_task head = true → t0.created < head.created := by
        intro hterm'
        by_contra hge
        exact hc ⟨by omega, hterm'⟩
      refine ⟨k + 1, t0, ?_, by simpa using hk, hterm, hlt, ?_, ?_⟩
      · rw [hscan]
        congr 1
        omega
      · intro t ht hterm'
        rcases List.mem_cons.mp ht with heq | hmem
        · rw [heq]
          exact le_of_lt (hhead (heq ▸ hterm'))
        · exact hmin t hmem hterm'
      · intro j t hj hjt hterm'
        cases j with
        | zero =>
          simp at hjt
          rw [← hjt]
          rw [← hjt] at hterm'
          exact hhead hterm'
        | succ j' =>
          exact hfirst j' t (by omega) (by simpa using hjt) hterm'

/-- What the eviction does when a terminal task is older than the clock second
of the call: `queue_task` succeeds for a task description with a `type` member,
and the task it marks is the first, in queue order, of the terminal tasks with
the smallest creation time. -/
theorem queue_task_evicts_oldest (rand : Nat → Nat → Nat) (scan_time seed_time timestamp : Int)
    (task : Option cJSON) (g : task_queue_globals)
    (hfull : TASK_QUEUE_MAX ≤ g.task_queue_len)
    (htype : cJSON_GetObjectItemCaseSensitive task "type" ≠ none)
    (hex : ∃ t ∈ g.task_queue, can_remove_task t = true ∧ t.created < scan_time) :
    ∃ k t0 node,
      g.task_queue[k]? = some t0 ∧ can_remove_task t0 = true ∧
      (∀ t ∈ g.task_queue, can_remove_task t = true → t0.created ≤ t.created) ∧
      (∀ j t, j < k → g.task_queue[j]? = some t → can_remove_task t = true →
        t0.created < t.created) ∧
      queue_task rand scan_time seed_time timestamp task g =
        some { ret := true, task_id := some node.id,
               globals := { task_queue := g.task_queue.modify mark_for_deletion k ++ [node],
                            task_queue_len := uint8_wrap (g.task_queue_len + 1) } } := by
  obtain ⟨k, t0, hscan, hk, hterm, -, hmin, hfirst⟩ :=
    remove_oldest_scan_oldest g.task_queue scan_time 0 none hex
  rw [Nat.zero_add] at hscan
  obtain ⟨node, r, -, hr, hret, hid, hq, -, hcons⟩ :=
    queue_task_append_spec rand seed_time timestamp task
      { g with task_queue := g.task_queue.modify mark_for_deletion k } htype
  refine ⟨k, t0, node, hk, hterm, hmin, hfirst, ?_⟩
  unfold queue_task remove_oldest_non_running_task
  rw [if_pos hfull, hscan]
  simp only
  rw [hr]
  have hne : g.task_queue.modify mark_for_deletion k ≠ [] := by
    intro hnil
    have hlen0 : (g.task_queue.modify mark_for_deletion k).length = 0 := by
      rw [hnil]; rfl
    rw [List.length_modify] at hlen0
    have := getElem?_lt_length _ _ _ hk
    omega
  have hlen := hcons hne
  obtain ⟨ret, task_id, ⟨q, len⟩⟩ := r
  simp only at hret hid hq hlen
  rw [hret, hid, hq, hlen]


/-! ## Claim C4: the bound on the queue -/

/-- Counterexample to claim C4. After the run `example_run` from the empty
queue (a task is queued and completes, nine more are queued, then an eleventh
evicts the completed one, which is only marked) the queue holds 11 tasks and
`task_queue_len` is 11, more than `TASK_QUEUE_MAX`. -/
theorem queue_exceeds_task_queue_max :
    ∃ s, engine_run (example_handlers ACTIONS_RESULT_SUCCESS ACTIONS_RESULT_SUCCESS)
        (driver_init task_queue_globals_init 0) example_run = some s ∧
      s.globals.task_queue.length = 11 ∧ s.globals.task_queue_len = 11 ∧
      ¬ s.globals.task_queue.length ≤ TASK_QUEUE_MAX :=
  ⟨_, rfl, rfl, rfl, by decide⟩

/-- Claim C4 as amended. Starting from the empty queue, after any finite
sequence of `queue_task` calls and driver-loop passes in which `queue_task` is
called only when no task is marked for deletion, the queue holds at most
`TASK_QUEUE_MAX + 1` tasks, at most `TASK_QUEUE_MAX` of them not marked for
deletion, and `task_queue_len` is the number of tasks held. -/
theorem queue_bound_with_evictions_carried_out {W : Type} (handlers : List (task_handlers_t W))
    (w0 : W) (events : List engine_event) (s : driver_state W)
    (hrun : engine_run handlers (driver_init task_queue_globals_init w0) events = some s)
    (hpaced :
      evictions_carried_out handlers (driver_init task_queue_globals_init w0) events = true) :
    s.globals.task_queue.length ≤ TASK_QUEUE_MAX + 1 ∧
    (s.globals.task_queue.filter (fun t => !t.deleteTask)).length ≤ TASK_QUEUE_MAX ∧
    s.globals.task_queue_len = s.globals.task_queue.length := by
  have hinv := queue_invariant_run handlers events _ s queue_invariant_init hrun hpaced
  exact ⟨hinv.2.1, unmarked_le_of_invariant _ hinv, hinv.1⟩

/-- Claim C4 as amended, at the run `example_run`. -/
theorem queue_bound_with_evictions_carried_out_witness :
    ∃ s, engine_run (example_handlers ACTIONS_RESULT_SUCCESS ACTIONS_RESULT_SUCCESS)
        (driver_init task_queue_globals_init 0) example_run = some s ∧
      s.globals.task_queue.length ≤ TASK_QUEUE_MAX + 1 ∧
      (s.globals.task_queue.filter (fun t => !t.deleteTask)).length ≤ TASK_QUEUE_MAX ∧
      s.globals.task_queue_len = s.globals.task_queue.length :=
  ⟨_, rfl, queue_bound_with_evictions_carried_out
    (example_handlers ACTIONS_RESULT_SUCCESS ACTIONS_RESULT_SUCCESS) 0 example_run _ rfl rfl⟩

/-! ## Claim C5: queueing below capacity -/

/-- Counterexample to claim C5. At time 1700000000 a task that requests a
timeout of 2000000000 seconds is queued with the timeout -594967296, not
1700000000 + 2000000000: the sum does not fit the `int` member `timeout`. -/
theorem queue_task_timeout_overflow :
    ∃ r, queue_task zero_rand 0 1700000000 1700000000 (example_task 2000000000)
        task_queue_globals_init = some r ∧
      r.ret = true ∧
      r.globals.task_queue.map (fun n => n.timeout) = [-594967296] ∧
      r.globals.task_queue.map (fun n => n.timeout) ≠ [1700000000 + 2000000000] :=
  ⟨_, rfl, rfl, by decide, by decide⟩

/-- Claim C5 as amended. For every queue below capacity whose
`task_queue_len` counts its tasks, and every task description with a `type`
member, `queue_task` returns true; the queue afterwards is the previous queue
followed by one new node; the identifier written out is the id of that node;
`task_queue_len` has grown by one; the node is pending, not marked for
deletion, with `created` the creation time. When `attributes.timeout` is a
number and the sum of the creation time and the requested seconds fits in an
`int`, its timeout is that sum; when `attributes.timeout` is not a number its
timeout is `ACTIONS_TASK_NO_TIMEOUT`. -/
theorem queue_task_below_capacity (rand : Nat → Nat → Nat) (scan_time seed_time timestamp : Int)
    (task : Option cJSON) (g : task_queue_globals)
    (hbelow : g.task_queue_len < TASK_QUEUE_MAX)
    (hlen : g.task_queue_len = g.task_queue.length)
    (htype : cJSON_GetObjectItemCaseSensitive task "type" ≠ none) :
    ∃ node,
      queue_task rand scan_time seed_time timestamp task g =
        some { ret := true, task_id := some node.id,
               globals := { task_queue := g.task_queue ++ [node],
                            task_queue_len := g.task_queue_len + 1 } } ∧
      node.status = ACTIONS_TASK_STATUS_PENDING ∧ node.deleteTask = false ∧
      node.created = timestamp ∧
      (∀ valueint,
        cJSON_GetObjectItemCaseSensitive (cJSON_GetObjectItemCaseSensitive task "attributes")
            "timeout" = some (cJSON.cJSON_Number valueint) →
          INT_MIN ≤ timestamp + valueint → timestamp + valueint ≤ INT_MAX →
            node.timeout = timestamp + valueint) ∧
      (cJSON_IsNumber
          (cJSON_GetObjectItemCaseSensitive (cJSON_GetObjectItemCaseSensitive task "attributes")
            "timeout") = false →
        node.timeout = ACTIONS_TASK_NO_TIMEOUT) := by
  obtain ⟨node, r, hnode, hr, hret, hid, hq, hnil, hcons⟩ :=
    queue_task_append_spec rand seed_time timestamp task g htype
  obtain ⟨node', hnode', -, hstatus, hflag, hcreated, htimeout⟩ :=
    task_node_new_spec rand seed_time timestamp task htype
  have hsame : node' = node := by
    rw [hnode] at hnode'
    exact (Option.some.inj hnode').symm
  subst hsame
  have hlen' : r.globals.task_queue_len = g.task_queue_len + 1 := by
    cases hqg : g.task_queue with
    | nil =>
      rw [hnil hqg]
      rw [hqg] at hlen
      simp at hlen
      omega
    | cons head rest =>
      rw [hcons (by simp [hqg])]
      unfold uint8_wrap
      unfold TASK_QUEUE_MAX at hbelow
      omega
  refine ⟨node', ?_, hstatus, hflag, hcreated, ?_, ?_⟩
  · unfold queue_task
    rw [if_neg (by omega), hr]
    obtain ⟨ret, task_id, ⟨q, len⟩⟩ := r
    simp only at hret hid hq hlen'
    rw [hret, hid, hq, hlen']
  · intro valueint hv
    have : node'.timeout = int_wrap (timestamp + valueint) := by
      rw [htimeout, requested_timeout, hv]
    intro hlo hhi
    rw [this, int_wrap_of_range _ hlo hhi]
  · intro hnum
    rw [htimeout, requested_timeout]
    split
    · rename_i h
      rw [h] at hnum
      simp [cJSON_IsNumber] at hnum
    · rfl

/-- Claim C5 as amended, at the empty queue and a task with a timeout of 60
seconds. -/
theorem queue_task_below_capacity_witness :
    ∃ node,
      queue_task zero_rand 0 100 100 (example_task 60) task_queue_globals_init =
        some { ret := true, task_id := some node.id,
               globals := { task_queue := [] ++ [node], task_queue_len := 0 + 1 } } ∧
      node.status = ACTIONS_TASK_STATUS_PENDING ∧ node.deleteTask = false ∧
      node.created = 100 ∧
      (∀ valueint,
        cJSON_GetObjectItemCaseSensitive
            (cJSON_GetObjectItemCaseSensitive (example_task 60) "attributes")
            "timeout" = some (cJSON.cJSON_Number valueint) →
          INT_MIN ≤ 100 + valueint → 100 + valueint ≤ INT_MAX →
            node.timeout = 100 + valueint) ∧
      (cJSON_IsNumber
          (cJSON_GetObjectItemCaseSensitive
            (cJSON_GetObjectItemCaseSensitive (example_task 60) "attributes")
            "timeout") = false →
        node.timeout = ACTIONS_TASK_NO_TIMEOUT) :=
  queue_task_below_capacity zero_rand 0 100 100 (example_task 60) task_queue_globals_init
    (by decide) (by decide) (has_type_example_task 60)

/-! ## Claim C6: terminal statuses -/

/-- Counterexample to claim C6. A `queue_task` call on a full queue whose
second task is completed, created before the call, leaves that task stopped:
the capacity eviction moves it from one terminal status to another. -/
theorem eviction_changes_terminal_status :
    ∃ r, queue_task zero_rand 200 200 200 (example_task 60)
        { task_queue := example_queue_one_completed 150, task_queue_len := 10 } = some r ∧
      (example_queue_one_completed 150)[1]?.map (fun n => n.status) =
        some ACTIONS_TASK_STATUS_COMPLETED ∧
      r.globals.task_queue[1]?.map (fun n => n.status) = some ACTIONS_TASK_STATUS_STOPPED :=
  ⟨_, rfl, rfl, rfl⟩

/-- Claim C6 as amended. For every `queue_task` call and every driver-loop
pass, a task that is completed, failed or stopped before the step is afterwards
either unchanged at its place, or (for `queue_task` at capacity only) stopped
and marked for deletion, being the task evicted, or (for a driver-loop pass
only) the pass visited a task marked for deletion and the queue is the previous
one without the visited task. -/
theorem terminal_task_after_event {W : Type} (handlers : List (task_handlers_t W))
    (s s' : driver_state W) (e : engine_event) (j : Nat) (t : task_node_t)
    (hstep : engine_apply handlers s e = some s')
    (ht : s.globals.task_queue[j]? = some t)
    (hterm : can_remove_task t = true) :
    s'.globals.task_queue[j]? = some t ∨
    ((∃ rand scan_time seed_time timestamp task,
        e = engine_event.queue rand scan_time seed_time timestamp task) ∧
      TASK_QUEUE_MAX ≤ s.globals.task_queue_len ∧
      s'.globals.task_queue[j]? = some (mark_for_deletion t)) ∨
    ((∃ current_time eval_time, e = engine_event.driver current_time eval_time) ∧
      ∃ i n, s.head = some i ∧ s.globals.task_queue[i]? = some n ∧ n.deleteTask = true ∧
        s'.globals.task_queue = s.globals.task_queue.eraseIdx i) := by
  have hj := getElem?_lt_length _ _ _ ht
  cases e with
  | queue rand scan_time seed_time timestamp task =>
    simp only [engine_apply] at hstep
    cases hq : queue_task rand scan_time seed_time timestamp task s.globals with
    | none => rw [hq] at hstep; exact absurd hstep (by simp)
    | some r =>
      rw [hq] at hstep
      have hs' := Option.some.inj hstep
      rw [← hs']
      rcases queue_task_cases _ _ _ _ _ _ _ hq with ⟨-, hg⟩ | ⟨-, node, -, hr, -⟩ |
        ⟨hfull, i, t0, node, -, -, -, hr, -⟩
      · left
        show r.globals.task_queue[j]? = some t
        rw [hg, ht]
      · left
        show r.globals.task_queue[j]? = some t
        rw [hr, List.getElem?_append_left hj, ht]
      · by_cases hij : i = j
        · right; left
          refine ⟨⟨_, _, _, _, _, rfl⟩, hfull, ?_⟩
          show r.globals.task_queue[j]? = some (mark_for_deletion t)
          rw [hr, List.getElem?_append_left (by rw [List.length_modify]; exact hj), hij,
            List.getElem?_modify_eq, ht]
          rfl
        · left
          show r.globals.task_queue[j]? = some t
          rw [hr, List.getElem?_append_left (by rw [List.length_modify]; exact hj),
            List.getElem?_modify_ne _ _ hij, ht]
  | driver current_time eval_time =>
    simp only [engine_apply] at hstep
    have hs' := Option.some.inj hstep
    rw [← hs']
    unfold rest_task_queue_task_step
    cases hh : s.head with
    | none => left; simpa using ht
    | some i =>
      simp only
      cases hn : s.globals.task_queue[i]? with
      | none => left; simpa using ht
      | some node =>
        simp only
        by_cases hflag : node.deleteTask = true
        · right; right
          rw [if_pos hflag]
          exact ⟨⟨_, _, rfl⟩, i, node, rfl, hn, hflag, rfl⟩
        · left
          rw [if_neg hflag]
          show (s.globals.task_queue.set i _)[j]? = some t
          by_cases hij : i = j
          · subst hij
            rw [ht] at hn
            have hnode := Option.some.inj hn
            rw [← hnode, visit_live_terminal handlers current_time eval_time t s.world hterm]
            rw [List.getElem?_set_eq_of_lt _ hj]
          · rw [List.getElem?_set_ne hij, ht]

/-- Claim C6 as amended, at a `queue_task` call on a full queue whose second
task is completed. -/
theorem terminal_task_after_event_witness :
    ∃ s', engine_apply (example_handlers ACTIONS_RESULT_SUCCESS ACTIONS_RESULT_SUCCESS)
        (example_driver_state (example_queue_one_completed 150) 0)
        (engine_event.queue zero_rand 200 200 200 (example_task 60)) = some s' ∧
      (s'.globals.task_queue[1]? = some (example_node ACTIONS_TASK_STATUS_COMPLETED 150 false) ∨
      ((∃ rand scan_time seed_time timestamp task,
          engine_event.queue zero_rand 200 200 200 (example_task 60) =
            engine_event.queue rand scan_time seed_time timestamp task) ∧
        TASK_QUEUE_MAX ≤
          (example_driver_state (example_queue_one_completed 150) 0).globals.task_queue_len ∧
        s'.globals.task_queue[1]? =
          some (mark_for_deletion (example_node ACTIONS_TASK_STATUS_COMPLETED 150 false))) ∨
      ((∃ current_time eval_time,
          engine_event.queue zero_rand 200 200 200 (example_task 60) =
            engine_event.driver current_time eval_time) ∧
        ∃ i n, (example_driver_state (example_queue_one_completed 150) 0).head = some i ∧
          (example_driver_state (example_queue_one_completed 150) 0).globals.task_queue[i]? =
            some n ∧ n.deleteTask = true ∧
          s'.globals.task_queue =
            (example_driver_state (example_queue_one_completed 150) 0).globals.task_queue.eraseIdx
              i)) :=
  ⟨_, rfl, terminal_task_after_event
    (example_handlers ACTIONS_RESULT_SUCCESS ACTIONS_RESULT_SUCCESS)
    (example_driver_state (example_queue_one_completed 150) 0) _
    (engine_event.queue zero_rand 200 200 200 (example_task 60)) 1
    (example_node ACTIONS_TASK_STATUS_COMPLETED 150 false) rfl rfl rfl⟩

/-! ## Claim C7: a visit of a timed-out task -/

/-- Claim C7. For every driver-loop pass whose cursor is on a task that is not
marked for deletion, is pending or active, and has `0 <= timeout < current
time`, with a clean handler registered for its type: the only handler call made
is one call of the clean handler on that task, the task becomes stopped and
stays at its place in the queue with every other member, its deletion flag
included, unchanged, and `task_queue_len` is unchanged. -/
theorem driver_visit_timed_out {W : Type} (handlers : List (task_handlers_t W))
    (current_time eval_time : Int) (s : driver_state W) (i : Nat) (node : task_node_t)
    (h : task_handlers_t W) (clean : task_node_t → W → rest_actions_task_result_t × W)
    (hhead : s.head = some i) (hnode : s.globals.task_queue[i]? = some node)
    (hflag : node.deleteTask = false)
    (hstatus : node.status = ACTIONS_TASK_STATUS_PENDING ∨
      node.status = ACTIONS_TASK_STATUS_ACTIVE)
    (hlo : 0 ≤ node.timeout) (hhi : node.timeout < current_time)
    (hh : task_handler_by_task_type_id handlers node.type = some h) (hc : h.clean = some clean) :
    rest_task_queue_task_step handlers current_time eval_time s =
      { globals :=
          { task_queue := s.globals.task_queue.set i
              { node with status := ACTIONS_TASK_STATUS_STOPPED }
            task_queue_len := s.globals.task_queue_len }
        head := next_pointer s.globals.task_queue i
        world := (clean node s.world).2
        calls := s.calls ++ [handler_call.clean node] } := by
  rw [step_at_live_node handlers current_time eval_time s i node hhead hnode hflag]
  have hv : visit_live handlers current_time eval_time node s.world =
      { task_node := { node with status := ACTIONS_TASK_STATUS_STOPPED }
        world := (clean node s.world).2, calls := [handler_call.clean node] } := by
    unfold visit_live
    rw [if_pos hstatus, if_pos ⟨hlo, hhi⟩,
      call_clean_registered handlers node s.world h clean hh hc]
    rfl
  rw [hv]

/-- Claim C7 at an active task created at time 100 with timeout 160, visited
at time 200. -/
theorem driver_visit_timed_out_witness :
    rest_task_queue_task_step (example_handlers ACTIONS_RESULT_SUCCESS ACTIONS_RESULT_SUCCESS)
        200 200 (example_driver_state [example_node ACTIONS_TASK_STATUS_ACTIVE 100 false] 0) =
      { globals :=
          { task_queue := [example_node ACTIONS_TASK_STATUS_ACTIVE 100 false].set 0
              { example_node ACTIONS_TASK_STATUS_ACTIVE 100 false with
                status := ACTIONS_TASK_STATUS_STOPPED }
            task_queue_len := 1 }
        head := next_pointer [example_node ACTIONS_TASK_STATUS_ACTIVE 100 false] 0
        world := (example_clean (example_node ACTIONS_TASK_STATUS_ACTIVE 100 false) 0).2
        calls := [] ++ [handler_call.clean (example_node ACTIONS_TASK_STATUS_ACTIVE 100 false)] } :=
  driver_visit_timed_out (example_handlers ACTIONS_RESULT_SUCCESS ACTIONS_RESULT_SUCCESS) 200 200
    (example_driver_state [example_node ACTIONS_TASK_STATUS_ACTIVE 100 false] 0) 0
    (example_node ACTIONS_TASK_STATUS_ACTIVE 100 false)
    (example_row ACTIONS_RESULT_SUCCESS ACTIONS_RESULT_SUCCESS) example_clean rfl rfl rfl
    (Or.inr rfl) (by decide) (by decide) rfl rfl

/-! ## Claim C8: a visit of a pending task -/

/-- Claim C8. For every driver-loop pass whose cursor is on a pending task that
is not marked for deletion and has not timed out, with a process handler
registered for its type: the only handler call made is one call of the process
handler, on the task with its status already set to active, and the status
after the pass is failed when the handler reports FAILURE, pending when it
reports RETRY, and active when it reports SUCCESS, PENDING or
NO_CHANGE_REQUIRED; nothing else of the task or the queue changes. -/
theorem driver_visit_pending {W : Type} (handlers : List (task_handlers_t W))
    (current_time eval_time : Int) (s : driver_state W) (i : Nat) (node : task_node_t)
    (h : task_handlers_t W) (process : task_node_t → W → rest_actions_task_result_t × W)
    (hhead : s.head = some i) (hnode : s.globals.task_queue[i]? = some node)
    (hflag : node.deleteTask = false)
    (hstatus : node.status = ACTIONS_TASK_STATUS_PENDING)
    (hlive : ¬ (0 ≤ node.timeout ∧ node.timeout < current_time))
    (hh : task_handler_by_task_type_id handlers node.type = some h)
    (hp : h.process = some process) :
    ∃ status,
      rest_task_queue_task_step handlers current_time eval_time s =
        { globals :=
            { task_queue := s.globals.task_queue.set i { node with status := status }
              task_queue_len := s.globals.task_queue_len }
          head := next_pointer s.globals.task_queue i
          world := (process { node with status := ACTIONS_TASK_STATUS_ACTIVE } s.world).2
          calls := s.calls ++
            [handler_call.process { node with status := ACTIONS_TASK_STATUS_ACTIVE }] } ∧
      ((process { node with status := ACTIONS_TASK_STATUS_ACTIVE } s.world).1 =
          ACTIONS_RESULT_FAILURE → status = ACTIONS_TASK_STATUS_FAILED) ∧
      ((process { node with status := ACTIONS_TASK_STATUS_ACTIVE } s.world).1 =
          ACTIONS_RESULT_RETRY → status = ACTIONS_TASK_STATUS_PENDING) ∧
      ((process { node with status := ACTIONS_TASK_STATUS_ACTIVE } s.world).1 =
          ACTIONS_RESULT_SUCCESS → status = ACTIONS_TASK_STATUS_ACTIVE) ∧
      ((process { node with status := ACTIONS_TASK_STATUS_ACTIVE } s.world).1 =
          ACTIONS_RESULT_PENDING → status = ACTIONS_TASK_STATUS_ACTIVE) ∧
      ((process { node with status := ACTIONS_TASK_STATUS_ACTIVE } s.world).1 =
          ACTIONS_RESULT_NO_CHANGE_REQUIRED → status = ACTIONS_TASK_STATUS_ACTIVE) := by
  rw [step_at_live_node handlers current_time eval_time s i node hhead hnode hflag]
  have hh' : task_handler_by_task_type_id handlers
      (task_update_status node ACTIONS_TASK_STATUS_ACTIVE).type = some h := hh
  have hv : visit_live handlers current_time eval_time node s.world =
      process_task handlers node s.world := by
    unfold visit_live
    rw [if_pos (Or.inl hstatus), if_neg (by simpa using hlive), if_pos hstatus]
  rw [hv]
  unfold process_task
  rw [if_neg (by simp [hstatus])]
  simp only [hh', hp]
  generalize hres : (process (task_update_status node ACTIONS_TASK_STATUS_ACTIVE) s.world).1 = res
  have hn : task_update_status node ACTIONS_TASK_STATUS_ACTIVE =
      { node with status := ACTIONS_TASK_STATUS_ACTIVE } := rfl
  rw [hn] at hres
  cases res <;>
    exact ⟨_, rfl, by simp [hres], by simp [hres], by simp [hres], by simp [hres],
      by simp [hres]⟩

/-- Claim C8 at a pending task whose process handler reports RETRY. -/
theorem driver_visit_pending_witness :
    ∃ status,
      rest_task_queue_task_step (example_handlers ACTIONS_RESULT_RETRY ACTIONS_RESULT_SUCCESS)
          120 120 (example_driver_state [example_node ACTIONS_TASK_STATUS_PENDING 100 false] 0) =
        { globals :=
            { task_queue := [example_node ACTIONS_TASK_STATUS_PENDING 100 false].set 0
                { example_node ACTIONS_TASK_STATUS_PENDING 100 false with status := status }
              task_queue_len := 1 }
          head := next_pointer [example_node ACTIONS_TASK_STATUS_PENDING 100 false] 0
          world := (example_process ACTIONS_RESULT_RETRY
            { example_node ACTIONS_TASK_STATUS_PENDING 100 false with
              status := ACTIONS_TASK_STATUS_ACTIVE } 0).2
          calls := [] ++
            [handler_call.process
              { example_node ACTIONS_TASK_STATUS_PENDING 100 false with
                status := ACTIONS_TASK_STATUS_ACTIVE }] } ∧
      status = ACTIONS_TASK_STATUS_PENDING := by
  obtain ⟨status, hstep, -, hretry, -⟩ :=
    driver_visit_pending (example_handlers ACTIONS_RESULT_RETRY ACTIONS_RESULT_SUCCESS) 120 120
      (example_driver_state [example_node ACTIONS_TASK_STATUS_PENDING 100 false] 0) 0
      (example_node ACTIONS_TASK_STATUS_PENDING 100 false)
      (example_row ACTIONS_RESULT_RETRY ACTIONS_RESULT_SUCCESS)
      (example_process ACTIONS_RESULT_RETRY) rfl rfl rfl rfl (by decide) rfl rfl
  exact ⟨status, hstep, hretry rfl⟩

/-! ## Claim C9: a visit of an active task -/

/-- Claim C9. For every driver-loop pass whose cursor is on an active task that
is not marked for deletion and has not timed out, with an evaluate handler
registered for its type: the only handler call made is one call of the evaluate
handler, the status after the pass is completed when it reports SUCCESS, failed
when it reports FAILURE, and active when it reports PENDING, RETRY or
NO_CHANGE_REQUIRED, and in every case `last_evaluated` is the time read after the
call; nothing else of the task or the queue changes. -/
theorem driver_visit_active {W : Type} (handlers : List (task_handlers_t W))
    (current_time eval_time : Int) (s : driver_state W) (i : Nat) (node : task_node_t)
    (h : task_handlers_t W) (evaluate : task_node_t → W → rest_actions_task_result_t × W)
    (hhead : s.head = some i) (hnode : s.globals.task_queue[i]? = some node)
    (hflag : node.deleteTask = false)
    (hstatus : node.status = ACTIONS_TASK_STATUS_ACTIVE)
    (hlive : ¬ (0 ≤ node.timeout ∧ node.timeout < current_time))
    (hh : task_handler_by_task_type_id handlers node.type = some h)
    (he : h.evaluate = some evaluate) :
    ∃ status,
      rest_task_queue_task_step handlers current_time eval_time s =
        { globals :=
            { task_queue := s.globals.task_queue.set i
                { node with status := status, last_evaluated := eval_time }
              task_queue_len := s.globals.task_queue_len }
          head := next_pointer s.globals.task_queue i
          world := (evaluate node s.world).2
          calls := s.calls ++ [handler_call.evaluate node] } ∧
      ((evaluate node s.world).1 = ACTIONS_RESULT_SUCCESS →
        status = ACTIONS_TASK_STATUS_COMPLETED) ∧
      ((evaluate node s.world).1 = ACTIONS_RESULT_FAILURE →
        status = ACTIONS_TASK_STATUS_FAILED) ∧
      ((evaluate node s.world).1 = ACTIONS_RESULT_PENDING →
        status = ACTIONS_TASK_STATUS_ACTIVE) ∧
      ((evaluate node s.world).1 = ACTIONS_RESULT_RETRY →
        status = ACTIONS_TASK_STATUS_ACTIVE) ∧
      ((evaluate node s.world).1 = ACTIONS_RESULT_NO_CHANGE_REQUIRED →
        status = ACTIONS_TASK_STATUS_ACTIVE) := by
  rw [step_at_live_node handlers current_time eval_time s i node hhead hnode hflag]
  have hv : visit_live handlers current_time eval_time node s.world =
      evaluate_task handlers eval_time node s.world := by
    unfold visit_live
    rw [if_pos (Or.inr hstatus), if_neg (by simpa using hlive), if_neg (by simp [hstatus]),
      if_pos hstatus]
  rw [hv]
  unfold evaluate_task
  rw [if_neg (by simp [hstatus])]
  simp only [hh, he]
  generalize hres : (evaluate node s.world).1 = res
  cases res
  · exact ⟨ACTIONS_TASK_STATUS_COMPLETED, rfl, by simp, by simp, by simp, by simp, by simp⟩
  · refine ⟨ACTIONS_TASK_STATUS_ACTIVE, ?_, by simp, by simp, by simp, by simp, by simp⟩
    simp only [reduceCtorEq, if_false]
    rw [hstatus]
  · refine ⟨ACTIONS_TASK_STATUS_ACTIVE, ?_, by simp, by simp, by simp, by simp, by simp⟩
    simp only [reduceCtorEq, if_false]
    rw [hstatus]
  · exact ⟨ACTIONS_TASK_STATUS_FAILED, rfl, by simp, by simp, by simp, by simp, by simp⟩
  · refine ⟨ACTIONS_TASK_STATUS_ACTIVE, ?_, by simp, by simp, by simp, by simp, by simp⟩
    simp only [reduceCtorEq, if_false]
    rw [hstatus]

/-- Claim C9 at an active task whose evaluate handler reports SUCCESS. -/
theorem driver_visit_active_witness :
    ∃ status,
      rest_task_queue_task_step (example_handlers ACTIONS_RESULT_SUCCESS ACTIONS_RESULT_SUCCESS)
          120 121 (example_driver_state [example_node ACTIONS_TASK_STATUS_ACTIVE 100 false] 0) =
        { globals :=
            { task_queue := [example_node ACTIONS_TASK_STATUS_ACTIVE 100 false].set 0
                { example_node ACTIONS_TASK_STATUS_ACTIVE 100 false with
                  status := status, last_evaluated := 121 }
              task_queue_len := 1 }
          head := next_pointer [example_node ACTIONS_TASK_STATUS_ACTIVE 100 false] 0
          world := (example_evaluate ACTIONS_RESULT_SUCCESS
            (example_node ACTIONS_TASK_STATUS_ACTIVE 100 false) 0).2
          calls := [] ++
            [handler_call.evaluate (example_node ACTIONS_TASK_STATUS_ACTIVE 100 false)] } ∧
      status = ACTIONS_TASK_STATUS_COMPLETED := by
  obtain ⟨status, hstep, hsuccess, -⟩ :=
    driver_visit_active (example_handlers ACTIONS_RESULT_SUCCESS ACTIONS_RESULT_SUCCESS) 120 121
      (example_driver_state [example_node ACTIONS_TASK_STATUS_ACTIVE 100 false] 0) 0
      (example_node ACTIONS_TASK_STATUS_ACTIVE 100 false)
      (example_row ACTIONS_RESULT_SUCCESS ACTIONS_RESULT_SUCCESS)
      (example_evaluate ACTIONS_RESULT_SUCCESS) rfl rfl rfl rfl (by decide) rfl rfl
  exact ⟨status, hstep, hsuccess rfl⟩

/-! ## Claim C10: a visit of a task marked for deletion -/

theorem uuid_equals_iff (u v : uuid_t) : uuid_equals u v = true ↔ uuid_same_bytes u v := by
  unfold uuid_equals uuid_same_bytes
  simp only [Bool.and_eq_true, beq_iff_eq]
  constructor
  · rintro ⟨⟨⟨⟨⟨⟨⟨⟨⟨⟨h1, h2⟩, h3⟩, h4⟩, h5⟩, n0⟩, n1⟩, n2⟩, n3⟩, n4⟩, n5⟩
    refine ⟨h1, h2, h3, h4, h5, ?_⟩
    intro i hi
    interval_cases i <;> assumption
  · rintro ⟨h1, h2, h3, h4, h5, hn⟩
    exact ⟨⟨⟨⟨⟨⟨⟨⟨⟨⟨h1, h2⟩, h3⟩, h4⟩, h5⟩, hn 0 (by omega)⟩, hn 1 (by omega)⟩,
      hn 2 (by omega)⟩, hn 3 (by omega)⟩, hn 4 (by omega)⟩, hn 5 (by omega)⟩

theorem task_node_find_scan_none (uuid : uuid_t) (q : List task_node_t) (idx : Nat) :
    task_node_find_scan uuid q idx = none ↔ ∀ n ∈ q, uuid_equals uuid n.id = false := by
  induction q generalizing idx with
  | nil => simp [task_node_find_scan]
  | cons head rest ih =>
    unfold task_node_find_scan
    by_cases h : uuid_equals uuid head.id = true
    · simp [h]
    · rw [if_neg h, ih]
      simp only [Bool.not_eq_true] at h
      simp [h]

theorem task_node_find_scan_some (uuid : uuid_t) (q : List task_node_t) (idx k : Nat) :
    task_node_find_scan uuid q idx = some (idx + k) ↔
      (∃ n, q[k]? = some n ∧ uuid_equals uuid n.id = true) ∧
      ∀ j m, j < k → q[j]? = some m → uuid_equals uuid m.id = false := by
  induction q generalizing idx k with
  | nil => simp [task_node_find_scan]
  | cons head rest ih =>
    unfold task_node_find_scan
    by_cases h : uuid_equals uuid head.id = true
    · rw [if_pos h]
      cases k with
      | zero => simp [h]
      | succ k' =>
        constructor
        · intro hk
          have := Option.some.inj hk
          omega
        · rintro ⟨-, hbefore⟩
          have := hbefore 0 head (by omega) (by simp)
          rw [h] at this
          exact absurd this (by decide)
    · rw [if_neg h]
      simp only [Bool.not_eq_true] at h
      cases k with
      | zero =>
        constructor
        · intro hk
          exfalso
          have hge : ∀ (l : List task_node_t) (i r : Nat),
              task_node_find_scan uuid l i = some r → i ≤ r := by
            intro l
            induction l with
            | nil => intro i r hr; simp [task_node_find_scan] at hr
            | cons a l' ihl =>
              intro i r hr
              unfold task_node_find_scan at hr
              split at hr
              · have := Option.some.inj hr; omega
              · have := ihl _ _ hr; omega
          have := hge _ _ _ hk
          omega
        · rintro ⟨⟨n, hn, heq⟩, -⟩
          simp at hn
          rw [← hn, h] at heq
          exact absurd heq (by decide)
      | succ k' =>
        have hidx : idx + (k' + 1) = (idx + 1) + k' := by omega
        rw [hidx, ih]
        constructor
        · rintro ⟨⟨n, hn, hneq⟩, hbefore⟩
          refine ⟨⟨n, by simpa using hn, hneq⟩, ?_⟩
          intro j m hj hjm
          cases j with
          | zero =>
            simp at hjm
            rw [← hjm]
            exact h
          | succ j' => exact hbefore j' m (by omega) (by simpa using hjm)
        · rintro ⟨⟨n, hn, hneq⟩, hbefore⟩
          refine ⟨⟨n, by simpa using hn, hneq⟩, ?_⟩
          intro j m hj hjm
          exact hbefore (j + 1) m (by omega) (by simpa using hjm)

theorem list_set_same {α : Type} (l : List α) (i : Nat) (a : α) (h : l[i]? = some a) :
    l.set i a = l := by
  induction l generalizing i with
  | nil => rfl
  | cons b rest ih =>
    cases i with
    | zero =>
      simp at h
      simp [h]
    | succ i' =>
      simp at h
      simp [ih i' h]

theorem visit_live_terminal_result {W : Type} (handlers : List (task_handlers_t W))
    (current_time eval_time : Int) (node : task_node_t) (w : W)
    (hterm : can_remove_task node = true) :
    visit_live handlers current_time eval_time node w =
      { task_node := node, world := w, calls := [] } := by
  have hnot : ¬ (node.status = ACTIONS_TASK_STATUS_PENDING ∨
      node.status = ACTIONS_TASK_STATUS_ACTIVE) := by
    unfold can_remove_task at hterm
    rintro (hs | hs) <;> rw [hs] at hterm <;> exact absurd hterm (by decide)
  unfold visit_live
  rw [if_neg hnot]

theorem pskd_char_allowed_iff (c : Char) :
    pskd_char_allowed c ↔
      isalnum c = true ∧ islower c = false ∧ ¬ (c = 'I' ∨ c = 'O' ∨ c = 'Q' ∨ c = 'Z') := by
  have h0 : '0'.toNat = 48 := rfl
  have h9 : '9'.toNat = 57 := rfl
  have hA : 'A'.toNat = 65 := rfl
  have hZ : 'Z'.toNat = 90 := rfl
  unfold pskd_char_allowed isalnum islower
  rw [h0, h9, hA, hZ]
  simp only [Bool.or_eq_true, Bool.and_eq_true, decide_eq_true_eq, Bool.and_eq_false_imp,
    decide_eq_false_iff_not, not_or]
  constructor
  · rintro ⟨hrange, hI, hO, hQ, hZ'⟩
    refine ⟨?_, ?_, hI, hO, hQ, hZ'⟩
    · rcases hrange with h | h
      · exact Or.inl (Or.inl h)
      · exact Or.inl (Or.inr h)
    · intro h
      rcases hrange with h' | h' <;> omega
  · rintro ⟨hal, hlow, hI, hO, hQ, hZ'⟩
    refine ⟨?_, hI, hO, hQ, hZ'⟩
    rcases hal with (h | h) | h
    · exact Or.inl h
    · exact Or.inr h
    · exact absurd h.2 (hlow h.1)

theorem joiner_verify_pskd_loop_ok (l : List Char) :
    joiner_verify_pskd_loop l = WPANSTATUS_OK ↔ ∀ c ∈ l, pskd_char_allowed c := by
  induction l with
  | nil => simp [joiner_verify_pskd_loop]
  | cons c rest ih =>
    unfold joiner_verify_pskd_loop
    rw [List.forall_mem_cons, pskd_char_allowed_iff]
    by_cases h1 : isalnum c = false
    · rw [if_pos h1]
      simp [OT_JOINFAILED_PSKD_FORMAT, WPANSTATUS_OK, h1]
    · rw [if_neg h1]
      by_cases h2 : islower c = true
      · rw [if_pos h2]
        simp [OT_JOINFAILED_PSKD_FORMAT, WPANSTATUS_OK, h2]
      · rw [if_neg h2]
        by_cases h3 : c = 'I' ∨ c = 'O' ∨ c = 'Q' ∨ c = 'Z'
        · rw [if_pos h3]
          simp only [OT_JOINFAILED_PSKD_FORMAT, WPANSTATUS_OK]
          constructor
          · intro h; exact absurd h (by decide)
          · rintro ⟨⟨-, -, h⟩, -⟩; exact absurd h3 h
        · rw [if_neg h3, ih]
          simp only [Bool.not_eq_false] at h1
          simp only [Bool.not_eq_true] at h2
          simp [h1, h2, h3]

theorem joiner_verify_pskd_loop_values (l : List Char) :
    joiner_verify_pskd_loop l = WPANSTATUS_OK ∨
      joiner_verify_pskd_loop l = OT_JOINFAILED_PSKD_FORMAT := by
  induction l with
  | nil => exact Or.inl rfl
  | cons c rest ih =>
    unfold joiner_verify_pskd_loop
    repeat' split
    all_goals first | exact Or.inr rfl | exact ih

theorem hex_char_to_int_eq_neg_one (c : Char) :
    hex_char_to_int c = -1 ↔ isxdigit c = false := by
  unfold hex_char_to_int isxdigit
  by_cases h1 : 65 ≤ c.toNat ∧ c.toNat ≤ 70
  · rw [if_pos h1]
    simp [h1]
    omega
  · rw [if_neg h1]
    by_cases h2 : 97 ≤ c.toNat ∧ c.toNat ≤ 102
    · rw [if_pos h2]
      simp [h2]
      omega
    · rw [if_neg h2]
      by_cases h3 : 48 ≤ c.toNat ∧ c.toNat ≤ 57
      · rw [if_pos h3]
        simp [h3]
        omega
      · rw [if_neg h3]
        simp only [Bool.or_eq_false_iff, Bool.and_eq_false_imp, decide_eq_true_eq,
          decide_eq_false_iff_not, true_iff]
        refine ⟨⟨fun a b => h3 ⟨a, b⟩, fun a b => h1 ⟨a, b⟩⟩, fun a b => h2 ⟨a, b⟩⟩

theorem str_to_m8_loop_ok (str : String) (n i : Nat) (m8 : List Nat)
    (hhex : ∀ k, 2 * i ≤ k → k < 2 * (i + n) → isxdigit (str_at str k) = true) :
    (str_to_m8_loop str n i m8).1 = OT_ERROR_NONE := by
  induction n generalizing i m8 with
  | zero => rfl
  | succ n ih =>
    unfold str_to_m8_loop
    have h1 : ¬ hex_char_to_int (str_at str (i * 2)) = -1 := by
      rw [hex_char_to_int_eq_neg_one, hhex (i * 2) (by omega) (by omega)]
      decide
    have h2 : ¬ hex_char_to_int (str_at str (i * 2 + 1)) = -1 := by
      rw [hex_char_to_int_eq_neg_one, hhex (i * 2 + 1) (by omega) (by omega)]
      decide
    simp only [h1, h2, or_self, if_false]
    exact ih (i + 1) _ (fun k hlo hhi => hhex k (by omega) (by omega))

theorem str_at_mem (str : String) (k : Nat) (hk : k < strlen str) : str_at str k ∈ str.data := by
  unfold str_at
  unfold strlen at hk
  rw [List.getD_eq_getElem _ _ hk]
  exact List.getElem_mem _

theorem str_to_m8_of_hex (m8 : List Nat) (str : String) (size : Nat)
    (hlen : strlen str = 2 * size) (hhex : ∀ c ∈ str.data, isxdigit c = true) :
    (str_to_m8 m8 str size).1 = OT_ERROR_NONE := by
  unfold str_to_m8
  rw [if_neg (by omega)]
  exact str_to_m8_loop_ok str size 0 m8
    (fun k _ hk => hhex _ (str_at_mem str k (by omega)))

theorem str_to_m8_of_0x (m8 : List Nat) (str : String) (size : Nat) (hsize : 0 < size)
    (hx : str_at str 1 = 'x') : (str_to_m8 m8 str size).1 = OT_ERROR_FAILED := by
  unfold str_to_m8
  split
  · rfl
  · obtain ⟨n, rfl⟩ : ∃ n, size = n + 1 := ⟨size - 1, by omega⟩
    unfold str_to_m8_loop
    have h2 : hex_char_to_int (str_at str (0 * 2 + 1)) = -1 := by
      rw [show 0 * 2 + 1 = 1 from rfl, hx]
      decide
    simp only [h2, or_true, if_true]

theorem cJSON_members_find_modify (name : String) (f : cJSON → cJSON)
    (ms : List (String × cJSON)) :
    cJSON_members_find name (cJSON_members_modify name f ms) =
      (cJSON_members_find name ms).map f := by
  induction ms with
  | nil => rfl
  | cons m rest ih =>
    obtain ⟨k, v⟩ := m
    by_cases hk : k = name
    · simp [cJSON_members_find, cJSON_members_modify, hk]
    · simp [cJSON_members_find, cJSON_members_modify, hk, ih]

theorem cJSON_members_find_replace_ne (n name : String) (item : cJSON) (hne : n ≠ name)
    (ms : List (String × cJSON)) :
    cJSON_members_find n (cJSON_members_replace name item ms) = cJSON_members_find n ms := by
  induction ms with
  | nil => rfl
  | cons m rest ih =>
    obtain ⟨k, v⟩ := m
    by_cases hk : k = name
    · have hkn : ¬ k = n := fun h => hne (h ▸ hk)
      have hnn : ¬ name = n := fun h => hne h.symm
      simp only [cJSON_members_replace, hk, if_true, cJSON_members_find, hnn, if_false]
    · by_cases hkn : k = n
      · subst hkn
        simp only [cJSON_members_replace, hk, if_false, cJSON_members_find, if_true]
      · simp only [cJSON_members_replace, hk, if_false, cJSON_members_find, hkn, ih]

theorem case_insensitive_equal_refl (a : String) : case_insensitive_equal a a = true := by
  simp [case_insensitive_equal]

theorem cJSON_members_find_delete (name : String) (ks : List (String × cJSON))
    (hone : (ks.filter (fun m => case_insensitive_equal name m.1)).length ≤ 1) :
    cJSON_members_find name (cJSON_members_delete_nocase name ks) = none := by
  induction ks with
  | nil => rfl
  | cons m rest ih =>
    obtain ⟨k, v⟩ := m
    unfold cJSON_members_delete_nocase
    by_cases hk : case_insensitive_equal name k = true
    · rw [if_pos hk]
      simp only [List.filter_cons, hk, if_true, List.length_cons] at hone
      have hnil : rest.filter (fun m => case_insensitive_equal name m.1) = [] :=
        List.length_eq_zero.mp (by omega)
      rw [List.filter_eq_nil_iff] at hnil
      clear ih hone
      induction rest with
      | nil => rfl
      | cons m' rest' ih' =>
        obtain ⟨k', v'⟩ := m'
        have hk' : ¬ k' = name := by
          intro h
          have := hnil (k', v') (List.mem_cons_self _ _)
          rw [h] at this
          exact this (case_insensitive_equal_refl name)
        simp only [cJSON_members_find, hk', if_false]
        exact ih' (fun x hx => hnil x (List.mem_cons_of_mem _ hx))
    · rw [if_neg hk]
      have hkn : ¬ k = name := by
        intro h
        rw [h] at hk
        exact hk (case_insensitive_equal_refl name)
      simp only [List.filter_cons, hk] at hone
      simp only [cJSON_members_find, hkn, if_false]
      exact ih hone

theorem otExtAddressMatch_iff (a b : otExtAddress) :
    otExtAddressMatch a b = true ↔ same_eui64 a b := by
  unfold otExtAddressMatch same_eui64
  simp only [List.all_eq_true, List.mem_range, beq_iff_eq]

theorem otExtAddressMatch_false_iff (a b : otExtAddress) :
    otExtAddressMatch a b = false ↔ ¬ same_eui64 a b := by
  rw [← otExtAddressMatch_iff]
  simp

theorem same_eui64_symm {a b : otExtAddress} (h : same_eui64 a b) : same_eui64 b a :=
  fun i hi => (h i hi).symm

theorem same_eui64_trans {a b c : otExtAddress} (h1 : same_eui64 a b) (h2 : same_eui64 b c) :
    same_eui64 a c :=
  fun i hi => (h1 i hi).trans (h2 i hi)

theorem same_eui64_refl (a : otExtAddress) : same_eui64 a a := fun _ _ => rfl

theorem entry_find_scan_none (eui : otExtAddress) (l : List AllowListEntry) (idx : Nat) :
    entry_find_scan eui l idx = none ↔ ∀ e ∈ l, ¬ same_eui64 e.meui64 eui := by
  induction l generalizing idx with
  | nil => simp [entry_find_scan]
  | cons head rest ih =>
    unfold entry_find_scan
    by_cases h : otExtAddressMatch head.meui64 eui = true
    · rw [if_pos h]
      have := (otExtAddressMatch_iff _ _).mp h
      simp [this]
    · rw [if_neg h, ih]
      simp only [Bool.not_eq_true] at h
      have := (otExtAddressMatch_false_iff _ _).mp h
      simp [this]

theorem entry_find_scan_ge (eui : otExtAddress) (l : List AllowListEntry) (idx r : Nat)
    (h : entry_find_scan eui l idx = some r) : idx ≤ r := by
  induction l generalizing idx with
  | nil => simp [entry_find_scan] at h
  | cons a l' ih =>
    unfold entry_find_scan at h
    split at h
    · have := Option.some.inj h; omega
    · have := ih _ h; omega

theorem entry_find_scan_some (eui : otExtAddress) (l : List AllowListEntry) (idx k : Nat) :
    entry_find_scan eui l idx = some (idx + k) ↔
      (∃ e, l[k]? = some e ∧ same_eui64 e.meui64 eui) ∧
      ∀ j e, j < k → l[j]? = some e → ¬ same_eui64 e.meui64 eui := by
  induction l generalizing idx k with
  | nil => simp [entry_find_scan]
  | cons head rest ih =>
    unfold entry_find_scan
    by_cases h : otExtAddressMatch head.meui64 eui = true
    · rw [if_pos h]
      have hs := (otExtAddressMatch_iff _ _).mp h
      cases k with
      | zero => simp [hs]
      | succ k' =>
        constructor
        · intro hk
          have := Option.some.inj hk
          omega
        · rintro ⟨-, hbefore⟩
          exact absurd hs (hbefore 0 head (by omega) (by simp))
    · rw [if_neg h]
      simp only [Bool.not_eq_true] at h
      have hs := (otExtAddressMatch_false_iff _ _).mp h
      cases k with
      | zero =>
        constructor
        · intro hk
          have := entry_find_scan_ge _ _ _ _ hk
          omega
        · rintro ⟨⟨e, he, heq⟩, -⟩
          simp at he
          rw [← he] at heq
          exact absurd heq hs
      | succ k' =>
        have hidx : idx + (k' + 1) = (idx + 1) + k' := by omega
        rw [hidx, ih]
        constructor
        · rintro ⟨⟨e, he, heq⟩, hbefore⟩
          refine ⟨⟨e, by simpa using he, heq⟩, ?_⟩
          intro j m hj hjm
          cases j with
          | zero =>
            simp at hjm
            rw [← hjm]
            exact hs
          | succ j' => exact hbefore j' m (by omega) (by simpa using hjm)
        · rintro ⟨⟨e, he, heq⟩, hbefore⟩
          refine ⟨⟨e, by simpa using he, heq⟩, ?_⟩
          intro j m hj hjm
          exact hbefore (j + 1) m (by omega) (by simpa using hjm)

theorem entry_find_scan_zero_some (eui : otExtAddress) (l : List AllowListEntry) (k : Nat) :
    entry_find_scan eui l 0 = some k ↔
      (∃ e, l[k]? = some e ∧ same_eui64 e.meui64 eui) ∧
      ∀ j e, j < k → l[j]? = some e → ¬ same_eui64 e.meui64 eui := by
  have := entry_find_scan_some eui l 0 k
  rw [Nat.zero_add] at this
  exact this

theorem entry_find_scan_of_exists (eui : otExtAddress) (l : List AllowListEntry)
    (hex : ∃ e ∈ l, same_eui64 e.meui64 eui) :
    ∃ i e, entry_find_scan eui l 0 = some i ∧ l[i]? = some e ∧ same_eui64 e.meui64 eui ∧
      ∀ j e', j < i → l[j]? = some e' → ¬ same_eui64 e'.meui64 eui := by
  cases h : entry_find_scan eui l 0 with
  | none =>
    obtain ⟨e, he, hs⟩ := hex
    exact absurd hs ((entry_find_scan_none eui l 0).mp h e he)
  | some i =>
    obtain ⟨⟨e, he, hs⟩, hbefore⟩ := (entry_find_scan_zero_some eui l i).mp h
    exact ⟨i, e, rfl, he, hs, hbefore⟩

theorem modify_eq_set {α : Type} (f : α → α) (l : List α) (i : Nat) (a : α)
    (h : l[i]? = some a) : l.modify f i = l.set i (f a) := by
  apply List.ext_getElem?
  intro k
  rw [List.getElem?_modify, List.getElem?_set]
  by_cases hik : i = k
  · subst hik
    have hlt : i < l.length := by
      by_contra hge
      rw [List.getElem?_eq_none (by omega)] at h
      exact absurd h (by simp)
    simp [h, hlt]
  · simp [hik]

theorem allowListAddDevice_found (rand : Nat → Nat → Nat) (now : Int) (aEui64 : otExtAddress)
    (aTimeout : Nat) (aPskd : String) (list : List AllowListEntry) (i : Nat) (e : AllowListEntry)
    (hfind : entry_find_scan aEui64 list 0 = some i) (he : list[i]? = some e) :
    allowListAddDevice rand now aEui64 aTimeout aPskd list =
      list.set i { e with mPSKd := aPskd } := by
  unfold allowListAddDevice entryEui64Find
  simp only [hfind]
  exact modify_eq_set _ list i e he

theorem allowListAddDevice_not_found (rand : Nat → Nat → Nat) (now : Int)
    (aEui64 : otExtAddress) (aTimeout : Nat) (aPskd : String) (list : List AllowListEntry)
    (hnone : ∀ e ∈ list, ¬ same_eui64 e.meui64 aEui64) :
    allowListAddDevice rand now aEui64 aTimeout aPskd list =
      list ++ [{ meui64 := aEui64, muuid := uuid_generate_random rand now, mTimeout := aTimeout,
                 mPSKd := aPskd, mstate := kAllowListEntryNew }] := by
  have hfind := (entry_find_scan_none aEui64 list 0).mpr hnone
  unfold allowListAddDevice entryEui64Find
  simp only [hfind]
  rfl

theorem map_modify_same {α β : Type} (g : α → β) (f : α → α) (hf : ∀ a, g (f a) = g a)
    (l : List α) (i : Nat) : (l.modify f i).map g = l.map g := by
  apply List.ext_getElem?
  intro k
  rw [List.getElem?_map, List.getElem?_map, List.getElem?_modify]
  cases l[k]? with
  | none => rfl
  | some a =>
    by_cases hik : i = k
    · simp [hik, hf]
    · simp [hik]

theorem identities_unique_iff (l : List AllowListEntry) :
    identities_unique l ↔ (l.map (fun e => e.meui64)).Pairwise (fun a b => ¬ same_eui64 a b) := by
  unfold identities_unique
  rw [List.pairwise_map]

theorem identities_unique_modify (f : AllowListEntry → AllowListEntry)
    (hf : ∀ e, (f e).meui64 = e.meui64) (l : List AllowListEntry) (i : Nat)
    (h : identities_unique l) : identities_unique (l.modify f i) := by
  rw [identities_unique_iff] at h ⊢
  rw [map_modify_same (fun e => e.meui64) f hf]
  exact h

theorem identities_unique_append (l : List AllowListEntry) (x : AllowListEntry)
    (h : identities_unique l) (hx : ∀ e ∈ l, ¬ same_eui64 e.meui64 x.meui64) :
    identities_unique (l ++ [x]) := by
  unfold identities_unique at h ⊢
  rw [List.pairwise_append]
  refine ⟨h, List.pairwise_singleton _ _, ?_⟩
  intro a ha b hb
  rw [List.mem_singleton.mp hb]
  exact hx a ha

theorem identities_unique_addDevice (rand : Nat → Nat → Nat) (now : Int) (aEui64 : otExtAddress)
    (aTimeout : Nat) (aPskd : String) (l : List AllowListEntry) (h : identities_unique l) :
    identities_unique (allowListAddDevice rand now aEui64 aTimeout aPskd l) := by
  unfold allowListAddDevice entryEui64Find
  simp only
  cases hfind : entry_find_scan aEui64 l 0 with
  | some i =>
    refine identities_unique_modify _ ?_ l i h
    intro e
    rfl
  | none =>
    exact identities_unique_append l _ h ((entry_find_scan_none aEui64 l 0).mp hfind)

theorem identities_unique_erase (aEui64 : otExtAddress) (l : List AllowListEntry)
    (h : identities_unique l) : identities_unique (allowListEntryErase aEui64 l).2 := by
  unfold allowListEntryErase
  cases entry_find_scan aEui64 l 0 with
  | none => exact h
  | some i =>
    simp only [LinkedList_Remove]
    split
    · exact List.Pairwise.sublist (List.eraseIdx_sublist l i) h
    · exact h

theorem identities_unique_joiner_add (allow_any_joiner : Bool) (rand : Nat → Nat → Nat)
    (now : Int) (otCommissionerAddJoiner : Option otExtAddress → String → Nat → otError)
    (aEui64 : otExtAddress) (aTimeout : Nat) (aPskd : String) (l : List AllowListEntry)
    (h : identities_unique l) :
    identities_unique (allowListCommissionerJoinerAdd allow_any_joiner rand now
      otCommissionerAddJoiner aEui64 aTimeout aPskd l).allow_list := by
  unfold allowListCommissionerJoinerAdd
  have h1 := identities_unique_addDevice rand now aEui64 aTimeout aPskd l h
  split
  · exact h
  · simp only
    repeat' split
    all_goals first
      | exact h1
      | (refine identities_unique_modify _ ?_ _ _ h1
         intro e
         rfl)

theorem identities_unique_event (aEvent : otCommissionerJoinerEvent) (aJoinerEui64 : otExtAddress)
    (l : List AllowListEntry) (h : identities_unique l) :
    identities_unique (HandleJoinerEvent aEvent aJoinerEui64 l) := by
  unfold HandleJoinerEvent
  simp only
  split
  · exact h
  · split
    · split
      · refine identities_unique_modify _ ?_ _ _ h
        intro e
        rfl
      · exact h
    · split
      · refine identities_unique_modify _ (fun e => ?_) _ _ h
        split <;> rfl
      · exact h
    · exact h

theorem identities_unique_apply (allow_any_joiner : Bool) (l : List AllowListEntry)
    (op : allow_list_op) (h : identities_unique l) :
    identities_unique (allow_list_apply allow_any_joiner l op) := by
  cases op with
  | add_device rand now aEui64 aTimeout aPskd =>
    exact identities_unique_addDevice rand now aEui64 aTimeout aPskd l h
  | joiner_add rand now add aEui64 aTimeout aPskd =>
    exact identities_unique_joiner_add allow_any_joiner rand now add aEui64 aTimeout aPskd l h
  | entry_erase aEui64 => exact identities_unique_erase aEui64 l h
  | erase_all =>
    simp only [allow_list_apply, allowListEraseAll, LinkedList_Clear]
    split
    · exact List.Pairwise.nil
    · exact h
  | joiner_event aEvent aJoinerEui64 => exact identities_unique_event aEvent aJoinerEui64 l h

theorem identities_unique_run (allow_any_joiner : Bool) (ops : List allow_list_op)
    (l : List AllowListEntry) (h : identities_unique l) :
    identities_unique (allow_list_run allow_any_joiner l ops) := by
  induction ops generalizing l with
  | nil => exact h
  | cons op rest ih =>
    exact ih _ (identities_unique_apply allow_any_joiner l op h)

theorem allowListAddDevice_has_entry (rand : Nat → Nat → Nat) (now : Int)
    (aEui64 : otExtAddress) (aTimeout : Nat) (aPskd : String) (l : List AllowListEntry) :
    ∃ e ∈ allowListAddDevice rand now aEui64 aTimeout aPskd l, same_eui64 e.meui64 aEui64 := by
  by_cases hex : ∃ e ∈ l, same_eui64 e.meui64 aEui64
  · obtain ⟨i, e, hfind, he, hs, -⟩ := entry_find_scan_of_exists aEui64 l hex
    refine ⟨{ e with mPSKd := aPskd }, ?_, hs⟩
    rw [allowListAddDevice_found rand now aEui64 aTimeout aPskd l i e hfind he]
    have hlt : i < l.length := by
      by_contra hge
      rw [List.getElem?_eq_none (by omega)] at he
      exact absurd he (by simp)
    exact List.mem_iff_getElem?.mpr ⟨i, List.getElem?_set_eq_of_lt _ hlt⟩
  · have hnone : ∀ e ∈ l, ¬ same_eui64 e.meui64 aEui64 := fun e he hs => hex ⟨e, he, hs⟩
    rw [allowListAddDevice_not_found rand now aEui64 aTimeout aPskd l hnone]
    exact ⟨_, List.mem_append_right _ (List.mem_singleton.mpr rfl), same_eui64_refl aEui64⟩

theorem unique_match_count (aEui64 : otExtAddress) (l : List AllowListEntry)
    (h : identities_unique l) (hex : ∃ e ∈ l, same_eui64 e.meui64 aEui64) :
    (l.filter (fun e => otExtAddressMatch e.meui64 aEui64)).length = 1 := by
  induction l with
  | nil =>
    obtain ⟨e, he, -⟩ := hex
    exact absurd he (by simp)
  | cons a rest ih =>
    unfold identities_unique at h
    rw [List.pairwise_cons] at h
    obtain ⟨ha, hrest⟩ := h
    by_cases hm : otExtAddressMatch a.meui64 aEui64 = true
    · have hs := (otExtAddressMatch_iff _ _).mp hm
      have hnone : rest.filter (fun e => otExtAddressMatch e.meui64 aEui64) = [] := by
        rw [List.filter_eq_nil_iff]
        intro b hb hbm
        exact ha b hb (same_eui64_trans hs (same_eui64_symm ((otExtAddressMatch_iff _ _).mp hbm)))
      simp only [List.filter_cons, hm, if_true, hnone]
      rfl
    · simp only [List.filter_cons, hm]
      apply ih hrest
      obtain ⟨e, he, hs⟩ := hex
      rcases List.mem_cons.mp he with heq | hmem
      · rw [heq] at hs
        exact absurd ((otExtAddressMatch_iff _ _).mpr hs) hm
      · exact ⟨e, hmem, hs⟩

theorem same_eui64_example (a b : Nat) : same_eui64 (example_eui64 a) (example_eui64 b) ↔ a = b := by
  rw [← otExtAddressMatch_iff]
  unfold otExtAddressMatch example_eui64
  simp [OT_EXT_ADDRESS_SIZE, List.range, List.range.loop]

theorem example_allow_list_without_3 :
    ∀ e ∈ example_allow_list, ¬ same_eui64 e.meui64 (example_eui64 3) := by
  intro e he
  simp only [example_allow_list, List.mem_cons, List.mem_singleton, List.not_mem_nil,
    or_false] at he
  rcases he with rfl | rfl
  · exact fun h => absurd ((same_eui64_example 1 3).mp h) (by decide)
  · exact fun h => absurd ((same_eui64_example 2 3).mp h) (by decide)

/-! ## Claim C11: a visit of a terminal task -/

/-- Claim C11. A driver-loop visit of a task that is not flagged for deletion and
whose status is Completed, Failed or Stopped (`can_remove_task`) leaves the whole
queue state unchanged: the task list, with every field of every task, and
`task_queue_len` are the same, the task is not removed, the world the handlers
act on is the same and no handler call is added to the trace. Nothing is assumed
about the timeout of the task or about the clock readings. Only the cursor of the
loop moves on to the next node. -/
theorem driver_visit_terminal {W : Type} (handlers : List (task_handlers_t W))
    (current_time eval_time : Int) (s : driver_state W) (i : Nat) (node : task_node_t)
    (hhead : s.head = some i) (hnode : s.globals.task_queue[i]? = some node)
    (hflag : node.deleteTask = false) (hterm : can_remove_task node = true) :
    rest_task_queue_task_step handlers current_time eval_time s =
      { globals := s.globals
        head := next_pointer s.globals.task_queue i
        world := s.world
        calls := s.calls } := by
  rw [step_at_live_node handlers current_time eval_time s i node hhead hnode hflag,
    visit_live_terminal_result handlers current_time eval_time node s.world hterm]
  simp only [list_set_same _ _ _ hnode, List.append_nil]

/-- The visit of a completed task whose timeout (150) has long passed at the
clock reading 500. -/
theorem driver_visit_terminal_witness :
    rest_task_queue_task_step (example_handlers ACTIONS_RESULT_SUCCESS ACTIONS_RESULT_SUCCESS)
        500 500 (example_driver_state (example_queue_one_completed 150) 1) =
      { globals := (example_driver_state (example_queue_one_completed 150) 1).globals
        head := next_pointer (example_queue_one_completed 150) 1
        world := 0
        calls := [] } :=
  driver_visit_terminal (example_handlers ACTIONS_RESULT_SUCCESS ACTIONS_RESULT_SUCCESS) 500 500
    (example_driver_state (example_queue_one_completed 150) 1) 1
    (example_node ACTIONS_TASK_STATUS_COMPLETED 150 false) rfl rfl rfl rfl

/-! ## Claim C12: lookup by identifier -/

/-- Claim C12. For every queue and every identifier, `task_node_find_by_id`
returns none exactly when no task of the queue has the same 16 identifier bytes,
and returns the node at position `k` exactly when that node has the same 16 bytes
and no node before it in queue order has. The function takes the queue as a value
and returns only the node found, so the queue is not modified. -/
theorem task_node_find_by_id_first (uuid : uuid_t) (q : List task_node_t) :
    (task_node_find_by_id uuid q = none ↔ ∀ n ∈ q, ¬ uuid_same_bytes uuid n.id) ∧
    ∀ k, task_node_find_by_id uuid q = some k ↔
      (∃ n, q[k]? = some n ∧ uuid_same_bytes uuid n.id) ∧
      ∀ j m, j < k → q[j]? = some m → ¬ uuid_same_bytes uuid m.id := by
  have hfalse : ∀ v, uuid_equals uuid v = false ↔ ¬ uuid_same_bytes uuid v := by
    intro v
    rw [← uuid_equals_iff]
    simp
  constructor
  · unfold task_node_find_by_id
    rw [task_node_find_scan_none]
    simp only [hfalse]
  · intro k
    unfold task_node_find_by_id
    have := task_node_find_scan_some uuid q 0 k
    rw [Nat.zero_add] at this
    rw [this]
    simp only [hfalse, uuid_equals_iff]

/-! ## Claim C13: the PSKd format -/

/-- Claim C13. The function `joiner_verify_pskd` returns `WPANSTATUS_OK` exactly
for the strings whose length is between 6 and 32 inclusive and whose every
character is a digit `0`-`9` or an upper-case letter `A`-`Z` other than `I`, `O`,
`Q` and `Z`. Every result is `WPANSTATUS_OK` (0), `OT_JOINFAILED_LENGTH` or
`OT_JOINFAILED_PSKD_FORMAT`, and the last two are not zero, so every other string
is rejected with a non-zero code. -/
theorem joiner_verify_pskd_accepts (pskd : String) :
    (joiner_verify_pskd pskd = WPANSTATUS_OK ↔
      6 ≤ strlen pskd ∧ strlen pskd ≤ 32 ∧ ∀ c ∈ pskd.data, pskd_char_allowed c) ∧
    (joiner_verify_pskd pskd = WPANSTATUS_OK ∨ joiner_verify_pskd pskd = OT_JOINFAILED_LENGTH ∨
      joiner_verify_pskd pskd = OT_JOINFAILED_PSKD_FORMAT) ∧
    WPANSTATUS_OK = 0 ∧ OT_JOINFAILED_LENGTH ≠ 0 ∧ OT_JOINFAILED_PSKD_FORMAT ≠ 0 := by
  have hmin : OT_PSKD_LENGTH_MIN = 6 := rfl
  have hmax : OT_PSKD_LENGTH_MAX = 32 := rfl
  refine ⟨?_, ?_, rfl, by decide, by decide⟩
  · unfold joiner_verify_pskd
    by_cases h1 : OT_PSKD_LENGTH_MIN > strlen pskd
    · rw [if_pos h1]
      constructor
      · intro h; exact absurd h (by decide)
      · rintro ⟨h, -⟩; omega
    · rw [if_neg h1]
      by_cases h2 : OT_PSKD_LENGTH_MAX < strlen pskd
      · rw [if_pos h2]
        constructor
        · intro h; exact absurd h (by decide)
        · rintro ⟨-, h, -⟩; omega
      · rw [if_neg h2, joiner_verify_pskd_loop_ok]
        constructor
        · intro h; exact ⟨by omega, by omega, h⟩
        · rintro ⟨-, -, h⟩; exact h
  · unfold joiner_verify_pskd
    repeat' split
    · exact Or.inr (Or.inl rfl)
    · exact Or.inr (Or.inl rfl)
    · rcases joiner_verify_pskd_loop_values pskd.data with h | h
      · exact Or.inl h
      · exact Or.inr (Or.inr h)

/-! ## Claim C14: the timeout of a validated payload -/

/-- Counterexample to claim C14: a payload whose timeout is the number -5, with a
well-formed identity and credential, is reported Valid. -/
theorem validate_accepts_negative_timeout :
    validate_add_thread_device_task
      (example_attributes (cJSON.cJSON_Number (-5)) "0011223344556677"
        "ABCDEF1234567890ABCDEF1234567890") = ACTIONS_TASK_VALID := by
  decide

/-- Claim C14 with the negative numbers left out. The function
`validate_add_thread_device_task` reports Invalid for every payload whose
`timeout` member is missing or is not a number. -/
theorem validate_rejects_timeout_not_number (task : Option cJSON)
    (h : cJSON_GetObjectItemCaseSensitive task "timeout" = none ∨
      cJSON_IsNumber (cJSON_GetObjectItemCaseSensitive task "timeout") = false) :
    validate_add_thread_device_task task = ACTIONS_TASK_INVALID := by
  have h' : (cJSON_GetObjectItemCaseSensitive task "timeout").isNone = true ∨
      cJSON_IsNumber (cJSON_GetObjectItemCaseSensitive task "timeout") = false := by
    rcases h with h | h
    · exact Or.inl (by rw [h]; rfl)
    · exact Or.inr h
  unfold validate_add_thread_device_task
  simp only [h', if_true]

/-- A payload whose timeout is the string `60` is reported Invalid. -/
theorem validate_rejects_timeout_not_number_witness :
    validate_add_thread_device_task
      (example_attributes (cJSON.cJSON_String "60") "0011223344556677"
        "ABCDEF1234567890ABCDEF1234567890") = ACTIONS_TASK_INVALID :=
  validate_rejects_timeout_not_number _ (Or.inr rfl)

/-! ## Claim C15: the identity of a validated payload -/

/-- Claim C15 fails in the code. The payload whose `eui` member is
`0x11223344556677` (16 characters, of which `x` is no hexadecimal digit) is
reported Valid by `validate_add_thread_device_task`, and `str_to_m8` on that
string with size 8 returns `OT_ERROR_FAILED`. -/
theorem validate_accepts_0x_eui :
    validate_add_thread_device_task
      (example_attributes (cJSON.cJSON_Number 60) "0x11223344556677"
        "ABCDEF1234567890ABCDEF1234567890") = ACTIONS_TASK_VALID ∧
    isxdigit 'x' = false ∧
    (str_to_m8 (List.replicate 8 0) "0x11223344556677" 8).1 = OT_ERROR_FAILED := by
  decide

/-- Which identities validate. For every payload reported Valid the `eui` member
is a string of 16 characters, and either all of them are hexadecimal digits and
`str_to_m8` with size 8 succeeds on it, or the string is `0x` followed by 14
hexadecimal digits and `str_to_m8` with size 8 fails on it. -/
theorem validated_eui_shape (task : Option cJSON) (m8 : List Nat)
    (h : validate_add_thread_device_task task = ACTIONS_TASK_VALID) :
    ∃ eui,
      cJSON_GetObjectItemCaseSensitive (cJSON_GetObjectItemCaseSensitive task "hasActivationKey")
        "eui" = some (cJSON.cJSON_String eui) ∧
      strlen eui = 16 ∧
      (((∀ c ∈ eui.data, isxdigit c = true) ∧ (str_to_m8 m8 eui 8).1 = OT_ERROR_NONE) ∨
       ((∃ rest, eui.data = '0' :: 'x' :: rest ∧ ∀ c ∈ rest, isxdigit c = true) ∧
        (str_to_m8 m8 eui 8).1 = OT_ERROR_FAILED)) := by
  unfold validate_add_thread_device_task at h
  simp only at h
  split at h
  · exact absurd h (by decide)
  · split at h
    · exact absurd h (by decide)
    · split at h
      · exact absurd h (by decide)
      · rename_i heui
        clear h
        split at heui
        · rename_i eui hget
          refine ⟨eui, hget, ?_⟩
          simp only [Bool.and_eq_false_imp, decide_eq_true_eq, not_forall, Bool.not_eq_false,
            exists_prop] at heui
          obtain ⟨hlen, hhex⟩ := heui
          refine ⟨hlen, ?_⟩
          unfold is_hex_string at hhex
          by_cases hx : str_at eui 1 = 'x'
          · rw [if_pos hx] at hhex
            by_cases h0 : str_at eui 0 ≠ '0'
            · rw [if_pos h0] at hhex
              exact absurd hhex (by decide)
            · rw [if_neg h0] at hhex
              simp only [ne_eq, not_not] at h0
              right
              refine ⟨⟨eui.data.drop 2, ?_, fun c hc => List.all_eq_true.mp hhex c hc⟩,
                str_to_m8_of_0x m8 eui 8 (by omega) hx⟩
              unfold strlen at hlen
              unfold str_at at hx h0
              match hd : eui.data, hlen with
              | a :: b :: rest, _ =>
                rw [hd] at hx h0
                simp at hx h0
                rw [hx, h0]
                rfl
          · rw [if_neg hx] at hhex
            left
            have hall := List.all_eq_true.mp hhex
            exact ⟨hall, str_to_m8_of_hex m8 eui 8 (by omega) hall⟩
        · exact absurd heui (by simp)

/-- The identity `0011223344556677` of a valid payload. -/
theorem validated_eui_shape_witness :
    ∃ eui,
      cJSON_GetObjectItemCaseSensitive
        (cJSON_GetObjectItemCaseSensitive
          (example_attributes (cJSON.cJSON_Number 60) "0011223344556677"
            "ABCDEF1234567890ABCDEF1234567890") "hasActivationKey")
        "eui" = some (cJSON.cJSON_String eui) ∧
      strlen eui = 16 ∧
      (((∀ c ∈ eui.data, isxdigit c = true) ∧
        (str_to_m8 (List.replicate 8 0) eui 8).1 = OT_ERROR_NONE) ∨
       ((∃ rest, eui.data = '0' :: 'x' :: rest ∧ ∀ c ∈ rest, isxdigit c = true) ∧
        (str_to_m8 (List.replicate 8 0) eui 8).1 = OT_ERROR_FAILED)) :=
  validated_eui_shape
    (example_attributes (cJSON.cJSON_Number 60) "0011223344556677"
      "ABCDEF1234567890ABCDEF1234567890") (List.replicate 8 0) (by decide)

/-! ## Claim C16: the snapshot of an add-thread-device task -/

/-- Claim C16 fails in the code. For the task whose activation key has a member
`JOINCRED` before its member `joinCred`, which `validate_add_thread_device_task`
reports Valid on the credential `joinCred`, the snapshot made by
`jsonify_add_thread_device_task` still has the member `joinCred` under
`attributes.hasActivationKey`, with the credential of the stored payload as its
value: `cJSON_DeleteItemFromObject` removed the member `JOINCRED`. -/
theorem jsonify_keeps_second_credential :
    ∃ node,
      task_node_new zero_rand 100 100 example_task_two_credentials = some node ∧
      validate_add_thread_device_task
        (cJSON_GetObjectItemCaseSensitive example_task_two_credentials "attributes") =
          ACTIONS_TASK_VALID ∧
      snapshot_credential node.task =
        some (cJSON.cJSON_String "ABCDEF1234567890ABCDEF1234567890") ∧
      snapshot_credential (jsonify_add_thread_device_task node) =
        some (cJSON.cJSON_String "ABCDEF1234567890ABCDEF1234567890") :=
  ⟨_, rfl, by decide, rfl, rfl⟩

/-- What `jsonify_add_thread_device_task` does otherwise. When at most one member
of the activation key is named `joinCred` without regard to case, the snapshot
has no member `joinCred` under `attributes.hasActivationKey`. -/
theorem jsonify_strips_single_credential (task_node : task_node_t)
    (ms attrs ks : List (String × cJSON))
    (htask : task_node.task = some (cJSON.cJSON_Object ms))
    (hattr : cJSON_members_find "attributes" ms = some (cJSON.cJSON_Object attrs))
    (hkey : cJSON_members_find "hasActivationKey" attrs = some (cJSON.cJSON_Object ks))
    (hone : (ks.filter (fun m => case_insensitive_equal ATTRIBUTE_PSKD m.1)).length ≤ 1) :
    snapshot_credential (jsonify_add_thread_device_task task_node) = none := by
  have hstatus : ∀ item, ∃ attrs',
      cJSON_AddOrReplaceItemInObjectCaseSensitive (cJSON.cJSON_Object attrs) "status" item =
        cJSON.cJSON_Object attrs' ∧
      cJSON_members_find "hasActivationKey" attrs' = some (cJSON.cJSON_Object ks) := by
    intro item
    unfold cJSON_AddOrReplaceItemInObjectCaseSensitive
    split
    · exact ⟨_, rfl, by
        rw [cJSON_members_find_replace_ne _ _ _ (by decide), hkey]⟩
    · exact ⟨_, rfl, by
        rw [cJSON_members_find_append _ _ _ (by decide), hkey]⟩
  obtain ⟨attrs', hattrs', hkey'⟩ :=
    hstatus (cJSON.cJSON_String (rest_actions_task_status_s task_node.status))
  unfold snapshot_credential jsonify_add_thread_device_task task_node_to_json
  rw [htask]
  simp only [Option.map_some', cJSON_GetObjectItemCaseSensitive, hattr, cJSON_modify_member,
    cJSON_members_find_modify, hattrs', hkey', cJSON_DeleteItemFromObject]
  exact cJSON_members_find_delete ATTRIBUTE_PSKD ks hone

/-! ## Claim C17: identities are unique in the allow list -/

/-- Claim C17. Starting from the empty allow list, after any sequence of calls of
`allowListAddDevice`, `allowListCommissionerJoinerAdd`, `allowListEntryErase`,
`allowListEraseAll` and of join-event notifications (`HandleJoinerEvent`), with
whatever arguments, no two entries of the list have the same 8-byte identity.
In particular, after two calls of `allowListAddDevice` with the same identity on
such a list, exactly one entry of the list has that identity. -/
theorem allow_list_identities_unique (allow_any_joiner : Bool) (ops : List allow_list_op) :
    identities_unique (allow_list_run allow_any_joiner [] ops) ∧
    ∀ (rand1 rand2 : Nat → Nat → Nat) (now1 now2 : Int) (aEui64 : otExtAddress)
      (aTimeout1 aTimeout2 : Nat) (aPskd1 aPskd2 : String),
      ((allowListAddDevice rand2 now2 aEui64 aTimeout2 aPskd2
          (allowListAddDevice rand1 now1 aEui64 aTimeout1 aPskd1
            (allow_list_run allow_any_joiner [] ops))).filter
        (fun e => otExtAddressMatch e.meui64 aEui64)).length = 1 := by
  have h0 := identities_unique_run allow_any_joiner ops [] List.Pairwise.nil
  refine ⟨h0, ?_⟩
  intro rand1 rand2 now1 now2 aEui64 aTimeout1 aTimeout2 aPskd1 aPskd2
  have h1 := identities_unique_addDevice rand1 now1 aEui64 aTimeout1 aPskd1 _ h0
  have h2 := identities_unique_addDevice rand2 now2 aEui64 aTimeout2 aPskd2 _ h1
  exact unique_match_count aEui64 _ h2
    (allowListAddDevice_has_entry rand2 now2 aEui64 aTimeout2 aPskd2 _)

/-! ## Claim C18: adding an identity that has an entry -/

/-- Claim C18. When `allowListAddDevice` is called with an identity that already
has an entry, the resulting list is the old list with one position replaced: the
first entry `e` with that identity becomes `e` with the given credential as its
`mPSKd`. So the number of entries is unchanged, the identifier `muuid`, the state
`mstate`, the timeout `mTimeout` and the identity of that entry are unchanged,
and every other entry is unchanged. -/
theorem allowListAddDevice_existing (rand : Nat → Nat → Nat) (now : Int) (aEui64 : otExtAddress)
    (aTimeout : Nat) (aPskd : String) (list : List AllowListEntry)
    (hex : ∃ e ∈ list, same_eui64 e.meui64 aEui64) :
    ∃ i e, list[i]? = some e ∧ same_eui64 e.meui64 aEui64 ∧
      (∀ j e', j < i → list[j]? = some e' → ¬ same_eui64 e'.meui64 aEui64) ∧
      allowListAddDevice rand now aEui64 aTimeout aPskd list =
        list.set i { e with mPSKd := aPskd } ∧
      (allowListAddDevice rand now aEui64 aTimeout aPskd list).length = list.length := by
  obtain ⟨i, e, hfind, he, hs, hbefore⟩ := entry_find_scan_of_exists aEui64 list hex
  have heq := allowListAddDevice_found rand now aEui64 aTimeout aPskd list i e hfind he
  exact ⟨i, e, he, hs, hbefore, heq, by rw [heq, List.length_set]⟩

/-- The credential of the second entry of `example_allow_list` is replaced. -/
theorem allowListAddDevice_existing_witness :
    ∃ i e, example_allow_list[i]? = some e ∧ same_eui64 e.meui64 (example_eui64 2) ∧
      (∀ j e', j < i → example_allow_list[j]? = some e' →
        ¬ same_eui64 e'.meui64 (example_eui64 2)) ∧
      allowListAddDevice zero_rand 200 (example_eui64 2) 30 "NEWPSKD" example_allow_list =
        example_allow_list.set i { e with mPSKd := "NEWPSKD" } ∧
      (allowListAddDevice zero_rand 200 (example_eui64 2) 30 "NEWPSKD" example_allow_list).length =
        example_allow_list.length :=
  allowListAddDevice_existing zero_rand 200 (example_eui64 2) 30 "NEWPSKD" example_allow_list
    ⟨_, List.mem_cons_of_mem _ (List.mem_singleton.mpr rfl), (same_eui64_example 2 2).mpr rfl⟩

/-! ## Claim C19: adding an identity that has no entry -/

/-- Claim C19. When `allowListAddDevice` is called with an identity that has no
entry, the resulting list is the old list, unchanged, followed by exactly one new
entry with that identity, the given timeout, the given credential, a freshly
generated identifier and the state `kAllowListEntryNew`; `entryEui64Find` of the
identity on the resulting list returns that new entry (the position after the
old entries). -/
theorem allowListAddDevice_new (rand : Nat → Nat → Nat) (now : Int) (aEui64 : otExtAddress)
    (aTimeout : Nat) (aPskd : String) (list : List AllowListEntry)
    (hnone : ∀ e ∈ list, ¬ same_eui64 e.meui64 aEui64) :
    allowListAddDevice rand now aEui64 aTimeout aPskd list =
      list ++ [{ meui64 := aEui64, muuid := uuid_generate_random rand now, mTimeout := aTimeout,
                 mPSKd := aPskd, mstate := kAllowListEntryNew }] ∧
    entryEui64Find (some aEui64) (allowListAddDevice rand now aEui64 aTimeout aPskd list) =
      some list.length := by
  have heq := allowListAddDevice_not_found rand now aEui64 aTimeout aPskd list hnone
  refine ⟨heq, ?_⟩
  rw [heq]
  unfold entryEui64Find
  simp only
  rw [entry_find_scan_zero_some]
  refine ⟨⟨{ meui64 := aEui64, muuid := uuid_generate_random rand now, mTimeout := aTimeout,
              mPSKd := aPskd, mstate := kAllowListEntryNew }, by simp,
    same_eui64_refl aEui64⟩, ?_⟩
  intro j e' hj hje
  rw [List.getElem?_append_left hj] at hje
  exact hnone e' (List.mem_iff_getElem?.mpr ⟨j, hje⟩)

/-- An identity that `example_allow_list` does not hold is appended to it. -/
theorem allowListAddDevice_new_witness :
    allowListAddDevice zero_rand 200 (example_eui64 3) 30 "NEWPSKD" example_allow_list =
      example_allow_list ++
        [{ meui64 := example_eui64 3, muuid := uuid_generate_random zero_rand 200, mTimeout := 30,
           mPSKd := "NEWPSKD", mstate := kAllowListEntryNew }] ∧
    entryEui64Find (some (example_eui64 3))
        (allowListAddDevice zero_rand 200 (example_eui64 3) 30 "NEWPSKD" example_allow_list) =
      some example_allow_list.length :=
  allowListAddDevice_new zero_rand 200 (example_eui64 3) 30 "NEWPSKD" example_allow_list
    example_allow_list_without_3

/-! ## Claim C20: erasing an identity that has no entry -/

/-- Claim C20 fails in the code. For every allow list and every identity that has
no entry in it, `allowListEntryErase` leaves the list unchanged, as the claim
says, but the error it returns is `OT_ERROR_FAILED`, which is not
`OT_ERROR_NOT_FOUND`. -/
theorem allowListEntryErase_absent (aEui64 : otExtAddress) (list : List AllowListEntry)
    (hnone : ∀ e ∈ list, ¬ same_eui64 e.meui64 aEui64) :
    allowListEntryErase aEui64 list = (OT_ERROR_FAILED, list) ∧
    (allowListEntryErase aEui64 list).1 ≠ OT_ERROR_NOT_FOUND := by
  have hfind := (entry_find_scan_none aEui64 list 0).mpr hnone
  have heq : allowListEntryErase aEui64 list = (OT_ERROR_FAILED, list) := by
    unfold allowListEntryErase
    simp only [hfind]
  refine ⟨heq, ?_⟩
  rw [heq]
  exact fun h => otError.noConfusion h

/-- Erasing an identity that `example_allow_list` does not hold. -/
theorem allowListEntryErase_absent_witness :
    allowListEntryErase (example_eui64 3) example_allow_list =
      (OT_ERROR_FAILED, example_allow_list) ∧
    (allowListEntryErase (example_eui64 3) example_allow_list).1 ≠ OT_ERROR_NOT_FOUND :=
  allowListEntryErase_absent (example_eui64 3) example_allow_list example_allow_list_without_3

/-! ## Helper lemmas: the allow list, the commissioner and the add-thread-device handlers -/

theorem identities_unique_getElem (l : List AllowListEntry) (h : identities_unique l)
    (i j : Nat) (a b : AllowListEntry) (hi : l[i]? = some a) (hj : l[j]? = some b)
    (hne : i ≠ j) : ¬ same_eui64 a.meui64 b.meui64 := by
  unfold identities_unique at h
  rw [List.pairwise_iff_getElem] at h
  obtain ⟨hi1, hi2⟩ := List.getElem?_eq_some.mp hi
  obtain ⟨hj1, hj2⟩ := List.getElem?_eq_some.mp hj
  rcases Nat.lt_or_gt_of_ne hne with hlt | hgt
  · have := h i j hi1 hj1 hlt
    rw [hi2, hj2] at this
    exact this
  · have := h j i hj1 hi1 hgt
    rw [hi2, hj2] at this
    exact fun hs => this (same_eui64_symm hs)

theorem filter_eq_eraseIdx {α : Type} (p : α → Bool) (l : List α) (i : Nat) (a : α)
    (hi : l[i]? = some a) (ha : p a = false)
    (hothers : ∀ j b, j ≠ i → l[j]? = some b → p b = true) :
    l.filter p = l.eraseIdx i := by
  induction l generalizing i with
  | nil => simp at hi
  | cons x t ih =>
    cases i with
    | zero =>
      simp only [List.getElem?_cons_zero, Option.some.injEq] at hi
      subst hi
      rw [List.filter_cons_of_neg (by simp [ha]), List.eraseIdx_cons_zero, List.filter_eq_self]
      intro b hb
      obtain ⟨j, hj⟩ := List.mem_iff_getElem?.mp hb
      exact hothers (j + 1) b (by omega) (by simpa using hj)
    | succ k =>
      rw [List.getElem?_cons_succ] at hi
      have hx : p x = true := hothers 0 x (by omega) (by simp)
      rw [List.filter_cons_of_pos hx, List.eraseIdx_cons_succ, ih k hi]
      intro j b hj hjb
      exact hothers (j + 1) b (by omega) (by simpa using hjb)

/-- Under unique identities, erasing an identity leaves exactly the entries
with another identity. -/
theorem allowListEntryErase_filter (aEui64 : otExtAddress) (list : List AllowListEntry)
    (hunique : identities_unique list) :
    (allowListEntryErase aEui64 list).2 =
      list.filter (fun e => !otExtAddressMatch e.meui64 aEui64) := by
  by_cases hex : ∃ e ∈ list, same_eui64 e.meui64 aEui64
  · obtain ⟨i, e, hfind, he, hs, -⟩ := entry_find_scan_of_exists aEui64 list hex
    have hlt := getElem?_lt_length list i e he
    unfold allowListEntryErase
    simp only [hfind, LinkedList_Remove, hlt, if_true]
    symm
    apply filter_eq_eraseIdx _ list i e he
    · simp [(otExtAddressMatch_iff _ _).mpr hs]
    · intro j b hj hjb
      have hns := identities_unique_getElem list hunique j i b e hjb he hj
      have : ¬ same_eui64 b.meui64 aEui64 := fun hb =>
        hns (same_eui64_trans hb (same_eui64_symm hs))
      simp [(otExtAddressMatch_false_iff _ _).mpr this]
  · have hnone : ∀ e ∈ list, ¬ same_eui64 e.meui64 aEui64 := fun e he hs => hex ⟨e, he, hs⟩
    have hfind := (entry_find_scan_none aEui64 list 0).mpr hnone
    unfold allowListEntryErase
    simp only [hfind]
    symm
    rw [List.filter_eq_self]
    intro e he
    simp [(otExtAddressMatch_false_iff _ _).mpr (hnone e he)]

theorem allowListEntryErase_found (aEui64 : otExtAddress) (list : List AllowListEntry) (i : Nat)
    (e : AllowListEntry) (hfind : entry_find_scan aEui64 list 0 = some i)
    (he : list[i]? = some e) :
    allowListEntryErase aEui64 list = (OT_ERROR_NONE, list.eraseIdx i) := by
  have hlt := getElem?_lt_length list i e he
  unfold allowListEntryErase
  simp only [hfind, LinkedList_Remove, hlt, if_true]

theorem filter_no_match (aEui64 : otExtAddress) (list : List AllowListEntry) :
    ∀ e ∈ list.filter (fun e => !otExtAddressMatch e.meui64 aEui64),
      ¬ same_eui64 e.meui64 aEui64 := by
  intro e he
  rw [List.mem_filter] at he
  rw [← otExtAddressMatch_false_iff]
  simpa using he.2

theorem allowListEntryJoinStatusGet_found (eui64 : otExtAddress) (list : List AllowListEntry)
    (i : Nat) (e : AllowListEntry) (hfind : entry_find_scan eui64 list 0 = some i)
    (he : list[i]? = some e) :
    allowListEntryJoinStatusGet (some eui64) list =
      if e.mstate = kAllowListEntryJoinFailed then OT_ERROR_FAILED
      else if e.mstate = kAllowListEntryJoined then OT_ERROR_NONE
      else OT_ERROR_PENDING := by
  unfold allowListEntryJoinStatusGet entryEui64Find
  simp only [hfind, he, AllowListEntry.is_failed, AllowListEntry.is_joined, beq_iff_eq]

theorem active_joiners_count_loop_eq (list : List AllowListEntry) (c : Nat) :
    active_joiners_count_loop list c =
      if (list.filter (fun e => decide (e.mstate ≠ kAllowListEntryJoined))).length = 0 then c
      else (c + (list.filter (fun e => decide (e.mstate ≠ kAllowListEntryJoined))).length) % 256 := by
  induction list generalizing c with
  | nil => rfl
  | cons a rest ih =>
    unfold active_joiners_count_loop
    by_cases h : kAllowListEntryJoined ≠ a.mstate
    · have h2 : a.mstate ≠ kAllowListEntryJoined := fun hh => h hh.symm
      rw [if_pos h, ih, List.filter_cons_of_pos (by simpa using h2)]
      simp only [List.length_cons, uint8_wrap]
      split
      · rename_i h0
        rw [h0]
        simp
      · simp only [Nat.succ_ne_zero, if_false]
        omega
    · have h2 : a.mstate = kAllowListEntryJoined := by
        by_contra hh
        exact h (fun x => hh x.symm)
      rw [if_neg h, ih, List.filter_cons_of_neg (by simp [h2])]

theorem getElem?_modify_state (f : AllowListEntry → AllowListEntry) (list : List AllowListEntry)
    (k i : Nat) (e : AllowListEntry) (he : list[i]? = some e) :
    (list.modify f k)[i]? = some (if k = i then f e else e) := by
  rw [List.getElem?_modify, he]
  by_cases h : k = i
  · simp [h]
  · simp [h]

theorem HandleJoinerEvent_found (aEvent : otCommissionerJoinerEvent) (aJoinerEui64 : otExtAddress)
    (list : List AllowListEntry) (i : Nat)
    (hfind : entry_find_scan aJoinerEui64 list 0 = some i) :
    HandleJoinerEvent aEvent aJoinerEui64 list =
      match aEvent with
      | OT_COMMISSIONER_JOINER_FINALIZE =>
        list.modify (fun e => e.update_state kAllowListEntryJoined) i
      | OT_COMMISSIONER_JOINER_REMOVED =>
        list.modify
          (fun e =>
            if e.mstate ≠ kAllowListEntryJoined then e.update_state kAllowListEntryJoinFailed
            else e) i
      | _ => list := by
  unfold HandleJoinerEvent entryEui64Find
  simp only [hfind, Option.isNone_some, Bool.false_eq_true, false_and, if_false]

theorem HandleJoinerEvent_not_found (aEvent : otCommissionerJoinerEvent)
    (aJoinerEui64 : otExtAddress) (list : List AllowListEntry)
    (hfind : entry_find_scan aJoinerEui64 list 0 = none) :
    HandleJoinerEvent aEvent aJoinerEui64 list = list := by
  unfold HandleJoinerEvent entryEui64Find
  simp only [hfind]
  split
  · rfl
  · cases aEvent <;> rfl

theorem joiner_add_states (allow_any_joiner : Bool) (rand : Nat → Nat → Nat) (now : Int)
    (otCommissionerAddJoiner : Option otExtAddress → String → Nat → otError)
    (aEui64 : otExtAddress) (aTimeout : Nat) (aPskd : String) (list : List AllowListEntry)
    (i : Nat) (e : AllowListEntry) (he : list[i]? = some e) :
    ∃ e', (allowListCommissionerJoinerAdd allow_any_joiner rand now otCommissionerAddJoiner
        aEui64 aTimeout aPskd list).allow_list[i]? = some e' ∧
      e'.meui64 = e.meui64 ∧
      (e'.mstate = e.mstate ∨
        ((allowListCommissionerJoinerAdd allow_any_joiner rand now otCommissionerAddJoiner
            aEui64 aTimeout aPskd list).error = OT_ERROR_NONE ∧
          e'.mstate = kAllowListEntryActiveJoiner)) := by
  have hadd : ∃ e1, (allowListAddDevice rand now aEui64 aTimeout aPskd list)[i]? = some e1 ∧
      e1.meui64 = e.meui64 ∧ e1.mstate = e.mstate := by
    unfold allowListAddDevice
    simp only
    split
    · rename_i k hk
      rw [getElem?_modify_state _ list k i e he]
      by_cases hki : k = i
      · simp [hki]
      · simp [hki]
    · unfold LinkedList_Add
      rw [List.getElem?_append_left (getElem?_lt_length list i e he)]
      exact ⟨e, he, rfl, rfl⟩
  obtain ⟨e1, he1, hid1, hst1⟩ := hadd
  unfold allowListCommissionerJoinerAdd
  by_cases hnull : eui64IsNull aEui64 = true ∧ allow_any_joiner = true
  · rw [if_pos hnull]
    exact ⟨e, he, rfl, Or.inl rfl⟩
  · rw [if_neg hnull]
    simp only
    split
    · rename_i k hk
      by_cases herr : otCommissionerAddJoiner
          (if eui64IsNull aEui64 = true then none else some aEui64) aPskd aTimeout = OT_ERROR_NONE
      · rw [if_pos herr, getElem?_modify_state _ _ k i e1 he1]
        by_cases hki : k = i
        · rw [if_pos hki]
          exact ⟨_, rfl, hid1, Or.inr ⟨herr, rfl⟩⟩
        · rw [if_neg hki]
          exact ⟨_, rfl, hid1, Or.inl hst1⟩
      · rw [if_neg herr]
        exact ⟨e1, he1, hid1, Or.inl hst1⟩
    · exact ⟨e1, he1, hid1, Or.inl hst1⟩

theorem joiner_event_states (aEvent : otCommissionerJoinerEvent) (aJoinerEui64 : otExtAddress)
    (list : List AllowListEntry) (i : Nat) (e : AllowListEntry) (he : list[i]? = some e) :
    ∃ e', (HandleJoinerEvent aEvent aJoinerEui64 list)[i]? = some e' ∧
      e'.meui64 = e.meui64 ∧
      (e'.mstate = e.mstate ∨
        (aEvent = OT_COMMISSIONER_JOINER_FINALIZE ∧ e'.mstate = kAllowListEntryJoined) ∨
        (aEvent = OT_COMMISSIONER_JOINER_REMOVED ∧ e.mstate ≠ kAllowListEntryJoined ∧
          e'.mstate = kAllowListEntryJoinFailed)) := by
  cases hfind : entry_find_scan aJoinerEui64 list 0 with
  | none =>
    rw [HandleJoinerEvent_not_found aEvent aJoinerEui64 list hfind]
    exact ⟨e, he, rfl, Or.inl rfl⟩
  | some k =>
    rw [HandleJoinerEvent_found aEvent aJoinerEui64 list k hfind]
    by_cases hki : k = i
    · cases aEvent
      · exact ⟨e, he, rfl, Or.inl rfl⟩
      · exact ⟨e, he, rfl, Or.inl rfl⟩
      · simp only
        rw [getElem?_modify_state _ list k i e he, if_pos hki]
        exact ⟨_, rfl, rfl, Or.inr (Or.inl ⟨trivial, rfl⟩)⟩
      · exact ⟨e, he, rfl, Or.inl rfl⟩
      · simp only
        rw [getElem?_modify_state _ list k i e he, if_pos hki]
        by_cases hst : e.mstate ≠ kAllowListEntryJoined
        · rw [if_pos hst]
          exact ⟨_, rfl, rfl, Or.inr (Or.inr ⟨trivial, hst, rfl⟩)⟩
        · rw [if_neg hst]
          exact ⟨_, rfl, rfl, Or.inl rfl⟩
    · cases aEvent
      · exact ⟨e, he, rfl, Or.inl rfl⟩
      · exact ⟨e, he, rfl, Or.inl rfl⟩
      · simp only
        rw [getElem?_modify_state _ list k i e he, if_neg hki]
        exact ⟨_, rfl, rfl, Or.inl rfl⟩
      · exact ⟨e, he, rfl, Or.inl rfl⟩
      · simp only
        rw [getElem?_modify_state _ list k i e he, if_neg hki]
        exact ⟨_, rfl, rfl, Or.inl rfl⟩

theorem entryEui64Find_none_pointer (list : List AllowListEntry) :
    entryEui64Find none list = none := rfl

theorem joiner_add_null_option_set (rand : Nat → Nat → Nat) (now : Int)
    (otCommissionerAddJoiner : Option otExtAddress → String → Nat → otError)
    (aEui64 : otExtAddress) (aTimeout : Nat) (aPskd : String) (list : List AllowListEntry)
    (hnull : eui64IsNull aEui64 = true) :
    (allowListCommissionerJoinerAdd true rand now otCommissionerAddJoiner aEui64 aTimeout aPskd
      list).error = OT_ERROR_INVALID_ARGS ∧
    (allowListCommissionerJoinerAdd true rand now otCommissionerAddJoiner aEui64 aTimeout aPskd
      list).add_joiner_calls = [] ∧
    (allowListCommissionerJoinerAdd true rand now otCommissionerAddJoiner aEui64 aTimeout aPskd
      list).allow_list = list := by
  unfold allowListCommissionerJoinerAdd
  simp only [hnull, and_self, if_true]

theorem joiner_add_null_option_unset (rand : Nat → Nat → Nat) (now : Int)
    (otCommissionerAddJoiner : Option otExtAddress → String → Nat → otError)
    (aEui64 : otExtAddress) (aTimeout : Nat) (aPskd : String) (list : List AllowListEntry)
    (hnull : eui64IsNull aEui64 = true) :
    (allowListCommissionerJoinerAdd false rand now otCommissionerAddJoiner aEui64 aTimeout aPskd
      list).error = otCommissionerAddJoiner none aPskd aTimeout ∧
    (allowListCommissionerJoinerAdd false rand now otCommissionerAddJoiner aEui64 aTimeout aPskd
      list).add_joiner_calls = [(none, aPskd, aTimeout)] ∧
    (allowListCommissionerJoinerAdd false rand now otCommissionerAddJoiner aEui64 aTimeout aPskd
      list).allow_list = allowListAddDevice rand now aEui64 aTimeout aPskd list := by
  unfold allowListCommissionerJoinerAdd
  simp only [hnull, Bool.false_eq_true, and_false, if_false, if_true, entryEui64Find_none_pointer,
    and_self]

theorem joiner_add_has_entry (allow_any_joiner : Bool) (rand : Nat → Nat → Nat) (now : Int)
    (otCommissionerAddJoiner : Option otExtAddress → String → Nat → otError)
    (aEui64 : otExtAddress) (aTimeout : Nat) (aPskd : String) (list : List AllowListEntry)
    (hnull : eui64IsNull aEui64 = false) :
    (allowListCommissionerJoinerAdd allow_any_joiner rand now otCommissionerAddJoiner aEui64
      aTimeout aPskd list).add_joiner_calls = [(some aEui64, aPskd, aTimeout)] ∧
    (∃ e ∈ (allowListCommissionerJoinerAdd allow_any_joiner rand now otCommissionerAddJoiner
      aEui64 aTimeout aPskd list).allow_list, same_eui64 e.meui64 aEui64) ∧
    (allowListCommissionerJoinerAdd allow_any_joiner rand now otCommissionerAddJoiner aEui64
      aTimeout aPskd list).allow_list.length =
      (allowListAddDevice rand now aEui64 aTimeout aPskd list).length := by
  obtain ⟨e, he, hs⟩ := allowListAddDevice_has_entry rand now aEui64 aTimeout aPskd list
  unfold allowListCommissionerJoinerAdd
  simp only [hnull, Bool.false_eq_true, false_and, if_false]
  refine ⟨trivial, ?_, ?_⟩
  · split
    · split
      · rename_i k hk herr
        obtain ⟨j, hj⟩ := List.mem_iff_getElem?.mp he
        refine ⟨if k = j then e.update_state kAllowListEntryActiveJoiner else e, ?_, ?_⟩
        · apply List.mem_iff_getElem?.mpr
          refine ⟨j, ?_⟩
          rw [List.getElem?_modify, hj]
          by_cases hkj : k = j
          · simp [hkj]
          · simp [hkj]
        · by_cases hkj : k = j
          · rw [if_pos hkj]; exact hs
          · rw [if_neg hkj]; exact hs
      · exact ⟨e, he, hs⟩
    · exact ⟨e, he, hs⟩
  · split
    · split
      · rw [List.length_modify]
      · rfl
    · rfl

theorem process_task_of_pending {W : Type} (handlers : List (task_handlers_t W))
    (node : task_node_t) (w : W) (h : task_handlers_t W)
    (process : task_node_t → W → rest_actions_task_result_t × W)
    (hstatus : node.status = ACTIONS_TASK_STATUS_PENDING)
    (hh : task_handler_by_task_type_id handlers node.type = some h)
    (hp : h.process = some process) :
    process_task handlers node w =
      { task_node :=
          if (process (task_update_status node ACTIONS_TASK_STATUS_ACTIVE) w).1 =
              ACTIONS_RESULT_FAILURE then
            task_update_status (task_update_status node ACTIONS_TASK_STATUS_ACTIVE)
              ACTIONS_TASK_STATUS_FAILED
          else if (process (task_update_status node ACTIONS_TASK_STATUS_ACTIVE) w).1 =
              ACTIONS_RESULT_RETRY then
            task_update_status (task_update_status node ACTIONS_TASK_STATUS_ACTIVE)
              ACTIONS_TASK_STATUS_PENDING
          else task_update_status node ACTIONS_TASK_STATUS_ACTIVE
        world := (process (task_update_status node ACTIONS_TASK_STATUS_ACTIVE) w).2
        calls := [handler_call.process (task_update_status node ACTIONS_TASK_STATUS_ACTIVE)] } := by
  have hh' : task_handler_by_task_type_id handlers
      (task_update_status node ACTIONS_TASK_STATUS_ACTIVE).type = some h := hh
  unfold process_task
  rw [if_neg (by simp [hstatus])]
  simp only [hh', hp]

theorem allowListCommissionerJoinerRemove_cases (aEui64 : otExtAddress) (aInstance : otInstance) :
    (allowListCommissionerJoinerRemove aEui64 aInstance).error =
      (if aInstance.otCommissionerGetState = OT_COMMISSIONER_STATE_DISABLED then OT_ERROR_NONE
       else aInstance.otCommissionerRemoveJoiner (commissioner_address aEui64)) ∧
    (allowListCommissionerJoinerRemove aEui64 aInstance).calls =
      (if aInstance.otCommissionerGetState = OT_COMMISSIONER_STATE_DISABLED then []
       else [commissioner_call.remove_joiner (commissioner_address aEui64)]) := by
  unfold allowListCommissionerJoinerRemove commissioner_address
  by_cases hstate : aInstance.otCommissionerGetState = OT_COMMISSIONER_STATE_DISABLED
  · simp [hstate]
  · have hstate2 : ¬ OT_COMMISSIONER_STATE_DISABLED = aInstance.otCommissionerGetState :=
      fun h => hstate h.symm
    simp [hstate, hstate2]

theorem commissioner_wait_loop_deadline (end_time : timespec)
    (pre rest : List (otCommissionerState × timespec)) (last : otCommissionerState)
    (now : timespec)
    (hpre : ∀ p ∈ pre, p.1 ≠ OT_COMMISSIONER_STATE_ACTIVE ∧ deadline_passed p.2 end_time = false)
    (hlast : last ≠ OT_COMMISSIONER_STATE_ACTIVE) (hnow : deadline_passed now end_time = true) :
    commissioner_wait_loop end_time (pre ++ (last, now) :: rest) = some last := by
  induction pre with
  | nil =>
    simp only [List.nil_append, commissioner_wait_loop, hlast, if_false, hnow, if_true]
  | cons p t ih =>
    obtain ⟨p1, p2⟩ := p
    have hp := hpre (p1, p2) (List.mem_cons_self _ _)
    simp only [List.cons_append, commissioner_wait_loop, hp.1, if_false, hp.2,
      Bool.false_eq_true]
    exact ih (fun q hq => hpre q (List.mem_cons_of_mem _ hq))

theorem example_allow_list_unique : identities_unique example_allow_list := by
  unfold identities_unique example_allow_list
  simp only [List.pairwise_cons, List.mem_singleton, List.not_mem_nil, forall_eq,
    AllowListEntry.new, false_implies, implies_true, List.Pairwise.nil, and_true]
  exact fun h => absurd ((same_eui64_example 1 2).mp h) (by decide)

/-! ## Claim C21: erasing an identity that has an entry -/

/-- Claim C21. For every allow list whose entries have distinct identities, which
every allow list reached from the empty one has, and every identity that has an
entry in it, `allowListEntryErase` returns `OT_ERROR_NONE`; the list afterwards
is the old list without the position of that entry, so exactly that one entry
is removed and every other entry is unchanged and keeps its order; and
`entryEui64Find` of the identity on the list afterwards returns none. -/
theorem allowListEntryErase_present (aEui64 : otExtAddress) (list : List AllowListEntry)
    (hunique : identities_unique list) (hex : ∃ e ∈ list, same_eui64 e.meui64 aEui64) :
    ∃ i e, list[i]? = some e ∧ same_eui64 e.meui64 aEui64 ∧
      allowListEntryErase aEui64 list = (OT_ERROR_NONE, list.eraseIdx i) ∧
      (allowListEntryErase aEui64 list).2.length + 1 = list.length ∧
      entryEui64Find (some aEui64) (allowListEntryErase aEui64 list).2 = none := by
  obtain ⟨i, e, hfind, he, hs, -⟩ := entry_find_scan_of_exists aEui64 list hex
  have hlt := getElem?_lt_length list i e he
  have heq := allowListEntryErase_found aEui64 list i e hfind he
  refine ⟨i, e, he, hs, heq, ?_, ?_⟩
  · rw [heq]
    simp only
    rw [List.length_eraseIdx_of_lt hlt]
    omega
  · unfold entryEui64Find
    simp only
    rw [entry_find_scan_none, allowListEntryErase_filter aEui64 list hunique]
    exact filter_no_match aEui64 list

/-- Erasing the identity ending in 2 from `example_allow_list`. -/
theorem allowListEntryErase_present_witness :
    ∃ i e, example_allow_list[i]? = some e ∧ same_eui64 e.meui64 (example_eui64 2) ∧
      allowListEntryErase (example_eui64 2) example_allow_list =
        (OT_ERROR_NONE, example_allow_list.eraseIdx i) ∧
      (allowListEntryErase (example_eui64 2) example_allow_list).2.length + 1 =
        example_allow_list.length ∧
      entryEui64Find (some (example_eui64 2))
        (allowListEntryErase (example_eui64 2) example_allow_list).2 = none :=
  allowListEntryErase_present (example_eui64 2) example_allow_list example_allow_list_unique
    ⟨_, List.mem_cons_of_mem _ (List.mem_singleton.mpr rfl), (same_eui64_example 2 2).mpr rfl⟩

/-! ## Claim C22: the join status of an identity -/

/-- Counterexample to claim C22: on a list that has no entry for the identity
ending in 3, `allowListEntryJoinStatusGet` returns `OT_ERROR_FAILED`, the very
code it returns for the identity ending in 4, whose entry is JoinFailed. -/
theorem join_status_not_found_is_failure :
    (∀ e ∈ example_allow_list_failed, ¬ same_eui64 e.meui64 (example_eui64 3)) ∧
    allowListEntryJoinStatusGet (some (example_eui64 3)) example_allow_list_failed =
      OT_ERROR_FAILED ∧
    example_allow_list_failed[2]? =
      some { AllowListEntry.new (example_eui64 4) (uuid_generate_random zero_rand 102) 90
              "123456" with mstate := kAllowListEntryJoinFailed } ∧
    allowListEntryJoinStatusGet (some (example_eui64 4)) example_allow_list_failed =
      OT_ERROR_FAILED := by
  refine ⟨?_, by decide, rfl, by decide⟩
  intro e he
  simp only [example_allow_list_failed, List.mem_cons, List.mem_singleton, List.not_mem_nil,
    or_false] at he
  rcases he with rfl | rfl | rfl
  · exact fun h => absurd ((same_eui64_example 1 3).mp h) (by decide)
  · exact fun h => absurd ((same_eui64_example 2 3).mp h) (by decide)
  · exact fun h => absurd ((same_eui64_example 4 3).mp h) (by decide)

/-- Claim C22 with the not-found result as the code has it. When no entry has
the identity, and for a null pointer, `allowListEntryJoinStatusGet` returns
`OT_ERROR_FAILED`. Otherwise, with `e` the first entry that has the identity,
it returns `OT_ERROR_NONE` when `e` is Joined, `OT_ERROR_FAILED` when `e` is
JoinFailed and `OT_ERROR_PENDING` when `e` is New or ActiveJoiner. -/
theorem allowListEntryJoinStatusGet_cases (eui64 : otExtAddress) (list : List AllowListEntry) :
    ((∀ e ∈ list, ¬ same_eui64 e.meui64 eui64) →
      allowListEntryJoinStatusGet (some eui64) list = OT_ERROR_FAILED) ∧
    (∀ (i : Nat) (e : AllowListEntry), list[i]? = some e → same_eui64 e.meui64 eui64 →
      (∀ (j : Nat) (e' : AllowListEntry), j < i → list[j]? = some e' →
        ¬ same_eui64 e'.meui64 eui64) →
      (e.mstate = kAllowListEntryJoined →
        allowListEntryJoinStatusGet (some eui64) list = OT_ERROR_NONE) ∧
      (e.mstate = kAllowListEntryJoinFailed →
        allowListEntryJoinStatusGet (some eui64) list = OT_ERROR_FAILED) ∧
      (e.mstate = kAllowListEntryNew ∨ e.mstate = kAllowListEntryActiveJoiner →
        allowListEntryJoinStatusGet (some eui64) list = OT_ERROR_PENDING)) ∧
    allowListEntryJoinStatusGet none list = OT_ERROR_FAILED := by
  refine ⟨?_, ?_, rfl⟩
  · intro hnone
    have hfind := (entry_find_scan_none eui64 list 0).mpr hnone
    unfold allowListEntryJoinStatusGet entryEui64Find
    simp only [hfind]
  · intro i e he hs hbefore
    have hfind := (entry_find_scan_zero_some eui64 list i).mpr ⟨⟨e, he, hs⟩, hbefore⟩
    rw [allowListEntryJoinStatusGet_found eui64 list i e hfind he]
    refine ⟨?_, ?_, ?_⟩
    · intro h; rw [h]; rfl
    · intro h; rw [h]; rfl
    · rintro (h | h) <;> rw [h] <;> rfl

/-! ## Claim C23: the count of joiners that are not joined -/

/-- Claim C23. For every allow list of fewer than 256 entries,
`allowListActiveJoinersCountGet` returns the number of entries whose state is
not `kAllowListEntryJoined` (entries in the states New, ActiveJoiner and
JoinFailed all count). The function returns only the count: the list is not
modified. -/
theorem allowListActiveJoinersCountGet_count (list : List AllowListEntry)
    (hlen : list.length < 256) :
    allowListActiveJoinersCountGet list =
      (list.filter (fun e => decide (e.mstate ≠ kAllowListEntryJoined))).length := by
  unfold allowListActiveJoinersCountGet
  rw [active_joiners_count_loop_eq]
  have hle := List.length_filter_le (fun e : AllowListEntry =>
    decide (e.mstate ≠ kAllowListEntryJoined)) list
  split
  · rename_i h0
    exact h0.symm
  · rw [Nat.zero_add, Nat.mod_eq_of_lt (by omega)]

/-- Of the three entries of `example_allow_list_failed` the two that are not
Joined are counted. -/
theorem allowListActiveJoinersCountGet_count_witness :
    allowListActiveJoinersCountGet example_allow_list_failed = 2 :=
  allowListActiveJoinersCountGet_count example_allow_list_failed (by decide)

/-! ## Claim C24: the changes of promotion state -/

/-- Counterexample to claim C24: a Finalize event moves an entry from New to
Joined, `allowListCommissionerJoinerAdd` with an accepting commissioner moves an
entry from Joined to ActiveJoiner, and a Finalize event moves an entry from
JoinFailed to Joined; none of these is a change of the state machine. -/
theorem promotion_change_outside_state_machine :
    (example_allow_list_failed[0]?.map (fun e => e.mstate) = some kAllowListEntryNew ∧
     (HandleJoinerEvent OT_COMMISSIONER_JOINER_FINALIZE (example_eui64 1)
        example_allow_list_failed)[0]?.map (fun e => e.mstate) = some kAllowListEntryJoined ∧
     spec_promotion_change kAllowListEntryNew kAllowListEntryJoined = false) ∧
    (example_allow_list_failed[1]?.map (fun e => e.mstate) = some kAllowListEntryJoined ∧
     ((allowListCommissionerJoinerAdd false zero_rand 200 (fun _ _ _ => OT_ERROR_NONE)
        (example_eui64 2) 30 "NEWPSKD" example_allow_list_failed).allow_list)[1]?.map
          (fun e => e.mstate) = some kAllowListEntryActiveJoiner ∧
     spec_promotion_change kAllowListEntryJoined kAllowListEntryActiveJoiner = false) ∧
    (example_allow_list_failed[2]?.map (fun e => e.mstate) = some kAllowListEntryJoinFailed ∧
     (HandleJoinerEvent OT_COMMISSIONER_JOINER_FINALIZE (example_eui64 4)
        example_allow_list_failed)[2]?.map (fun e => e.mstate) = some kAllowListEntryJoined ∧
     spec_promotion_change kAllowListEntryJoinFailed kAllowListEntryJoined = false) := by
  decide

/-- Claim C24 with the changes the code makes. Every entry of the allow list
keeps its position and identity through a call of
`allowListCommissionerJoinerAdd` and through a join-event notification. The
call leaves its state as it is or, when the commissioner returned
`OT_ERROR_NONE`, sets it to ActiveJoiner (from any state). The event leaves the
state as it is, or is a Finalize event and sets it to Joined (from any state),
or is a Removed event on an entry that is not Joined and sets it to JoinFailed:
a Removed event never changes a Joined entry. -/
theorem promotion_state_changes (allow_any_joiner : Bool) (rand : Nat → Nat → Nat) (now : Int)
    (otCommissionerAddJoiner : Option otExtAddress → String → Nat → otError)
    (aEui64 : otExtAddress) (aTimeout : Nat) (aPskd : String)
    (aEvent : otCommissionerJoinerEvent) (aJoinerEui64 : otExtAddress)
    (list : List AllowListEntry) (i : Nat) (e : AllowListEntry) (he : list[i]? = some e) :
    (∃ e', (allowListCommissionerJoinerAdd allow_any_joiner rand now otCommissionerAddJoiner
        aEui64 aTimeout aPskd list).allow_list[i]? = some e' ∧
      e'.meui64 = e.meui64 ∧
      (e'.mstate = e.mstate ∨
        ((allowListCommissionerJoinerAdd allow_any_joiner rand now otCommissionerAddJoiner
            aEui64 aTimeout aPskd list).error = OT_ERROR_NONE ∧
          e'.mstate = kAllowListEntryActiveJoiner))) ∧
    (∃ e', (HandleJoinerEvent aEvent aJoinerEui64 list)[i]? = some e' ∧
      e'.meui64 = e.meui64 ∧
      (e'.mstate = e.mstate ∨
        (aEvent = OT_COMMISSIONER_JOINER_FINALIZE ∧ e'.mstate = kAllowListEntryJoined) ∨
        (aEvent = OT_COMMISSIONER_JOINER_REMOVED ∧ e.mstate ≠ kAllowListEntryJoined ∧
          e'.mstate = kAllowListEntryJoinFailed))) :=
  ⟨joiner_add_states allow_any_joiner rand now otCommissionerAddJoiner aEui64 aTimeout aPskd
      list i e he,
    joiner_event_states aEvent aJoinerEui64 list i e he⟩

/-- The Joined entry of `example_allow_list_failed` through a call that the
commissioner accepts and through a Removed event. -/
theorem promotion_state_changes_witness :
    (∃ e', (allowListCommissionerJoinerAdd false zero_rand 200 (fun _ _ _ => OT_ERROR_NONE)
        (example_eui64 2) 30 "NEWPSKD" example_allow_list_failed).allow_list[1]? = some e' ∧
      e'.meui64 = example_eui64 2 ∧
      (e'.mstate = kAllowListEntryJoined ∨
        ((allowListCommissionerJoinerAdd false zero_rand 200 (fun _ _ _ => OT_ERROR_NONE)
            (example_eui64 2) 30 "NEWPSKD" example_allow_list_failed).error = OT_ERROR_NONE ∧
          e'.mstate = kAllowListEntryActiveJoiner))) ∧
    (∃ e', (HandleJoinerEvent OT_COMMISSIONER_JOINER_REMOVED (example_eui64 2)
        example_allow_list_failed)[1]? = some e' ∧
      e'.meui64 = example_eui64 2 ∧
      (e'.mstate = kAllowListEntryJoined ∨
        (OT_COMMISSIONER_JOINER_REMOVED = OT_COMMISSIONER_JOINER_FINALIZE ∧
          e'.mstate = kAllowListEntryJoined) ∨
        (OT_COMMISSIONER_JOINER_REMOVED = OT_COMMISSIONER_JOINER_REMOVED ∧
          kAllowListEntryJoined ≠ kAllowListEntryJoined ∧
          e'.mstate = kAllowListEntryJoinFailed))) :=
  promotion_state_changes false zero_rand 200 (fun _ _ _ => OT_ERROR_NONE) (example_eui64 2) 30
    "NEWPSKD" OT_COMMISSIONER_JOINER_REMOVED (example_eui64 2) example_allow_list_failed 1
    { AllowListEntry.new (example_eui64 2) (uuid_generate_random zero_rand 101) 90 "123456" with
      mstate := kAllowListEntryJoined } rfl

/-! ## Claim C25: what a join event changes -/

/-- Claim C25. The function `HandleJoinerEvent` keeps the number of entries, and
every entry with an identity other than that of the event stays at its position
unchanged. When no entry has the identity of the event, and for every Start,
Connected and End event, the list is unchanged. When `e` is the first entry
with the identity of the event, a Finalize event replaces `e` by `e` with state
Joined, a Removed event replaces `e` by `e` with state JoinFailed when `e` is
not Joined, and a Removed event leaves the list unchanged when `e` is Joined. -/
theorem HandleJoinerEvent_effect (aEvent : otCommissionerJoinerEvent)
    (aJoinerEui64 : otExtAddress) (list : List AllowListEntry) :
    (HandleJoinerEvent aEvent aJoinerEui64 list).length = list.length ∧
    (∀ (j : Nat) (e : AllowListEntry), list[j]? = some e →
      ¬ same_eui64 e.meui64 aJoinerEui64 →
      (HandleJoinerEvent aEvent aJoinerEui64 list)[j]? = some e) ∧
    ((∀ e ∈ list, ¬ same_eui64 e.meui64 aJoinerEui64) →
      HandleJoinerEvent aEvent aJoinerEui64 list = list) ∧
    (aEvent = OT_COMMISSIONER_JOINER_START ∨ aEvent = OT_COMMISSIONER_JOINER_CONNECTED ∨
        aEvent = OT_COMMISSIONER_JOINER_END →
      HandleJoinerEvent aEvent aJoinerEui64 list = list) ∧
    (∀ (i : Nat) (e : AllowListEntry), list[i]? = some e → same_eui64 e.meui64 aJoinerEui64 →
      (∀ (j : Nat) (e' : AllowListEntry), j < i → list[j]? = some e' →
        ¬ same_eui64 e'.meui64 aJoinerEui64) →
      (aEvent = OT_COMMISSIONER_JOINER_FINALIZE →
        HandleJoinerEvent aEvent aJoinerEui64 list =
          list.set i { e with mstate := kAllowListEntryJoined }) ∧
      (aEvent = OT_COMMISSIONER_JOINER_REMOVED → e.mstate ≠ kAllowListEntryJoined →
        HandleJoinerEvent aEvent aJoinerEui64 list =
          list.set i { e with mstate := kAllowListEntryJoinFailed }) ∧
      (aEvent = OT_COMMISSIONER_JOINER_REMOVED → e.mstate = kAllowListEntryJoined →
        HandleJoinerEvent aEvent aJoinerEui64 list = list)) := by
  have hcases : (∃ i, entry_find_scan aJoinerEui64 list 0 = some i) ∨
      entry_find_scan aJoinerEui64 list 0 = none := by
    cases entry_find_scan aJoinerEui64 list 0 with
    | none => exact Or.inr rfl
    | some i => exact Or.inl ⟨i, rfl⟩
  refine ⟨?_, ?_, ?_, ?_, ?_⟩
  · rcases hcases with ⟨i, hfind⟩ | hfind
    · rw [HandleJoinerEvent_found aEvent aJoinerEui64 list i hfind]
      cases aEvent <;> simp only [List.length_modify]
    · rw [HandleJoinerEvent_not_found aEvent aJoinerEui64 list hfind]
  · intro j e he hns
    rcases hcases with ⟨i, hfind⟩ | hfind
    · rw [HandleJoinerEvent_found aEvent aJoinerEui64 list i hfind]
      have hij : i ≠ j := by
        intro hij
        obtain ⟨⟨e2, he2, hs2⟩, -⟩ := (entry_find_scan_zero_some aJoinerEui64 list i).mp hfind
        rw [hij, he] at he2
        cases he2
        exact hns hs2
      cases aEvent <;> simp only [getElem?_modify_state _ list i j e he, hij, if_false, he]
    · rw [HandleJoinerEvent_not_found aEvent aJoinerEui64 list hfind]
      exact he
  · intro hnone
    exact HandleJoinerEvent_not_found aEvent aJoinerEui64 list
      ((entry_find_scan_none aJoinerEui64 list 0).mpr hnone)
  · intro hev
    rcases hcases with ⟨i, hfind⟩ | hfind
    · rw [HandleJoinerEvent_found aEvent aJoinerEui64 list i hfind]
      rcases hev with h | h | h <;> rw [h]
    · exact HandleJoinerEvent_not_found aEvent aJoinerEui64 list hfind
  · intro i e he hs hbefore
    have hfind := (entry_find_scan_zero_some aJoinerEui64 list i).mpr ⟨⟨e, he, hs⟩, hbefore⟩
    rw [HandleJoinerEvent_found aEvent aJoinerEui64 list i hfind]
    refine ⟨?_, ?_, ?_⟩
    · intro hev
      rw [hev]
      exact modify_eq_set _ list i e he
    · intro hev hst
      rw [hev]
      simp only
      rw [modify_eq_set _ list i e he]
      simp only [ne_eq, hst, not_false_eq_true, if_true, AllowListEntry.update_state]
    · intro hev hst
      rw [hev]
      simp only
      rw [modify_eq_set _ list i e he]
      simp only [ne_eq, hst, not_true_eq_false, if_false]
      exact list_set_same list i e he

/-! ## Claim C26: the all-zero identity in a build that accepts any joiner -/

/-- Claim C26 fails in the code. For the all-zero identity,
`allowListCommissionerJoinerAdd` in a build that defines
`OPENTHREAD_COMMISSIONER_ALLOW_ANY_JOINER` returns `OT_ERROR_INVALID_ARGS`
without any request to the commissioner (the allow list is unchanged); in a
build that does not define it, the request is passed to the commissioner with a
null address, and the allow list afterwards has an entry for the all-zero
identity. -/
theorem joiner_add_null_identity_any_joiner (rand : Nat → Nat → Nat) (now : Int)
    (otCommissionerAddJoiner : Option otExtAddress → String → Nat → otError)
    (aEui64 : otExtAddress) (aTimeout : Nat) (aPskd : String) (list : List AllowListEntry)
    (hnull : eui64IsNull aEui64 = true) :
    ((allowListCommissionerJoinerAdd true rand now otCommissionerAddJoiner aEui64 aTimeout aPskd
        list).error = OT_ERROR_INVALID_ARGS ∧
      (allowListCommissionerJoinerAdd true rand now otCommissionerAddJoiner aEui64 aTimeout aPskd
        list).add_joiner_calls = [] ∧
      (allowListCommissionerJoinerAdd true rand now otCommissionerAddJoiner aEui64 aTimeout aPskd
        list).allow_list = list) ∧
    ((allowListCommissionerJoinerAdd false rand now otCommissionerAddJoiner aEui64 aTimeout aPskd
        list).add_joiner_calls = [(none, aPskd, aTimeout)] ∧
      ∃ e ∈ (allowListCommissionerJoinerAdd false rand now otCommissionerAddJoiner aEui64
        aTimeout aPskd list).allow_list, same_eui64 e.meui64 aEui64) := by
  obtain ⟨-, hcalls, hlist⟩ := joiner_add_null_option_unset rand now otCommissionerAddJoiner
    aEui64 aTimeout aPskd list hnull
  refine ⟨joiner_add_null_option_set rand now otCommissionerAddJoiner aEui64 aTimeout aPskd list
    hnull, hcalls, ?_⟩
  rw [hlist]
  exact allowListAddDevice_has_entry rand now aEui64 aTimeout aPskd list

/-- The all-zero identity in the two builds, on `example_allow_list`. -/
theorem joiner_add_null_identity_any_joiner_witness :
    ((allowListCommissionerJoinerAdd true zero_rand 200 (fun _ _ _ => OT_ERROR_NONE)
        example_null_eui64 30 "ABCDEF" example_allow_list).error = OT_ERROR_INVALID_ARGS ∧
      (allowListCommissionerJoinerAdd true zero_rand 200 (fun _ _ _ => OT_ERROR_NONE)
        example_null_eui64 30 "ABCDEF" example_allow_list).add_joiner_calls = [] ∧
      (allowListCommissionerJoinerAdd true zero_rand 200 (fun _ _ _ => OT_ERROR_NONE)
        example_null_eui64 30 "ABCDEF" example_allow_list).allow_list = example_allow_list) ∧
    ((allowListCommissionerJoinerAdd false zero_rand 200 (fun _ _ _ => OT_ERROR_NONE)
        example_null_eui64 30 "ABCDEF" example_allow_list).add_joiner_calls =
          [(none, "ABCDEF", 30)] ∧
      ∃ e ∈ (allowListCommissionerJoinerAdd false zero_rand 200 (fun _ _ _ => OT_ERROR_NONE)
        example_null_eui64 30 "ABCDEF" example_allow_list).allow_list,
        same_eui64 e.meui64 example_null_eui64) :=
  joiner_add_null_identity_any_joiner zero_rand 200 (fun _ _ _ => OT_ERROR_NONE)
    example_null_eui64 30 "ABCDEF" example_allow_list (by decide)

/-! ## Claim C27: the all-zero identity in a build without the option -/

/-- Claim C27 fails in the code. For the all-zero identity and a build that does
not define `OPENTHREAD_COMMISSIONER_ALLOW_ANY_JOINER`,
`allowListCommissionerJoinerAdd` does not return early: it calls
`allowListAddDevice` (which adds an entry when the list has none for the
all-zero identity), passes the request to the commissioner with a null address
and returns the error of the commissioner. In a build that defines the option
it returns `OT_ERROR_INVALID_ARGS` without a request to the commissioner. -/
theorem joiner_add_null_identity_option_unset (rand : Nat → Nat → Nat) (now : Int)
    (otCommissionerAddJoiner : Option otExtAddress → String → Nat → otError)
    (aEui64 : otExtAddress) (aTimeout : Nat) (aPskd : String) (list : List AllowListEntry)
    (hnull : eui64IsNull aEui64 = true) :
    ((allowListCommissionerJoinerAdd false rand now otCommissionerAddJoiner aEui64 aTimeout aPskd
        list).error = otCommissionerAddJoiner none aPskd aTimeout ∧
      (allowListCommissionerJoinerAdd false rand now otCommissionerAddJoiner aEui64 aTimeout aPskd
        list).add_joiner_calls = [(none, aPskd, aTimeout)] ∧
      (allowListCommissionerJoinerAdd false rand now otCommissionerAddJoiner aEui64 aTimeout aPskd
        list).allow_list = allowListAddDevice rand now aEui64 aTimeout aPskd list ∧
      ((∀ e ∈ list, ¬ same_eui64 e.meui64 aEui64) →
        (allowListCommissionerJoinerAdd false rand now otCommissionerAddJoiner aEui64 aTimeout
          aPskd list).allow_list.length = list.length + 1)) ∧
    ((allowListCommissionerJoinerAdd true rand now otCommissionerAddJoiner aEui64 aTimeout aPskd
        list).error = OT_ERROR_INVALID_ARGS ∧
      (allowListCommissionerJoinerAdd true rand now otCommissionerAddJoiner aEui64 aTimeout aPskd
        list).add_joiner_calls = []) := by
  obtain ⟨herror, hcalls, hlist⟩ := joiner_add_null_option_unset rand now
    otCommissionerAddJoiner aEui64 aTimeout aPskd list hnull
  obtain ⟨herror2, hcalls2, -⟩ := joiner_add_null_option_set rand now otCommissionerAddJoiner
    aEui64 aTimeout aPskd list hnull
  refine ⟨⟨herror, hcalls, hlist, ?_⟩, herror2, hcalls2⟩
  intro hnone
  rw [hlist, allowListAddDevice_not_found rand now aEui64 aTimeout aPskd list hnone]
  simp

/-- The all-zero identity in the two builds, with a commissioner that accepts
the joiner. -/
theorem joiner_add_null_identity_option_unset_witness :
    ((allowListCommissionerJoinerAdd false zero_rand 200 (fun _ _ _ => OT_ERROR_NONE)
        example_null_eui64 30 "ABCDEF" []).error = OT_ERROR_NONE ∧
      (allowListCommissionerJoinerAdd false zero_rand 200 (fun _ _ _ => OT_ERROR_NONE)
        example_null_eui64 30 "ABCDEF" []).add_joiner_calls = [(none, "ABCDEF", 30)] ∧
      (allowListCommissionerJoinerAdd false zero_rand 200 (fun _ _ _ => OT_ERROR_NONE)
        example_null_eui64 30 "ABCDEF" []).allow_list =
          allowListAddDevice zero_rand 200 example_null_eui64 30 "ABCDEF" [] ∧
      ((∀ e ∈ ([] : List AllowListEntry), ¬ same_eui64 e.meui64 example_null_eui64) →
        (allowListCommissionerJoinerAdd false zero_rand 200 (fun _ _ _ => OT_ERROR_NONE)
          example_null_eui64 30 "ABCDEF" []).allow_list.length =
            ([] : List AllowListEntry).length + 1)) ∧
    ((allowListCommissionerJoinerAdd true zero_rand 200 (fun _ _ _ => OT_ERROR_NONE)
        example_null_eui64 30 "ABCDEF" []).error = OT_ERROR_INVALID_ARGS ∧
      (allowListCommissionerJoinerAdd true zero_rand 200 (fun _ _ _ => OT_ERROR_NONE)
        example_null_eui64 30 "ABCDEF" []).add_joiner_calls = []) :=
  joiner_add_null_identity_option_unset zero_rand 200 (fun _ _ _ => OT_ERROR_NONE)
    example_null_eui64 30 "ABCDEF" [] (by decide)

/-! ## Claim C28: clean-up of an add-thread-device task -/

/-- Claim C28. For every task whose `eui` member is a string of 16 hexadecimal
digits, and every world whose allow list has distinct identities (as every
allow list reached from the empty one has), `clean_add_thread_device_task`
returns, and afterwards the allow list holds no entry with the identity of the
task and is the old list without the entries of that identity, whatever the
commissioner answered. The result is FAILURE exactly when the commissioner was
not disabled and `otCommissionerRemoveJoiner` returned an error, and SUCCESS
otherwise; the removal request is made exactly when the commissioner is not
disabled. The flag `sJoinerAddOngoing` is not changed. -/
theorem clean_add_thread_device_task_erases (aInstance : otInstance) (task_node : task_node_t)
    (w : add_thread_device_world) (eui : String)
    (heui : cJSON_GetObjectItemCaseSensitive
      (cJSON_GetObjectItemCaseSensitive
        (cJSON_GetObjectItemCaseSensitive task_node.task "attributes") "hasActivationKey")
      "eui" = some (cJSON.cJSON_String eui))
    (hlen : strlen eui = 16) (hhex : ∀ c ∈ eui.data, isxdigit c = true)
    (hunique : identities_unique w.allow_list) :
    ∃ result w', clean_add_thread_device_task aInstance task_node w = some (result, w') ∧
      (∀ e ∈ w'.allow_list, ¬ same_eui64 e.meui64 (task_eui64 eui)) ∧
      w'.allow_list =
        w.allow_list.filter (fun e => !otExtAddressMatch e.meui64 (task_eui64 eui)) ∧
      (result = ACTIONS_RESULT_FAILURE ↔
        aInstance.otCommissionerGetState ≠ OT_COMMISSIONER_STATE_DISABLED ∧
          aInstance.otCommissionerRemoveJoiner (commissioner_address (task_eui64 eui)) ≠
            OT_ERROR_NONE) ∧
      (result = ACTIONS_RESULT_FAILURE ∨ result = ACTIONS_RESULT_SUCCESS) ∧
      w'.commissioner_calls = w.commissioner_calls ++
        (if aInstance.otCommissionerGetState = OT_COMMISSIONER_STATE_DISABLED then []
         else [commissioner_call.remove_joiner (commissioner_address (task_eui64 eui))]) ∧
      w'.sJoinerAddOngoing = w.sJoinerAddOngoing := by
  have hconv : (str_to_m8 (List.replicate OT_EXT_ADDRESS_SIZE 0) eui OT_EXT_ADDRESS_SIZE).1 =
      OT_ERROR_NONE := str_to_m8_of_hex _ eui OT_EXT_ADDRESS_SIZE hlen hhex
  have hfilter := allowListEntryErase_filter (task_eui64 eui) w.allow_list hunique
  obtain ⟨herror, hcalls⟩ := allowListCommissionerJoinerRemove_cases (task_eui64 eui) aInstance
  have hb : (some (cJSON.cJSON_String eui)).bind cJSON_valuestring = some eui := rfl
  have hval : clean_add_thread_device_task aInstance task_node w =
      some
        (if OT_ERROR_NONE = (allowListCommissionerJoinerRemove (task_eui64 eui) aInstance).error
          then ACTIONS_RESULT_SUCCESS else ACTIONS_RESULT_FAILURE,
          { w with
            allow_list := (allowListEntryErase (task_eui64 eui) w.allow_list).2
            commissioner_calls := w.commissioner_calls ++
              (allowListCommissionerJoinerRemove (task_eui64 eui) aInstance).calls }) := by
    unfold clean_add_thread_device_task
    simp only [heui, hb]
    rw [if_neg (not_not.mpr hconv.symm)]
    unfold task_eui64
    split <;> rfl
  refine ⟨_, _, hval, ?_, hfilter, ?_, ?_, ?_, rfl⟩
  · show ∀ e ∈ (allowListEntryErase (task_eui64 eui) w.allow_list).2, _
    rw [hfilter]
    exact filter_no_match _ _
  · rw [herror]
    by_cases hstate : aInstance.otCommissionerGetState = OT_COMMISSIONER_STATE_DISABLED
    · simp [hstate]
    · simp only [hstate, if_false, ne_eq, not_false_eq_true, true_and]
      by_cases herr : OT_ERROR_NONE =
          aInstance.otCommissionerRemoveJoiner (commissioner_address (task_eui64 eui))
      · simp [herr.symm]
      · simp only [herr, if_false, true_iff]
        exact fun h => herr h.symm
  · split
    · exact Or.inr rfl
    · exact Or.inl rfl
  · show w.commissioner_calls ++ _ = _
    rw [hcalls]

/-- Clean-up of the task for the identity ending in 2 while the commissioner
answers the removal with an error. -/
theorem clean_add_thread_device_task_erases_witness :
    ∃ result w',
      clean_add_thread_device_task
        (example_instance OT_COMMISSIONER_STATE_ACTIVE OT_ERROR_NOT_FOUND)
        (example_device_node ACTIONS_TASK_STATUS_ACTIVE "0011223344556602" "ABCDEF")
        (example_world false example_allow_list) = some (result, w') ∧
      (∀ e ∈ w'.allow_list, ¬ same_eui64 e.meui64 (task_eui64 "0011223344556602")) ∧
      w'.allow_list =
        (example_world false example_allow_list).allow_list.filter
          (fun e => !otExtAddressMatch e.meui64 (task_eui64 "0011223344556602")) ∧
      (result = ACTIONS_RESULT_FAILURE ↔
        (example_instance OT_COMMISSIONER_STATE_ACTIVE OT_ERROR_NOT_FOUND).otCommissionerGetState ≠
            OT_COMMISSIONER_STATE_DISABLED ∧
          (example_instance OT_COMMISSIONER_STATE_ACTIVE
            OT_ERROR_NOT_FOUND).otCommissionerRemoveJoiner
              (commissioner_address (task_eui64 "0011223344556602")) ≠ OT_ERROR_NONE) ∧
      (result = ACTIONS_RESULT_FAILURE ∨ result = ACTIONS_RESULT_SUCCESS) ∧
      w'.commissioner_calls =
        (example_world false example_allow_list).commissioner_calls ++
          (if (example_instance OT_COMMISSIONER_STATE_ACTIVE
              OT_ERROR_NOT_FOUND).otCommissionerGetState = OT_COMMISSIONER_STATE_DISABLED then []
           else [commissioner_call.remove_joiner
             (commissioner_address (task_eui64 "0011223344556602"))]) ∧
      w'.sJoinerAddOngoing = (example_world false example_allow_list).sJoinerAddOngoing :=
  clean_add_thread_device_task_erases
    (example_instance OT_COMMISSIONER_STATE_ACTIVE OT_ERROR_NOT_FOUND)
    (example_device_node ACTIONS_TASK_STATUS_ACTIVE "0011223344556602" "ABCDEF")
    (example_world false example_allow_list) "0011223344556602" rfl rfl (by decide)
    example_allow_list_unique

/-! ## Claim C29: processing while another admission is in flight -/

/-- Claim C29 fails in the code. When `sJoinerAddOngoing` is held,
`process_add_thread_device_task` returns `ACTIONS_RESULT_FAILURE`, not
`ACTIONS_RESULT_RETRY`, leaving the world (the flag and the allow list
included) unchanged; so `process_task` on a pending task calls the handler once
and leaves the task in the status failed, which is terminal
(`can_remove_task`). -/
theorem process_fails_while_joiner_add_ongoing (allow_any_joiner : Bool)
    (rand : Nat → Nat → Nat) (now : Int) (pthread_create : Int) (aInstance : otInstance)
    (task_node : task_node_t) (w : add_thread_device_world)
    (hflag : w.sJoinerAddOngoing = true)
    (hstatus : task_node.status = ACTIONS_TASK_STATUS_PENDING)
    (htype : task_node.type = rest_actions_task_t.ADD_THREAD_DEVICE_TASK) :
    process_add_thread_device_task allow_any_joiner rand now pthread_create aInstance
        (task_update_status task_node ACTIONS_TASK_STATUS_ACTIVE) w =
      some (ACTIONS_RESULT_FAILURE, w) ∧
    (process_task (add_thread_device_handlers allow_any_joiner rand now pthread_create aInstance)
        task_node w).task_node = task_update_status task_node ACTIONS_TASK_STATUS_FAILED ∧
    (process_task (add_thread_device_handlers allow_any_joiner rand now pthread_create aInstance)
        task_node w).world = w ∧
    (process_task (add_thread_device_handlers allow_any_joiner rand now pthread_create aInstance)
        task_node w).calls =
      [handler_call.process (task_update_status task_node ACTIONS_TASK_STATUS_ACTIVE)] ∧
    can_remove_task
      (process_task (add_thread_device_handlers allow_any_joiner rand now pthread_create aInstance)
        task_node w).task_node = true := by
  have hproc : ∀ n : task_node_t, process_add_thread_device_task allow_any_joiner rand now
      pthread_create aInstance n w = some (ACTIONS_RESULT_FAILURE, w) := by
    intro n
    unfold process_add_thread_device_task
    by_cases h : n.task.isNone = true
    · rw [if_pos h]
    · rw [if_neg h, if_pos hflag]
  have hvisit : process_task
      (add_thread_device_handlers allow_any_joiner rand now pthread_create aInstance)
        task_node w =
      { task_node := task_update_status task_node ACTIONS_TASK_STATUS_FAILED, world := w,
        calls :=
          [handler_call.process (task_update_status task_node ACTIONS_TASK_STATUS_ACTIVE)] } := by
    have hh : task_handler_by_task_type_id
        (add_thread_device_handlers allow_any_joiner rand now pthread_create aInstance)
        task_node.type = some
          { process := some (fun task_node w =>
              (process_add_thread_device_task allow_any_joiner rand now pthread_create aInstance
                task_node w).getD (ACTIONS_RESULT_FAILURE, w))
            evaluate := some evaluate_add_thread_device_task
            clean := some (fun task_node w =>
              (clean_add_thread_device_task aInstance task_node w).getD
                (ACTIONS_RESULT_FAILURE, w)) } := by
      rw [htype]
      rfl
    rw [process_task_of_pending _ task_node w _ _ hstatus hh rfl]
    simp only [hproc, Option.getD_some, if_true]
    rfl
  refine ⟨hproc _, ?_, ?_, ?_, ?_⟩
  · rw [hvisit]
  · rw [hvisit]
  · rw [hvisit]
  · rw [hvisit]
    rfl

/-- A pending task processed while the flag is held. -/
theorem process_fails_while_joiner_add_ongoing_witness :
    process_add_thread_device_task false zero_rand 200 0
        (example_instance OT_COMMISSIONER_STATE_ACTIVE OT_ERROR_NONE)
        (task_update_status
          (example_device_node ACTIONS_TASK_STATUS_PENDING "0011223344556677" "ABCDEF")
          ACTIONS_TASK_STATUS_ACTIVE) (example_world true example_allow_list) =
      some (ACTIONS_RESULT_FAILURE, example_world true example_allow_list) ∧
    (process_task (add_thread_device_handlers false zero_rand 200 0
        (example_instance OT_COMMISSIONER_STATE_ACTIVE OT_ERROR_NONE))
        (example_device_node ACTIONS_TASK_STATUS_PENDING "0011223344556677" "ABCDEF")
        (example_world true example_allow_list)).task_node =
      task_update_status
        (example_device_node ACTIONS_TASK_STATUS_PENDING "0011223344556677" "ABCDEF")
        ACTIONS_TASK_STATUS_FAILED ∧
    (process_task (add_thread_device_handlers false zero_rand 200 0
        (example_instance OT_COMMISSIONER_STATE_ACTIVE OT_ERROR_NONE))
        (example_device_node ACTIONS_TASK_STATUS_PENDING "0011223344556677" "ABCDEF")
        (example_world true example_allow_list)).world = example_world true example_allow_list ∧
    (process_task (add_thread_device_handlers false zero_rand 200 0
        (example_instance OT_COMMISSIONER_STATE_ACTIVE OT_ERROR_NONE))
        (example_device_node ACTIONS_TASK_STATUS_PENDING "0011223344556677" "ABCDEF")
        (example_world true example_allow_list)).calls =
      [handler_call.process
        (task_update_status
          (example_device_node ACTIONS_TASK_STATUS_PENDING "0011223344556677" "ABCDEF")
          ACTIONS_TASK_STATUS_ACTIVE)] ∧
    can_remove_task
      (process_task (add_thread_device_handlers false zero_rand 200 0
        (example_instance OT_COMMISSIONER_STATE_ACTIVE OT_ERROR_NONE))
        (example_device_node ACTIONS_TASK_STATUS_PENDING "0011223344556677" "ABCDEF")
        (example_world true example_allow_list)).task_node = true :=
  process_fails_while_joiner_add_ongoing false zero_rand 200 0
    (example_instance OT_COMMISSIONER_STATE_ACTIVE OT_ERROR_NONE)
    (example_device_node ACTIONS_TASK_STATUS_PENDING "0011223344556677" "ABCDEF")
    (example_world true example_allow_list) rfl rfl rfl

/-! ## Claim C30: the wait helper at its deadline -/

/-- Claim C30 fails in the code. When the passes of the wait loop never see the
commissioner active and the pass that finds the deadline passed sees it
petitioning, `restTaskJoinerAddConditionalTask` sets the status of the task to
active, asks the commissioner to add the joiner, and the allow list afterwards
has an entry for the identity (a new one when it had none). The identity of
the pending joiner is taken as not all-zero and its credential as not null. -/
theorem wait_helper_adds_joiner_after_petition_deadline (allow_any_joiner : Bool)
    (rand : Nat → Nat → Nat) (now : Int) (aInstance : otInstance) (start_time : timespec)
    (pre rest : List (otCommissionerState × timespec)) (last_time : timespec)
    (task_node : task_node_t) (w : add_thread_device_world) (pending : pending_joiner_t)
    (pskd : String)
    (hpending : w.sPendingJoiner = some pending) (hpskd : pending.mPskd = some pskd)
    (hnull : eui64IsNull pending.mEui64 = false)
    (hpre : ∀ p ∈ pre, p.1 ≠ OT_COMMISSIONER_STATE_ACTIVE ∧
      deadline_passed p.2 { start_time with tv_sec := start_time.tv_sec + 10 } = false)
    (hlast : deadline_passed last_time { start_time with tv_sec := start_time.tv_sec + 10 } =
      true) :
    ∃ node' w',
      restTaskJoinerAddConditionalTask allow_any_joiner rand now aInstance start_time
        (pre ++ (OT_COMMISSIONER_STATE_PETITION, last_time) :: rest) task_node w =
          some (node', w') ∧
      node'.status = ACTIONS_TASK_STATUS_ACTIVE ∧
      w'.commissioner_calls = w.commissioner_calls ++
        [commissioner_call.add_joiner (some pending.mEui64) pskd pending.mTimeout] ∧
      (∃ e ∈ w'.allow_list, same_eui64 e.meui64 pending.mEui64) ∧
      ((∀ e ∈ w.allow_list, ¬ same_eui64 e.meui64 pending.mEui64) →
        w'.allow_list.length = w.allow_list.length + 1) := by
  have hloop := commissioner_wait_loop_deadline
    { start_time with tv_sec := start_time.tv_sec + 10 } pre rest OT_COMMISSIONER_STATE_PETITION
    last_time hpre (by decide) hlast
  obtain ⟨hcalls, hentry, hlength⟩ := joiner_add_has_entry allow_any_joiner rand now
    aInstance.otCommissionerAddJoiner pending.mEui64 pending.mTimeout pskd w.allow_list hnull
  have hval : restTaskJoinerAddConditionalTask allow_any_joiner rand now aInstance start_time
      (pre ++ (OT_COMMISSIONER_STATE_PETITION, last_time) :: rest) task_node w =
      some (task_update_status (restTaskJoinerAddConditionalTask_enter task_node)
          ACTIONS_TASK_STATUS_ACTIVE,
        { w with
          allow_list := (allowListCommissionerJoinerAdd allow_any_joiner rand now
            aInstance.otCommissionerAddJoiner pending.mEui64 pending.mTimeout pskd
            w.allow_list).allow_list
          commissioner_calls := w.commissioner_calls ++
            joiner_add_calls (allowListCommissionerJoinerAdd allow_any_joiner rand now
              aInstance.otCommissionerAddJoiner pending.mEui64 pending.mTimeout pskd
              w.allow_list)
          sJoinerAddOngoing := false }) := by
    unfold restTaskJoinerAddConditionalTask
    simp only [hpending, hloop]
    unfold restTaskJoinerAddConditionalTask_leave
    rw [if_neg (by decide)]
    simp only [hpskd, allowListCommissionerJoinerAdd_pskd]
    rw [← hpending]
  refine ⟨_, _, hval, rfl, ?_, hentry, ?_⟩
  · show w.commissioner_calls ++ joiner_add_calls _ = _
    unfold joiner_add_calls
    rw [hcalls]
    rfl
  · intro hnone
    show (allowListCommissionerJoinerAdd _ _ _ _ _ _ _ _).allow_list.length = _
    rw [hlength, allowListAddDevice_not_found rand now pending.mEui64 pending.mTimeout pskd
      w.allow_list hnone]
    simp

/-- Ten passes that see the commissioner petitioning, the last of them after
the deadline of second 1010. -/
theorem wait_helper_adds_joiner_after_petition_deadline_witness :
    ∃ node' w',
      restTaskJoinerAddConditionalTask false zero_rand 200
        (example_instance OT_COMMISSIONER_STATE_PETITION OT_ERROR_NONE)
        { tv_sec := 1000, tv_nsec := 0 }
        (example_observations OT_COMMISSIONER_STATE_PETITION 9 ++
          (OT_COMMISSIONER_STATE_PETITION, { tv_sec := 1010, tv_nsec := 500 }) :: [])
        (example_device_node ACTIONS_TASK_STATUS_ACTIVE "0011223344556603" "ABCDEF")
        (example_waiting_world example_allow_list) = some (node', w') ∧
      node'.status = ACTIONS_TASK_STATUS_ACTIVE ∧
      w'.commissioner_calls = (example_waiting_world example_allow_list).commissioner_calls ++
        [commissioner_call.add_joiner (some (example_eui64 3)) "ABCDEF" 60] ∧
      (∃ e ∈ w'.allow_list, same_eui64 e.meui64 (example_eui64 3)) ∧
      ((∀ e ∈ (example_waiting_world example_allow_list).allow_list,
          ¬ same_eui64 e.meui64 (example_eui64 3)) →
        w'.allow_list.length = (example_waiting_world example_allow_list).allow_list.length + 1) :=
  wait_helper_adds_joiner_after_petition_deadline false zero_rand 200
    (example_instance OT_COMMISSIONER_STATE_PETITION OT_ERROR_NONE)
    { tv_sec := 1000, tv_nsec := 0 } (example_observations OT_COMMISSIONER_STATE_PETITION 9) []
    { tv_sec := 1010, tv_nsec := 500 }
    (example_device_node ACTIONS_TASK_STATUS_ACTIVE "0011223344556603" "ABCDEF")
    (example_waiting_world example_allow_list)
    { mEui64 := example_eui64 3
      mPskd := some "ABCDEF"
      mTimeout := 60
      mTaskNode := example_device_node ACTIONS_TASK_STATUS_ACTIVE "0011223344556603" "ABCDEF" }
    "ABCDEF" rfl rfl (by decide) (by decide) (by decide)

/-- What the wait helper does when the pass that finds the deadline passed sees
the commissioner disabled: the task is set to failed, the flag is released,
and neither the allow list nor the commissioner is touched. -/
theorem wait_helper_fails_task_when_disabled (allow_any_joiner : Bool)
    (rand : Nat → Nat → Nat) (now : Int) (aInstance : otInstance) (start_time : timespec)
    (pre rest : List (otCommissionerState × timespec)) (last_time : timespec)
    (task_node : task_node_t) (w : add_thread_device_world) (pending : pending_joiner_t)
    (hpending : w.sPendingJoiner = some pending)
    (hpre : ∀ p ∈ pre, p.1 ≠ OT_COMMISSIONER_STATE_ACTIVE ∧
      deadline_passed p.2 { start_time with tv_sec := start_time.tv_sec + 10 } = false)
    (hlast : deadline_passed last_time { start_time with tv_sec := start_time.tv_sec + 10 } =
      true) :
    restTaskJoinerAddConditionalTask allow_any_joiner rand now aInstance start_time
        (pre ++ (OT_COMMISSIONER_STATE_DISABLED, last_time) :: rest) task_node w =
      some ({ task_node with status := ACTIONS_TASK_STATUS_FAILED },
        { w with sJoinerAddOngoing := false }) := by
  have hloop := commissioner_wait_loop_deadline
    { start_time with tv_sec := start_time.tv_sec + 10 } pre rest OT_COMMISSIONER_STATE_DISABLED
    last_time hpre (by decide) hlast
  unfold restTaskJoinerAddConditionalTask
  simp only [hpending, hloop]
  unfold restTaskJoinerAddConditionalTask_leave restTaskJoinerAddConditionalTask_enter
  rw [if_pos rfl, ← hpending]
  split <;> rfl

/-! ## Helper lemmas: conversions, identifiers, locks, the wait helper and the links of the queue -/

theorem hex_char_to_int_of_xdigit (c : Char) (h : isxdigit c = true) :
    hex_char_to_int c = (hex_digit_value c : Int) ∧ hex_digit_value c < 16 := by
  unfold isxdigit at h
  simp only [Bool.or_eq_true, Bool.and_eq_true, decide_eq_true_eq] at h
  unfold hex_char_to_int hex_digit_value
  rcases h with (⟨h1, h2⟩ | ⟨h1, h2⟩) | ⟨h1, h2⟩
  · have e1 : ¬ (65 ≤ c.toNat ∧ c.toNat ≤ 70) := by omega
    have e2 : ¬ (97 ≤ c.toNat ∧ c.toNat ≤ 102) := by omega
    have e3 : (48 ≤ c.toNat ∧ c.toNat ≤ 57) := ⟨h1, h2⟩
    simp only [e1, e2, e3, if_true, if_false, and_self]
    omega
  · have e1 : (65 ≤ c.toNat ∧ c.toNat ≤ 70) := ⟨h1, h2⟩
    have e2 : ¬ (97 ≤ c.toNat ∧ c.toNat ≤ 102) := by omega
    have e3 : ¬ (48 ≤ c.toNat ∧ c.toNat ≤ 57) := by omega
    simp only [e1, e2, e3, if_true, if_false, and_self]
    omega
  · have e1 : ¬ (65 ≤ c.toNat ∧ c.toNat ≤ 70) := by omega
    have e2 : (97 ≤ c.toNat ∧ c.toNat ≤ 102) := ⟨h1, h2⟩
    have e3 : ¬ (48 ≤ c.toNat ∧ c.toNat ≤ 57) := by omega
    simp only [e1, e2, e3, if_true, if_false, and_self]
    omega

theorem getD_set_eq {l : List Nat} {i j : Nat} {a : Nat} :
    (l.set i a).getD j 0 = if i = j ∧ i < l.length then a else l.getD j 0 := by
  simp only [List.getD_eq_getElem?_getD, List.getElem?_set]
  by_cases hij : i = j
  · subst hij
    by_cases hlt : i < l.length
    · simp [hlt]
    · simp [hlt, List.getElem?_eq_none (Nat.le_of_not_lt hlt)]
  · simp [hij]

theorem str_to_m8_loop_spec (str : String) (n : Nat) :
    ∀ (i : Nat) (m8 : List Nat), i + n ≤ m8.length →
    (((str_to_m8_loop str n i m8).1 = OT_ERROR_NONE ↔
        ∀ k, 2 * i ≤ k → k < 2 * (i + n) → isxdigit (str_at str k) = true) ∧
      ((str_to_m8_loop str n i m8).1 = OT_ERROR_NONE ∨
        (str_to_m8_loop str n i m8).1 = OT_ERROR_FAILED) ∧
      (str_to_m8_loop str n i m8).2.length = m8.length ∧
      ((str_to_m8_loop str n i m8).1 = OT_ERROR_NONE →
        (∀ j, i ≤ j → j < i + n →
          (str_to_m8_loop str n i m8).2.getD j 0 =
            16 * hex_digit_value (str_at str (2 * j)) +
              hex_digit_value (str_at str (2 * j + 1))) ∧
        (∀ j, (j < i ∨ i + n ≤ j) →
          (str_to_m8_loop str n i m8).2.getD j 0 = m8.getD j 0))) := by
  induction n with
  | zero =>
    intro i m8 _
    refine ⟨⟨fun _ k h1 h2 => by omega, fun _ => rfl⟩, Or.inl rfl, rfl, fun _ => ⟨?_, ?_⟩⟩
    · intro j h1 h2; omega
    · intro j _; rfl
  | succ n ih =>
    intro i m8 hlen
    unfold str_to_m8_loop
    simp only
    by_cases hbad : hex_char_to_int (str_at str (i * 2)) = -1 ∨
        hex_char_to_int (str_at str (i * 2 + 1)) = -1
    · rw [if_pos hbad]
      refine ⟨⟨fun h => otError.noConfusion h, ?_⟩, Or.inr rfl, rfl,
        fun h => otError.noConfusion h⟩
      intro hall
      exfalso
      rcases hbad with h | h
      · rw [hex_char_to_int_eq_neg_one] at h
        rw [hall (i * 2) (by omega) (by omega)] at h
        exact absurd h (by decide)
      · rw [hex_char_to_int_eq_neg_one] at h
        rw [hall (i * 2 + 1) (by omega) (by omega)] at h
        exact absurd h (by decide)
    · rw [if_neg hbad]
      have hx1 : isxdigit (str_at str (i * 2)) = true := by
        by_contra hne
        exact hbad (Or.inl ((hex_char_to_int_eq_neg_one _).mpr (by simpa using hne)))
      have hx2 : isxdigit (str_at str (i * 2 + 1)) = true := by
        by_contra hne
        exact hbad (Or.inr ((hex_char_to_int_eq_neg_one _).mpr (by simpa using hne)))
      obtain ⟨hv1, hb1⟩ := hex_char_to_int_of_xdigit _ hx1
      obtain ⟨hv2, hb2⟩ := hex_char_to_int_of_xdigit _ hx2
      have hbyte : (hex_char_to_int (str_at str (i * 2)) * 16 +
          hex_char_to_int (str_at str (i * 2 + 1))).toNat % 256 =
          16 * hex_digit_value (str_at str (2 * i)) +
            hex_digit_value (str_at str (2 * i + 1)) := by
        rw [hv1, hv2]
        have e : 2 * i = i * 2 := by omega
        rw [e]
        omega
      rw [hbyte]
      obtain ⟨h1, h2, h3, h4⟩ := ih (i + 1)
        (m8.set i (16 * hex_digit_value (str_at str (2 * i)) +
          hex_digit_value (str_at str (2 * i + 1))))
        (by rw [List.length_set]; omega)
      refine ⟨?_, h2, by rw [h3, List.length_set], ?_⟩
      · rw [h1]
        constructor
        · intro hall k hk1 hk2
          by_cases hk : k = i * 2
          · rw [hk]; exact hx1
          · by_cases hk' : k = i * 2 + 1
            · rw [hk']; exact hx2
            · exact hall k (by omega) (by omega)
        · intro hall k hk1 hk2
          exact hall k (by omega) (by omega)
      · intro hok
        obtain ⟨h5, h6⟩ := h4 hok
        constructor
        · intro j hj1 hj2
          by_cases hji : j = i
          · rw [h6 j (Or.inl (by omega)), getD_set_eq, hji]
            simp only [true_and]
            rw [if_pos (by omega)]
          · exact h5 j (by omega) (by omega)
        · intro j hj
          rw [h6 j (by omega), getD_set_eq]
          rw [if_neg (by omega)]

theorem str_to_m8_loop_congr (s1 s2 : String) (n : Nat) :
    ∀ (i : Nat) (m8 : List Nat), (∀ k, k < 2 * (i + n) → str_at s1 k = str_at s2 k) →
      str_to_m8_loop s1 n i m8 = str_to_m8_loop s2 n i m8 := by
  induction n with
  | zero => intro i m8 _; rfl
  | succ n ih =>
    intro i m8 h
    unfold str_to_m8_loop
    rw [h (i * 2) (by omega), h (i * 2 + 1) (by omega)]
    simp only
    split
    · rfl
    · exact ih (i + 1) _ (fun k hk => h k (by omega))

theorem str_at_append (str extra : String) (k : Nat) (hk : k < strlen str) :
    str_at (str ++ extra) k = str_at str k := by
  unfold str_at
  unfold strlen at hk
  rw [String.data_append]
  simp only [List.getD_eq_getElem?_getD]
  rw [List.getElem?_append_left hk]

theorem digitChar_hex (m : Nat) (hm : m < 16) :
    isxdigit (Nat.digitChar m) = true ∧ hex_digit_value (Nat.digitChar m) = m := by
  interval_cases m <;> exact ⟨by decide, by decide⟩

theorem hex_digits_value_append (l : List Char) (c : Char) :
    hex_digits_value (l ++ [c]) = 16 * hex_digits_value l + hex_digit_value c := by
  unfold hex_digits_value
  rw [List.foldl_append]
  rfl

theorem toDigitsCore_hex (fuel : Nat) :
    ∀ (n : Nat) (ds : List Char), n < fuel →
      ∃ l : List Char, Nat.toDigitsCore 16 fuel n ds = l ++ ds ∧ l ≠ [] ∧
        (∀ c ∈ l, isxdigit c = true) ∧ hex_digits_value l = n ∧
        (∀ k, 0 < k → n < 16 ^ k → l.length ≤ k) := by
  induction fuel with
  | zero => intro n ds h; omega
  | succ fuel ih =>
    intro n ds hn
    have hd := digitChar_hex (n % 16) (Nat.mod_lt _ (by decide))
    unfold Nat.toDigitsCore
    by_cases h0 : n / 16 = 0
    · simp only [h0, if_true]
      refine ⟨[Nat.digitChar (n % 16)], rfl, by simp, ?_, ?_, ?_⟩
      · intro c hc
        rw [List.mem_singleton.mp hc]
        exact hd.1
      · have : hex_digits_value [Nat.digitChar (n % 16)] =
            16 * 0 + hex_digit_value (Nat.digitChar (n % 16)) := rfl
        rw [this, hd.2]
        omega
      · intro k hk _
        simpa using hk
    · simp only [h0, if_false]
      have hlt : n / 16 < fuel := by omega
      obtain ⟨l, hl, _, hhex, hval, hlen⟩ := ih (n / 16) (Nat.digitChar (n % 16) :: ds) hlt
      refine ⟨l ++ [Nat.digitChar (n % 16)], by rw [hl]; simp, by simp, ?_, ?_, ?_⟩
      · intro c hc
        rcases List.mem_append.mp hc with hc | hc
        · exact hhex c hc
        · rw [List.mem_singleton.mp hc]
          exact hd.1
      · rw [hex_digits_value_append, hval, hd.2]
        omega
      · intro k hk hnk
        rw [List.length_append, List.length_singleton]
        have hk1 : 0 < k - 1 := by
          rcases Nat.lt_or_ge 1 k with h | h
          · omega
          · have hk' : k = 1 := by omega
            rw [hk'] at hnk
            simp at hnk
            omega
        have hpow : 16 ^ k = 16 ^ (k - 1) * 16 := by
          rw [← Nat.pow_succ]
          congr 1
          omega
        have := hlen (k - 1) hk1 (by
          rw [hpow] at hnk
          exact Nat.div_lt_of_lt_mul (by rw [Nat.mul_comm]; exact hnk))
        omega

theorem hex_digits_value_zeros (k : Nat) (l : List Char) :
    hex_digits_value (List.replicate k '0' ++ l) = hex_digits_value l := by
  unfold hex_digits_value
  rw [List.foldl_append]
  have : List.foldl (fun acc c => 16 * acc + hex_digit_value c) 0 (List.replicate k '0') = 0 := by
    induction k with
    | zero => rfl
    | succ k ih =>
      rw [List.replicate_succ, List.foldl_cons]
      exact ih
  rw [this]

theorem printf_hex_spec (width n : Nat) (hw : 0 < width) (hn : n < 16 ^ width) :
    (printf_hex width n).length = width ∧ (∀ c ∈ printf_hex width n, isxdigit c = true) ∧
    hex_digits_value (printf_hex width n) = n := by
  obtain ⟨l, hl, _, hhex, hval, hlen⟩ := toDigitsCore_hex (n + 1) n [] (Nat.lt_succ_self n)
  rw [List.append_nil] at hl
  have hds : Nat.toDigits 16 n = l := hl
  have hle := hlen width hw hn
  unfold printf_hex
  simp only [hds]
  refine ⟨?_, ?_, ?_⟩
  · rw [List.length_append, List.length_replicate]
    omega
  · intro c hc
    rcases List.mem_append.mp hc with hc | hc
    · rw [(List.mem_replicate.mp hc).2]
      decide
    · exact hhex c hc
  · rw [hex_digits_value_zeros, hval]

theorem scan_hex_digits_all (digits rest : List Char)
    (hhex : ∀ c ∈ digits, isxdigit c = true) :
    scan_hex_digits digits.length (digits ++ rest) = (digits, rest) := by
  induction digits with
  | nil => rfl
  | cons c t ih =>
    have hc := hhex c (List.mem_cons_self _ _)
    have ht := ih (fun d hd => hhex d (List.mem_cons_of_mem _ hd))
    simp only [List.length_cons, List.cons_append, scan_hex_digits, hc, if_true]
    have ht2 : scan_hex_digits t.length (t.append rest) = (t, rest) := ht
    rw [ht2]

theorem isxdigit_plain (c : Char) (h : isxdigit c = true) :
    isspace c = false ∧ c ≠ '-' ∧ c ≠ '+' ∧ c ≠ 'x' ∧ c ≠ 'X' := by
  have hx : c.toNat ≠ 32 ∧ ¬ (9 ≤ c.toNat ∧ c.toNat ≤ 13) ∧ c.toNat ≠ 45 ∧ c.toNat ≠ 43 ∧
      c.toNat ≠ 120 ∧ c.toNat ≠ 88 := by
    unfold isxdigit at h
    simp only [Bool.or_eq_true, Bool.and_eq_true, decide_eq_true_eq] at h
    omega
  refine ⟨?_, ?_, ?_, ?_, ?_⟩
  · unfold isspace
    simp only [Bool.or_eq_false_iff, Bool.and_eq_false_iff, decide_eq_false_iff_not]
    constructor
    · exact hx.1
    · have := hx.2.1
      omega
  · intro hc; rw [hc] at hx; exact hx.2.2.1 (by decide)
  · intro hc; rw [hc] at hx; exact hx.2.2.2.1 (by decide)
  · intro hc; rw [hc] at hx; exact hx.2.2.2.2.1 (by decide)
  · intro hc; rw [hc] at hx; exact hx.2.2.2.2.2 (by decide)

theorem sscanf_hex_digits (digits rest : List Char) (hlen : 2 ≤ digits.length)
    (hhex : ∀ c ∈ digits, isxdigit c = true) :
    sscanf_hex digits.length (digits ++ rest) =
      some (hex_digits_value digits % 4294967296, rest) := by
  match digits, hlen, hhex with
  | c0 :: c1 :: t, _, hhex =>
    have h0 := isxdigit_plain c0 (hhex c0 (by simp))
    have h1 := isxdigit_plain c1 (hhex c1 (by simp))
    have hscan := scan_hex_digits_all (c0 :: c1 :: t) rest hhex
    unfold sscanf_hex
    have hdrop : List.dropWhile isspace ((c0 :: c1 :: t) ++ rest) = (c0 :: c1 :: t) ++ rest := by
      simp [List.dropWhile, h0.1]
    simp only [hdrop]
    have hsign : (decide (1 ≤ (c0 :: c1 :: t).length) &&
        (((c0 :: c1 :: t) ++ rest).head? == some '-' ||
          ((c0 :: c1 :: t) ++ rest).head? == some '+')) = false := by
      simp [h0.2.1, h0.2.2.1]
    simp only [hsign, Bool.false_and, Bool.false_eq_true, if_false]
    have h0x : (decide (2 ≤ (c0 :: c1 :: t).length) &&
        ((c0 :: c1 :: t) ++ rest).head? == some '0' &&
        ((List.drop 1 ((c0 :: c1 :: t) ++ rest)).head? == some 'x' ||
          (List.drop 1 ((c0 :: c1 :: t) ++ rest)).head? == some 'X')) = false := by
      simp [h1.2.2.2.1, h1.2.2.2.2]
    simp only [h0x, Bool.false_eq_true, if_false, hscan]
    simp

theorem sscanf_hex_printf (width n : Nat) (rest : List Char) (hw : 2 ≤ width)
    (hw8 : width ≤ 8) (hn : n < 16 ^ width) :
    sscanf_hex width (printf_hex width n ++ rest) = some (n, rest) := by
  obtain ⟨hlen, hhex, hval⟩ := printf_hex_spec width n (by omega) hn
  have h := sscanf_hex_digits (printf_hex width n) rest (by omega) hhex
  rw [hlen, hval] at h
  rw [h]
  have : n < 4294967296 :=
    lt_of_lt_of_le hn (le_trans (Nat.pow_le_pow_right (by decide) hw8) (by decide))
  rw [Nat.mod_eq_of_lt this]

theorem sscanf_hex_step (width n bound : Nat) (format : List scan_directive) (rest : List Char)
    (hw : 2 ≤ width) (hw8 : width ≤ 8) (hb : 16 ^ width = bound) (hn : n < bound) :
    sscanf (scan_directive.hex width :: format) (printf_hex width n ++ rest) =
      n :: sscanf format rest := by
  rw [sscanf, sscanf_hex_printf width n rest hw hw8 (by rw [hb]; exact hn)]

theorem printf_hex_length (width n bound : Nat) (hw : 0 < width) (hb : 16 ^ width = bound)
    (hn : n < bound) : (printf_hex width n).length = width :=
  (printf_hex_spec width n hw (by rw [hb]; exact hn)).1

theorem sscanf_literal_step (c : Char) (format : List scan_directive) (rest : List Char) :
    sscanf (scan_directive.literal c :: format) (c :: rest) = sscanf format rest := by
  rw [sscanf]
  simp

theorem pow_16_8 : 16 ^ 8 = 4294967296 := by norm_num

theorem pow_16_4 : 16 ^ 4 = 65536 := by norm_num

theorem pow_16_2 : 16 ^ 2 = 256 := by norm_num

theorem uuid_unparse_data (u : uuid_t) (h : uuid_fields_in_range u) :
    (uuid_unparse u).data =
      printf_hex 8 u.time_low ++ 
        ('-' :: 
        (printf_hex 4 u.time_mid ++ 
        ('-' :: 
        (printf_hex 4 u.time_hi_and_version ++ 
        ('-' :: 
        (printf_hex 2 u.clock_seq_hi_and_reserved ++ 
        (printf_hex 2 u.clock_seq_low ++ 
        ('-' :: 
        (printf_hex 2 (u.node.getD 0 0) ++ 
        (printf_hex 2 (u.node.getD 1 0) ++ 
        (printf_hex 2 (u.node.getD 2 0) ++ 
        (printf_hex 2 (u.node.getD 3 0) ++ 
        (printf_hex 2 (u.node.getD 4 0) ++ 
        (printf_hex 2 (u.node.getD 5 0)))))))))))))))
      ∧
    strlen (uuid_unparse u) = 36 := by
  obtain ⟨h1, h2, h3, h4, h5, h6⟩ := h
  have l1 := printf_hex_length 8 u.time_low _ (Nat.succ_pos 7) pow_16_8 h1
  have l2 := printf_hex_length 4 u.time_mid _ (Nat.succ_pos 3) pow_16_4 h2
  have l3 := printf_hex_length 4 u.time_hi_and_version _ (Nat.succ_pos 3) pow_16_4 h3
  have l4 := printf_hex_length 2 u.clock_seq_hi_and_reserved _ (Nat.succ_pos 1) pow_16_2 h4
  have l5 := printf_hex_length 2 u.clock_seq_low _ (Nat.succ_pos 1) pow_16_2 h5
  have n0 := printf_hex_length 2 (u.node.getD 0 0) _ (Nat.succ_pos 1) pow_16_2 (h6 0 (by omega))
  have n1 := printf_hex_length 2 (u.node.getD 1 0) _ (Nat.succ_pos 1) pow_16_2 (h6 1 (by omega))
  have n2 := printf_hex_length 2 (u.node.getD 2 0) _ (Nat.succ_pos 1) pow_16_2 (h6 2 (by omega))
  have n3 := printf_hex_length 2 (u.node.getD 3 0) _ (Nat.succ_pos 1) pow_16_2 (h6 3 (by omega))
  have n4 := printf_hex_length 2 (u.node.getD 4 0) _ (Nat.succ_pos 1) pow_16_2 (h6 4 (by omega))
  have n5 := printf_hex_length 2 (u.node.getD 5 0) _ (Nat.succ_pos 1) pow_16_2 (h6 5 (by omega))
  have hlen : (printf_hex 8 u.time_low ++ ['-'] ++ printf_hex 4 u.time_mid ++ ['-'] ++
      printf_hex 4 u.time_hi_and_version ++ ['-'] ++
      printf_hex 2 u.clock_seq_hi_and_reserved ++ printf_hex 2 u.clock_seq_low ++ ['-'] ++
      printf_hex 2 (u.node.getD 0 0) ++ printf_hex 2 (u.node.getD 1 0) ++
      printf_hex 2 (u.node.getD 2 0) ++ printf_hex 2 (u.node.getD 3 0) ++
      printf_hex 2 (u.node.getD 4 0) ++ printf_hex 2 (u.node.getD 5 0)).length = 36 := by
    simp only [List.length_append, List.length_singleton, l1, l2, l3, l4, l5, n0, n1, n2, n3, n4,
      n5]
  have htake : (uuid_unparse u).data =
      printf_hex 8 u.time_low ++ ['-'] ++ printf_hex 4 u.time_mid ++ ['-'] ++
      printf_hex 4 u.time_hi_and_version ++ ['-'] ++
      printf_hex 2 u.clock_seq_hi_and_reserved ++ printf_hex 2 u.clock_seq_low ++ ['-'] ++
      printf_hex 2 (u.node.getD 0 0) ++ printf_hex 2 (u.node.getD 1 0) ++
      printf_hex 2 (u.node.getD 2 0) ++ printf_hex 2 (u.node.getD 3 0) ++
      printf_hex 2 (u.node.getD 4 0) ++ printf_hex 2 (u.node.getD 5 0) := by
    unfold uuid_unparse
    simp only
    rw [List.take_of_length_le]
    rw [hlen]
    exact Nat.le_refl 36
  constructor
  · rw [htake]
    simp only [List.append_assoc, List.singleton_append, List.cons_append, List.nil_append]
  · unfold strlen
    rw [htake, hlen]

theorem version_bits (x : Nat) :
    ((x &&& 0x0FFF) ||| 0x4000) / 4096 = 4 ∧ ((x &&& 0x0FFF) ||| 0x4000) % 4096 = x % 4096 := by
  have h1 : x &&& 0x0FFF = x % 4096 := Nat.and_pow_two_sub_one_eq_mod x 12
  have h2 : x % 4096 < 2 ^ 14 := by omega
  have h3 : 2 ^ 14 * 1 + x % 4096 = 2 ^ 14 * 1 ||| x % 4096 := Nat.mul_add_lt_is_or h2 1
  have h4 : (0x4000 : Nat) = 2 ^ 14 * 1 := by norm_num
  rw [h1, Nat.lor_comm, h4, ← h3]
  omega

theorem variant_bits (x : Nat) :
    ((x &&& 0x3F) ||| 0x80) / 64 = 2 ∧ ((x &&& 0x3F) ||| 0x80) % 64 = x % 64 := by
  have h1 : x &&& 0x3F = x % 64 := Nat.and_pow_two_sub_one_eq_mod x 6
  have h2 : x % 64 < 2 ^ 7 := by omega
  have h3 : 2 ^ 7 * 1 + x % 64 = 2 ^ 7 * 1 ||| x % 64 := Nat.mul_add_lt_is_or h2 1
  have h4 : (0x80 : Nat) = 2 ^ 7 * 1 := by norm_num
  rw [h1, Nat.lor_comm, h4, ← h3]
  omega

/-- What `task_type_id_from_name` accepts: the names that start with the
registered name. -/
theorem task_type_id_from_name_iff (task_name : String) :
    (task_type_id_from_name (some task_name) =
        some rest_actions_task_t.ADD_THREAD_DEVICE_TASK ↔
      ∃ suffix : String, task_name = taskNameAddThreadDevice ++ suffix) ∧
    (task_type_id_from_name (some task_name) = none ↔
      ¬ ∃ suffix : String, task_name = taskNameAddThreadDevice ++ suffix) := by
  have hiff : taskNameAddThreadDevice.data.isPrefixOf task_name.data = true ↔
      ∃ suffix : String, task_name = taskNameAddThreadDevice ++ suffix := by
    rw [ List.isPrefixOf_iff_prefix]
    constructor
    · rintro ⟨t, ht⟩
      refine ⟨String.mk t, ?_⟩
      apply String.ext
      rw [String.data_append, ht]
    · rintro ⟨suffix, rfl⟩
      rw [String.data_append]
      exact List.prefix_append _ _
  unfold task_type_id_from_name
  simp only [handlers_type_names, task_type_id_scan]
  by_cases h : taskNameAddThreadDevice.data.isPrefixOf task_name.data = true
  · rw [if_pos h]
    simp [hiff.mp h]
  · rw [if_neg h]
    have hno : ¬ ∃ suffix : String, task_name = taskNameAddThreadDevice ++ suffix :=
      fun hh => h (hiff.mpr hh)
    exact ⟨⟨fun hh => absurd hh (by simp), fun hh => absurd hh hno⟩, fun _ => hno, fun _ => rfl⟩

theorem long_wrap_of_range (x : Int) (hlo : -9223372036854775808 ≤ x)
    (hhi : x < 9223372036854775808) : long_wrap x = x := by
  unfold long_wrap
  omega

theorem add_thread_device_handlers_row (allow_any_joiner : Bool) (rand : Nat → Nat → Nat)
    (now : Int) (pthread_create : Int) (aInstance : otInstance) (type : rest_actions_task_t)
    (htype : type = rest_actions_task_t.ADD_THREAD_DEVICE_TASK) :
    task_handler_by_task_type_id
        (add_thread_device_handlers allow_any_joiner rand now pthread_create aInstance) type =
      some
        { process := some (fun task_node w =>
            (process_add_thread_device_task allow_any_joiner rand now pthread_create aInstance
              task_node w).getD (ACTIONS_RESULT_FAILURE, w))
          evaluate := some evaluate_add_thread_device_task
          clean := some (fun task_node w =>
            (clean_add_thread_device_task aInstance task_node w).getD
              (ACTIONS_RESULT_FAILURE, w)) } := by
  rw [htype]
  rfl

theorem evaluate_task_of_active {W : Type} (handlers : List (task_handlers_t W))
    (eval_time : Int) (node : task_node_t) (w : W) (h : task_handlers_t W)
    (evaluate : task_node_t → W → rest_actions_task_result_t × W)
    (hstatus : node.status = ACTIONS_TASK_STATUS_ACTIVE)
    (hh : task_handler_by_task_type_id handlers node.type = some h)
    (he : h.evaluate = some evaluate) :
    evaluate_task handlers eval_time node w =
      { task_node :=
          { (if (evaluate node w).1 = ACTIONS_RESULT_SUCCESS then
              task_update_status node ACTIONS_TASK_STATUS_COMPLETED
            else if (evaluate node w).1 = ACTIONS_RESULT_FAILURE then
              task_update_status node ACTIONS_TASK_STATUS_FAILED
            else node) with last_evaluated := eval_time }
        world := (evaluate node w).2
        calls := [handler_call.evaluate node] } := by
  unfold evaluate_task
  rw [if_neg (by simp [hstatus])]
  simp only [hh, he]

theorem task_isSome_of_eui (task : Option cJSON) (item : cJSON)
    (heui : cJSON_GetObjectItemCaseSensitive
      (cJSON_GetObjectItemCaseSensitive
        (cJSON_GetObjectItemCaseSensitive task "attributes") "hasActivationKey")
      "eui" = some item) : task.isNone = false := by
  cases task with
  | none => simp [cJSON_GetObjectItemCaseSensitive] at heui
  | some t => rfl

theorem process_flag_on_return (allow_any_joiner : Bool) (rand : Nat → Nat → Nat)
    (now : Int) (pthread_create : Int) (aInstance : otInstance) (task_node : task_node_t)
    (w : add_thread_device_world) (hflag : w.sJoinerAddOngoing = false)
    (result : rest_actions_task_result_t) (w' : add_thread_device_world)
    (h : process_add_thread_device_task allow_any_joiner rand now pthread_create aInstance
      task_node w = some (result, w')) :
    (w'.wait_tasks_created = w.wait_tasks_created ∧ w'.sJoinerAddOngoing = false) ∨
    (w'.wait_tasks_created = w.wait_tasks_created + 1 ∧ w'.sJoinerAddOngoing = true ∧
      result = ACTIONS_RESULT_SUCCESS ∧ w'.sPendingJoiner.isSome = true) := by
  revert h
  unfold process_add_thread_device_task
  simp only [hflag, Bool.false_eq_true, if_false]
  repeat' split
  all_goals intro h
  all_goals first
    | (cases h; exact Or.inl ⟨rfl, hflag⟩)
    | (cases h; exact Or.inl ⟨rfl, rfl⟩)
    | (cases h; exact Or.inr ⟨rfl, rfl, rfl, rfl⟩)
    | (cases h)

theorem process_returns_of_strings (allow_any_joiner : Bool) (rand : Nat → Nat → Nat)
    (now : Int) (pthread_create : Int) (aInstance : otInstance) (task_node : task_node_t)
    (w : add_thread_device_world) (eui pskd : String)
    (hflag : w.sJoinerAddOngoing = false)
    (heui : cJSON_GetObjectItemCaseSensitive
      (cJSON_GetObjectItemCaseSensitive
        (cJSON_GetObjectItemCaseSensitive task_node.task "attributes") "hasActivationKey")
      "eui" = some (cJSON.cJSON_String eui))
    (hpskd : cJSON_GetObjectItemCaseSensitive
      (cJSON_GetObjectItemCaseSensitive
        (cJSON_GetObjectItemCaseSensitive task_node.task "attributes") "hasActivationKey")
      ATTRIBUTE_PSKD = some (cJSON.cJSON_String pskd)) :
    ∃ result w',
      process_add_thread_device_task allow_any_joiner rand now pthread_create aInstance
        task_node w = some (result, w') := by
  have htask := task_isSome_of_eui task_node.task _ heui
  have hb : (some (cJSON.cJSON_String eui)).bind cJSON_valuestring = some eui := rfl
  unfold process_add_thread_device_task
  simp only [htask, Bool.false_eq_true, if_false, hflag, heui, hpskd, hb]
  split
  · exact ⟨_, _, rfl⟩
  · split
    · split
      · exact ⟨_, _, rfl⟩
      · split
        · simp only [cJSON_valuestring, allowListCommissionerJoinerAdd_pskd]
          split
          · exact ⟨_, _, rfl⟩
          · exact ⟨_, _, rfl⟩
        · split
          · exact ⟨_, _, rfl⟩
          · exact ⟨_, _, rfl⟩
    · exact ⟨_, _, rfl⟩

theorem process_launches_wait_helper (allow_any_joiner : Bool) (rand : Nat → Nat → Nat)
    (now : Int) (aInstance : otInstance) (task_node : task_node_t)
    (w : add_thread_device_world) (eui pskd : String) (valueint : Int)
    (hflag : w.sJoinerAddOngoing = false)
    (heui : cJSON_GetObjectItemCaseSensitive
      (cJSON_GetObjectItemCaseSensitive
        (cJSON_GetObjectItemCaseSensitive task_node.task "attributes") "hasActivationKey")
      "eui" = some (cJSON.cJSON_String eui))
    (hconv : (str_to_m8 (List.replicate OT_EXT_ADDRESS_SIZE 0) eui OT_EXT_ADDRESS_SIZE).1 =
      OT_ERROR_NONE)
    (hpskd : cJSON_GetObjectItemCaseSensitive
      (cJSON_GetObjectItemCaseSensitive
        (cJSON_GetObjectItemCaseSensitive task_node.task "attributes") "hasActivationKey")
      ATTRIBUTE_PSKD = some (cJSON.cJSON_String pskd))
    (htimeout : cJSON_GetObjectItemCaseSensitive
      (cJSON_GetObjectItemCaseSensitive task_node.task "attributes") "timeout" =
      some (cJSON.cJSON_Number valueint))
    (hstart : allowListCommissionerStart aInstance ≠ OT_ERROR_INVALID_STATE)
    (hstate : aInstance.otCommissionerGetState ≠ OT_COMMISSIONER_STATE_ACTIVE) :
    process_add_thread_device_task allow_any_joiner rand now 0 aInstance task_node w =
      some (ACTIONS_RESULT_SUCCESS,
        { sJoinerAddOngoing := true
          sPendingJoiner :=
            some
              { mEui64 :=
                  { m8 := (str_to_m8 (List.replicate OT_EXT_ADDRESS_SIZE 0) eui
                      OT_EXT_ADDRESS_SIZE).2 }
                mPskd := some pskd
                mTimeout := uint32_of_int valueint
                mTaskNode := task_node }
          allow_list := w.allow_list
          commissioner_calls := w.commissioner_calls ++ [commissioner_call.start]
          wait_tasks_created := w.wait_tasks_created + 1 }) := by
  have htask := task_isSome_of_eui task_node.task _ heui
  have hb : (some (cJSON.cJSON_String eui)).bind cJSON_valuestring = some eui := rfl
  unfold process_add_thread_device_task
  simp only [htask, Bool.false_eq_true, if_false, hflag, heui, hpskd, hb, hconv, htimeout,
    ne_eq, not_true_eq_false]
  rw [if_neg (fun h => hstart h.symm), if_neg (fun h => hstate h.symm)]
  rfl

theorem commissioner_wait_loop_left (end_time : timespec)
    (observations : List (otCommissionerState × timespec))
    (commissionerResult : otCommissionerState)
    (h : commissioner_wait_loop end_time observations = some commissionerResult) :
    ∃ pre now rest, observations = pre ++ (commissionerResult, now) :: rest ∧
      (∀ p ∈ pre, p.1 ≠ OT_COMMISSIONER_STATE_ACTIVE ∧ deadline_passed p.2 end_time = false) ∧
      (commissionerResult = OT_COMMISSIONER_STATE_ACTIVE ∨
        deadline_passed now end_time = true) := by
  induction observations with
  | nil => simp [commissioner_wait_loop] at h
  | cons p t ih =>
    obtain ⟨p1, p2⟩ := p
    unfold commissioner_wait_loop at h
    by_cases h1 : p1 = OT_COMMISSIONER_STATE_ACTIVE
    · rw [if_pos h1] at h
      cases h
      exact ⟨[], p2, t, rfl, by simp, Or.inl h1⟩
    · rw [if_neg h1] at h
      by_cases h2 : deadline_passed p2 end_time = true
      · rw [if_pos h2] at h
        cases h
        exact ⟨[], p2, t, rfl, by simp, Or.inr h2⟩
      · rw [if_neg h2] at h
        obtain ⟨pre, now, rest, ht, hpre, hlast⟩ := ih h
        refine ⟨(p1, p2) :: pre, now, rest, by rw [ht]; rfl, ?_, hlast⟩
        intro q hq
        rcases List.mem_cons.mp hq with hq | hq
        · rw [hq]
          exact ⟨h1, by simpa using h2⟩
        · exact hpre q hq

theorem commissioner_wait_loop_waiting (end_time : timespec)
    (observations : List (otCommissionerState × timespec))
    (h : ∀ p ∈ observations,
      p.1 ≠ OT_COMMISSIONER_STATE_ACTIVE ∧ deadline_passed p.2 end_time = false) :
    commissioner_wait_loop end_time observations = none := by
  induction observations with
  | nil => rfl
  | cons p t ih =>
    obtain ⟨p1, p2⟩ := p
    have hp := h (p1, p2) (List.mem_cons_self _ _)
    simp only [commissioner_wait_loop, hp.1, if_false, hp.2, Bool.false_eq_true]
    exact ih (fun q hq => h q (List.mem_cons_of_mem _ hq))

theorem allowListAddDevice_entry (rand : Nat → Nat → Nat) (now : Int) (aEui64 : otExtAddress)
    (aTimeout : Nat) (aPskd : String) (list : List AllowListEntry) :
    ∃ i e, entry_find_scan aEui64 (allowListAddDevice rand now aEui64 aTimeout aPskd list) 0 =
        some i ∧
      (allowListAddDevice rand now aEui64 aTimeout aPskd list)[i]? = some e ∧
      same_eui64 e.meui64 aEui64 ∧ e.mPSKd = aPskd ∧
      ((∀ x ∈ list, ¬ same_eui64 x.meui64 aEui64) → e.mstate = kAllowListEntryNew) ∧
      (∀ x, list[i]? = some x → e.mstate = x.mstate) := by
  by_cases hex : ∃ e ∈ list, same_eui64 e.meui64 aEui64
  · obtain ⟨i, e, hfind, he, hs, hbefore⟩ := entry_find_scan_of_exists aEui64 list hex
    have hlt := getElem?_lt_length list i e he
    rw [allowListAddDevice_found rand now aEui64 aTimeout aPskd list i e hfind he]
    refine ⟨i, { e with mPSKd := aPskd }, ?_, List.getElem?_set_eq_of_lt _ hlt, hs, rfl, ?_, ?_⟩
    · rw [entry_find_scan_zero_some]
      refine ⟨⟨_, List.getElem?_set_eq_of_lt _ hlt, hs⟩, ?_⟩
      intro j e' hj hje
      rw [List.getElem?_set_ne (by omega)] at hje
      exact hbefore j e' hj hje
    · intro hnone
      exact absurd hs (hnone e (List.mem_iff_getElem?.mpr ⟨i, he⟩))
    · intro x hx
      rw [he] at hx
      cases hx
      rfl
  · have hnone : ∀ e ∈ list, ¬ same_eui64 e.meui64 aEui64 := fun e he hs => hex ⟨e, he, hs⟩
    rw [allowListAddDevice_not_found rand now aEui64 aTimeout aPskd list hnone]
    have hlast : (list ++ [AllowListEntry.new aEui64 (uuid_generate_random rand now) aTimeout
        aPskd])[list.length]? =
        some (AllowListEntry.new aEui64 (uuid_generate_random rand now) aTimeout aPskd) := by
      simp
    refine ⟨list.length,
      AllowListEntry.new aEui64 (uuid_generate_random rand now) aTimeout aPskd,
      ?_, hlast, same_eui64_refl aEui64, rfl, fun _ => rfl, ?_⟩
    · rw [entry_find_scan_zero_some]
      refine ⟨⟨_, hlast, same_eui64_refl aEui64⟩, ?_⟩
      intro j e' hj hje
      have hje' : (list ++ [AllowListEntry.new aEui64 (uuid_generate_random rand now) aTimeout
          aPskd])[j]? = some e' := hje
      rw [List.getElem?_append_left hj] at hje'
      exact hnone e' (List.mem_iff_getElem?.mpr ⟨j, hje'⟩)
    · intro x hx
      rw [List.getElem?_eq_none (Nat.le_refl _)] at hx
      exact absurd hx (by simp)

theorem head_or_cons (a : Nat) (t : List Nat) (d : Option Nat) : head_or (a :: t) d = some a :=
  rfl

theorem last_or_cons (a : Nat) (t : List Nat) (d : Option Nat) :
    last_or (a :: t) d = last_or t (some a) :=
  rfl

theorem links_segment_cons (nodes : Nat → Option task_node_links) (a : Nat) (rest : List Nat)
    (prev next : Option Nat) :
    links_segment nodes prev (a :: rest) next ↔
      (nodes a = some { prev := prev, next := head_or rest next } ∧
        links_segment nodes (some a) rest next) :=
  Iff.rfl

theorem head_or_append (l1 l2 : List Nat) (d : Option Nat) :
    head_or (l1 ++ l2) d = head_or l1 (head_or l2 d) := by
  cases l1 <;> rfl

theorem last_or_append (l1 l2 : List Nat) (d : Option Nat) :
    last_or (l1 ++ l2) d = last_or l2 (last_or l1 d) := by
  induction l1 generalizing d with
  | nil => rfl
  | cons a t ih => exact ih (some a)

/-- A segment of two parts: the first part ends where the second begins. -/
theorem links_segment_append (nodes : Nat → Option task_node_links) (l1 l2 : List Nat)
    (prev next : Option Nat) :
    links_segment nodes prev (l1 ++ l2) next ↔
      links_segment nodes prev l1 (head_or l2 next) ∧
      links_segment nodes (last_or l1 prev) l2 next := by
  induction l1 generalizing prev with
  | nil => simp [links_segment, last_or]
  | cons a t ih =>
    rw [List.cons_append, links_segment_cons, links_segment_cons, last_or_cons, ih (some a),
      head_or_append, and_assoc]

theorem links_segment_frame (nodes nodes' : Nat → Option task_node_links) (l : List Nat)
    (prev next : Option Nat) (hsame : ∀ a ∈ l, nodes' a = nodes a)
    (h : links_segment nodes prev l next) : links_segment nodes' prev l next := by
  induction l generalizing prev with
  | nil => trivial
  | cons a t ih =>
    obtain ⟨ha, ht⟩ := h
    exact ⟨by rw [hsame a (List.mem_cons_self _ _)]; exact ha,
      ih (some a) (fun x hx => hsame x (List.mem_cons_of_mem _ hx)) ht⟩

theorem read_forward_segment (nodes : Nat → Option task_node_links) (l : List Nat)
    (prev : Option Nat) (fuel : Nat) (hfuel : l.length ≤ fuel)
    (h : links_segment nodes prev l none) :
    read_forward nodes fuel (head_or l none) = some l := by
  induction l generalizing prev fuel with
  | nil => cases fuel <;> rfl
  | cons a t ih =>
    obtain ⟨ha, ht⟩ := h
    cases fuel with
    | zero => simp at hfuel
    | succ fuel =>
      rw [head_or_cons]
      simp only [read_forward, ha]
      rw [ih (some a) fuel (by simpa using hfuel) ht]
      rfl

theorem read_backward_segment (nodes : Nat → Option task_node_links) (l : List Nat)
    (next : Option Nat) (fuel : Nat) (hfuel : l.length ≤ fuel)
    (h : links_segment nodes none l next) :
    read_backward nodes fuel (last_or l none) = some l.reverse := by
  induction l using List.reverseRecOn generalizing next fuel with
  | nil => cases fuel <;> rfl
  | append_singleton t z ih =>
    rw [links_segment_append] at h
    obtain ⟨ht, hz, _⟩ := h
    cases fuel with
    | zero => simp at hfuel
    | succ fuel =>
      rw [last_or_append, last_or_cons]
      have hlast : last_or [] (some z) = some z := rfl
      rw [hlast]
      simp only [read_backward, hz]
      rw [ih (head_or [z] next) fuel (by simp at hfuel; omega) ht]
      simp

theorem queue_tail_segment (nodes : Nat → Option task_node_links) (l : List Nat) (z : Nat)
    (prev : Option Nat) (fuel : Nat) (hfuel : (l ++ [z]).length ≤ fuel)
    (h : links_segment nodes prev (l ++ [z]) none) (first : Nat)
    (hfirst : head_or (l ++ [z]) none = some first) :
    queue_tail nodes fuel first = some z := by
  induction l generalizing prev fuel first with
  | nil =>
    obtain ⟨hz, _⟩ := h
    cases fuel with
    | zero => simp at hfuel
    | succ fuel =>
      rw [List.nil_append, head_or_cons] at hfirst
      rw [← Option.some.inj hfirst]
      have hnil : head_or [] none = none := rfl
      rw [hnil] at hz
      simp only [queue_tail, hz]
  | cons a t ih =>
    rw [List.cons_append, links_segment_cons] at h
    obtain ⟨ha, ht⟩ := h
    cases fuel with
    | zero => simp at hfuel
    | succ fuel =>
      rw [List.cons_append, head_or_cons] at hfirst
      rw [← Option.some.inj hfirst]
      obtain ⟨b, hb⟩ : ∃ b, head_or (t ++ [z]) none = some b := by
        cases t with
        | nil => exact ⟨z, rfl⟩
        | cons c t2 => exact ⟨c, rfl⟩
      rw [hb] at ha
      simp only [queue_tail, ha]
      exact ih (some a) fuel (by simpa using hfuel) ht b hb

theorem head_or_of_ne_nil (l : List Nat) (d d' : Option Nat) (h : l ≠ []) :
    head_or l d = head_or l d' := by
  cases l with
  | nil => exact absurd rfl h
  | cons a t => rfl

theorem links_represent_init : links_represent linked_task_queue_init [] :=
  ⟨List.nodup_nil, rfl, trivial, fun _ _ => rfl⟩

theorem queue_task_link_represent (fuel : Nat) (task_node : Nat) (q : linked_task_queue)
    (l : List Nat) (hrep : links_represent q l) (hfresh : task_node ∉ l)
    (hfuel : l.length ≤ fuel) :
    ∃ q', queue_task_link fuel task_node q = some q' ∧ links_represent q' (l ++ [task_node]) ∧
      q'.task_queue_len = if l = [] then 1 else uint8_wrap (q.task_queue_len + 1) := by
  obtain ⟨hnodup, hhead, hseg, hother⟩ := hrep
  rcases List.eq_nil_or_concat l with hl | ⟨t, z, hl⟩
  · subst hl
    have hq : q.task_queue = none := hhead
    refine ⟨⟨some task_node, 1, store_links q.nodes task_node ⟨none, none⟩⟩,
      by unfold queue_task_link; simp only [hq], ?_, rfl⟩
    refine ⟨by simp, rfl, ⟨by simp [store_links, head_or], trivial⟩, ?_⟩
    intro a ha
    have hne : a ≠ task_node := by simpa using ha
    simp [store_links, hne, hother a (by simp)]
  · rw [List.concat_eq_append] at hl
    subst hl
    have hne : (t ++ [z]) ≠ [] := by simp
    obtain ⟨first, hfirst⟩ : ∃ first, head_or (t ++ [z]) none = some first := by
      cases t with
      | nil => exact ⟨z, rfl⟩
      | cons c t2 => exact ⟨c, rfl⟩
    have hq : q.task_queue = some first := by rw [hhead, hfirst]
    have haz : task_node ≠ z := fun h => hfresh (by simp [h])
    have hzt : z ∉ t := by
      have := List.nodup_append.mp hnodup
      intro hz
      exact this.2.2 hz (List.mem_singleton_self z)
    have hseg1 : links_segment (store_links q.nodes task_node { prev := none, next := none })
        none (t ++ [z]) none := by
      apply links_segment_frame q.nodes _ _ _ _ _ hseg
      intro a ha
      have : a ≠ task_node := fun h => hfresh (h ▸ ha)
      simp [store_links, this]
    have htail := queue_tail_segment _ t z none fuel hfuel hseg1 first hfirst
    refine ⟨⟨q.task_queue, uint8_wrap (q.task_queue_len + 1),
        set_prev (set_next (store_links q.nodes task_node ⟨none, none⟩) z (some task_node))
          task_node (some z)⟩,
      by unfold queue_task_link; simp only [hq, htail], ?_, by simp⟩
    rw [links_segment_append] at hseg
    obtain ⟨hsegt, hz, _⟩ := hseg
    have hznil : head_or [] (none : Option Nat) = none := rfl
    rw [hznil] at hz
    refine ⟨?_, ?_, ?_, ?_⟩
    · rw [List.nodup_append]
      refine ⟨hnodup, List.nodup_singleton _, ?_⟩
      intro a ha ha'
      rw [List.mem_singleton] at ha'
      exact hfresh (ha' ▸ ha)
    · show q.task_queue = head_or (t ++ [z] ++ [task_node]) none
      rw [hq, head_or_append, ← head_or_of_ne_nil _ none _ hne, hfirst]
    · show links_segment _ none (t ++ [z] ++ [task_node]) none
      rw [links_segment_append, links_segment_append]
      refine ⟨⟨?_, ?_, trivial⟩, ?_, trivial⟩
      · apply links_segment_frame q.nodes _ _ _ _ _ hsegt
        intro a ha
        have h1 : a ≠ task_node := fun h => hfresh (by simp [← h, ha])
        have h2 : a ≠ z := fun h => hzt (h ▸ ha)
        simp [set_prev, set_next, store_links, h1, h2]
      · simp [set_prev, set_next, store_links, haz.symm, hz, head_or]
      · rw [last_or_append]
        simp [set_prev, set_next, store_links, haz, last_or, head_or]
    · intro a ha
      have h1 : a ≠ task_node := fun h => ha (by simp [h])
      have h2 : a ≠ z := fun h => ha (by simp [h])
      have h3 : a ∉ t ++ [z] := fun h => ha (by simp at h ⊢; tauto)
      simp [set_prev, set_next, store_links, h1, h2, hother a h3]

theorem unlink_represent (head : Nat) (q : linked_task_queue) (l : List Nat)
    (hrep : links_represent q l) (hmem : head ∈ l) :
    ∃ q', rest_task_queue_task_unlink head q = some q' ∧ links_represent q' (l.erase head) ∧
      q'.task_queue_len =
        if q.task_queue_len > 0 then q.task_queue_len - 1 else q.task_queue_len := by
  obtain ⟨hnodup, hhead, hseg, hother⟩ := hrep
  obtain ⟨l1, l2, hl⟩ := List.append_of_mem hmem
  subst hl
  have hnd := List.nodup_append.mp hnodup
  have hnd2 := List.nodup_cons.mp hnd.2.1
  have h1 : head ∉ l1 := fun h => hnd.2.2 h (List.mem_cons_self _ _)
  have h2 : head ∉ l2 := hnd2.1
  have hdisj : ∀ x ∈ l1, x ∉ l2 := fun x hx hx2 => hnd.2.2 hx (List.mem_cons_of_mem _ hx2)
  have herase : (l1 ++ head :: l2).erase head = l1 ++ l2 := by
    rw [List.erase_append_right _ h1, List.erase_cons_head]
  rw [herase]
  rw [links_segment_append, links_segment_cons] at hseg
  obtain ⟨hseg1, hnode, hseg2⟩ := hseg
  rw [head_or_cons] at hseg1
  have hnodup' : (l1 ++ l2).Nodup :=
    List.nodup_append.mpr ⟨hnd.1, hnd2.2, fun x hx hx2 => hdisj x hx hx2⟩
  have hfree : ∀ (nodes : Nat → Option task_node_links) (a : Nat),
      (∀ x, x ≠ head → x ∉ l1 ++ l2 → nodes x = q.nodes x) → a ∉ l1 ++ l2 →
      free_node nodes head a = none := by
    intro nodes a hn ha
    by_cases hah : a = head
    · simp [free_node, hah]
    · have : a ∉ l1 ++ head :: l2 := by
        simp only [List.mem_append, List.mem_cons, not_or] at ha ⊢
        exact ⟨ha.1, hah, ha.2⟩
      simp [free_node, hah, hn a hah ha, hother a this]
  rcases List.eq_nil_or_concat l1 with hl1 | ⟨t, p, hl1⟩
  · subst hl1
    have hprev : last_or [] (none : Option Nat) = none := rfl
    rw [hprev] at hnode
    cases l2 with
    | nil =>
      have hnext : head_or [] (none : Option Nat) = none := rfl
      rw [hnext] at hnode
      refine ⟨⟨none, if q.task_queue_len > 0 then q.task_queue_len - 1 else q.task_queue_len,
          free_node q.nodes head⟩,
        by unfold rest_task_queue_task_unlink; simp only [hnode], ?_, rfl⟩
      exact ⟨hnodup', rfl, trivial, fun a ha => hfree q.nodes a (fun _ _ _ => rfl) ha⟩
    | cons n t2 =>
      rw [head_or_cons] at hnode
      rw [links_segment_cons] at hseg2
      obtain ⟨hn, hseg3⟩ := hseg2
      have hnh : n ≠ head := fun h => h2 (by simp [h])
      have hnt : n ∉ t2 := (List.nodup_cons.mp hnd2.2).1
      refine ⟨⟨some n, if q.task_queue_len > 0 then q.task_queue_len - 1 else q.task_queue_len,
          free_node (set_prev q.nodes n none) head⟩,
        by unfold rest_task_queue_task_unlink; simp only [hnode], ?_, rfl⟩
      refine ⟨hnodup', rfl, ?_, ?_⟩
      · show links_segment _ none (n :: t2) none
        rw [links_segment_cons]
        refine ⟨by simp [free_node, set_prev, hnh, hn], ?_⟩
        apply links_segment_frame q.nodes _ _ _ _ _ hseg3
        intro a ha
        have ha1 : a ≠ head := fun h => h2 (by simp [← h, ha])
        have ha2 : a ≠ n := fun h => hnt (h ▸ ha)
        simp [free_node, set_prev, ha1, ha2]
      · intro a ha
        apply hfree _ a _ ha
        intro x _ hx
        have : x ≠ n := fun h => hx (by simp [h])
        simp [set_prev, this]
  · rw [List.concat_eq_append] at hl1
    subst hl1
    have hprev : last_or (t ++ [p]) none = some p := by
      rw [last_or_append]
      rfl
    rw [hprev] at hnode
    have hph : p ≠ head := fun h => h1 (by simp [h])
    have hpt : p ∉ t := by
      intro hp
      exact (List.nodup_append.mp hnd.1).2.2 hp (List.mem_singleton_self p)
    have hpl2 : p ∉ l2 := hdisj p (by simp)
    rw [links_segment_append] at hseg1
    obtain ⟨hsegt, hsegp⟩ := hseg1
    rw [links_segment_cons] at hsegp
    have hp := hsegp.1
    have hhd : head_or [] (some head) = some head := rfl
    rw [hhd] at hp
    rw [head_or_cons] at hsegt
    have hne : t ++ [p] ≠ [] := by simp
    have hq : q.task_queue = head_or (t ++ [p] ++ l2) none := by
      rw [hhead, head_or_append, head_or_append (t ++ [p]) l2,
        head_or_of_ne_nil _ _ (head_or l2 none) hne]
    cases l2 with
    | nil =>
      have hnext : head_or [] (none : Option Nat) = none := rfl
      rw [hnext] at hnode
      refine ⟨⟨q.task_queue,
          if q.task_queue_len > 0 then q.task_queue_len - 1 else q.task_queue_len,
          free_node (set_next q.nodes p none) head⟩,
        by unfold rest_task_queue_task_unlink; simp only [hnode], ?_, rfl⟩
      refine ⟨hnodup', hq, ?_, ?_⟩
      · show links_segment _ none (t ++ [p] ++ []) none
        rw [List.append_nil, links_segment_append]
        refine ⟨?_, ?_, trivial⟩
        · rw [head_or_cons]
          apply links_segment_frame q.nodes _ _ _ _ _ hsegt
          intro a ha
          have ha1 : a ≠ head := fun h => h1 (by simp [← h, ha])
          have ha2 : a ≠ p := fun h => hpt (h ▸ ha)
          simp [free_node, set_next, ha1, ha2]
        · simp [free_node, set_next, hph, hp, head_or]
      · intro a ha
        apply hfree _ a _ ha
        intro x _ hx
        have : x ≠ p := fun h => hx (by simp [h])
        simp [set_next, this]
    | cons n t2 =>
      rw [head_or_cons] at hnode
      rw [links_segment_cons] at hseg2
      obtain ⟨hn, hseg3⟩ := hseg2
      have hnh : n ≠ head := fun h => h2 (by simp [h])
      have hnt : n ∉ t2 := (List.nodup_cons.mp hnd2.2).1
      have hnp : n ≠ p := fun h => hpl2 (by simp [← h])
      refine ⟨⟨q.task_queue,
          if q.task_queue_len > 0 then q.task_queue_len - 1 else q.task_queue_len,
          free_node (set_prev (set_next q.nodes p (some n)) n (some p)) head⟩,
        by unfold rest_task_queue_task_unlink; simp only [hnode], ?_, rfl⟩
      refine ⟨hnodup', hq, ?_, ?_⟩
      · show links_segment _ none (t ++ [p] ++ n :: t2) none
        rw [links_segment_append, links_segment_append, hprev, links_segment_cons]
        refine ⟨⟨?_, ?_, trivial⟩, ?_, ?_⟩
        · rw [head_or_cons]
          apply links_segment_frame q.nodes _ _ _ _ _ hsegt
          intro a ha
          have ha1 : a ≠ head := fun h => h1 (by simp [← h, ha])
          have ha2 : a ≠ p := fun h => hpt (h ▸ ha)
          have ha3 : a ≠ n := fun h => hdisj a (by simp [ha]) (by simp [h])
          simp [free_node, set_prev, set_next, ha1, ha2, ha3]
        · simp [free_node, set_prev, set_next, hph, hnp.symm, hp, head_or]
        · simp [free_node, set_prev, set_next, hnh, hnp, hn]
        · apply links_segment_frame q.nodes _ _ _ _ _ hseg3
          intro a ha
          have ha1 : a ≠ head := fun h => h2 (by simp [← h, ha])
          have ha2 : a ≠ n := fun h => hnt (h ▸ ha)
          have ha3 : a ≠ p := fun h => hpl2 (by simp [← h, ha])
          simp [free_node, set_prev, set_next, ha1, ha2, ha3]
      · intro a ha
        apply hfree _ a _ ha
        intro x _ hx
        have hx1 : x ≠ p := fun h => hx (by simp [h])
        have hx2 : x ≠ n := fun h => hx (by simp [h])
        simp [set_prev, set_next, hx1, hx2]

theorem last_or_eq_getLast? (l : List Nat) (d : Option Nat) :
    last_or l d = (match l.getLast? with
      | some x => some x
      | none => d) := by
  induction l generalizing d with
  | nil => rfl
  | cons a t ih =>
    rw [last_or_cons, ih (some a)]
    cases t with
    | nil => rfl
    | cons b t2 =>
      rw [List.getLast?_cons_cons]
      cases h : (b :: t2).getLast? with
      | none => simp at h
      | some x => rfl

theorem linked_addresses_run_length (events : List link_event) (l : List Nat) :
    (linked_addresses_run l events).length ≤ l.length + events.length := by
  induction events generalizing l with
  | nil => simp [linked_addresses_run]
  | cons e rest ih =>
    have hstep : (linked_addresses_apply l e).length ≤ l.length + 1 := by
      cases e with
      | queue task_node =>
        cases task_node with
        | none => simp [linked_addresses_apply]
        | some a => simp [linked_addresses_apply]
      | driver head deleteTask =>
        cases head with
        | none => simp [linked_addresses_apply]
        | some head =>
          cases deleteTask with
          | false => simp [linked_addresses_apply]
          | true =>
            have := List.length_erase_le head l
            simp only [linked_addresses_apply]
            omega
    have := ih (linked_addresses_apply l e)
    simp only [linked_addresses_run, List.length_cons]
    omega

theorem link_apply_represent (fuel : Nat) (e : link_event) (q : linked_task_queue)
    (l : List Nat) (hrep : links_represent q l) (hvalid : link_events_valid l [e] = true)
    (hfuel : l.length ≤ fuel) :
    ∃ q', link_apply fuel q e = some q' ∧ links_represent q' (linked_addresses_apply l e) ∧
      (q.task_queue_len = l.length → (linked_addresses_apply l e).length ≤ 255 →
        q'.task_queue_len = (linked_addresses_apply l e).length) := by
  cases e with
  | queue task_node =>
    cases task_node with
    | none => exact ⟨q, rfl, hrep, fun h _ => h⟩
    | some a =>
      have hfresh : a ∉ l := by
        simpa [link_events_valid] using hvalid
      obtain ⟨q', hq', hrep', hlen'⟩ := queue_task_link_represent fuel a q l hrep hfresh hfuel
      refine ⟨q', hq', hrep', ?_⟩
      intro hlen hbound
      simp only [linked_addresses_apply, List.length_append, List.length_singleton] at hbound ⊢
      rw [hlen']
      by_cases hl : l = []
      · rw [if_pos hl, hl]
        rfl
      · rw [if_neg hl, hlen]
        unfold uint8_wrap
        omega
  | driver head deleteTask =>
    cases head with
    | none => exact ⟨q, rfl, hrep, fun h _ => h⟩
    | some head =>
      cases deleteTask with
      | false => exact ⟨q, rfl, hrep, fun h _ => h⟩
      | true =>
        have hmem : head ∈ l := by
          simpa [link_events_valid] using hvalid
        obtain ⟨q', hq', hrep', hlen'⟩ := unlink_represent head q l hrep hmem
        refine ⟨q', hq', hrep', ?_⟩
        intro hlen _
        have hpos : 0 < l.length := List.length_pos_of_mem hmem
        simp only [linked_addresses_apply]
        rw [hlen', List.length_erase_of_mem hmem, if_pos (by omega), hlen]

theorem link_run_represent (fuel : Nat) (events : List link_event) (q : linked_task_queue)
    (l : List Nat) (hrep : links_represent q l) (hvalid : link_events_valid l events = true)
    (hfuel : l.length + events.length ≤ fuel) :
    ∃ q', link_run fuel q events = some q' ∧
      links_represent q' (linked_addresses_run l events) ∧
      (q.task_queue_len = l.length → linked_addresses_bounded 255 l events = true →
        q'.task_queue_len = (linked_addresses_run l events).length) := by
  induction events generalizing q l with
  | nil => exact ⟨q, rfl, hrep, fun h _ => h⟩
  | cons e rest ih =>
    simp only [link_events_valid, Bool.and_eq_true] at hvalid
    have hv1 : link_events_valid l [e] = true := by
      simp only [link_events_valid, Bool.and_eq_true, and_true]
      exact hvalid.1
    simp only [List.length_cons] at hfuel
    obtain ⟨q1, hq1, hrep1, hlen1⟩ := link_apply_represent fuel e q l hrep hv1 (by omega)
    have hstep : (linked_addresses_apply l e).length ≤ l.length + 1 := by
      have := linked_addresses_run_length [e] l
      simpa [linked_addresses_run] using this
    obtain ⟨q', hq', hrep', hlen'⟩ := ih q1 (linked_addresses_apply l e) hrep1 hvalid.2
      (by omega)
    refine ⟨q', by simp only [link_run, hq1, hq'], hrep', ?_⟩
    intro hlen hbound
    simp only [linked_addresses_bounded, Bool.and_eq_true, decide_eq_true_eq] at hbound
    exact hlen' (hlen1 hlen hbound.1) hbound.2

theorem links_represent_reads (fuel : Nat) (q : linked_task_queue) (l : List Nat)
    (hrep : links_represent q l) (hfuel : l.length ≤ fuel) :
    read_forward q.nodes fuel q.task_queue = some l ∧
    read_backward q.nodes fuel l.getLast? = some l.reverse := by
  obtain ⟨_, hhead, hseg, _⟩ := hrep
  constructor
  · rw [hhead]
    exact read_forward_segment q.nodes l none fuel hfuel hseg
  · have h := read_backward_segment q.nodes l none fuel hfuel hseg
    rw [last_or_eq_getLast?] at h
    cases hl : l.getLast? with
    | none => rw [hl] at h; exact h
    | some x => rw [hl] at h; exact h

theorem engine_run_append {W : Type} (handlers : List (task_handlers_t W))
    (events1 events2 : List engine_event) (s : driver_state W) :
    engine_run handlers s (events1 ++ events2) =
      (engine_run handlers s events1).bind (fun s1 => engine_run handlers s1 events2) := by
  induction events1 generalizing s with
  | nil => rfl
  | cons e rest ih =>
    simp only [List.cons_append, engine_run]
    cases engine_apply handlers s e with
    | none => rfl
    | some s1 => exact ih s1

theorem queue_task_reselects {W : Type} (handlers : List (task_handlers_t W))
    (rand : Nat → Nat → Nat) (now : Int) (task : Option cJSON)
    (htype : cJSON_GetObjectItemCaseSensitive task "type" ≠ none) (s : driver_state W)
    (first : task_node_t) (rest : List task_node_t)
    (hq : s.globals.task_queue = first :: rest)
    (hfull : TASK_QUEUE_MAX ≤ s.globals.task_queue_len)
    (hterm : can_remove_task first = true) (hold : first.created < now)
    (hrest : ∀ t ∈ rest, can_remove_task t = false ∧ t.deleteTask = false) :
    ∃ s' node, engine_apply handlers s (engine_event.queue rand now now now task) = some s' ∧
      s'.globals.task_queue = mark_for_deletion first :: (rest ++ [node]) ∧
      can_remove_task node = false ∧ node.deleteTask = false ∧
      s'.globals.task_queue_len = uint8_wrap (s.globals.task_queue_len + 1) := by
  have hscan : remove_oldest_scan (first :: rest) now 0 none = some 0 := by
    unfold remove_oldest_scan
    rw [if_pos ⟨by omega, hterm⟩]
    exact remove_oldest_scan_none rest first.created
      (fun t ht hc => absurd hc (by rw [(hrest t ht).1]; decide)) 1 (some 0)
  have hremove : remove_oldest_non_running_task now s.globals.task_queue =
      (true, mark_for_deletion first :: rest) := by
    unfold remove_oldest_non_running_task
    rw [hq, hscan]
    rfl
  obtain ⟨node, hnew, -, hstatus, hflag, -, -⟩ := task_node_new_spec rand now now task htype
  obtain ⟨node', r, hnew', hr, -, -, hrq, -, hlen⟩ :=
    queue_task_append_spec rand now now task
      { s.globals with task_queue := mark_for_deletion first :: rest } htype
  have hnode : node' = node := by
    rw [hnew] at hnew'
    exact (Option.some.inj hnew').symm
  subst hnode
  have hqt : queue_task rand now now now task s.globals = some r := by
    unfold queue_task
    rw [if_pos hfull, hremove]
    exact hr
  refine ⟨{ s with globals := r.globals }, node', by simp only [engine_apply, hqt], hrq, ?_,
    hflag, hlen (by simp)⟩
  unfold can_remove_task
  rw [hstatus]
  rfl

theorem queue_task_reselects_run {W : Type} (handlers : List (task_handlers_t W))
    (rand : Nat → Nat → Nat) (task : Option cJSON)
    (htype : cJSON_GetObjectItemCaseSensitive task "type" ≠ none) (bound : Int)
    (times : List Int) (htimes : ∀ now ∈ times, bound ≤ now) (s : driver_state W)
    (first : task_node_t) (rest : List task_node_t)
    (hq : s.globals.task_queue = first :: rest)
    (hcount : s.globals.task_queue_len = s.globals.task_queue.length)
    (hfull : TASK_QUEUE_MAX ≤ s.globals.task_queue_len)
    (hsmall : s.globals.task_queue.length < 256)
    (hroom : s.globals.task_queue.length + times.length ≤ 256)
    (hterm : can_remove_task first = true) (hold : first.created < bound)
    (hrest : ∀ t ∈ rest, can_remove_task t = false ∧ t.deleteTask = false) :
    ∃ s' first' rest', engine_run handlers s
        (times.map (fun now => engine_event.queue rand now now now task)) = some s' ∧
      s'.globals.task_queue = first' :: rest' ∧
      (∀ t ∈ rest', can_remove_task t = false ∧ t.deleteTask = false) ∧
      (0 < times.length → first'.deleteTask = true) ∧
      s'.globals.task_queue.length = s.globals.task_queue.length + times.length ∧
      s'.globals.task_queue_len = (s.globals.task_queue_len + times.length) % 256 := by
  induction times generalizing s first rest with
  | nil =>
    refine ⟨s, first, rest, rfl, hq, hrest, fun h => absurd h (by decide), rfl, ?_⟩
    simp only [List.length_nil, Nat.add_zero] at hroom ⊢
    omega
  | cons now times ih =>
    simp only [List.length_cons] at hroom
    have hnow := htimes now (List.mem_cons_self _ _)
    obtain ⟨s1, node, happ, hq1, hnode, hflag, hcount1⟩ :=
      queue_task_reselects handlers rand now task htype s first rest hq hfull hterm
        (by omega) hrest
    have hlen1 : s1.globals.task_queue.length = s.globals.task_queue.length + 1 := by
      rw [hq1, hq]
      simp
    have hrest1 : ∀ t ∈ rest ++ [node], can_remove_task t = false ∧ t.deleteTask = false := by
      intro t ht
      rcases List.mem_append.mp ht with ht | ht
      · exact hrest t ht
      · rw [List.mem_singleton.mp ht]
        exact ⟨hnode, hflag⟩
    unfold uint8_wrap at hcount1
    unfold TASK_QUEUE_MAX at hfull
    rcases Nat.eq_zero_or_pos times.length with hnil | hpos
    · have htimes_nil : times = [] := List.length_eq_zero.mp hnil
      subst htimes_nil
      refine ⟨s1, mark_for_deletion first, rest ++ [node],
        by simp only [List.map_cons, List.map_nil, engine_run, happ], hq1, hrest1,
        fun _ => rfl, by simp only [List.length_cons, List.length_nil]; omega, ?_⟩
      simp only [List.length_cons, List.length_nil]
      omega
    · obtain ⟨s', first', rest', hrun, hq', hrest', hflag', hlen', hcount'⟩ :=
        ih (fun τ hτ => htimes τ (List.mem_cons_of_mem _ hτ)) s1 (mark_for_deletion first)
          (rest ++ [node]) hq1 (by omega) (by unfold TASK_QUEUE_MAX; omega) (by omega)
          (by omega) rfl hold hrest1
      refine ⟨s', first', rest', by simp only [List.map_cons, engine_run, happ, hrun], hq',
        hrest', fun _ => hflag' hpos, by simp only [List.length_cons]; omega, ?_⟩
      rw [hcount', hcount1]
      simp only [List.length_cons]
      omega

theorem example_reselection_times_spec :
    example_reselection_times.length = 245 ∧ (∀ now ∈ example_reselection_times, 102 ≤ now) ∧
    example_reselection_times.head? = some 102 ∧
    example_reselection_times.getLast? = some 104 := by
  refine ⟨by rw [example_reselection_times, List.length_map, List.length_range], ?_,
    by decide, by decide⟩
  intro now hnow
  simp only [example_reselection_times, List.mem_map, List.mem_range] at hnow
  obtain ⟨i, -, hi⟩ := hnow
  have : (0 : Int) ≤ Int.ofNat i := Int.ofNat_nonneg i
  omega

theorem queue_task_append_ret (rand : Nat → Nat → Nat) (seed_time timestamp : Int)
    (task : Option cJSON) (g : task_queue_globals) (r : queue_task_result)
    (h : queue_task_append rand seed_time timestamp task g = some r) :
    r.ret = true ∧ r.globals.task_queue.length = g.task_queue.length + 1 ∧
    r.globals.task_queue_len =
      if g.task_queue.length = 0 then 1 else uint8_wrap (g.task_queue_len + 1) := by
  unfold queue_task_append at h
  cases hn : task_node_new rand seed_time timestamp task with
  | none => rw [hn] at h; exact absurd h (by simp)
  | some node =>
    rw [hn] at h
    cases hq : g.task_queue with
    | nil =>
      rw [hq] at h
      rw [← Option.some.inj h]
      exact ⟨rfl, rfl, rfl⟩
    | cons head rest =>
      rw [hq] at h
      rw [← Option.some.inj h]
      exact ⟨rfl, by simp, by simp⟩

theorem queue_task_ret_cases (rand : Nat → Nat → Nat) (scan_time seed_time timestamp : Int)
    (task : Option cJSON) (g : task_queue_globals) (r : queue_task_result)
    (h : queue_task rand scan_time seed_time timestamp task g = some r) :
    (r.ret = false ∧ r.globals = g) ∨
    (r.ret = true ∧ r.globals.task_queue.length = g.task_queue.length + 1 ∧
      r.globals.task_queue_len =
        if g.task_queue.length = 0 then 1 else uint8_wrap (g.task_queue_len + 1)) := by
  unfold queue_task at h
  split at h
  · rcases remove_oldest_cases scan_time g.task_queue with hno | ⟨i, t, ht, -, hyes⟩
    · rw [hno] at h
      rw [← Option.some.inj h]
      exact Or.inl ⟨rfl, rfl⟩
    · rw [hyes] at h
      obtain ⟨hret, hlen, hcount⟩ := queue_task_append_ret _ _ _ _ _ _ h
      refine Or.inr ⟨hret, ?_, ?_⟩
      · rw [hlen]
        simp
      · rw [hcount]
        simp only [List.length_modify]
  · exact Or.inr (queue_task_append_ret _ _ _ _ _ _ h)

theorem driver_step_globals {W : Type} (handlers : List (task_handlers_t W))
    (current_time eval_time : Int) (s : driver_state W) :
    (∃ i node, s.head = some i ∧ s.globals.task_queue[i]? = some node ∧
      node.deleteTask = true ∧
      (rest_task_queue_task_step handlers current_time eval_time s).globals.task_queue =
        s.globals.task_queue.eraseIdx i ∧
      (rest_task_queue_task_step handlers current_time eval_time s).globals.task_queue_len =
        if s.globals.task_queue_len > 0 then s.globals.task_queue_len - 1
        else s.globals.task_queue_len) ∨
    ((∀ i node, s.head = some i → s.globals.task_queue[i]? = some node →
        node.deleteTask = false) ∧
      (rest_task_queue_task_step handlers current_time eval_time s).globals.task_queue.length =
        s.globals.task_queue.length ∧
      (rest_task_queue_task_step handlers current_time eval_time s).globals.task_queue_len =
        s.globals.task_queue_len) := by
  cases hh : s.head with
  | none =>
    have hstep : rest_task_queue_task_step handlers current_time eval_time s =
        { s with head := queue_head_pointer s.globals.task_queue } := by
      unfold rest_task_queue_task_step
      simp only [hh]
    rw [hstep]
    exact Or.inr ⟨fun _ _ h => by simp at h, rfl, rfl⟩
  | some i =>
    cases hn : s.globals.task_queue[i]? with
    | none =>
      have hstep : rest_task_queue_task_step handlers current_time eval_time s =
          { s with head := queue_head_pointer s.globals.task_queue } := by
        unfold rest_task_queue_task_step
        simp only [hh, hn]
      rw [hstep]
      refine Or.inr ⟨?_, rfl, rfl⟩
      intro j node hj hnode
      rw [← Option.some.inj hj, hn] at hnode
      exact absurd hnode (by simp)
    | some node =>
      by_cases hflag : node.deleteTask = true
      · have hstep : rest_task_queue_task_step handlers current_time eval_time s =
            visit_delete handlers s i node := by
          unfold rest_task_queue_task_step
          simp only [hh, hn, hflag, if_true]
        rw [hstep]
        exact Or.inl ⟨i, node, rfl, hn, hflag, rfl, rfl⟩
      · have hstep := step_at_live_node handlers current_time eval_time s i node hh hn
          (by simpa using hflag)
        rw [hstep]
        refine Or.inr ⟨?_, ?_, rfl⟩
        · intro j node' hj hnode'
          rw [← Option.some.inj hj, hn] at hnode'
          rw [← Option.some.inj hnode']
          simpa using hflag
        · show (s.globals.task_queue.set i _).length = _
          rw [List.length_set]

theorem len_eq_length_apply {W : Type} (handlers : List (task_handlers_t W))
    (e : engine_event) (s s1 : driver_state W)
    (hlen : s.globals.task_queue_len = s.globals.task_queue.length)
    (happ : engine_apply handlers s e = some s1)
    (hbound : s1.globals.task_queue.length ≤ 255) :
    s1.globals.task_queue_len = s1.globals.task_queue.length := by
  cases e with
  | queue rand scan_time seed_time timestamp task =>
    simp only [engine_apply] at happ
    cases hq : queue_task rand scan_time seed_time timestamp task s.globals with
    | none => rw [hq] at happ; exact absurd happ (by simp)
    | some r =>
      rw [hq] at happ
      rw [← Option.some.inj happ] at hbound ⊢
      simp only at hbound ⊢
      rcases queue_task_ret_cases _ _ _ _ _ _ _ hq with ⟨-, hg⟩ | ⟨-, hl, hc⟩
      · rw [hg]
        exact hlen
      · rw [hc, hl]
        by_cases hnil : s.globals.task_queue.length = 0
        · rw [if_pos hnil, hnil]
        · rw [if_neg hnil, hlen]
          unfold uint8_wrap
          omega
  | driver current_time eval_time =>
    simp only [engine_apply] at happ
    rw [← Option.some.inj happ]
    rcases driver_step_globals handlers current_time eval_time s with
      ⟨i, node, -, hnode, -, hq, hc⟩ | ⟨-, hl, hc⟩
    · have hi := getElem?_lt_length _ _ _ hnode
      rw [hq, hc, List.length_eraseIdx_of_lt hi, if_pos (by omega), hlen]
    · rw [hl, hc, hlen]

theorem len_eq_length_run {W : Type} (handlers : List (task_handlers_t W))
    (events : List engine_event) (s0 s : driver_state W)
    (hlen : s0.globals.task_queue_len = s0.globals.task_queue.length)
    (hrun : engine_run handlers s0 events = some s)
    (hbounded : queue_length_bounded handlers 255 s0 events = true) :
    s.globals.task_queue_len = s.globals.task_queue.length := by
  induction events generalizing s0 with
  | nil =>
    simp only [engine_run] at hrun
    rw [← Option.some.inj hrun]
    exact hlen
  | cons e rest ih =>
    simp only [engine_run] at hrun
    simp only [queue_length_bounded] at hbounded
    cases hap : engine_apply handlers s0 e with
    | none => rw [hap] at hrun; exact absurd hrun (by simp)
    | some s1 =>
      rw [hap] at hrun hbounded
      simp only [Bool.and_eq_true, decide_eq_true_eq] at hbounded
      exact ih s1 (len_eq_length_apply handlers e s0 s1 hlen hap hbounded.1) hrun hbounded.2

theorem link_apply_not_marked (fuel : Nat) (q : linked_task_queue) (head : Option Nat) :
    link_apply fuel q (link_event.driver head false) = some q := by
  cases head <;> rfl

theorem linked_addresses_apply_not_marked (l : List Nat) (head : Option Nat) :
    linked_addresses_apply l (link_event.driver head false) = l := by
  cases head <;> rfl

theorem engine_link_step {W : Type} (handlers : List (task_handlers_t W)) (fuel : Nat)
    (e : engine_event) (task_node : Nat) (s0 s1 : driver_state W) (q0 : linked_task_queue)
    (l0 : List Nat) (hrep : links_represent q0 l0)
    (hlen : l0.length = s0.globals.task_queue.length)
    (hcount : q0.task_queue_len = s0.globals.task_queue_len)
    (hvalid : link_events_valid l0 [engine_link_event s0 l0 task_node e] = true)
    (hfuel : l0.length ≤ fuel) (happ : engine_apply handlers s0 e = some s1) :
    ∃ q1, link_apply fuel q0 (engine_link_event s0 l0 task_node e) = some q1 ∧
      links_represent q1 (linked_addresses_apply l0 (engine_link_event s0 l0 task_node e)) ∧
      (linked_addresses_apply l0 (engine_link_event s0 l0 task_node e)).length =
        s1.globals.task_queue.length ∧
      q1.task_queue_len = s1.globals.task_queue_len := by
  cases e with
  | queue rand scan_time seed_time timestamp task =>
    simp only [engine_apply] at happ
    cases hq : queue_task rand scan_time seed_time timestamp task s0.globals with
    | none => rw [hq] at happ; exact absurd happ (by simp)
    | some r =>
      rw [hq] at happ
      rw [← Option.some.inj happ]
      rcases queue_task_ret_cases _ _ _ _ _ _ _ hq with ⟨hret, hg⟩ | ⟨hret, hl, hc⟩
      · have hev : engine_link_event s0 l0 task_node
            (engine_event.queue rand scan_time seed_time timestamp task) =
            link_event.queue none := by
          simp only [engine_link_event, hq, hret, Bool.false_eq_true, if_false]
        rw [hev]
        exact ⟨q0, rfl, hrep, by show l0.length = r.globals.task_queue.length; rw [hg, hlen],
          by show q0.task_queue_len = r.globals.task_queue_len; rw [hg, hcount]⟩
      · have hev : engine_link_event s0 l0 task_node
            (engine_event.queue rand scan_time seed_time timestamp task) =
            link_event.queue (some task_node) := by
          simp only [engine_link_event, hq, hret, if_true]
        rw [hev] at hvalid ⊢
        have hfresh : task_node ∉ l0 := by
          simpa [link_events_valid] using hvalid
        obtain ⟨q1, hq1, hrep1, hlen1⟩ :=
          queue_task_link_represent fuel task_node q0 l0 hrep hfresh hfuel
        refine ⟨q1, hq1, hrep1, ?_, ?_⟩
        · show (l0 ++ [task_node]).length = r.globals.task_queue.length
          rw [hl, List.length_append, List.length_singleton, hlen]
        · show q1.task_queue_len = r.globals.task_queue_len
          rw [hlen1, hc, hcount]
          by_cases hnil : l0 = []
          · rw [if_pos hnil, if_pos (by rw [← hlen, hnil]; rfl)]
          · rw [if_neg hnil, if_neg (by
              rw [← hlen]
              exact fun h => hnil (List.length_eq_zero.mp h))]
  | driver current_time eval_time =>
    simp only [engine_apply] at happ
    rw [← Option.some.inj happ]
    rcases driver_step_globals handlers current_time eval_time s0 with
      ⟨i, node, hhead, hnode, hflag, hq, hc⟩ | ⟨hlive, hl, hc⟩
    · have hi : i < l0.length := by
        rw [hlen]
        exact getElem?_lt_length _ _ _ hnode
      have hev : engine_link_event s0 l0 task_node
          (engine_event.driver current_time eval_time) =
          link_event.driver (some (l0.get ⟨i, hi⟩)) true := by
        simp only [engine_link_event, hhead, hnode, hflag]
        rw [List.getElem?_eq_getElem hi]
        rfl
      rw [hev]
      have hmem : l0.get ⟨i, hi⟩ ∈ l0 := List.get_mem _ _ _
      obtain ⟨q1, hq1, hrep1, hlen1⟩ := unlink_represent (l0.get ⟨i, hi⟩) q0 l0 hrep hmem
      refine ⟨q1, hq1, hrep1, ?_, ?_⟩
      · show (l0.erase (l0.get ⟨i, hi⟩)).length = _
        rw [hq, List.length_erase_of_mem hmem, List.length_eraseIdx_of_lt (by omega), hlen]
      · rw [hlen1, hc, hcount]
    · obtain ⟨head, hev⟩ : ∃ head, engine_link_event s0 l0 task_node
          (engine_event.driver current_time eval_time) = link_event.driver head false := by
        cases hh : s0.head with
        | none => exact ⟨none, by simp only [engine_link_event, hh]⟩
        | some i =>
          cases hn : s0.globals.task_queue[i]? with
          | none => exact ⟨none, by simp only [engine_link_event, hh, hn]⟩
          | some node =>
            exact ⟨l0[i]?, by simp only [engine_link_event, hh, hn, hlive i node hh hn]⟩
      rw [hev, link_apply_not_marked, linked_addresses_apply_not_marked]
      exact ⟨q0, rfl, hrep, by rw [hl, hlen], by rw [hc, hcount]⟩

/-- The links after the stores of a run represent a queue with as many nodes
as the queue of the run, and `task_queue_len` is the same on both sides. -/
theorem engine_links_simulation {W : Type} (handlers : List (task_handlers_t W)) (fuel : Nat)
    (events : List (engine_event × Nat)) (s0 s : driver_state W) (q0 : linked_task_queue)
    (l0 : List Nat) (hrep : links_represent q0 l0)
    (hlen : l0.length = s0.globals.task_queue.length)
    (hcount : q0.task_queue_len = s0.globals.task_queue_len)
    (hvalid : link_events_valid l0 (engine_link_events handlers s0 l0 events) = true)
    (hfuel : l0.length + events.length ≤ fuel)
    (hrun : engine_run handlers s0 (events.map Prod.fst) = some s) :
    ∃ q l, link_run fuel q0 (engine_link_events handlers s0 l0 events) = some q ∧
      links_represent q l ∧ l.length = s.globals.task_queue.length ∧
      q.task_queue_len = s.globals.task_queue_len ∧ l.length ≤ l0.length + events.length := by
  induction events generalizing s0 q0 l0 with
  | nil =>
    simp only [List.map_nil, engine_run] at hrun
    rw [← Option.some.inj hrun]
    exact ⟨q0, l0, rfl, hrep, hlen, hcount, by simp⟩
  | cons ea rest ih =>
    obtain ⟨e, task_node⟩ := ea
    simp only [List.map_cons, engine_run] at hrun
    simp only [List.length_cons] at hfuel
    cases hap : engine_apply handlers s0 e with
    | none => rw [hap] at hrun; exact absurd hrun (by simp)
    | some s1 =>
      rw [hap] at hrun
      have hevents : engine_link_events handlers s0 l0 ((e, task_node) :: rest) =
          engine_link_event s0 l0 task_node e ::
            engine_link_events handlers s1
              (linked_addresses_apply l0 (engine_link_event s0 l0 task_node e)) rest := by
        simp only [engine_link_events, hap]
      rw [hevents] at hvalid ⊢
      simp only [link_events_valid, Bool.and_eq_true] at hvalid
      have hv1 : link_events_valid l0 [engine_link_event s0 l0 task_node e] = true := by
        simp only [link_events_valid, Bool.and_eq_true, and_true]
        exact hvalid.1
      obtain ⟨q1, hq1, hrep1, hlen1, hcount1⟩ :=
        engine_link_step handlers fuel e task_node s0 s1 q0 l0 hrep hlen hcount hv1
          (by omega) hap
      have hstep : (linked_addresses_apply l0 (engine_link_event s0 l0 task_node e)).length ≤
          l0.length + 1 := by
        have := linked_addresses_run_length [engine_link_event s0 l0 task_node e] l0
        simpa [linked_addresses_run] using this
      obtain ⟨q, l, hq, hrepq, hlenq, hcountq, hle⟩ :=
        ih s1 q1 _ hrep1 hlen1 hcount1 hvalid.2 (by omega) hrun
      exact ⟨q, l, by simp only [link_run, hq1, hq], hrepq, hlenq, hcountq,
        by simp only [List.length_cons]; omega⟩

/-! ## Claim C31: the status of a task while the wait helper waits -/

/-- Counterexample to claim C31. A pending add-thread-device task for the
identity ending in 3 is processed while the commissioner is disabled:
`process_task` leaves it active and launches the wait helper, and the first
store of `restTaskJoinerAddConditionalTask` makes the task pending, so its
status is not active while the helper waits. -/
theorem wait_helper_makes_task_pending :
    (process_task
        (add_thread_device_handlers false zero_rand 200 0
          (example_instance OT_COMMISSIONER_STATE_DISABLED OT_ERROR_NONE))
        (example_device_node ACTIONS_TASK_STATUS_PENDING "0011223344556603" "ABCDEF")
        (example_world false example_allow_list)).task_node.status =
      ACTIONS_TASK_STATUS_ACTIVE ∧
    (process_task
        (add_thread_device_handlers false zero_rand 200 0
          (example_instance OT_COMMISSIONER_STATE_DISABLED OT_ERROR_NONE))
        (example_device_node ACTIONS_TASK_STATUS_PENDING "0011223344556603" "ABCDEF")
        (example_world false example_allow_list)).world.wait_tasks_created = 1 ∧
    (restTaskJoinerAddConditionalTask_enter
      (process_task
        (add_thread_device_handlers false zero_rand 200 0
          (example_instance OT_COMMISSIONER_STATE_DISABLED OT_ERROR_NONE))
        (example_device_node ACTIONS_TASK_STATUS_PENDING "0011223344556603" "ABCDEF")
        (example_world false example_allow_list)).task_node).status =
      ACTIONS_TASK_STATUS_PENDING := by
  refine ⟨by decide, by decide, by decide⟩

/-- Claim C31 as amended. A pending add-thread-device task is processed with
the single-flight flag clear, an identity that converts, a credential, a
numeric timeout, a commissioner that is disabled and does not refuse the start
with `OT_ERROR_INVALID_STATE`, and a helper thread that is created. Then the
task is active when `process_task` returns, one wait helper is launched and one
start request is made; the wait helper makes the task pending when it starts;
as long as every pass of its loop sees a commissioner that is not active and a
deadline that has not passed the helper has not left the loop; and when it
has finished, the pass that left the loop saw the commissioner active or the
deadline passed, no pass before it did, and the part of the helper after the
loop found the task pending. -/
theorem wait_helper_keeps_task_pending (allow_any_joiner : Bool) (rand : Nat → Nat → Nat)
    (now : Int) (aInstance : otInstance) (task_node : task_node_t)
    (w : add_thread_device_world) (eui pskd : String) (valueint : Int)
    (hstatus : task_node.status = ACTIONS_TASK_STATUS_PENDING)
    (htype : task_node.type = rest_actions_task_t.ADD_THREAD_DEVICE_TASK)
    (hflag : w.sJoinerAddOngoing = false)
    (heui : cJSON_GetObjectItemCaseSensitive
      (cJSON_GetObjectItemCaseSensitive
        (cJSON_GetObjectItemCaseSensitive task_node.task "attributes") "hasActivationKey")
      "eui" = some (cJSON.cJSON_String eui))
    (hconv : (str_to_m8 (List.replicate OT_EXT_ADDRESS_SIZE 0) eui OT_EXT_ADDRESS_SIZE).1 =
      OT_ERROR_NONE)
    (hpskd : cJSON_GetObjectItemCaseSensitive
      (cJSON_GetObjectItemCaseSensitive
        (cJSON_GetObjectItemCaseSensitive task_node.task "attributes") "hasActivationKey")
      ATTRIBUTE_PSKD = some (cJSON.cJSON_String pskd))
    (htimeout : cJSON_GetObjectItemCaseSensitive
      (cJSON_GetObjectItemCaseSensitive task_node.task "attributes") "timeout" =
      some (cJSON.cJSON_Number valueint))
    (hstart : allowListCommissionerStart aInstance ≠ OT_ERROR_INVALID_STATE)
    (hstate : aInstance.otCommissionerGetState = OT_COMMISSIONER_STATE_DISABLED) :
    (process_task (add_thread_device_handlers allow_any_joiner rand now 0 aInstance)
        task_node w).task_node = task_update_status task_node ACTIONS_TASK_STATUS_ACTIVE ∧
    (process_task (add_thread_device_handlers allow_any_joiner rand now 0 aInstance)
        task_node w).world.wait_tasks_created = w.wait_tasks_created + 1 ∧
    (process_task (add_thread_device_handlers allow_any_joiner rand now 0 aInstance)
        task_node w).world.commissioner_calls =
      w.commissioner_calls ++ [commissioner_call.start] ∧
    restTaskJoinerAddConditionalTask_enter
        (process_task (add_thread_device_handlers allow_any_joiner rand now 0 aInstance)
          task_node w).task_node =
      task_update_status task_node ACTIONS_TASK_STATUS_PENDING ∧
    ∀ (rand' : Nat → Nat → Nat) (now' : Int) (aInstance' : otInstance) (start_time : timespec)
        (observations : List (otCommissionerState × timespec)),
      ((∀ p ∈ observations, p.1 ≠ OT_COMMISSIONER_STATE_ACTIVE ∧
          deadline_passed p.2 { start_time with tv_sec := start_time.tv_sec + 10 } = false) →
        restTaskJoinerAddConditionalTask allow_any_joiner rand' now' aInstance' start_time
          observations
          (process_task (add_thread_device_handlers allow_any_joiner rand now 0 aInstance)
            task_node w).task_node
          (process_task (add_thread_device_handlers allow_any_joiner rand now 0 aInstance)
            task_node w).world = none) ∧
      ∀ (node' : task_node_t) (w' : add_thread_device_world),
        restTaskJoinerAddConditionalTask allow_any_joiner rand' now' aInstance' start_time
          observations
          (process_task (add_thread_device_handlers allow_any_joiner rand now 0 aInstance)
            task_node w).task_node
          (process_task (add_thread_device_handlers allow_any_joiner rand now 0 aInstance)
            task_node w).world = some (node', w') →
        ∃ (commissionerResult : otCommissionerState) (pending : pending_joiner_t)
            (pre : List (otCommissionerState × timespec)) (last : timespec)
            (rest : List (otCommissionerState × timespec)),
          observations = pre ++ (commissionerResult, last) :: rest ∧
          (∀ p ∈ pre, p.1 ≠ OT_COMMISSIONER_STATE_ACTIVE ∧
            deadline_passed p.2 { start_time with tv_sec := start_time.tv_sec + 10 } = false) ∧
          (commissionerResult = OT_COMMISSIONER_STATE_ACTIVE ∨
            deadline_passed last { start_time with tv_sec := start_time.tv_sec + 10 } = true) ∧
          restTaskJoinerAddConditionalTask_leave allow_any_joiner rand' now' aInstance'
            commissionerResult pending
            (task_update_status task_node ACTIONS_TASK_STATUS_PENDING)
            (process_task (add_thread_device_handlers allow_any_joiner rand now 0 aInstance)
              task_node w).world = some (node', w') := by
  have hactive : aInstance.otCommissionerGetState ≠ OT_COMMISSIONER_STATE_ACTIVE := by
    rw [hstate]
    decide
  have hlaunch := process_launches_wait_helper allow_any_joiner rand now aInstance
    (task_update_status task_node ACTIONS_TASK_STATUS_ACTIVE) w eui pskd valueint hflag heui
    hconv hpskd htimeout hstart hactive
  have hproc := process_task_of_pending
    (add_thread_device_handlers allow_any_joiner rand now 0 aInstance) task_node w _
    (fun task_node w =>
      (process_add_thread_device_task allow_any_joiner rand now 0 aInstance
        task_node w).getD (ACTIONS_RESULT_FAILURE, w))
    hstatus
    (add_thread_device_handlers_row allow_any_joiner rand now 0 aInstance task_node.type htype)
    rfl
  simp only [hlaunch, Option.getD_some] at hproc
  rw [if_neg (by decide), if_neg (by decide)] at hproc
  rw [hproc]
  have henter : restTaskJoinerAddConditionalTask_enter
      (task_update_status task_node ACTIONS_TASK_STATUS_ACTIVE) =
      task_update_status task_node ACTIONS_TASK_STATUS_PENDING := by
    simp [restTaskJoinerAddConditionalTask_enter, task_update_status]
  refine ⟨rfl, rfl, rfl, henter, ?_⟩
  intro rand' now' aInstance' start_time observations
  constructor
  · intro hwait
    unfold restTaskJoinerAddConditionalTask
    simp only [commissioner_wait_loop_waiting _ observations hwait]
  · intro node' w' h
    unfold restTaskJoinerAddConditionalTask at h
    simp only [henter] at h
    cases hloop : commissioner_wait_loop { start_time with tv_sec := start_time.tv_sec + 10 }
        observations with
    | none => simp [hloop] at h
    | some commissionerResult =>
      simp only [hloop] at h
      obtain ⟨pre, last, rest, hobs, hpre, hlast⟩ :=
        commissioner_wait_loop_left _ observations commissionerResult hloop
      exact ⟨commissionerResult, _, pre, last, rest, hobs, hpre, hlast, h⟩

/-- Claim C31 as amended, at the task for the identity ending in 3 processed
with a disabled commissioner. -/
theorem wait_helper_keeps_task_pending_witness :
    (example_device_node ACTIONS_TASK_STATUS_PENDING "0011223344556603" "ABCDEF").status =
      ACTIONS_TASK_STATUS_PENDING ∧
    (example_world false example_allow_list).sJoinerAddOngoing = false ∧
    (example_instance OT_COMMISSIONER_STATE_DISABLED OT_ERROR_NONE).otCommissionerGetState =
      OT_COMMISSIONER_STATE_DISABLED ∧
    (process_task
        (add_thread_device_handlers false zero_rand 200 0
          (example_instance OT_COMMISSIONER_STATE_DISABLED OT_ERROR_NONE))
        (example_device_node ACTIONS_TASK_STATUS_PENDING "0011223344556603" "ABCDEF")
        (example_world false example_allow_list)).task_node =
      task_update_status
        (example_device_node ACTIONS_TASK_STATUS_PENDING "0011223344556603" "ABCDEF")
        ACTIONS_TASK_STATUS_ACTIVE ∧
    restTaskJoinerAddConditionalTask_enter
        (process_task
          (add_thread_device_handlers false zero_rand 200 0
            (example_instance OT_COMMISSIONER_STATE_DISABLED OT_ERROR_NONE))
          (example_device_node ACTIONS_TASK_STATUS_PENDING "0011223344556603" "ABCDEF")
          (example_world false example_allow_list)).task_node =
      task_update_status
        (example_device_node ACTIONS_TASK_STATUS_PENDING "0011223344556603" "ABCDEF")
        ACTIONS_TASK_STATUS_PENDING :=
  ⟨rfl, rfl, rfl,
    (wait_helper_keeps_task_pending false zero_rand 200
      (example_instance OT_COMMISSIONER_STATE_DISABLED OT_ERROR_NONE)
      (example_device_node ACTIONS_TASK_STATUS_PENDING "0011223344556603" "ABCDEF")
      (example_world false example_allow_list) "0011223344556603" "ABCDEF" 60
      rfl rfl rfl rfl (by decide) rfl rfl (by decide) rfl).1,
    (wait_helper_keeps_task_pending false zero_rand 200
      (example_instance OT_COMMISSIONER_STATE_DISABLED OT_ERROR_NONE)
      (example_device_node ACTIONS_TASK_STATUS_PENDING "0011223344556603" "ABCDEF")
      (example_world false example_allow_list) "0011223344556603" "ABCDEF" 60
      rfl rfl rfl rfl (by decide) rfl rfl (by decide) rfl).2.2.2.1⟩

/-! ## Claim C32: the conversion of hexadecimal strings -/

/-- Claim C32. For a buffer of at least `size` bytes, `str_to_m8` returns
`OT_ERROR_NONE` exactly when the string has at least `2 * size` characters and
each of its first `2 * size` characters is a hexadecimal digit, of either case,
and it returns `OT_ERROR_FAILED` otherwise. When it returns `OT_ERROR_NONE`,
byte `i` of the buffer, for `i < size`, is 16 times the value of character
`2 * i` plus the value of character `2 * i + 1`, and the bytes from `size` on
and the length of the buffer are as before. Characters after the first
`2 * size` are ignored: text appended to a string of at least `2 * size`
characters changes neither the error nor the buffer. -/
theorem str_to_m8_spec (m8 : List Nat) (str : String) (size : Nat) (hsize : size ≤ m8.length) :
    ((str_to_m8 m8 str size).1 = OT_ERROR_NONE ↔
      2 * size ≤ strlen str ∧ ∀ k, k < 2 * size → isxdigit (str_at str k) = true) ∧
    ((str_to_m8 m8 str size).1 = OT_ERROR_NONE ∨ (str_to_m8 m8 str size).1 = OT_ERROR_FAILED) ∧
    ((str_to_m8 m8 str size).1 = OT_ERROR_NONE →
      (∀ i, i < size →
        (str_to_m8 m8 str size).2.getD i 0 =
          16 * hex_digit_value (str_at str (2 * i)) + hex_digit_value (str_at str (2 * i + 1))) ∧
      (∀ i, size ≤ i → (str_to_m8 m8 str size).2.getD i 0 = m8.getD i 0) ∧
      (str_to_m8 m8 str size).2.length = m8.length) ∧
    (∀ extra : String, 2 * size ≤ strlen str →
      str_to_m8 m8 (str ++ extra) size = str_to_m8 m8 str size) := by
  obtain ⟨h1, h2, h3, h4⟩ := str_to_m8_loop_spec str size 0 m8 (by omega)
  unfold str_to_m8
  by_cases hlen : size * 2 > strlen str
  · simp only [hlen, if_true]
    refine ⟨⟨fun h => otError.noConfusion h, fun h => by omega⟩, Or.inr trivial,
      fun h => otError.noConfusion h, fun extra h => by omega⟩
  · simp only [hlen, if_false]
    refine ⟨?_, h2, ?_, ?_⟩
    · rw [h1]
      constructor
      · intro hall
        exact ⟨by omega, fun k hk => hall k (by omega) (by omega)⟩
      · rintro ⟨-, hall⟩ k _ hk
        exact hall k (by omega)
    · intro hok
      obtain ⟨h5, h6⟩ := h4 hok
      exact ⟨fun i hi => h5 i (by omega) (by omega), fun i hi => h6 i (Or.inr (by omega)), h3⟩
    · intro extra hle
      have hlen2 : ¬ size * 2 > strlen (str ++ extra) := by
        unfold strlen at *
        rw [String.data_append, List.length_append]
        omega
      rw [if_neg hlen2]
      apply str_to_m8_loop_congr
      intro k hk
      exact str_at_append str extra k (by omega)

/-- Claim C32 at the string `0011223344556677` and a buffer of 8 bytes. -/
theorem str_to_m8_spec_witness :
    ((str_to_m8 (List.replicate 8 0) "0011223344556677" 8).1 = OT_ERROR_NONE ↔
      2 * 8 ≤ strlen "0011223344556677" ∧
        ∀ k, k < 2 * 8 → isxdigit (str_at "0011223344556677" k) = true) ∧
    ((str_to_m8 (List.replicate 8 0) "0011223344556677" 8).1 = OT_ERROR_NONE ∨
      (str_to_m8 (List.replicate 8 0) "0011223344556677" 8).1 = OT_ERROR_FAILED) ∧
    ((str_to_m8 (List.replicate 8 0) "0011223344556677" 8).1 = OT_ERROR_NONE →
      (∀ i, i < 8 →
        (str_to_m8 (List.replicate 8 0) "0011223344556677" 8).2.getD i 0 =
          16 * hex_digit_value (str_at "0011223344556677" (2 * i)) +
            hex_digit_value (str_at "0011223344556677" (2 * i + 1))) ∧
      (∀ i, 8 ≤ i → (str_to_m8 (List.replicate 8 0) "0011223344556677" 8).2.getD i 0 =
        (List.replicate 8 0).getD i 0) ∧
      (str_to_m8 (List.replicate 8 0) "0011223344556677" 8).2.length =
        (List.replicate 8 0).length) ∧
    (∀ extra : String, 2 * 8 ≤ strlen "0011223344556677" →
      str_to_m8 (List.replicate 8 0) ("0011223344556677" ++ extra) 8 =
        str_to_m8 (List.replicate 8 0) "0011223344556677" 8) :=
  str_to_m8_spec (List.replicate 8 0) "0011223344556677" 8 (by decide)

/-! ## Claim C33: parsing what was unparsed -/

/-- Claim C33. For every uuid whose fields hold values of their types, and
whatever `*uuid` holds before, `uuid_parse` of the string that `uuid_unparse`
writes returns 0 and leaves a uuid that `uuid_equals` finds equal to the
original; the string written is 36 characters long; and the uuid left is the
original when `node` has its six bytes. -/
theorem uuid_parse_unparse (u v : uuid_t) (h : uuid_fields_in_range u) :
    (uuid_parse (uuid_unparse u) v).1 = 0 ∧
    uuid_equals (uuid_parse (uuid_unparse u) v).2 u = true ∧
    strlen (uuid_unparse u) = 36 ∧
    (u.node.length = 6 → (uuid_parse (uuid_unparse u) v).2 = u) := by
  obtain ⟨hdata, hstrlen⟩ := uuid_unparse_data u h
  obtain ⟨h1, h2, h3, h4, h5, h6⟩ := h
  have hscan : sscanf uuid_parse_format (uuid_unparse u).data =
      [u.time_low, u.time_mid, u.time_hi_and_version, u.clock_seq_hi_and_reserved,
        u.clock_seq_low, u.node.getD 0 0, u.node.getD 1 0, u.node.getD 2 0, u.node.getD 3 0,
        u.node.getD 4 0, u.node.getD 5 0] := by
    rw [hdata]
    unfold uuid_parse_format
    rw [sscanf_hex_step 8 _ _ _ _ (by omega) (by omega) pow_16_8 h1,
      sscanf_literal_step,
      sscanf_hex_step 4 _ _ _ _ (by omega) (by omega) pow_16_4 h2,
      sscanf_literal_step,
      sscanf_hex_step 4 _ _ _ _ (by omega) (by omega) pow_16_4 h3,
      sscanf_literal_step,
      sscanf_hex_step 2 _ _ _ _ (by omega) (by omega) pow_16_2 h4,
      sscanf_hex_step 2 _ _ _ _ (by omega) (by omega) pow_16_2 h5,
      sscanf_literal_step,
      sscanf_hex_step 2 _ _ _ _ (by omega) (by omega) pow_16_2 (h6 0 (by omega)),
      sscanf_hex_step 2 _ _ _ _ (by omega) (by omega) pow_16_2 (h6 1 (by omega)),
      sscanf_hex_step 2 _ _ _ _ (by omega) (by omega) pow_16_2 (h6 2 (by omega)),
      sscanf_hex_step 2 _ _ _ _ (by omega) (by omega) pow_16_2 (h6 3 (by omega)),
      sscanf_hex_step 2 _ _ _ _ (by omega) (by omega) pow_16_2 (h6 4 (by omega))]
    have hlast := sscanf_hex_step 2 (u.node.getD 5 0) _ [] [] (by omega) (by omega) pow_16_2
      (h6 5 (by omega))
    rw [List.append_nil] at hlast
    rw [hlast]
    rfl
  have hparse : uuid_parse (uuid_unparse u) v =
      (0,
        { time_low := u.time_low, time_mid := u.time_mid,
          time_hi_and_version := u.time_hi_and_version,
          clock_seq_hi_and_reserved := u.clock_seq_hi_and_reserved,
          clock_seq_low := u.clock_seq_low,
          node := [u.node.getD 0 0, u.node.getD 1 0, u.node.getD 2 0, u.node.getD 3 0,
            u.node.getD 4 0, u.node.getD 5 0] }) := by
    unfold uuid_parse
    rw [if_neg (by rw [hstrlen]; decide), hscan, if_neg (by simp)]
    simp only [List.getD_cons_zero, List.getD_cons_succ, List.range, List.range.loop,
      List.map_cons, List.map_nil, Nat.add_zero, Nat.mod_eq_of_lt h1, Nat.mod_eq_of_lt h2,
      Nat.mod_eq_of_lt h3, Nat.mod_eq_of_lt h4, Nat.mod_eq_of_lt h5,
      Nat.mod_eq_of_lt (h6 0 (by omega)), Nat.mod_eq_of_lt (h6 1 (by omega)),
      Nat.mod_eq_of_lt (h6 2 (by omega)), Nat.mod_eq_of_lt (h6 3 (by omega)),
      Nat.mod_eq_of_lt (h6 4 (by omega)), Nat.mod_eq_of_lt (h6 5 (by omega))]
  rw [hparse]
  refine ⟨rfl, ?_, hstrlen, ?_⟩
  · simp [uuid_equals]
  · intro hnode
    have hn : u.node = [u.node.getD 0 0, u.node.getD 1 0, u.node.getD 2 0, u.node.getD 3 0,
        u.node.getD 4 0, u.node.getD 5 0] := by
      match hu : u.node, hnode with
      | [a, b, c, d, e, f], _ => rfl
    cases u
    simp only at hn ⊢
    rw [← hn]

/-- Claim C33 at the identifier generated from the all-zero generator. -/
theorem uuid_parse_unparse_witness :
    uuid_fields_in_range (uuid_generate_random zero_rand 100) ∧
    (uuid_parse (uuid_unparse (uuid_generate_random zero_rand 100))
      (uuid_generate_random zero_rand 7)).1 = 0 ∧
    uuid_equals
      (uuid_parse (uuid_unparse (uuid_generate_random zero_rand 100))
        (uuid_generate_random zero_rand 7)).2
      (uuid_generate_random zero_rand 100) = true ∧
    strlen (uuid_unparse (uuid_generate_random zero_rand 100)) = 36 :=
  have hr : uuid_fields_in_range (uuid_generate_random zero_rand 100) :=
    ⟨by decide, by decide, by decide, by decide, by decide,
      fun i hi => by interval_cases i <;> decide⟩
  ⟨hr, (uuid_parse_unparse (uuid_generate_random zero_rand 100)
      (uuid_generate_random zero_rand 7) hr).1,
    (uuid_parse_unparse (uuid_generate_random zero_rand 100)
      (uuid_generate_random zero_rand 7) hr).2.1,
    (uuid_parse_unparse (uuid_generate_random zero_rand 100)
      (uuid_generate_random zero_rand 7) hr).2.2.1⟩

/-! ## Claim C34: version and variant of a generated identifier -/

/-- Claim C34. For every generator and clock reading, in the uuid that
`uuid_generate_random` produces the top four bits of the 16-bit
`time_hi_and_version` are 0100 (the value divided by 4096 is 4) and its other
twelve bits are those of the random bytes; the top two bits of the 8-bit
`clock_seq_hi_and_reserved` are 10 (the value divided by 64 is 2) and its other
six bits are those of the random bytes; and `time_low`, `time_mid`,
`clock_seq_low` and `node` are as read from the random bytes. -/
theorem uuid_generate_random_version_bits (rand : Nat → Nat → Nat) (now : Int) :
    (uuid_generate_random rand now).time_hi_and_version / 4096 = 4 ∧
    (uuid_generate_random rand now).time_hi_and_version % 4096 =
      (uuid_of_bytes (uuid_random_bytes rand (now % 4294967296).toNat)).time_hi_and_version %
        4096 ∧
    (uuid_generate_random rand now).clock_seq_hi_and_reserved / 64 = 2 ∧
    (uuid_generate_random rand now).clock_seq_hi_and_reserved % 64 =
      (uuid_of_bytes (uuid_random_bytes rand (now % 4294967296).toNat)).clock_seq_hi_and_reserved %
        64 ∧
    (uuid_generate_random rand now).time_low =
      (uuid_of_bytes (uuid_random_bytes rand (now % 4294967296).toNat)).time_low ∧
    (uuid_generate_random rand now).time_mid =
      (uuid_of_bytes (uuid_random_bytes rand (now % 4294967296).toNat)).time_mid ∧
    (uuid_generate_random rand now).clock_seq_low =
      (uuid_of_bytes (uuid_random_bytes rand (now % 4294967296).toNat)).clock_seq_low ∧
    (uuid_generate_random rand now).node =
      (uuid_of_bytes (uuid_random_bytes rand (now % 4294967296).toNat)).node := by
  unfold uuid_generate_random
  exact ⟨(version_bits _).1, (version_bits _).2, (variant_bits _).1, (variant_bits _).2,
    rfl, rfl, rfl, rfl⟩

/-! ## Claim C35: the type id of a task name -/

/-- Claim C35 fails in the code. `task_type_id_from_name` compares only the
first `strlen(type_name)` characters of the name it is given: for every suffix
it returns true and writes `ADD_THREAD_DEVICE_TASK` for the name
`addThreadDeviceTask` followed by that suffix; so it does for
`addThreadDeviceTaskX`, which is not the name of the registered task type. -/
theorem task_type_id_from_name_accepts_longer_names (suffix : String) :
    task_type_id_from_name (some ("addThreadDeviceTask" ++ suffix)) =
      some rest_actions_task_t.ADD_THREAD_DEVICE_TASK ∧
    task_type_id_from_name (some "addThreadDeviceTaskX") =
      some rest_actions_task_t.ADD_THREAD_DEVICE_TASK ∧
    "addThreadDeviceTaskX" ≠ taskNameAddThreadDevice := by
  refine ⟨?_, by decide, by decide⟩
  unfold task_type_id_from_name
  simp only [handlers_type_names, task_type_id_scan, taskNameAddThreadDevice]
  rw [if_pos]
  rw [String.data_append, List.isPrefixOf_iff_prefix]
  exact List.prefix_append _ _

/-! ## Claim C36: the deadline of a timed lock -/

/-- Claim C36 fails in the code. For a clock reading with
`0 ≤ tv_nsec < 1000000000` and a timeout between 0 and 9000000000000000, the
timed case of `taskNodeLockAcquire` and of `openthread_lock_acquire` calls
`pthread_mutex_timedlock` with the same deadline, which has
`0 ≤ tv_nsec < 1000000000` and is the current time plus `timeout_ms * 1000`
nanoseconds, that is `timeout_ms` microseconds; for a positive timeout it is
not the current time plus `timeout_ms` milliseconds. -/
theorem timed_lock_deadline_adds_microseconds (now : timespec) (timeout_ms : Int)
    (hsec : 0 ≤ now.tv_sec ∧ now.tv_sec < 4611686018427387904)
    (hnsec : 0 ≤ now.tv_nsec ∧ now.tv_nsec < 1000000000)
    (hms : 0 ≤ timeout_ms ∧ timeout_ms ≤ 9000000000000000) :
    taskNodeLockAcquire LOCK_TYPE_TIMED timeout_ms now =
      pthread_mutex_call.timedlock (timed_lock_deadline now timeout_ms) ∧
    openthread_lock_acquire LOCK_TYPE_TIMED timeout_ms now =
      pthread_mutex_call.timedlock (timed_lock_deadline now timeout_ms) ∧
    timespec_nanoseconds (timed_lock_deadline now timeout_ms) =
      timespec_nanoseconds now + timeout_ms * 1000 ∧
    0 ≤ (timed_lock_deadline now timeout_ms).tv_nsec ∧
    (timed_lock_deadline now timeout_ms).tv_nsec < 1000000000 ∧
    (0 < timeout_ms →
      timespec_nanoseconds (timed_lock_deadline now timeout_ms) ≠
        timespec_nanoseconds now + timeout_ms * 1000000) := by
  have h1 : long_wrap (timeout_ms * 1000) = timeout_ms * 1000 :=
    long_wrap_of_range _ (by omega) (by omega)
  have h2 : long_wrap (now.tv_nsec + timeout_ms * 1000) = now.tv_nsec + timeout_ms * 1000 :=
    long_wrap_of_range _ (by omega) (by omega)
  have h3 : long_wrap (now.tv_sec + (now.tv_nsec + timeout_ms * 1000) / 1000000000) =
      now.tv_sec + (now.tv_nsec + timeout_ms * 1000) / 1000000000 :=
    long_wrap_of_range _ (by omega) (by omega)
  have hd : timed_lock_deadline now timeout_ms =
      if now.tv_nsec + timeout_ms * 1000 ≥ 1000000000 then
        { tv_sec := now.tv_sec + (now.tv_nsec + timeout_ms * 1000) / 1000000000
          tv_nsec := (now.tv_nsec + timeout_ms * 1000) % 1000000000 }
      else { now with tv_nsec := now.tv_nsec + timeout_ms * 1000 } := by
    unfold timed_lock_deadline
    simp only [h1, h2, h3]
  refine ⟨rfl, rfl, ?_⟩
  rw [hd]
  unfold timespec_nanoseconds
  split
  · simp only
    refine ⟨by omega, by omega, by omega, fun h => by omega⟩
  · simp only
    refine ⟨by omega, by omega, by omega, fun h => by omega⟩

/-- Claim C36 at the clock reading of 100 s and a timeout of 1000: the deadline
is 1 ms after the clock reading, not 1000 ms. -/
theorem timed_lock_deadline_adds_microseconds_witness :
    taskNodeLockAcquire LOCK_TYPE_TIMED 1000 { tv_sec := 100, tv_nsec := 0 } =
      pthread_mutex_call.timedlock (timed_lock_deadline { tv_sec := 100, tv_nsec := 0 } 1000) ∧
    openthread_lock_acquire LOCK_TYPE_TIMED 1000 { tv_sec := 100, tv_nsec := 0 } =
      pthread_mutex_call.timedlock (timed_lock_deadline { tv_sec := 100, tv_nsec := 0 } 1000) ∧
    timespec_nanoseconds (timed_lock_deadline { tv_sec := 100, tv_nsec := 0 } 1000) =
      timespec_nanoseconds { tv_sec := 100, tv_nsec := 0 } + 1000 * 1000 ∧
    0 ≤ (timed_lock_deadline { tv_sec := 100, tv_nsec := 0 } 1000).tv_nsec ∧
    (timed_lock_deadline { tv_sec := 100, tv_nsec := 0 } 1000).tv_nsec < 1000000000 ∧
    ((0 : Int) < 1000 →
      timespec_nanoseconds (timed_lock_deadline { tv_sec := 100, tv_nsec := 0 } 1000) ≠
        timespec_nanoseconds { tv_sec := 100, tv_nsec := 0 } + 1000 * 1000000) :=
  timed_lock_deadline_adds_microseconds { tv_sec := 100, tv_nsec := 0 } 1000
    (by decide) (by decide) (by decide)

/-! ## Claim C37: release of the single-flight flag -/

/-- Claim C37. For every call of `process_add_thread_device_task` that starts
with `sJoinerAddOngoing` clear: when it returns, either no wait helper was
launched and the flag is clear, or one wait helper was launched, the flag is
held, the pending joiner is stored and the result is
`ACTIONS_RESULT_SUCCESS`; and the call does return when the task has an `eui`
and a `joinCred` member that are strings. For the wait helper: whenever the
part of `restTaskJoinerAddConditionalTask` after the loop returns, on either
of its paths, the flag is clear, and it does return when the commissioner was
seen disabled or the pending credential is not null. -/
theorem single_flight_flag_released (allow_any_joiner : Bool) (rand : Nat → Nat → Nat)
    (now : Int) (pthread_create : Int) (aInstance : otInstance) (task_node : task_node_t)
    (w : add_thread_device_world) (hflag : w.sJoinerAddOngoing = false) :
    (∀ result w',
      process_add_thread_device_task allow_any_joiner rand now pthread_create aInstance
        task_node w = some (result, w') →
      ((w'.wait_tasks_created = w.wait_tasks_created ∧ w'.sJoinerAddOngoing = false) ∨
       (w'.wait_tasks_created = w.wait_tasks_created + 1 ∧ w'.sJoinerAddOngoing = true ∧
        result = ACTIONS_RESULT_SUCCESS ∧ w'.sPendingJoiner.isSome = true))) ∧
    (∀ eui pskd : String,
      cJSON_GetObjectItemCaseSensitive
        (cJSON_GetObjectItemCaseSensitive
          (cJSON_GetObjectItemCaseSensitive task_node.task "attributes") "hasActivationKey")
        "eui" = some (cJSON.cJSON_String eui) →
      cJSON_GetObjectItemCaseSensitive
        (cJSON_GetObjectItemCaseSensitive
          (cJSON_GetObjectItemCaseSensitive task_node.task "attributes") "hasActivationKey")
        ATTRIBUTE_PSKD = some (cJSON.cJSON_String pskd) →
      ∃ result w',
        process_add_thread_device_task allow_any_joiner rand now pthread_create aInstance
          task_node w = some (result, w')) ∧
    (∀ (rand' : Nat → Nat → Nat) (now' : Int) (aInstance' : otInstance)
        (commissionerResult : otCommissionerState) (pending : pending_joiner_t)
        (node : task_node_t) (w1 : add_thread_device_world),
      (∀ node' w',
        restTaskJoinerAddConditionalTask_leave allow_any_joiner rand' now' aInstance'
          commissionerResult pending node w1 = some (node', w') →
        w'.sJoinerAddOngoing = false) ∧
      (commissionerResult = OT_COMMISSIONER_STATE_DISABLED ∨ pending.mPskd.isSome = true →
        ∃ node' w',
          restTaskJoinerAddConditionalTask_leave allow_any_joiner rand' now' aInstance'
            commissionerResult pending node w1 = some (node', w'))) := by
  refine ⟨fun result w' h => process_flag_on_return _ _ _ _ _ _ _ hflag _ _ h,
    fun eui pskd heui hpskd => process_returns_of_strings _ _ _ _ _ _ _ eui pskd hflag heui hpskd,
    ?_⟩
  intro rand' now' aInstance' commissionerResult pending node w1
  constructor
  · intro node' w' h
    revert h
    unfold restTaskJoinerAddConditionalTask_leave
    repeat' split
    all_goals intro h
    all_goals first
      | (cases h; rfl)
      | (cases h)
  · intro hp
    unfold restTaskJoinerAddConditionalTask_leave
    split
    · exact ⟨_, _, rfl⟩
    · rename_i hne
      rcases hp with hp | hp
      · exact absurd hp.symm hne
      · obtain ⟨p, hp'⟩ := Option.isSome_iff_exists.mp hp
        simp only [hp', allowListCommissionerJoinerAdd_pskd]
        exact ⟨_, _, rfl⟩

/-- Claim C37 at the task for the identity ending in 3 processed with a
disabled commissioner. -/
theorem single_flight_flag_released_witness :
    (example_world false example_allow_list).sJoinerAddOngoing = false ∧
    (process_add_thread_device_task false zero_rand 200 0
        (example_instance OT_COMMISSIONER_STATE_DISABLED OT_ERROR_NONE)
        (example_device_node ACTIONS_TASK_STATUS_ACTIVE "0011223344556603" "ABCDEF")
        (example_world false example_allow_list)).isSome = true ∧
    ∀ result w',
      process_add_thread_device_task false zero_rand 200 0
        (example_instance OT_COMMISSIONER_STATE_DISABLED OT_ERROR_NONE)
        (example_device_node ACTIONS_TASK_STATUS_ACTIVE "0011223344556603" "ABCDEF")
        (example_world false example_allow_list) = some (result, w') →
      ((w'.wait_tasks_created = (example_world false example_allow_list).wait_tasks_created ∧
        w'.sJoinerAddOngoing = false) ∨
       (w'.wait_tasks_created =
          (example_world false example_allow_list).wait_tasks_created + 1 ∧
        w'.sJoinerAddOngoing = true ∧ result = ACTIONS_RESULT_SUCCESS ∧
        w'.sPendingJoiner.isSome = true)) :=
  ⟨rfl, rfl,
    (single_flight_flag_released false zero_rand 200 0
      (example_instance OT_COMMISSIONER_STATE_DISABLED OT_ERROR_NONE)
      (example_device_node ACTIONS_TASK_STATUS_ACTIVE "0011223344556603" "ABCDEF")
      (example_world false example_allow_list) rfl).1⟩

/-! ## Claim C38: promotion of an entry when the commissioner accepts the joiner -/

/-- Claim C38. For an identity that is not all-zero and an allow list whose
entries have distinct identities, `allowListCommissionerJoinerAdd` asks the
commissioner once to add the joiner and returns the error of that request; the
allow list afterwards holds exactly one entry for the identity. When the
request succeeded that entry is in state ActiveJoiner and carries the given
credential. When it failed, the allow list is the one `allowListAddDevice`
left: the entry carries the given credential, is in state New when the
identity had no entry before, and otherwise keeps the state it had. -/
theorem joiner_add_promotes_on_success (allow_any_joiner : Bool) (rand : Nat → Nat → Nat)
    (now : Int) (otCommissionerAddJoiner : Option otExtAddress → String → Nat → otError)
    (aEui64 : otExtAddress) (aTimeout : Nat) (aPskd : String) (list : List AllowListEntry)
    (hnull : eui64IsNull aEui64 = false) (hunique : identities_unique list) :
    (allowListCommissionerJoinerAdd allow_any_joiner rand now otCommissionerAddJoiner aEui64
      aTimeout aPskd list).error = otCommissionerAddJoiner (some aEui64) aPskd aTimeout ∧
    (allowListCommissionerJoinerAdd allow_any_joiner rand now otCommissionerAddJoiner aEui64
      aTimeout aPskd list).add_joiner_calls = [(some aEui64, aPskd, aTimeout)] ∧
    ((allowListCommissionerJoinerAdd allow_any_joiner rand now otCommissionerAddJoiner aEui64
      aTimeout aPskd list).allow_list.filter
        (fun e => otExtAddressMatch e.meui64 aEui64)).length = 1 ∧
    (otCommissionerAddJoiner (some aEui64) aPskd aTimeout = OT_ERROR_NONE →
      ∃ (i : Nat) (e : AllowListEntry), (allowListCommissionerJoinerAdd allow_any_joiner rand now otCommissionerAddJoiner
          aEui64 aTimeout aPskd list).allow_list[i]? = some e ∧
        same_eui64 e.meui64 aEui64 ∧ e.mstate = kAllowListEntryActiveJoiner ∧
        e.mPSKd = aPskd) ∧
    (otCommissionerAddJoiner (some aEui64) aPskd aTimeout ≠ OT_ERROR_NONE →
      (allowListCommissionerJoinerAdd allow_any_joiner rand now otCommissionerAddJoiner aEui64
        aTimeout aPskd list).allow_list =
          allowListAddDevice rand now aEui64 aTimeout aPskd list ∧
      ∃ (i : Nat) (e : AllowListEntry), (allowListCommissionerJoinerAdd allow_any_joiner rand now otCommissionerAddJoiner
          aEui64 aTimeout aPskd list).allow_list[i]? = some e ∧
        same_eui64 e.meui64 aEui64 ∧ e.mPSKd = aPskd ∧
        ((∀ x ∈ list, ¬ same_eui64 x.meui64 aEui64) → e.mstate = kAllowListEntryNew) ∧
        (∀ x, list[i]? = some x → e.mstate = x.mstate)) := by
  obtain ⟨hcalls, hentry, -⟩ := joiner_add_has_entry allow_any_joiner rand now
    otCommissionerAddJoiner aEui64 aTimeout aPskd list hnull
  have hcount := unique_match_count aEui64 _
    (identities_unique_joiner_add allow_any_joiner rand now otCommissionerAddJoiner aEui64
      aTimeout aPskd list hunique) hentry
  obtain ⟨i, e, hfind, he, hs, hp, hnew, hold⟩ :=
    allowListAddDevice_entry rand now aEui64 aTimeout aPskd list
  have hval : allowListCommissionerJoinerAdd allow_any_joiner rand now otCommissionerAddJoiner
      aEui64 aTimeout aPskd list =
      { error := otCommissionerAddJoiner (some aEui64) aPskd aTimeout
        add_joiner_calls := [(some aEui64, aPskd, aTimeout)]
        allow_list :=
          if otCommissionerAddJoiner (some aEui64) aPskd aTimeout = OT_ERROR_NONE then
            (allowListAddDevice rand now aEui64 aTimeout aPskd list).modify
              (fun e => e.update_state kAllowListEntryActiveJoiner) i
          else allowListAddDevice rand now aEui64 aTimeout aPskd list } := by
    unfold allowListCommissionerJoinerAdd
    simp only [hnull, Bool.false_eq_true, false_and, if_false, entryEui64Find, hfind]
  refine ⟨by rw [hval], hcalls, hcount, ?_, ?_⟩
  · intro hok
    rw [hval]
    simp only [hok, if_true]
    refine ⟨i, e.update_state kAllowListEntryActiveJoiner, ?_, hs, rfl, hp⟩
    rw [List.getElem?_modify, he]
    simp
  · intro herr
    rw [hval]
    simp only [herr, if_false]
    exact ⟨trivial, i, e, he, hs, hp, hnew, hold⟩

/-- Claim C38 at the identity ending in 3, which has no entry in
`example_allow_list`, and a commissioner that accepts. -/
theorem joiner_add_promotes_on_success_witness :
    (allowListCommissionerJoinerAdd false zero_rand 200 (fun _ _ _ => OT_ERROR_NONE)
      (example_eui64 3) 30 "NEWPSKD" example_allow_list).error =
        (fun _ _ _ => OT_ERROR_NONE) (some (example_eui64 3)) "NEWPSKD" 30 ∧
    (allowListCommissionerJoinerAdd false zero_rand 200 (fun _ _ _ => OT_ERROR_NONE)
      (example_eui64 3) 30 "NEWPSKD" example_allow_list).add_joiner_calls =
        [(some (example_eui64 3), "NEWPSKD", 30)] ∧
    ((allowListCommissionerJoinerAdd false zero_rand 200 (fun _ _ _ => OT_ERROR_NONE)
      (example_eui64 3) 30 "NEWPSKD" example_allow_list).allow_list.filter
        (fun e => otExtAddressMatch e.meui64 (example_eui64 3))).length = 1 ∧
    ((fun _ _ _ => OT_ERROR_NONE) (some (example_eui64 3)) "NEWPSKD" 30 = OT_ERROR_NONE →
      ∃ (i : Nat) (e : AllowListEntry), (allowListCommissionerJoinerAdd false zero_rand 200 (fun _ _ _ => OT_ERROR_NONE)
          (example_eui64 3) 30 "NEWPSKD" example_allow_list).allow_list[i]? = some e ∧
        same_eui64 e.meui64 (example_eui64 3) ∧ e.mstate = kAllowListEntryActiveJoiner ∧
        e.mPSKd = "NEWPSKD") ∧
    ((fun _ _ _ => OT_ERROR_NONE) (some (example_eui64 3)) "NEWPSKD" 30 ≠ OT_ERROR_NONE →
      (allowListCommissionerJoinerAdd false zero_rand 200 (fun _ _ _ => OT_ERROR_NONE)
        (example_eui64 3) 30 "NEWPSKD" example_allow_list).allow_list =
          allowListAddDevice zero_rand 200 (example_eui64 3) 30 "NEWPSKD" example_allow_list ∧
      ∃ (i : Nat) (e : AllowListEntry), (allowListCommissionerJoinerAdd false zero_rand 200 (fun _ _ _ => OT_ERROR_NONE)
          (example_eui64 3) 30 "NEWPSKD" example_allow_list).allow_list[i]? = some e ∧
        same_eui64 e.meui64 (example_eui64 3) ∧ e.mPSKd = "NEWPSKD" ∧
        ((∀ x ∈ example_allow_list, ¬ same_eui64 x.meui64 (example_eui64 3)) →
          e.mstate = kAllowListEntryNew) ∧
        (∀ x, example_allow_list[i]? = some x → e.mstate = x.mstate)) :=
  joiner_add_promotes_on_success false zero_rand 200 (fun _ _ _ => OT_ERROR_NONE)
    (example_eui64 3) 30 "NEWPSKD" example_allow_list (by decide) example_allow_list_unique

/-! ## Claim C39: the evaluate handler -/

/-- Claim C39. `evaluate_add_thread_device_task` returns
`ACTIONS_RESULT_SUCCESS` for every task and leaves the world, the allow list
included, as it is; so a pass of the driver loop over an active
add-thread-device task that is not marked for deletion and has not timed out
calls the evaluate handler once and leaves the task completed, with
`last_evaluated` set, whatever the allow list holds. -/
theorem evaluate_always_completes (allow_any_joiner : Bool) (rand : Nat → Nat → Nat) (now : Int)
    (pthread_create : Int) (aInstance : otInstance) (current_time eval_time : Int)
    (s : driver_state add_thread_device_world) (i : Nat) (node : task_node_t)
    (hhead : s.head = some i) (hnode : s.globals.task_queue[i]? = some node)
    (hflag : node.deleteTask = false)
    (hstatus : node.status = ACTIONS_TASK_STATUS_ACTIVE)
    (htype : node.type = rest_actions_task_t.ADD_THREAD_DEVICE_TASK)
    (hlive : ¬ (0 ≤ node.timeout ∧ node.timeout < current_time)) :
    (∀ (task_node : task_node_t) (w : add_thread_device_world),
      evaluate_add_thread_device_task task_node w = (ACTIONS_RESULT_SUCCESS, w)) ∧
    rest_task_queue_task_step
        (add_thread_device_handlers allow_any_joiner rand now pthread_create aInstance)
        current_time eval_time s =
      { globals :=
          { task_queue := s.globals.task_queue.set i
              { node with status := ACTIONS_TASK_STATUS_COMPLETED, last_evaluated := eval_time }
            task_queue_len := s.globals.task_queue_len }
        head := next_pointer s.globals.task_queue i
        world := s.world
        calls := s.calls ++ [handler_call.evaluate node] } := by
  refine ⟨fun _ _ => rfl, ?_⟩
  rw [step_at_live_node _ current_time eval_time s i node hhead hnode hflag]
  have hv : visit_live
      (add_thread_device_handlers allow_any_joiner rand now pthread_create aInstance)
      current_time eval_time node s.world =
      evaluate_task
        (add_thread_device_handlers allow_any_joiner rand now pthread_create aInstance)
        eval_time node s.world := by
    unfold visit_live
    rw [if_pos (Or.inr hstatus), if_neg (by simpa using hlive), if_neg (by simp [hstatus]),
      if_pos hstatus]
  rw [hv, evaluate_task_of_active _ eval_time node s.world _ evaluate_add_thread_device_task
    hstatus (add_thread_device_handlers_row allow_any_joiner rand now pthread_create aInstance
      node.type htype) rfl]
  rfl

/-- Claim C39 at an active task for the identity ending in 1. -/
theorem evaluate_always_completes_witness :
    (∀ (task_node : task_node_t) (w : add_thread_device_world),
      evaluate_add_thread_device_task task_node w = (ACTIONS_RESULT_SUCCESS, w)) ∧
    rest_task_queue_task_step
        (add_thread_device_handlers false zero_rand 200 0
          (example_instance OT_COMMISSIONER_STATE_ACTIVE OT_ERROR_NONE))
        120 120
        (example_device_driver_state
          [example_device_node ACTIONS_TASK_STATUS_ACTIVE "0011223344556601" "ABCDEF"] 0
          (example_world false example_allow_list)) =
      { globals :=
          { task_queue :=
              [example_device_node ACTIONS_TASK_STATUS_ACTIVE "0011223344556601" "ABCDEF"].set 0
                { example_device_node ACTIONS_TASK_STATUS_ACTIVE "0011223344556601" "ABCDEF" with
                  status := ACTIONS_TASK_STATUS_COMPLETED, last_evaluated := 120 }
            task_queue_len := 1 }
        head := next_pointer
          [example_device_node ACTIONS_TASK_STATUS_ACTIVE "0011223344556601" "ABCDEF"] 0
        world := example_world false example_allow_list
        calls := [] ++ [handler_call.evaluate
          (example_device_node ACTIONS_TASK_STATUS_ACTIVE "0011223344556601" "ABCDEF")] } :=
  evaluate_always_completes false zero_rand 200 0
    (example_instance OT_COMMISSIONER_STATE_ACTIVE OT_ERROR_NONE) 120 120
    (example_device_driver_state
      [example_device_node ACTIONS_TASK_STATUS_ACTIVE "0011223344556601" "ABCDEF"] 0
      (example_world false example_allow_list)) 0
    (example_device_node ACTIONS_TASK_STATUS_ACTIVE "0011223344556601" "ABCDEF")
    rfl rfl rfl rfl rfl (by decide)

/-! ## Claim C40: the count and the links of the queue -/

/-- Claim C40 fails in the code. The run `example_run` leaves a queue of 11
tasks whose first is completed and marked for deletion. While the driver loop
makes no pass, 245 further calls of `queue_task`, made 10 ms apart, each find
`TASK_QUEUE_MAX <= task_queue_len`, take the task that is marked already as the
one to evict and link a new node: after the first of them the queue holds 12
nodes of which one is marked, and after the last it holds 256 nodes of which
one is marked, while the `uint8_t` `task_queue_len` is 0, which is not the
number of nodes and is below `TASK_QUEUE_MAX`. -/
theorem task_queue_len_wraps :
    ∃ s, engine_run (example_handlers ACTIONS_RESULT_SUCCESS ACTIONS_RESULT_SUCCESS)
        (driver_init task_queue_globals_init 0) example_run_reselecting = some s ∧
      s.globals.task_queue.length = 256 ∧ s.globals.task_queue_len = 0 ∧
      s.globals.task_queue_len ≠ s.globals.task_queue.length ∧
      ¬ TASK_QUEUE_MAX ≤ s.globals.task_queue_len ∧
      (s.globals.task_queue.filter (fun t => t.deleteTask)).length = 1 ∧
      ∃ s12, engine_run (example_handlers ACTIONS_RESULT_SUCCESS ACTIONS_RESULT_SUCCESS)
          (driver_init task_queue_globals_init 0)
          (example_run ++ [engine_event.queue zero_rand 102 102 102 (example_task 60)]) =
            some s12 ∧
        s12.globals.task_queue.length = 12 ∧ s12.globals.task_queue_len = 12 ∧
        (s12.globals.task_queue.filter (fun t => t.deleteTask)).length = 1 := by
  obtain ⟨s1, first, rest, hrun1, hq1, hterm, hold, hrest, hlen1, hcount1⟩ :
      ∃ s1 first rest,
        engine_run (example_handlers ACTIONS_RESULT_SUCCESS ACTIONS_RESULT_SUCCESS)
          (driver_init task_queue_globals_init 0) example_run = some s1 ∧
        s1.globals.task_queue = first :: rest ∧ can_remove_task first = true ∧
        first.created < 102 ∧
        (rest.all (fun t => !can_remove_task t && !t.deleteTask)) = true ∧
        s1.globals.task_queue.length = 11 ∧ s1.globals.task_queue_len = 11 :=
    ⟨_, _, _, rfl, rfl, rfl, by decide, by decide, rfl, rfl⟩
  have hrest' : ∀ t ∈ rest, can_remove_task t = false ∧ t.deleteTask = false := by
    intro t ht
    have := List.all_eq_true.mp hrest t ht
    simpa using this
  obtain ⟨htimes_len, htimes, -, -⟩ := example_reselection_times_spec
  obtain ⟨s, first', rest', hrun, hq, hrest2, hflag, hlen, hcount⟩ :=
    queue_task_reselects_run (example_handlers ACTIONS_RESULT_SUCCESS ACTIONS_RESULT_SUCCESS)
      zero_rand (example_task 60) (has_type_example_task 60) 102 example_reselection_times
      htimes s1 first rest hq1 (by rw [hcount1, hlen1]) (by rw [hcount1]; decide)
      (by rw [hlen1]; decide) (by rw [hlen1, htimes_len]) hterm hold hrest'
  rw [htimes_len] at hlen hcount hflag
  rw [hlen1] at hlen
  rw [hcount1] at hcount
  have hzero : s.globals.task_queue_len = 0 := hcount
  refine ⟨s, ?_, hlen, hzero, by omega, ?_, ?_, ⟨_, rfl, rfl, rfl, rfl⟩⟩
  · unfold example_run_reselecting
    rw [engine_run_append, hrun1]
    exact hrun
  · rw [hzero]
    decide
  · rw [hq, List.filter_cons, hflag (by decide)]
    simp only [if_true, List.length_cons]
    have : rest'.filter (fun t => t.deleteTask) = [] := by
      rw [List.filter_eq_nil_iff]
      intro t ht
      rw [(hrest2 t ht).2]
      decide
    rw [this]
    rfl

/-- The part of claim C40 that holds. Take a run of `queue_task` calls and
passes of the driver loop from the empty queue with `task_queue_len = 0`, in
which every node created gets an address at which no node of the queue is.
After the run the stores made to `task_queue`, `prev` and `next` leave links
that are consistent: the nodes read from `task_queue` along `next` are as many
as the queue holds, and read from the last of them along `prev` they are met
in the reverse order; enough fuel gives both readings. `task_queue_len` is the
same in the run and in the links, and when no state of the run holds more than
255 nodes it is the number of nodes in the queue. -/
theorem task_queue_len_and_links {W : Type} (handlers : List (task_handlers_t W)) (w0 : W)
    (events : List (engine_event × Nat)) (fuel : Nat) (s : driver_state W)
    (hrun : engine_run handlers (driver_init task_queue_globals_init w0)
      (events.map Prod.fst) = some s)
    (hfresh : link_events_valid []
      (engine_link_events handlers (driver_init task_queue_globals_init w0) [] events) = true)
    (hfuel : events.length ≤ fuel) :
    (queue_length_bounded handlers 255 (driver_init task_queue_globals_init w0)
        (events.map Prod.fst) = true →
      s.globals.task_queue_len = s.globals.task_queue.length) ∧
    ∃ q l,
      link_run fuel linked_task_queue_init
        (engine_link_events handlers (driver_init task_queue_globals_init w0) [] events) =
          some q ∧
      q.task_queue_len = s.globals.task_queue_len ∧
      l.length = s.globals.task_queue.length ∧
      read_forward q.nodes fuel q.task_queue = some l ∧
      read_backward q.nodes fuel l.getLast? = some l.reverse := by
  constructor
  · intro hbounded
    exact len_eq_length_run handlers _ _ s rfl hrun hbounded
  · obtain ⟨q, l, hq, hrep, hlen, hcount, hle⟩ :=
      engine_links_simulation handlers fuel events (driver_init task_queue_globals_init w0) s
        linked_task_queue_init [] links_represent_init rfl rfl hfresh (by simpa using hfuel) hrun
    have hreads := links_represent_reads fuel q l hrep (by simp at hle; omega)
    exact ⟨q, l, hq, hcount, hlen, hreads.1, hreads.2⟩

/-- The part of claim C40 that holds, at the run `example_run` with the
addresses 1000 to 1014. -/
theorem task_queue_len_and_links_witness :
    ∃ s, engine_run (example_handlers ACTIONS_RESULT_SUCCESS ACTIONS_RESULT_SUCCESS)
        (driver_init task_queue_globals_init 0) (example_run_addresses.map Prod.fst) = some s ∧
      link_events_valid []
        (engine_link_events (example_handlers ACTIONS_RESULT_SUCCESS ACTIONS_RESULT_SUCCESS)
          (driver_init task_queue_globals_init 0) [] example_run_addresses) = true ∧
      queue_length_bounded (example_handlers ACTIONS_RESULT_SUCCESS ACTIONS_RESULT_SUCCESS) 255
        (driver_init task_queue_globals_init 0) (example_run_addresses.map Prod.fst) = true ∧
      ((queue_length_bounded (example_handlers ACTIONS_RESULT_SUCCESS ACTIONS_RESULT_SUCCESS) 255
          (driver_init task_queue_globals_init 0) (example_run_addresses.map Prod.fst) = true →
        s.globals.task_queue_len = s.globals.task_queue.length) ∧
      ∃ q l,
        link_run 15 linked_task_queue_init
          (engine_link_events (example_handlers ACTIONS_RESULT_SUCCESS ACTIONS_RESULT_SUCCESS)
            (driver_init task_queue_globals_init 0) [] example_run_addresses) = some q ∧
        q.task_queue_len = s.globals.task_queue_len ∧
        l.length = s.globals.task_queue.length ∧
        read_forward q.nodes 15 q.task_queue = some l ∧
        read_backward q.nodes 15 l.getLast? = some l.reverse) :=
  ⟨_, rfl, rfl, rfl,
    task_queue_len_and_links (example_handlers ACTIONS_RESULT_SUCCESS ACTIONS_RESULT_SUCCESS) 0
      example_run_addresses 15 _ rfl rfl (by decide)⟩

end OtbrRest
